import Mathlib

/-!
# pgsrc: timeline history parsing and the WAL receiver

A shallow embedding of `src/bin/pg_rewind/timeline.c`, of the message, write
and reply paths and the life cycle of
`src/backend/replication/walreceiver.c`, of the allocator of
`src/backend/storage/ipc/shmem.c`, of two functions of
`src/include/storage/bufpage.h` and of `git0/init-db.c`, with the properties
proved about them.

Machine integers are natural numbers and integers; where a value can leave
the range of its C type it is reduced by an explicit `%`.  A C string is a
list of characters read up to its first NUL.  The parser's `exit(1)` is the
error of an `Except`; an `ereport` of level `ERROR` or above ends the function
of the receiver that makes it, in an `Outcome.raised`.
-/

namespace PgSrc

/-! ## timeline.c : data model -/

/-- The constant `InvalidXLogRecPtr` of `access/xlogdefs.h`. -/
def InvalidXLogRecPtr : Nat := 0

/-- The struct `TimeLineHistoryEntry` of `access/timeline.h`: a `TimeLineID`
(`uint32`) and two `XLogRecPtr` (`uint64`). -/
structure TimeLineHistoryEntry where
  tli : Nat
  begin : Nat
  «end» : Nat
deriving DecidableEq, Repr

/-! ## The C library routines used by the parser -/

/-- The NUL character that ends a C string. -/
def NUL : Char := Char.ofNat 0

/-- The characters of a C string: those before the first NUL. -/
def cstr (buffer : List Char) : List Char :=
  buffer.takeWhile (fun c => c != NUL)

/-- The function `isspace` in the C locale: space, `\t`, `\n`, `\v`, `\f`, `\r`. -/
def isspace (c : Char) : Bool :=
  c.toNat == 32 || (9 ≤ c.toNat && c.toNat ≤ 13)

/-- Skipping of white space, as a `scanf` white-space directive and the
numeric conversions do. -/
def skipSpace (s : List Char) : List Char :=
  s.dropWhile isspace

/-- The value of a character as a digit in the given base (10 or 16), if it is one. -/
def digitIn (base : Nat) (c : Char) : Option Nat :=
  let n := c.toNat
  if 48 ≤ n ∧ n ≤ 57 then some (n - 48)
  else if base = 16 ∧ 97 ≤ n ∧ n ≤ 102 then some (n - 87)
  else if base = 16 ∧ 65 ≤ n ∧ n ≤ 70 then some (n - 55)
  else none

/-- The longest run of digits at the head of the input, and what follows it. -/
def spanDigits (base : Nat) : List Char → List Nat × List Char
  | [] => ([], [])
  | c :: cs =>
    match digitIn base c with
    | some d => (d :: (spanDigits base cs).1, (spanDigits base cs).2)
    | none => ([], c :: cs)

/-- The number written by a list of digits, most significant first. -/
def digitsVal (base : Nat) (ds : List Nat) : Nat :=
  ds.foldl (fun acc d => acc * base + d) 0

/-- The result of `strtoul` on a 64-bit `unsigned long` for digits of value `v`:
`ULONG_MAX` on overflow, the negation modulo `2^64` after a minus sign. -/
def strtoul (neg : Bool) (v : Nat) : Nat :=
  if 2 ^ 64 ≤ v then 2 ^ 64 - 1
  else if neg then (2 ^ 64 - v) % 2 ^ 64
  else v

/-- The outcome of one `scanf` conversion. -/
inductive Conv where
  | inputFailure : Conv
  | matchFailure : Conv
  | ok (value : Nat) (rest : List Char) : Conv
deriving DecidableEq, Repr

/-- An optional sign at the head of a number. -/
def scanSign : List Char → Bool × List Char
  | c :: cs => if c = '-' then (true, cs) else if c = '+' then (false, cs) else (false, c :: cs)
  | [] => (false, [])

/-- The prefix `0x` or `0X` of a base 16 conversion, as the `sscanf` of the
GNU C library reads it: the `0` is kept as a digit of the number and the `x`
is consumed with it, whether or not a hexadecimal digit follows.  The result is
the digit kept (none without the prefix) and the input after the prefix. -/
def scanHexPrefix (base : Nat) : List Char → List Nat × List Char
  | z :: x :: r =>
    if base = 16 ∧ z = '0' ∧ (x = 'x' ∨ x = 'X') then ([0], r) else ([], z :: x :: r)
  | s => ([], s)

/-- The conversions `%u` (base 10) and `%X` (base 16) of `sscanf` into an
`unsigned int`, as the GNU C library makes them: white space is skipped, then
an optional sign, for base 16 an optional `0x`, and the longest run of digits
are read.  At the end of the input the conversion is an input failure; with no
digit it is a matching failure.  A `0x` that no hexadecimal digit follows is
read as the number 0, the `0` being a digit, and the input goes on after the
`x` (ISO C 7.21.6.2 makes it a matching failure; the library does not).  The
digits are converted as `strtoul` does on a 64-bit `unsigned long` and the
result is stored in 32 bits. -/
def scanUnsigned (base : Nat) (s : List Char) : Conv :=
  match skipSpace s with
  | [] => .inputFailure
  | c :: cs =>
    let sg := scanSign (c :: cs)
    let px := scanHexPrefix base sg.2
    let sp := spanDigits base px.2
    if px.1 ++ sp.1 = [] then .matchFailure
    else .ok (strtoul sg.1 (digitsVal base (px.1 ++ sp.1)) % 2 ^ 32) sp.2

/-- What `sscanf(fline, "%u\t%X/%X", &tli, &switchpoint_hi, &switchpoint_lo)`
assigned: nothing after an input failure (`EOF`), or the first zero to three
of the variables. -/
inductive Scanned where
  | eof : Scanned
  | zero : Scanned
  | one (tli : Nat) : Scanned
  | two (tli hi : Nat) : Scanned
  | three (tli hi lo : Nat) : Scanned
deriving DecidableEq, Repr

/-- The return value of `sscanf`. -/
def Scanned.nfields : Scanned → Int
  | .eof => -1
  | .zero => 0
  | .one _ => 1
  | .two _ _ => 2
  | .three _ _ _ => 3

/-- The call `sscanf(fline, "%u\t%X/%X", ...)` of line 70. -/
def sscanf (fline : List Char) : Scanned :=
  match scanUnsigned 10 fline with
  | .inputFailure => .eof
  | .matchFailure => .zero
  | .ok tli r1 =>
    match scanUnsigned 16 (skipSpace r1) with
    | .ok hi ('/' :: r2) =>
      (match scanUnsigned 16 r2 with
       | .ok lo _ => .three tli hi lo
       | _ => .two tli hi)
    | .ok hi _ => .two tli hi
    | _ => .one tli

/-! ## timeline.c : rewind_parseTimeLineHistory -/

/-- The four ways in which `rewind_parseTimeLineHistory` ends in `exit(1)`,
with the line reported. -/
inductive ParseError where
  | expectedTimelineID (fline : List Char) : ParseError
  | expectedSwitchpoint (fline : List Char) : ParseError
  | notIncreasing (fline : List Char) : ParseError
  | notLessThanChild : ParseError
deriving DecidableEq, Repr

/-- The locals of `rewind_parseTimeLineHistory` that live across lines:
`entries` with its `nlines` elements (`NULL` when there is none), `lasttli`
and `prevend`. -/
structure ParseState where
  entries : List TimeLineHistoryEntry
  lasttli : Nat
  prevend : Nat
deriving DecidableEq, Repr

/-- The successive values of `fline` in the loop of lines 45-59: the buffer
cut at each `\n`; the last line is the one that ends at the NUL. -/
def splitLines : List Char → List (List Char)
  | [] => [[]]
  | c :: cs =>
    if c = '\n' then [] :: splitLines cs
    else
      match splitLines cs with
      | [] => [[c]]
      | l :: ls => (c :: l) :: ls

/-- Lines 61-68: a line is skipped when, after its leading white space, it is
empty or starts with `#` (the note that follows the condition on line 67 is
read as a comment, the statement is the `continue` of line 68). -/
def isIgnored (fline : List Char) : Bool :=
  match skipSpace fline with
  | [] => true
  | c :: _ => c = '#'

/-- Lines 61-104: the body of the loop for one line.  `nfields < 1` is the
case of no field read (or `EOF`), `nfields != 3` that of one or two. -/
def parseLine (st : ParseState) (fline : List Char) : Except ParseError ParseState :=
  if isIgnored fline then .ok st
  else
    match sscanf fline with
    | .three tli switchpoint_hi switchpoint_lo =>
      if st.entries ≠ [] ∧ tli ≤ st.lasttli then .error (.notIncreasing fline)
      else
        let entry : TimeLineHistoryEntry :=
          { tli := tli
            begin := st.prevend
            «end» := (switchpoint_hi <<< 32) ||| switchpoint_lo }
        .ok { entries := st.entries ++ [entry], lasttli := tli, prevend := entry.end }
    | .eof => .error (.expectedTimelineID fline)
    | .zero => .error (.expectedTimelineID fline)
    | _ => .error (.expectedSwitchpoint fline)

/-- The loop of lines 45-105 over the lines of the buffer. -/
def parseLines : List (List Char) → ParseState → Except ParseError ParseState
  | [], st => .ok st
  | fline :: rest, st =>
    match parseLine st fline with
    | .error e => .error e
    | .ok st1 => parseLines rest st1

/-- The function `rewind_parseTimeLineHistory` of `timeline.c`: the entries
returned (`*nentries` is their number), or the error it exits with. -/
def rewind_parseTimeLineHistory (buffer : List Char) (targetTLI : Nat) :
    Except ParseError (List TimeLineHistoryEntry) :=
  match parseLines (splitLines (cstr buffer))
      { entries := [], lasttli := 0, prevend := InvalidXLogRecPtr } with
  | .error e => .error e
  | .ok st =>
    if st.entries ≠ [] ∧ targetTLI ≤ st.lasttli then .error .notLessThanChild
    else .ok (st.entries ++ [{ tli := targetTLI, begin := st.prevend, «end» := InvalidXLogRecPtr }])

/-! ## walreceiver.c : data model

The receiver is one process; its state is the module-level variables of
`walreceiver.c`, the shared `WalRcvData` record, the settings it reads and what
it can observe of its surroundings: the clock, the recovery process, the
segment files and the connection.  Calls to the surroundings are recorded in a
trace, in the order in which they are made. -/

/-- The enum `WalRcvWakeupReason`. -/
inductive WalRcvWakeupReason where
  | WALRCV_WAKEUP_TERMINATE : WalRcvWakeupReason
  | WALRCV_WAKEUP_PING : WalRcvWakeupReason
  | WALRCV_WAKEUP_REPLY : WalRcvWakeupReason
  | WALRCV_WAKEUP_HSFEEDBACK : WalRcvWakeupReason
deriving DecidableEq, Repr

/-- The enum `WalRcvState` of `replication/walreceiver.h`. -/
inductive WalRcvState where
  | WALRCV_STOPPED : WalRcvState
  | WALRCV_STARTING : WalRcvState
  | WALRCV_STREAMING : WalRcvState
  | WALRCV_WAITING : WalRcvState
  | WALRCV_RESTARTING : WalRcvState
  | WALRCV_STOPPING : WalRcvState
deriving DecidableEq, Repr

/-- The values of `XLogArchiveMode`. -/
inductive ArchiveMode where
  | ARCHIVE_MODE_OFF : ArchiveMode
  | ARCHIVE_MODE_ON : ArchiveMode
  | ARCHIVE_MODE_ALWAYS : ArchiveMode
deriving DecidableEq, Repr

/-- The error levels that the receiver raises. -/
inductive ErrLevel where
  | ERROR : ErrLevel
  | FATAL : ErrLevel
  | PANIC : ErrLevel
deriving DecidableEq, Repr

/-- The error codes that the receiver and the allocator of shared memory
raise; `FILE_ACCESS` stands for `errcode_for_file_access()`. -/
inductive ErrCode where
  | ERRCODE_PROTOCOL_VIOLATION : ErrCode
  | ERRCODE_CONNECTION_FAILURE : ErrCode
  | ERRCODE_ADMIN_SHUTDOWN : ErrCode
  | ERRCODE_OBJECT_NOT_IN_PREREQUISITE_STATE : ErrCode
  | ERRCODE_INTERNAL_ERROR : ErrCode
  | ERRCODE_OUT_OF_MEMORY : ErrCode
  | ERRCODE_PROGRAM_LIMIT_EXCEEDED : ErrCode
  | FILE_ACCESS : ErrCode
deriving DecidableEq, Repr

/-- A segment file, named by its timeline and its segment number. -/
structure SegFile where
  tli : Nat
  segno : Nat
deriving DecidableEq, Repr

/-- A call that the receiver makes to its surroundings. -/
inductive Event where
  | fileInit (file : SegFile) : Event
  | pwrite (file : SegFile) (offset : Nat) (bytes : List Nat) (ret : Int) : Event
  | fsync (fd : Option SegFile) (segno tli : Nat) : Event
  | close (file : SegFile) : Event
  | archiveForceDone (tli segno : Nat) : Event
  | archiveNotify (tli segno : Nat) : Event
  | send (msg : List Nat) : Event
  | wakeupRecovery : Event
  | walSndWakeup : Event
  | psDisplay (lsn : Nat) : Event
  | psIdle : Event
  | psRestarting (lsn : Nat) : Event
  | stoppedBroadcast : Event
  | disconnect : Event
deriving DecidableEq, Repr

/-- The struct `StringInfoData`: the bytes held and the read cursor. -/
structure StringInfoData where
  data : List Nat
  cursor : Nat
deriving DecidableEq, Repr

/-- The fields of the shared struct `WalRcvData` that `walreceiver.c` uses. -/
structure WalRcvData where
  walRcvState : WalRcvState
  pid : Nat
  ready_to_display : Bool
  latch : Bool
  force_reply : Bool
  conninfo : List Char
  slotname : List Char
  is_temp_slot : Bool
  sender_host : List Char
  sender_port : Int
  receiveStart : Nat
  receiveStartTLI : Nat
  writtenUpto : Nat
  flushedUpto : Nat
  latestChunkStart : Nat
  receivedTLI : Nat
  latestWalEnd : Nat
  latestWalEndTime : Int
  lastMsgSendTime : Int
  lastMsgReceiptTime : Int
deriving DecidableEq, Repr

/-- The variable `LogstreamResult`. -/
structure LogstreamResultData where
  Write : Nat
  Flush : Nat
deriving DecidableEq, Repr

/-- The state in which the functions of `walreceiver.c` run.

* settings: `wal_receiver_status_interval`, `wal_receiver_timeout`,
  `hot_standby_feedback`, `wal_segment_size`, `XLogArchiveMode`,
  `update_process_title`;
* module variables: `recvFile` (`none` for `-1`, else the file that the
  descriptor refers to), `recvFileTLI`, `recvSegNo`, `LogstreamResult`,
  `wakeup`, `reply_message`, `incoming_message`, the statics `writePtr` and
  `flushPtr` of `XLogWalRcvSendReply` and `primary_has_standby_xmin` of
  `XLogWalRcvSendHSFeedback`;
* shared memory: `walrcv`;
* surroundings: `clock k` is the result of the `k`-th call of
  `GetCurrentTimestamp`, `clockReads` counts the calls made; `replayPtr` is the
  result of `GetXLogReplayRecPtr`; `hotStandbyActive`, `replicationHorizons`,
  `nextFullXid`, `allowCascadeReplication` are the results of the calls of
  those names; `pwriteReturns` lists the values that the coming calls of
  `pg_pwrite` return (a full write once the list is used up); `segments` is
  the content of the segment files; `trace` records the calls made. -/
structure RcvState where
  wal_receiver_status_interval : Int
  wal_receiver_timeout : Int
  hot_standby_feedback : Bool
  wal_segment_size : Nat
  XLogArchiveMode : ArchiveMode
  update_process_title : Bool
  recvFile : Option SegFile
  recvFileTLI : Nat
  recvSegNo : Nat
  LogstreamResult : LogstreamResultData
  wakeup : WalRcvWakeupReason → Int
  reply_message : StringInfoData
  incoming_message : StringInfoData
  writePtr : Nat
  flushPtr : Nat
  primary_has_standby_xmin : Bool
  walrcv : WalRcvData
  clock : Nat → Int
  clockReads : Nat
  replayPtr : Nat
  hotStandbyActive : Bool
  replicationHorizons : Nat × Nat
  nextFullXid : Nat
  allowCascadeReplication : Bool
  pwriteReturns : List Int
  segments : SegFile → Nat → Option Nat
  trace : List Event

/-- How a function of the receiver ends: it returns a value, or `ereport`
raises an error of level `ERROR` or above; either way in a state. -/
inductive Outcome (α : Type) where
  | ok (value : α) (st : RcvState) : Outcome α
  | raised (elevel : ErrLevel) (sqlerrcode : ErrCode) (st : RcvState) : Outcome α

/-- The state in which a function ended. -/
def Outcome.state {α : Type} : Outcome α → RcvState
  | .ok _ st => st
  | .raised _ _ st => st

/-! ## walreceiver.c : what the receiver calls -/

/-- Modelled from the spec: the constant `TIMESTAMP_INFINITY` of
`datatype/timestamp.h`, absent from the sources, the wake-up time "never":
the largest 64-bit timestamp. -/
def TIMESTAMP_INFINITY : Int := 2 ^ 63 - 1

/-- Modelled from the spec: the macro `TimestampTzPlusMilliseconds` of
`utils/timestamp.h`, absent from the sources; timestamps count microseconds. -/
def TimestampTzPlusMilliseconds (tz ms : Int) : Int :=
  tz + ms * 1000

/-- Modelled from the spec: the macro `TimestampTzPlusSeconds` of
`utils/timestamp.h`, absent from the sources; timestamps count microseconds. -/
def TimestampTzPlusSeconds (tz s : Int) : Int :=
  tz + s * 1000000

/-- Modelled from the spec: the macro `XLByteToSeg` of
`access/xlog_internal.h`, absent from the sources: the number of the segment
that holds a position, for a fixed segment size. -/
def XLByteToSeg (xlrp wal_segsz_bytes : Nat) : Nat :=
  xlrp / wal_segsz_bytes

/-- Modelled from the spec: the macro `XLByteInSeg` of
`access/xlog_internal.h`, absent from the sources: whether a position lies in
the segment of the given number. -/
def XLByteInSeg (xlrp logSegNo wal_segsz_bytes : Nat) : Bool :=
  xlrp / wal_segsz_bytes == logSegNo

/-- Modelled from the spec: the macro `XLogSegmentOffset` of
`access/xlog_internal.h`, absent from the sources: the offset of a position
in its segment. -/
def XLogSegmentOffset (xlogptr wal_segsz_bytes : Nat) : Nat :=
  xlogptr % wal_segsz_bytes

/-- The call `GetCurrentTimestamp()`: the next reading of the clock. -/
def GetCurrentTimestamp (st : RcvState) : Int × RcvState :=
  (st.clock st.clockReads, { st with clockReads := st.clockReads + 1 })

/-- The state after a call recorded in the trace. -/
def emit (st : RcvState) (e : Event) : RcvState :=
  { st with trace := st.trace ++ [e] }

/-- Modelled from the spec: `resetStringInfo` of `lib/stringinfo.c`, absent
from the sources: the buffer is emptied and its cursor set to 0. -/
def resetStringInfo : StringInfoData :=
  { data := [], cursor := 0 }

/-- Modelled from the spec: `appendBinaryStringInfo` of `lib/stringinfo.c`,
absent from the sources: the first `datalen` bytes of `data` are appended. -/
def appendBinaryStringInfo (str : StringInfoData) (data : List Nat) (datalen : Nat) :
    StringInfoData :=
  { str with data := str.data ++ data.take datalen }

/-- The number that a list of bytes writes in network order, the most
significant byte first; a `char` is read as an `unsigned char`. -/
def ntoh (bytes : List Nat) : Nat :=
  bytes.foldl (fun acc b => acc * 256 + b % 256) 0

/-- Modelled from the spec: `pq_getmsgint64` of `libpq/pqformat.c`, absent
from the sources: the next 8 bytes at the cursor, read in network (big-endian)
order as a 64-bit value, and the buffer with its cursor moved past them.  Its
callers have put the bytes it reads in the buffer. -/
def pq_getmsgint64 (msg : StringInfoData) : Nat × StringInfoData :=
  (ntoh ((msg.data.drop msg.cursor).take 8), { msg with cursor := msg.cursor + 8 })

/-- Modelled from the spec: `pq_getmsgbyte` of `libpq/pqformat.c`, absent from
the sources: the next byte at the cursor, as an `unsigned char`. -/
def pq_getmsgbyte (msg : StringInfoData) : Nat × StringInfoData :=
  ((msg.data.getD msg.cursor 0) % 256, { msg with cursor := msg.cursor + 1 })

/-- The value of a 64-bit pattern as an `int64` (two's complement). -/
def toInt64 (u : Nat) : Int :=
  if u % 2 ^ 64 < 2 ^ 63 then (u % 2 ^ 64 : Nat) else (u % 2 ^ 64 : Nat) - 2 ^ 64

/-- The bytes of a number in network order, in `n` bytes. -/
def hton : Nat → Nat → List Nat
  | 0, _ => []
  | n + 1, v => hton n (v / 256) ++ [v % 256]

/-- Modelled from the spec: `pq_sendbyte` of `libpq/pqformat.h`, absent from
the sources: one byte is appended. -/
def pq_sendbyte (buf : StringInfoData) (byt : Nat) : StringInfoData :=
  { buf with data := buf.data ++ [byt % 256] }

/-- Modelled from the spec: `pq_sendint64` of `libpq/pqformat.h`, absent from
the sources: the 64-bit pattern of the value is appended in network order. -/
def pq_sendint64 (buf : StringInfoData) (i : Int) : StringInfoData :=
  { buf with data := buf.data ++ hton 8 (i % 2 ^ 64).toNat }

/-- Modelled from the spec: `pq_sendint32` of `libpq/pqformat.h`, absent from
the sources: the 32-bit pattern of the value is appended in network order. -/
def pq_sendint32 (buf : StringInfoData) (i : Nat) : StringInfoData :=
  { buf with data := buf.data ++ hton 4 (i % 2 ^ 32) }

/-- The call `walrcv_send(wrconn, reply_message.data, reply_message.len)`. -/
def walrcv_send (st : RcvState) : RcvState :=
  emit st (.send st.reply_message.data)

/-- The content of the segment files after `count` bytes of `buf` have been
written to `file` from `offset` on. -/
def storeBytes (segments : SegFile → Nat → Option Nat) (file : SegFile) (offset : Nat)
    (buf : List Nat) (count : Nat) : SegFile → Nat → Option Nat :=
  fun f o =>
    if f = file ∧ offset ≤ o ∧ o < offset + count then buf[o - offset]? else segments f o

/-- The value that the coming call of `pg_pwrite` for `amount` bytes returns:
the one that the surroundings have chosen, never more than was asked for. -/
def pwriteReturn (st : RcvState) (amount : Nat) : Int :=
  match st.pwriteReturns with
  | [] => amount
  | r :: _ => if r ≤ (amount : Int) then r else amount

/-- The call `pg_pwrite(recvFile, buf, amount, offset)`: its return value and
the state after it.  A positive return value is the number of bytes of `buf`
that are in the file after the call; otherwise the file is as before.  On the
descriptor `-1` the call fails. -/
def pg_pwrite (st : RcvState) (fd : Option SegFile) (buf : List Nat) (amount offset : Nat) :
    Int × RcvState :=
  match fd with
  | none => (-1, st)
  | some file =>
    (pwriteReturn st amount,
     { st with
         pwriteReturns := st.pwriteReturns.tail
         segments := storeBytes st.segments file offset buf (pwriteReturn st amount).toNat
         trace := st.trace ++ [.pwrite file offset (buf.take amount) (pwriteReturn st amount)] })

/-! ## walreceiver.c : the functions

Assertions are not part of the embedding.  The calls `XLogFileInit`, `close`,
`issue_xlog_fsync` and `walrcv_send` are taken on the path on which they
return; the logging at `DEBUG2` is left out. -/

/-- The function `WalRcvComputeNextWakeup`. -/
def WalRcvComputeNextWakeup (st : RcvState) (reason : WalRcvWakeupReason) (now : Int) :
    RcvState :=
  { st with
      wakeup := fun r =>
        if r = reason then
          (match reason with
           | .WALRCV_WAKEUP_TERMINATE =>
             if st.wal_receiver_timeout ≤ 0 then TIMESTAMP_INFINITY
             else TimestampTzPlusMilliseconds now st.wal_receiver_timeout
           | .WALRCV_WAKEUP_PING =>
             if st.wal_receiver_timeout ≤ 0 then TIMESTAMP_INFINITY
             else TimestampTzPlusMilliseconds now (st.wal_receiver_timeout / 2)
           | .WALRCV_WAKEUP_HSFEEDBACK =>
             if st.hot_standby_feedback = false ∨ st.wal_receiver_status_interval ≤ 0 then
               TIMESTAMP_INFINITY
             else TimestampTzPlusSeconds now st.wal_receiver_status_interval
           | .WALRCV_WAKEUP_REPLY =>
             if st.wal_receiver_status_interval ≤ 0 then TIMESTAMP_INFINITY
             else TimestampTzPlusSeconds now st.wal_receiver_status_interval)
        else st.wakeup r }

/-- The message that `XLogWalRcvSendReply` builds in `reply_message`
(lines 1137-1143). -/
def replyMessage (writePtr flushPtr applyPtr : Nat) (timestamp : Int) (requestReply : Bool) :
    StringInfoData :=
  pq_sendbyte
    (pq_sendint64
      (pq_sendint64
        (pq_sendint64
          (pq_sendint64 (pq_sendbyte resetStringInfo 'r'.toNat) writePtr)
          flushPtr)
        applyPtr)
      timestamp)
    (if requestReply then 1 else 0)

/-- The function `XLogWalRcvSendReply`. -/
def XLogWalRcvSendReply (st : RcvState) (force requestReply : Bool) : RcvState :=
  if force = false ∧ st.wal_receiver_status_interval ≤ 0 then st
  else
    let now := (GetCurrentTimestamp st).1
    let st1 := (GetCurrentTimestamp st).2
    if force = false ∧ st1.writePtr = st1.LogstreamResult.Write ∧
        st1.flushPtr = st1.LogstreamResult.Flush ∧
        now < st1.wakeup .WALRCV_WAKEUP_REPLY then st1
    else
      let st2 := WalRcvComputeNextWakeup st1 .WALRCV_WAKEUP_REPLY now
      let st3 := { st2 with writePtr := st2.LogstreamResult.Write
                            flushPtr := st2.LogstreamResult.Flush }
      let applyPtr := st3.replayPtr
      let st4 := (GetCurrentTimestamp st3).2
      walrcv_send
        { st4 with
            reply_message :=
              replyMessage st3.writePtr st3.flushPtr applyPtr (GetCurrentTimestamp st3).1
                requestReply }

/-- The message that `XLogWalRcvSendHSFeedback` builds in `reply_message`
(lines 1241-1247). -/
def feedbackMessage (timestamp : Int) (xmin xmin_epoch catalog_xmin catalog_xmin_epoch : Nat) :
    StringInfoData :=
  pq_sendint32
    (pq_sendint32
      (pq_sendint32
        (pq_sendint32
          (pq_sendint64 (pq_sendbyte resetStringInfo 'h'.toNat) timestamp)
          xmin)
        xmin_epoch)
      catalog_xmin)
    catalog_xmin_epoch

/-- Lines 1214-1222 of `XLogWalRcvSendHSFeedback`: `xmin` and `catalog_xmin`,
from `GetReplicationHorizons` when feedback is on, else `InvalidTransactionId`
(0). -/
def XLogWalRcvSendHSFeedback_xmin (st : RcvState) : Nat × Nat :=
  if st.hot_standby_feedback then
    (st.replicationHorizons.1 % 2 ^ 32, st.replicationHorizons.2 % 2 ^ 32)
  else (0, 0)

/-- Lines 1228-1235 of `XLogWalRcvSendHSFeedback`: the epoch of the next
transaction id, less one (in `uint32`) when `nextXid` is below `xmin`. -/
def XLogWalRcvSendHSFeedback_epoch (nextFullXid xmin : Nat) : Nat :=
  if nextFullXid % 2 ^ 32 < xmin then (nextFullXid / 2 ^ 32 % 2 ^ 32 + 2 ^ 32 - 1) % 2 ^ 32
  else nextFullXid / 2 ^ 32 % 2 ^ 32

/-- The function `XLogWalRcvSendHSFeedback`. -/
def XLogWalRcvSendHSFeedback (st : RcvState) (immed : Bool) : RcvState :=
  if (st.wal_receiver_status_interval ≤ 0 ∨ st.hot_standby_feedback = false) ∧
      st.primary_has_standby_xmin = false then st
  else
    let now := (GetCurrentTimestamp st).1
    let st1 := (GetCurrentTimestamp st).2
    if immed = false ∧ now < st1.wakeup .WALRCV_WAKEUP_HSFEEDBACK then st1
    else
      let st2 := WalRcvComputeNextWakeup st1 .WALRCV_WAKEUP_HSFEEDBACK now
      if st2.hotStandbyActive = false then st2
      else
        let xmin := (XLogWalRcvSendHSFeedback_xmin st2).1
        let catalog_xmin := (XLogWalRcvSendHSFeedback_xmin st2).2
        let xmin_epoch := XLogWalRcvSendHSFeedback_epoch st2.nextFullXid xmin
        let catalog_xmin_epoch := XLogWalRcvSendHSFeedback_epoch st2.nextFullXid catalog_xmin
        let st3 := (GetCurrentTimestamp st2).2
        let st4 := walrcv_send
          { st3 with
              reply_message :=
                feedbackMessage (GetCurrentTimestamp st2).1 xmin xmin_epoch catalog_xmin
                  catalog_xmin_epoch }
        { st4 with primary_has_standby_xmin := decide (xmin ≠ 0 ∨ catalog_xmin ≠ 0) }

/-- The function `ProcessWalSndrMessage`. -/
def ProcessWalSndrMessage (st : RcvState) (walEnd : Nat) (sendTime : Int) : RcvState :=
  let lastMsgReceiptTime := (GetCurrentTimestamp st).1
  let st1 := (GetCurrentTimestamp st).2
  { st1 with
      walrcv :=
        { st1.walrcv with
            latestWalEndTime :=
              if st1.walrcv.latestWalEnd < walEnd then sendTime else st1.walrcv.latestWalEndTime
            latestWalEnd := walEnd
            lastMsgSendTime := sendTime
            lastMsgReceiptTime := lastMsgReceiptTime } }

/-- Lines 1002-1010 of `XLogWalRcvFlush`: the update of shared memory. -/
def XLogWalRcvFlush_shared (st : RcvState) (tli : Nat) : RcvState :=
  if st.walrcv.flushedUpto < st.LogstreamResult.Flush then
    { st with
        walrcv :=
          { st.walrcv with
              latestChunkStart := st.walrcv.flushedUpto
              flushedUpto := st.LogstreamResult.Flush
              receivedTLI := tli } }
  else st

/-- Lines 1012-1025 of `XLogWalRcvFlush`: the startup process and the
walsenders are woken, the process title is updated. -/
def XLogWalRcvFlush_notify (st : RcvState) : RcvState :=
  let st1 := emit st .wakeupRecovery
  let st2 := if st1.allowCascadeReplication then emit st1 .walSndWakeup else st1
  if st2.update_process_title then emit st2 (.psDisplay st2.LogstreamResult.Write) else st2

/-- Line 1000 of `XLogWalRcvFlush`: `LogstreamResult.Flush = LogstreamResult.Write`. -/
def setFlush (st : RcvState) : RcvState :=
  { st with LogstreamResult := { st.LogstreamResult with Flush := st.LogstreamResult.Write } }

/-- The function `XLogWalRcvFlush`. -/
def XLogWalRcvFlush (st : RcvState) (dying : Bool) (tli : Nat) : RcvState :=
  if st.LogstreamResult.Flush < st.LogstreamResult.Write then
    let st1 := emit st (.fsync st.recvFile st.recvSegNo tli)
    let st2 := XLogWalRcvFlush_notify (XLogWalRcvFlush_shared (setFlush st1) tli)
    if dying = false then XLogWalRcvSendHSFeedback (XLogWalRcvSendReply st2 false false) false
    else st2
  else st

/-- Lines 1058-1078 of `XLogWalRcvClose`: the file is closed and its
archive status file is made: `.done` unless the archive mode is `always`,
then `.ready`. -/
def XLogWalRcvClose_file (st : RcvState) : RcvState :=
  let st1 :=
    match st.recvFile with
    | some file => emit st (.close file)
    | none => st
  if st1.XLogArchiveMode ≠ .ARCHIVE_MODE_ALWAYS then
    emit st1 (.archiveForceDone st1.recvFileTLI st1.recvSegNo)
  else emit st1 (.archiveNotify st1.recvFileTLI st1.recvSegNo)

/-- The function `XLogWalRcvClose`. -/
def XLogWalRcvClose (st : RcvState) (_recptr : Nat) (tli : Nat) : RcvState :=
  { XLogWalRcvClose_file (XLogWalRcvFlush st false tli) with recvFile := none }

/-- Lines 918-928 of `XLogWalRcvWrite`: the segment that is open is closed
when `recptr` is not in it, and the segment of `recptr` is opened when none
is open. -/
def XLogWalRcvWrite_segment (st : RcvState) (recptr tli : Nat) : RcvState :=
  let st1 :=
    if st.recvFile.isSome = true ∧
        XLByteInSeg recptr st.recvSegNo st.wal_segment_size = false then
      XLogWalRcvClose st recptr tli
    else st
  if st1.recvFile = none then
    emit
      { st1 with
          recvSegNo := XLByteToSeg recptr st1.wal_segment_size
          recvFile := some ⟨tli, XLByteToSeg recptr st1.wal_segment_size⟩
          recvFileTLI := tli }
      (.fileInit ⟨tli, XLByteToSeg recptr st1.wal_segment_size⟩)
  else st1

/-- Lines 930-936 of `XLogWalRcvWrite`: the number of bytes to write into the
open segment, of the `nbytes` to write at `recptr`. -/
def XLogWalRcvWrite_segbytes (st : RcvState) (nbytes recptr : Nat) : Nat :=
  if XLogSegmentOffset recptr st.wal_segment_size + nbytes > st.wal_segment_size then
    st.wal_segment_size - XLogSegmentOffset recptr st.wal_segment_size
  else nbytes

/-- Line 941 of `XLogWalRcvWrite`: the call of `pg_pwrite`. -/
def XLogWalRcvWrite_pwrite (st : RcvState) (buf : List Nat) (recptr : Nat) : Int × RcvState :=
  pg_pwrite st st.recvFile buf (XLogWalRcvWrite_segbytes st buf.length recptr)
    (XLogSegmentOffset recptr st.wal_segment_size)

/-- Line 967 of `XLogWalRcvWrite`: `LogstreamResult.Write = recptr`. -/
def setWrite (st : RcvState) (recptr : Nat) : RcvState :=
  { st with LogstreamResult := { st.LogstreamResult with Write := recptr } }

/-- The loop of `XLogWalRcvWrite` (lines 914-968) on the bytes `buf` still to
write at `recptr`; `nbytes` is the length of `buf`.  Every turn of the loop
writes at least one byte or raises, so that `nbytes` turns are enough: the
first argument counts the turns left. -/
def XLogWalRcvWrite_loop : Nat → RcvState → List Nat → Nat → Nat → Outcome Nat
  | 0, st, _, recptr, _ => .ok recptr st
  | turns + 1, st, buf, recptr, tli =>
    if buf.length = 0 then .ok recptr st
    else
      let w := XLogWalRcvWrite_pwrite (XLogWalRcvWrite_segment st recptr tli) buf recptr
      if w.1 ≤ 0 then .raised .PANIC .FILE_ACCESS w.2
      else
        XLogWalRcvWrite_loop turns
          (setWrite w.2 ((recptr + w.1.toNat) % 2 ^ 64))
          (buf.drop w.1.toNat) ((recptr + w.1.toNat) % 2 ^ 64) tli

/-- The function `XLogWalRcvWrite`. -/
def XLogWalRcvWrite (st : RcvState) (buf : List Nat) (recptr tli : Nat) : Outcome Unit :=
  match XLogWalRcvWrite_loop buf.length st buf recptr tli with
  | .raised elevel code st1 => .raised elevel code st1
  | .ok recptr1 st1 =>
    let st2 := { st1 with walrcv := { st1.walrcv with
                                        writtenUpto := st1.LogstreamResult.Write } }
    if st2.recvFile.isSome = true ∧
        XLByteInSeg recptr1 st2.recvSegNo st2.wal_segment_size = false then
      .ok () (XLogWalRcvClose st2 recptr1 tli)
    else .ok () st2

/-- The function `XLogWalRcvProcessMsg`; `type` is the first byte of the
message and `buf` the bytes after it, `len` is the length of `buf`.  The
`int64` read for a position is stored in an `XLogRecPtr` (`uint64`), the one
read for the time in a `TimestampTz` (`int64`). -/
def XLogWalRcvProcessMsg (st : RcvState) (type : Nat) (buf : List Nat) (tli : Nat) :
    Outcome Unit :=
  let st0 := { st with incoming_message := resetStringInfo }
  if type = 'w'.toNat then
    if buf.length < 24 then .raised .ERROR .ERRCODE_PROTOCOL_VIOLATION st0
    else
      let m := appendBinaryStringInfo st0.incoming_message buf 24
      let dataStart := pq_getmsgint64 m
      let walEnd := pq_getmsgint64 dataStart.2
      let sendTime := pq_getmsgint64 walEnd.2
      let st1 := ProcessWalSndrMessage { st0 with incoming_message := sendTime.2 }
        walEnd.1 (toInt64 sendTime.1)
      XLogWalRcvWrite st1 (buf.drop 24) dataStart.1 tli
  else if type = 'k'.toNat then
    if buf.length ≠ 17 then .raised .ERROR .ERRCODE_PROTOCOL_VIOLATION st0
    else
      let m := appendBinaryStringInfo st0.incoming_message buf 17
      let walEnd := pq_getmsgint64 m
      let sendTime := pq_getmsgint64 walEnd.2
      let replyRequested := pq_getmsgbyte sendTime.2
      let st1 := ProcessWalSndrMessage { st0 with incoming_message := replyRequested.2 }
        walEnd.1 (toInt64 sendTime.1)
      if replyRequested.1 ≠ 0 then .ok () (XLogWalRcvSendReply st1 true false)
      else .ok () st1
  else .raised .ERROR .ERRCODE_PROTOCOL_VIOLATION st0

/-- Lines 485-497 of `WalReceiverMain`: a message of `len > 0` bytes has been
received; the wake-up times for the timeout and the ping are set anew and the
message is processed, its first byte as the type. -/
def WalReceiverMain_received (st : RcvState) (buf : List Nat) (tli : Nat) : Outcome Unit :=
  let now := (GetCurrentTimestamp st).1
  let st1 := (GetCurrentTimestamp st).2
  let st2 := WalRcvComputeNextWakeup st1 .WALRCV_WAKEUP_TERMINATE now
  let st3 := WalRcvComputeNextWakeup st2 .WALRCV_WAKEUP_PING now
  XLogWalRcvProcessMsg st3 (buf.headD 0) buf.tail tli

/-- The loop of lines 483-511 of `WalReceiverMain` on the messages that
`walrcv_receive` hands over one after the other, until it has no more. -/
def WalReceiverMain_receiveAll : RcvState → List (List Nat) → Nat → Outcome Unit
  | st, [], _ => .ok () st
  | st, buf :: rest, tli =>
    match WalReceiverMain_received st buf tli with
    | .ok _ st1 => WalReceiverMain_receiveAll st1 rest tli
    | .raised elevel code st1 => .raised elevel code st1

/-- Line 271 of `WalReceiverMain`, at the start of the process:
`pg_atomic_write_u64(&WalRcv->writtenUpto, 0)`. -/
def WalReceiverMain_writtenUpto (st : RcvState) : RcvState :=
  { st with walrcv := { st.walrcv with writtenUpto := 0 } }

/-- Modelled from the spec: `initStringInfo` of `lib/stringinfo.c`, absent
from the sources: an empty buffer with its cursor at 0. -/
def initStringInfo : StringInfoData :=
  { data := [], cursor := 0 }

/-- Lines 427-439 of `WalReceiverMain`, the start of a streaming attempt:
both cursors of `LogstreamResult` are set to the replay position, the message
buffers are initialised, every wake-up time is computed from one reading of
the clock, and the first reply and feedback are sent. -/
def WalReceiverMain_startStreaming (st : RcvState) : RcvState :=
  let st1 := { st with LogstreamResult := { Write := st.replayPtr, Flush := st.replayPtr }
                       reply_message := initStringInfo
                       incoming_message := initStringInfo }
  let now := (GetCurrentTimestamp st1).1
  let st2 := (GetCurrentTimestamp st1).2
  let st3 := WalRcvComputeNextWakeup st2 .WALRCV_WAKEUP_TERMINATE now
  let st4 := WalRcvComputeNextWakeup st3 .WALRCV_WAKEUP_PING now
  let st5 := WalRcvComputeNextWakeup st4 .WALRCV_WAKEUP_REPLY now
  let st6 := WalRcvComputeNextWakeup st5 .WALRCV_WAKEUP_HSFEEDBACK now
  XLogWalRcvSendHSFeedback (XLogWalRcvSendReply st6 true false) true

/-- Lines 513-521 of `WalReceiverMain`, after the messages at hand have been
processed: `XLogWalRcvSendReply(false, false)`, then
`XLogWalRcvFlush(false, startpointTLI)`. -/
def WalReceiverMain_batchEnd (st : RcvState) (startpointTLI : Nat) : RcvState :=
  XLogWalRcvFlush (XLogWalRcvSendReply st false false) false startpointTLI

/-- Lines 600-604 of `WalReceiverMain`: when the time of the ping has come, a
reply is to be requested and the ping is set to "never". -/
def WalReceiverMain_ping (st : RcvState) (now : Int) : Bool × RcvState :=
  if now ≥ st.wakeup .WALRCV_WAKEUP_PING then
    (true, { st with wakeup := fun r =>
               if r = .WALRCV_WAKEUP_PING then TIMESTAMP_INFINITY else st.wakeup r })
  else (false, st)

/-- Lines 573-608 of `WalReceiverMain`, the branch for `WL_TIMEOUT`: the
receiver woke up because the time of its nap was over. -/
def WalReceiverMain_timeout (st : RcvState) : Outcome Unit :=
  let now := (GetCurrentTimestamp st).1
  let st1 := (GetCurrentTimestamp st).2
  if now ≥ st1.wakeup .WALRCV_WAKEUP_TERMINATE then
    .raised .ERROR .ERRCODE_CONNECTION_FAILURE st1
  else
    let requestReply := (WalReceiverMain_ping st1 now).1
    let st2 := (WalReceiverMain_ping st1 now).2
    .ok () (XLogWalRcvSendHSFeedback (XLogWalRcvSendReply st2 requestReply requestReply) false)

/-- Lines 633-654 of `WalReceiverMain`, at the end of the stream on the
timeline: when a segment file is open it is flushed, closed and its archive
status file is made; then no file is open. -/
def WalReceiverMain_endOfStream (st : RcvState) (startpointTLI : Nat) : RcvState :=
  match st.recvFile with
  | some file =>
    let st1 := emit (XLogWalRcvFlush st false startpointTLI) (.close file)
    let st2 :=
      if st1.XLogArchiveMode ≠ .ARCHIVE_MODE_ALWAYS then
        emit st1 (.archiveForceDone st1.recvFileTLI st1.recvSegNo)
      else emit st1 (.archiveNotify st1.recvFileTLI st1.recvSegNo)
    { st2 with recvFile := none }
  | none => { st with recvFile := none }

/-- How a part of `WalReceiverMain` or of `WalRcvWaitForStartPosition` ends:
the function goes on, the process exits through `proc_exit` or `exit` with a
status, or `ereport` raises an error; either way in a state. -/
inductive MainOutcome where
  | running (st : RcvState) : MainOutcome
  | exited (code : Int) (st : RcvState) : MainOutcome
  | raised (elevel : ErrLevel) (sqlerrcode : ErrCode) (st : RcvState) : MainOutcome

/-- The state in which a part of the main function ended. -/
def MainOutcome.state : MainOutcome → RcvState
  | .running st => st
  | .exited _ st => st
  | .raised _ _ st => st

/-- The `switch` of lines 218-242 of `WalReceiverMain` on the value read from
`walrcv->walRcvState`; `none` is a value that is none of the six of the enum,
for which the label `default` is taken.  `elog(PANIC, ...)` has the error code
`ERRCODE_INTERNAL_ERROR`. -/
def WalReceiverMain_switch (st : RcvState) (state : Option WalRcvState) : MainOutcome :=
  match state with
  | some .WALRCV_STOPPING =>
    .exited 1
      (emit { st with walrcv := { st.walrcv with walRcvState := .WALRCV_STOPPED } }
        .stoppedBroadcast)
  | some .WALRCV_STOPPED => .exited 1 (emit st .stoppedBroadcast)
  | some .WALRCV_STARTING => .running st
  | some .WALRCV_WAITING => .raised .PANIC .ERRCODE_INTERNAL_ERROR st
  | some .WALRCV_STREAMING => .raised .PANIC .ERRCODE_INTERNAL_ERROR st
  | some .WALRCV_RESTARTING => .raised .PANIC .ERRCODE_INTERNAL_ERROR st
  | none => .raised .PANIC .ERRCODE_INTERNAL_ERROR st

/-- Lines 243-267 of `WalReceiverMain`, the rest of the critical section
after the `switch`: the process id and the state `WALRCV_STREAMING` are
stored, `ready_to_display` is cleared, the three times are set to one reading
of the clock and the latch is stored.  The values copied to locals are read
from the state by those who need them. -/
def WalReceiverMain_advertise (st : RcvState) (MyProcPid : Nat) : RcvState :=
  let st1 := { st with walrcv := { st.walrcv with
                                     pid := MyProcPid
                                     walRcvState := .WALRCV_STREAMING
                                     ready_to_display := false } }
  let now := (GetCurrentTimestamp st1).1
  let st2 := (GetCurrentTimestamp st1).2
  { st2 with walrcv := { st2.walrcv with
                           lastMsgSendTime := now
                           lastMsgReceiptTime := now
                           latestWalEndTime := now
                           latch := true } }

/-- Lines 216-269 of `WalReceiverMain`: the critical section at the start of
the process, from `SpinLockAcquire` to `SpinLockRelease`. -/
def WalReceiverMain_claim (st : RcvState) (MyProcPid : Nat) : MainOutcome :=
  match WalReceiverMain_switch st (some st.walrcv.walRcvState) with
  | .running st1 => .running (WalReceiverMain_advertise st1 MyProcPid)
  | .exited code st1 => .exited code st1
  | .raised elevel code st1 => .raised elevel code st1

/-- Lines 216-271 of `WalReceiverMain`: the start of the process, up to the
reset of `writtenUpto`. -/
def WalReceiverMain_startup (st : RcvState) (MyProcPid : Nat) : MainOutcome :=
  match WalReceiverMain_claim st MyProcPid with
  | .running st1 => .running (WalReceiverMain_writtenUpto st1)
  | .exited code st1 => .exited code st1
  | .raised elevel code st1 => .raised elevel code st1

/-- Lines 464-473 of `WalReceiverMain`: the configuration is read anew, the
settings that the receiver reads taking the values of the file; every wake-up
time is computed from one reading of the clock and a feedback message is due
at once. -/
def WalReceiverMain_reload (st : RcvState) (status_interval timeout : Int) (feedback : Bool) :
    RcvState :=
  let st0 := { st with wal_receiver_status_interval := status_interval
                       wal_receiver_timeout := timeout
                       hot_standby_feedback := feedback }
  let now := (GetCurrentTimestamp st0).1
  let st1 := (GetCurrentTimestamp st0).2
  let st2 := WalRcvComputeNextWakeup st1 .WALRCV_WAKEUP_TERMINATE now
  let st3 := WalRcvComputeNextWakeup st2 .WALRCV_WAKEUP_PING now
  let st4 := WalRcvComputeNextWakeup st3 .WALRCV_WAKEUP_REPLY now
  let st5 := WalRcvComputeNextWakeup st4 .WALRCV_WAKEUP_HSFEEDBACK now
  XLogWalRcvSendHSFeedback st5 true

/-- Lines 671-692 of `WalRcvWaitForStartPosition`: the first critical
section, and the calls after it.  `elog(FATAL, ...)` has the error code
`ERRCODE_INTERNAL_ERROR`. -/
def WalRcvWaitForStartPosition_enter (st : RcvState) : MainOutcome :=
  if st.walrcv.walRcvState ≠ .WALRCV_STREAMING then
    if st.walrcv.walRcvState = .WALRCV_STOPPING then .exited 0 st
    else .raised .FATAL .ERRCODE_INTERNAL_ERROR st
  else
    let st1 := { st with walrcv := { st.walrcv with
                                       walRcvState := .WALRCV_WAITING
                                       receiveStart := InvalidXLogRecPtr
                                       receiveStartTLI := 0 } }
    .running (emit (emit st1 .psIdle) .wakeupRecovery)

/-- How one turn of the loop of `WalRcvWaitForStartPosition`, or the function,
ends: with the start position and timeline that were found, with an exit of
the process, with an error that `ereport` raises, or still waiting. -/
inductive WaitOutcome where
  | restart (startpoint startpointTLI : Nat) (st : RcvState) : WaitOutcome
  | exited (code : Int) (st : RcvState) : WaitOutcome
  | raised (elevel : ErrLevel) (sqlerrcode : ErrCode) (st : RcvState) : WaitOutcome
  | waiting (st : RcvState) : WaitOutcome

/-- The state in which a turn of the loop ended. -/
def WaitOutcome.state : WaitOutcome → RcvState
  | .restart _ _ st => st
  | .exited _ st => st
  | .raised _ _ st => st
  | .waiting st => st

/-- Lines 699-725 of `WalRcvWaitForStartPosition`: the critical section of
one turn of the loop. -/
def WalRcvWaitForStartPosition_poll (st : RcvState) : WaitOutcome :=
  if st.walrcv.walRcvState = .WALRCV_RESTARTING then
    .restart st.walrcv.receiveStart st.walrcv.receiveStartTLI
      { st with walrcv := { st.walrcv with walRcvState := .WALRCV_STREAMING } }
  else if st.walrcv.walRcvState = .WALRCV_STOPPING then .exited 1 st
  else .waiting st

/-- The function `WalRcvDie`; `wrconn` tells whether the module variable of
that name is not `NULL`, and `startpointTLI` is the timeline that the argument
points to. -/
def WalRcvDie (st : RcvState) (wrconn : Bool) (startpointTLI : Nat) : RcvState :=
  let st1 := XLogWalRcvFlush st true startpointTLI
  let st2 := { st1 with walrcv := { st1.walrcv with
                                      walRcvState := .WALRCV_STOPPED
                                      pid := 0
                                      ready_to_display := false
                                      latch := false } }
  let st3 := emit st2 .stoppedBroadcast
  let st4 := if wrconn then emit st3 .disconnect else st3
  emit st4 .wakeupRecovery

/-- The function `WalRcvGetStateString`. -/
def WalRcvGetStateString : WalRcvState → String
  | .WALRCV_STOPPED => "stopped"
  | .WALRCV_STARTING => "starting"
  | .WALRCV_STREAMING => "streaming"
  | .WALRCV_WAITING => "waiting"
  | .WALRCV_RESTARTING => "restarting"
  | .WALRCV_STOPPING => "stopping"

/-- A value of a column: what `Int32GetDatum`, `LSNGetDatum`,
`TimestampTzGetDatum` and `CStringGetTextDatum` make, and the zero that
`palloc0` leaves. -/
inductive Datum where
  | zero : Datum
  | int32 (v : Int) : Datum
  | lsn (v : Nat) : Datum
  | timestamptz (v : Int) : Datum
  | text (s : List Char) : Datum
deriving DecidableEq, Repr

/-- What `pg_stat_get_wal_receiver` returns: SQL `NULL`, the error of
`elog(ERROR, ...)`, or a row, each column a value or null. -/
inductive StatResult where
  | null : StatResult
  | error : StatResult
  | row (columns : List (Option Datum)) : StatResult
deriving DecidableEq, Repr

/-- The statement `nulls[i] = true`. -/
def setNull (row : List (Option Datum)) (i : Nat) : List (Option Datum) :=
  row.set i none

/-- The statement `values[i] = v`. -/
def setValue (row : List (Option Datum)) (i : Nat) (v : Datum) : List (Option Datum) :=
  row.set i (some v)

/-- The call `memset(&nulls[first], true, sizeof(bool) * count)`. -/
def memsetNulls (row : List (Option Datum)) (first : Nat) : Nat → List (Option Datum)
  | 0 => row
  | count + 1 => setNull (memsetNulls row first count) (first + count)

/-- Lines 1475-1522 of `pg_stat_get_wal_receiver`: the columns 1 to 14 for
a caller with the privileges of `pg_read_all_stats`.  `XLogRecPtrIsInvalid`
compares with `InvalidXLogRecPtr`; a string is what comes before the first NUL
of its array. -/
def pg_stat_get_wal_receiver_details (row : List (Option Datum)) (walrcv : WalRcvData) :
    List (Option Datum) :=
  let r1 := setValue row 1 (.text (WalRcvGetStateString walrcv.walRcvState).toList)
  let r2 := if walrcv.receiveStart = InvalidXLogRecPtr then setNull r1 2
    else setValue r1 2 (.lsn walrcv.receiveStart)
  let r3 := setValue r2 3 (.int32 walrcv.receiveStartTLI)
  let r4 := if walrcv.writtenUpto = InvalidXLogRecPtr then setNull r3 4
    else setValue r3 4 (.lsn walrcv.writtenUpto)
  let r5 := if walrcv.flushedUpto = InvalidXLogRecPtr then setNull r4 5
    else setValue r4 5 (.lsn walrcv.flushedUpto)
  let r6 := setValue r5 6 (.int32 walrcv.receivedTLI)
  let r7 := if walrcv.lastMsgSendTime = 0 then setNull r6 7
    else setValue r6 7 (.timestamptz walrcv.lastMsgSendTime)
  let r8 := if walrcv.lastMsgReceiptTime = 0 then setNull r7 8
    else setValue r7 8 (.timestamptz walrcv.lastMsgReceiptTime)
  let r9 := if walrcv.latestWalEnd = InvalidXLogRecPtr then setNull r8 9
    else setValue r8 9 (.lsn walrcv.latestWalEnd)
  let r10 := if walrcv.latestWalEndTime = 0 then setNull r9 10
    else setValue r9 10 (.timestamptz walrcv.latestWalEndTime)
  let r11 := if cstr walrcv.slotname = [] then setNull r10 11
    else setValue r10 11 (.text (cstr walrcv.slotname))
  let r12 := if cstr walrcv.sender_host = [] then setNull r11 12
    else setValue r11 12 (.text (cstr walrcv.sender_host))
  let r13 := if walrcv.sender_port = 0 then setNull r12 13
    else setValue r12 13 (.int32 walrcv.sender_port)
  if cstr walrcv.conninfo = [] then setNull r13 14
  else setValue r13 14 (.text (cstr walrcv.conninfo))

/-- The function `pg_stat_get_wal_receiver` on the shared record, for a
caller that has the privileges of `pg_read_all_stats` or not.  `composite`
tells whether `get_call_result_type` finds a row type, `natts` is the number
of its columns. -/
def pg_stat_get_wal_receiver (walrcv : WalRcvData) (has_privs composite : Bool) (natts : Nat) :
    StatResult :=
  if walrcv.pid = 0 ∨ walrcv.ready_to_display = false then .null
  else if composite = false then .error
  else
    let row := setValue (List.replicate natts (some Datum.zero)) 0 (.int32 walrcv.pid)
    if has_privs = false then .row (memsetNulls row 1 (natts - 1))
    else .row (pg_stat_get_wal_receiver_details row walrcv)

/-- The turn of the streaming loop of `WalReceiverMain` at which the latch is
found set (lines 555-571): when the startup process has asked for a reply,
the request is cleared and `XLogWalRcvSendReply(true, false)` is called.
`ProcessWalRcvInterrupts` is taken on the path on which it returns. -/
def WalReceiverMain_latch (st : RcvState) : RcvState :=
  if st.walrcv.force_reply then
    XLogWalRcvSendReply { st with walrcv := { st.walrcv with force_reply := false } } true false
  else st

/-- Modelled from the spec: `TimestampDifferenceMilliseconds` of
`utils/adt/timestamp.c`, absent from the sources: the time from `start` to
`stop`, clamped to non-negative, in milliseconds (timestamps count
microseconds; a part of a millisecond counts as one). -/
def TimestampDifferenceMilliseconds (start stop : Int) : Int :=
  if start ≥ stop then 0 else (stop - start + 999) / 1000

/-- Lines 526-534 of `WalReceiverMain`: the soonest of the wake-up times is
found and the length of the nap is computed from a reading of the clock. -/
def WalReceiverMain_nap (st : RcvState) : Int × RcvState :=
  let nextWakeup :=
    min (st.wakeup .WALRCV_WAKEUP_HSFEEDBACK)
      (min (st.wakeup .WALRCV_WAKEUP_REPLY)
        (min (st.wakeup .WALRCV_WAKEUP_PING)
          (min (st.wakeup .WALRCV_WAKEUP_TERMINATE) TIMESTAMP_INFINITY)))
  (TimestampDifferenceMilliseconds (GetCurrentTimestamp st).1 nextWakeup,
    (GetCurrentTimestamp st).2)

/-- What the surroundings do before a turn of the loop of
`WalRcvWaitForStartPosition`: whether a shutdown has been requested
(`ShutdownRequestPending`), and what the other processes have done to the
shared record since the turn before. -/
structure WaitTurn where
  shutdownRequested : Bool
  others : WalRcvData → WalRcvData

/-- The function `ProcessWalRcvInterrupts` where it is called in the loop of
`WalRcvWaitForStartPosition`, and the critical section after it (lines
696-725): one turn of the loop in the surroundings `turn`. -/
def WalRcvWaitForStartPosition_turn (st : RcvState) (turn : WaitTurn) : WaitOutcome :=
  if turn.shutdownRequested then .raised .FATAL .ERRCODE_ADMIN_SHUTDOWN st
  else WalRcvWaitForStartPosition_poll { st with walrcv := turn.others st.walrcv }

/-- The loop of `WalRcvWaitForStartPosition` (lines 694-726) on the turns that
the surroundings allow; after the last of them the function still waits. -/
def WalRcvWaitForStartPosition_loop : RcvState → List WaitTurn → WaitOutcome
  | st, [] => .waiting st
  | st, turn :: rest =>
    match WalRcvWaitForStartPosition_turn st turn with
    | .waiting st1 => WalRcvWaitForStartPosition_loop st1 rest
    | .restart startpoint startpointTLI st1 => .restart startpoint startpointTLI st1
    | .exited code st1 => .exited code st1
    | .raised elevel code st1 => .raised elevel code st1

/-- The function `WalRcvWaitForStartPosition`; the start position and the
timeline that it stores through its arguments are in the result. -/
def WalRcvWaitForStartPosition (st : RcvState) (turns : List WaitTurn) : WaitOutcome :=
  match WalRcvWaitForStartPosition_enter st with
  | .exited code st1 => .exited code st1
  | .raised elevel code st1 => .raised elevel code st1
  | .running st1 =>
    match WalRcvWaitForStartPosition_loop st1 turns with
    | .restart startpoint startpointTLI st2 =>
      .restart startpoint startpointTLI
        (if st2.update_process_title then emit st2 (.psRestarting startpoint) else st2)
    | out => out

/-! ## walreceiver.c : WalRcvFetchTimeLineHistoryFiles -/

/-- A call that `WalRcvFetchTimeLineHistoryFiles` makes to its surroundings. -/
inductive HistoryEvent where
  | readtimelinehistoryfile (tli : Nat) : HistoryEvent
  | writeTimeLineHistoryFile (tli : Nat) (content : List Nat) : HistoryEvent
  | archiveForceDone (fname : List Char) : HistoryEvent
  | archiveNotify (fname : List Char) : HistoryEvent
deriving DecidableEq, Repr

/-- What `WalRcvFetchTimeLineHistoryFiles` reads and changes: the archive
mode, the timelines of which a history file exists locally
(`existsTimeLineHistory`), the name and content of the history file that the
primary hands over for a timeline (`walrcv_readtimelinehistoryfile`, on the
path on which it returns), and the calls made. -/
structure HistoryState where
  XLogArchiveMode : ArchiveMode
  existing : List Nat
  primary : Nat → List Char × List Nat
  trace : List HistoryEvent

/-- How a run of `WalRcvFetchTimeLineHistoryFiles` ends: the function
returns, or `ereport` raises an error, or the run is still in the loop after
the turns it was given. -/
inductive HistoryOutcome where
  | ok (st : HistoryState) : HistoryOutcome
  | raised (elevel : ErrLevel) (sqlerrcode : ErrCode) (st : HistoryState) : HistoryOutcome
  | unfinished (st : HistoryState) : HistoryOutcome

/-- The state in which a run ended. -/
def HistoryOutcome.state : HistoryOutcome → HistoryState
  | .ok st => st
  | .raised _ _ st => st
  | .unfinished st => st

/-- The upper-case hexadecimal digit of a value below 16. -/
def upperHexDigit (d : Nat) : Char :=
  "0123456789ABCDEF".toList.getD d '0'

/-- Modelled from the spec: the macro `TLHistoryFileName` of
`access/xlog_internal.h`, absent from the sources: the name of the history
file of a timeline, its id in eight upper-case hexadecimal digits followed by
`.history`. -/
def TLHistoryFileName (tli : Nat) : List Char :=
  [upperHexDigit (tli / 16 ^ 7 % 16), upperHexDigit (tli / 16 ^ 6 % 16),
   upperHexDigit (tli / 16 ^ 5 % 16), upperHexDigit (tli / 16 ^ 4 % 16),
   upperHexDigit (tli / 16 ^ 3 % 16), upperHexDigit (tli / 16 ^ 2 % 16),
   upperHexDigit (tli / 16 % 16), upperHexDigit (tli % 16)] ++ ".history".toList

/-- Modelled from the spec: `existsTimeLineHistory` of
`access/transam/timeline.c`, absent from the sources: whether the history file
of a timeline exists locally. -/
def existsTimeLineHistory (st : HistoryState) (probe : Nat) : Bool :=
  decide (probe ∈ st.existing)

/-- Modelled from the spec: `writeTimeLineHistoryFile` of
`access/transam/timeline.c`, absent from the sources: the history file of the
timeline is written with the content handed over; it exists from then on. -/
def writeTimeLineHistoryFile (st : HistoryState) (tli : Nat) (content : List Nat) :
    HistoryState :=
  { st with existing := tli :: st.existing
            trace := st.trace ++ [.writeTimeLineHistoryFile tli content] }

/-- The body of the loop of `WalRcvFetchTimeLineHistoryFiles` (lines 752-794)
for one timeline. -/
def WalRcvFetchTimeLineHistoryFiles_body (st : HistoryState) (tli : Nat) : HistoryOutcome :=
  if tli ≠ 1 ∧ existsTimeLineHistory st tli = false then
    let st1 := { st with trace := st.trace ++ [.readtimelinehistoryfile tli] }
    let fname := (st1.primary tli).1
    let content := (st1.primary tli).2
    if fname ≠ TLHistoryFileName tli then .raised .ERROR .ERRCODE_PROTOCOL_VIOLATION st1
    else
      let st2 := writeTimeLineHistoryFile st1 tli content
      if st2.XLogArchiveMode ≠ .ARCHIVE_MODE_ALWAYS then
        .ok { st2 with trace := st2.trace ++ [.archiveForceDone fname] }
      else .ok { st2 with trace := st2.trace ++ [.archiveNotify fname] }
  else .ok st

/-- The loop `for (tli = first; tli <= last; tli++)` of
`WalRcvFetchTimeLineHistoryFiles` from the value `tli` of its variable on; a
`TimeLineID` is a `uint32`, so that `tli++` is taken modulo 2^32.  The first
argument bounds the number of tests of the condition: the result is
`unfinished` when the loop has not ended within them. -/
def WalRcvFetchTimeLineHistoryFiles_loop :
    Nat → HistoryState → Nat → Nat → HistoryOutcome
  | 0, st, _, _ => .unfinished st
  | turns + 1, st, tli, last =>
    if tli ≤ last then
      match WalRcvFetchTimeLineHistoryFiles_body st tli with
      | .ok st1 => WalRcvFetchTimeLineHistoryFiles_loop turns st1 ((tli + 1) % 2 ^ 32) last
      | .raised elevel code st1 => .raised elevel code st1
      | .unfinished st1 => .unfinished st1
    else .ok st

/-- The function `WalRcvFetchTimeLineHistoryFiles`, run for at most `turns`
tests of the condition of its loop. -/
def WalRcvFetchTimeLineHistoryFiles (turns : Nat) (st : HistoryState) (first last : Nat) :
    HistoryOutcome :=
  WalRcvFetchTimeLineHistoryFiles_loop turns st first last

/-! ## shmem.c -/

/-- The fields of the struct `PGShmemHeader` (`storage/pg_shmem.h`) that the
allocator uses; both are of type `Size`. -/
structure PGShmemHeader where
  totalsize : Nat
  freeoffset : Nat
deriving DecidableEq, Repr

/-- Modelled from the spec: the macro `TYPEALIGN` of `c.h`, absent from the
sources: `(LEN + (ALIGNVAL - 1)) & ~(ALIGNVAL - 1)` in `uintptr_t`, 64 bits
wide; `ALIGNVAL` is a power of two, for which clearing the low bits takes the
remainder off. -/
def TYPEALIGN (ALIGNVAL LEN : Nat) : Nat :=
  (LEN + (ALIGNVAL - 1)) % 2 ^ 64 - (LEN + (ALIGNVAL - 1)) % 2 ^ 64 % ALIGNVAL

/-- Modelled from the spec: the constant `PG_CACHE_LINE_SIZE` of
`pg_config_manual.h`, absent from the sources. -/
def PG_CACHE_LINE_SIZE : Nat := 128

/-- Modelled from the spec: the constant `MAXIMUM_ALIGNOF` of `pg_config.h`,
absent from the sources; the source says that `MAXALIGN` aligns to 8 bytes
(line 273). -/
def MAXIMUM_ALIGNOF : Nat := 8

/-- Modelled from the spec: the macro `CACHELINEALIGN` of `c.h`, absent from
the sources. -/
def CACHELINEALIGN (LEN : Nat) : Nat :=
  TYPEALIGN PG_CACHE_LINE_SIZE LEN

/-- Modelled from the spec: the macro `MAXALIGN` of `c.h`, absent from the
sources. -/
def MAXALIGN (LEN : Nat) : Nat :=
  TYPEALIGN MAXIMUM_ALIGNOF LEN

/-- What an allocating function of `shmem.c` returns and leaves behind: the
pointer returned, as its offset from `ShmemBase` (`none` for `NULL`), and the
header; or the error that `ereport(ERROR, ...)` raises. -/
inductive ShmemOutcome where
  | ok (newSpace : Option Nat) (hdr : PGShmemHeader) : ShmemOutcome
  | raised (elevel : ErrLevel) (sqlerrcode : ErrCode) (hdr : PGShmemHeader) : ShmemOutcome
deriving DecidableEq, Repr

/-- The function `ShmemAllocRaw`: the pointer returned, as its offset from
`ShmemBase` (`none` for `NULL`), the value stored in `*allocated_size` and the
header after the call.  A `Size` is 64 bits wide (as the source says at line
503), its sum is taken modulo 2^64.  Assertions are not part of the
embedding. -/
def ShmemAllocRaw (hdr : PGShmemHeader) (size : Nat) : Option Nat × Nat × PGShmemHeader :=
  let size1 := CACHELINEALIGN size
  let newStart := hdr.freeoffset
  let newFree := (newStart + size1) % 2 ^ 64
  if newFree ≤ hdr.totalsize then (some newStart, size1, { hdr with freeoffset := newFree })
  else (none, size1, hdr)

/-- The function `ShmemAlloc`. -/
def ShmemAlloc (hdr : PGShmemHeader) (size : Nat) : ShmemOutcome :=
  match (ShmemAllocRaw hdr size).1 with
  | none => .raised .ERROR .ERRCODE_OUT_OF_MEMORY (ShmemAllocRaw hdr size).2.2
  | some newSpace => .ok (some newSpace) (ShmemAllocRaw hdr size).2.2

/-- The function `ShmemAllocNoError`. -/
def ShmemAllocNoError (hdr : PGShmemHeader) (size : Nat) : ShmemOutcome :=
  .ok (ShmemAllocRaw hdr size).1 (ShmemAllocRaw hdr size).2.2

/-- The function `ShmemAllocUnlocked`. -/
def ShmemAllocUnlocked (hdr : PGShmemHeader) (size : Nat) : ShmemOutcome :=
  let size1 := MAXALIGN size
  let newStart := hdr.freeoffset
  let newFree := (newStart + size1) % 2 ^ 64
  if newFree > hdr.totalsize then .raised .ERROR .ERRCODE_OUT_OF_MEMORY hdr
  else .ok (some newStart) { hdr with freeoffset := newFree }

/-- The function `add_size`; the arguments are values of `Size`. -/
def add_size (s1 s2 : Nat) : Except ErrCode Nat :=
  let result := (s1 + s2) % 2 ^ 64
  if result < s1 ∨ result < s2 then .error .ERRCODE_PROGRAM_LIMIT_EXCEEDED
  else .ok result

/-- The function `mul_size`; the arguments are values of `Size`. -/
def mul_size (s1 s2 : Nat) : Except ErrCode Nat :=
  if s1 = 0 ∨ s2 = 0 then .ok 0
  else
    let result := s1 * s2 % 2 ^ 64
    if result / s2 ≠ s1 then .error .ERRCODE_PROGRAM_LIMIT_EXCEEDED
    else .ok result

/-! ## bufpage.h -/

/-- The struct `PageHeaderData` without its array of line pointers; `pd_lsn`
is the pair `xlogid`, `xrecoff`.  The fields are unsigned integers of 16 and 32
bits. -/
structure PageHeaderData where
  pd_lsn : Nat × Nat
  pd_checksum : Nat
  pd_flags : Nat
  pd_lower : Nat
  pd_upper : Nat
  pd_special : Nat
  pd_pagesize_version : Nat
  pd_prune_xid : Nat
deriving DecidableEq, Repr

/-- The macro `SizeOfPageHeaderData`, `offsetof(PageHeaderData, pd_linp)`:
24 bytes, as the source says at line 211. -/
def SizeOfPageHeaderData : Nat := 24

/-- Modelled from the spec: `sizeof(ItemIdData)`; the struct is declared in
`storage/itemid.h`, absent from the sources: a line pointer of 32 bits. -/
def sizeofItemIdData : Nat := 4

/-- The function `PageIsEmpty`. -/
def PageIsEmpty (page : PageHeaderData) : Bool :=
  decide (page.pd_lower ≤ SizeOfPageHeaderData)

/-- The function `PageIsNew`. -/
def PageIsNew (page : PageHeaderData) : Bool :=
  decide (page.pd_upper = 0)

/-- The function `PageGetMaxOffsetNumber`; the result is an `OffsetNumber`,
a `uint16`. -/
def PageGetMaxOffsetNumber (page : PageHeaderData) : Nat :=
  if page.pd_lower ≤ SizeOfPageHeaderData then 0
  else (page.pd_lower - SizeOfPageHeaderData) / sizeofItemIdData % 2 ^ 16

/-! ## git0/init-db.c -/

/-- The values of `errno` that `init-db.c` tells apart. -/
inductive Errno where
  | EEXIST : Errno
  | EACCES : Errno
deriving DecidableEq, Repr

/-- What the program `init-db` sees and changes: the value of the environment
variable `SHA1_FILE_DIRECTORY`, the directories and the other files that
exist, the paths at which `mkdir` is refused, and what was written to
`stderr`. -/
structure FsState where
  sha1_file_directory : Option (List Char)
  dirs : List (List Char)
  files : List (List Char)
  refused : List (List Char)
  stderr : List (List Char)
deriving DecidableEq, Repr

/-- How the program ends: `main` returns, with a value or (`return;`)
without one, or `exit` is called. -/
inductive Ended where
  | returned (value : Option Int) : Ended
  | exited (status : Int) : Ended
deriving DecidableEq, Repr

/-- The call `mkdir(path, 0700)`: its return value, the `errno` it sets when
it fails, and the file system after it. -/
def mkdir (fs : FsState) (path : List Char) : Int × Option Errno × FsState :=
  if path ∈ fs.dirs ∨ path ∈ fs.files then (-1, some .EEXIST, fs)
  else if path ∈ fs.refused then (-1, some .EACCES, fs)
  else (0, none, { fs with dirs := fs.dirs ++ [path] })

/-- The call `stat(path, &st)`: its return value. -/
def stat (fs : FsState) (path : List Char) : Int :=
  if path ∈ fs.dirs ∨ path ∈ fs.files then 0 else -1

/-- The macro `S_ISDIR` on the mode that `stat` stored for `path`. -/
def S_ISDIR (fs : FsState) (path : List Char) : Bool :=
  decide (path ∈ fs.dirs)

/-- The operator `!` of C on an `int`. -/
def logicalNot (v : Int) : Int :=
  if v = 0 then 1 else 0

/-- The calls `perror(s)` and `fprintf(stderr, ...)`: a text is written to
`stderr`. -/
def fprintf (fs : FsState) (text : List Char) : FsState :=
  { fs with stderr := fs.stderr ++ [text] }

/-- The lower-case hexadecimal digit of a value below 16. -/
def lowerHexDigit (d : Nat) : Char :=
  "0123456789abcdef".toList.getD d '0'

/-- The text that `sprintf(path+len, "/%02x", i)` writes, for `i` below 256. -/
def sprintf (i : Nat) : List Char :=
  ['/', lowerHexDigit (i / 16 % 16), lowerHexDigit (i % 16)]

/-- The loop of lines 44-52 of `main`, from the value `i` of its variable on,
with `count` turns to go. -/
def InitDb.main_loop : Nat → Nat → FsState → List Char → Ended × FsState
  | 0, _, fs, _ => (.returned (some 0), fs)
  | count + 1, i, fs, sha1_dir =>
    let m := mkdir fs (sha1_dir ++ sprintf i)
    if m.1 < 0 ∧ m.2.1 ≠ some .EEXIST then
      (.exited 1, fprintf m.2.2 (sha1_dir ++ sprintf i))
    else InitDb.main_loop count (i + 1) m.2.2 sha1_dir

/-- Lines 30-53 of `main`: the private storage area is made. -/
def InitDb.main_private (fs : FsState) : Ended × FsState :=
  let sha1_dir := ".dircache/objects".toList
  let fs1 := fprintf fs "defaulting to private storage area\n".toList
  let m := mkdir fs1 sha1_dir
  if m.1 < 0 ∧ m.2.1 ≠ some .EEXIST then (.exited 1, fprintf m.2.2 sha1_dir)
  else InitDb.main_loop 256 0 m.2.2 sha1_dir

/-- The function `main` of `init-db.c`.  The test of line 25 is
`!stat(sha1_dir, &st) < 0 && S_ISDIR(st.st_mode)`, in which `!` binds tighter
than `<`. -/
def InitDb.main (fs : FsState) : Ended × FsState :=
  let m := mkdir fs ".dircache".toList
  if m.1 < 0 then (.exited 1, fprintf m.2.2 "unable to create .dircache".toList)
  else
    match m.2.2.sha1_file_directory with
    | some sha1_dir =>
      if logicalNot (stat m.2.2 sha1_dir) < 0 ∧ S_ISDIR m.2.2 sha1_dir = true then
        (.returned none, m.2.2)
      else
        InitDb.main_private
          (fprintf m.2.2 ("DB_ENVIRONMENT set to bad directory ".toList ++ sha1_dir ++ ": ".toList))
    | none => InitDb.main_private m.2.2

/-! ## History files as texts -/

/-- A line of a history file: a text without newline and without NUL. -/
def IsLine (l : List Char) : Prop :=
  '\n' ∉ l ∧ NUL ∉ l

instance (l : List Char) : Decidable (IsLine l) :=
  inferInstanceAs (Decidable ('\n' ∉ l ∧ NUL ∉ l))

/-- The text of a file made of the given lines, separated by `\n`. -/
def joinLines : List (List Char) → List Char
  | [] => []
  | [l] => l
  | l :: l2 :: ls => l ++ '\n' :: joinLines (l2 :: ls)

/-- A line the format says is ignored: empty or of white space only, or
one whose first character after the white space is `#`. -/
def Ignorable (l : List Char) : Prop :=
  (∀ c ∈ l, isspace c = true) ∨
    ∃ ws rest, l = ws ++ '#' :: rest ∧ ∀ c ∈ ws, isspace c = true

/-- The files obtained from one another by inserting and deleting ignorable
lines, at any place. -/
inductive IgnorableEdit : List (List Char) → List (List Char) → Prop where
  | nil : IgnorableEdit [] []
  | keep (l : List Char) {a b : List (List Char)} :
      IgnorableEdit a b → IgnorableEdit (l :: a) (l :: b)
  | insert (l : List Char) {a b : List (List Char)} :
      Ignorable l → IgnorableEdit a b → IgnorableEdit a (l :: b)
  | delete (l : List Char) {a b : List (List Char)} :
      Ignorable l → IgnorableEdit a b → IgnorableEdit (l :: a) b

/-- The timeline id that `sscanf` read from a line, when it read one. -/
def Scanned.tli? : Scanned → Option Nat
  | .one tli => some tli
  | .two tli _ => some tli
  | .three tli _ _ => some tli
  | _ => none

/-- A decimal digit. -/
def isDecDigit (c : Char) : Bool :=
  48 ≤ c.toNat && c.toNat ≤ 57

/-- A hexadecimal digit, in either case. -/
def isHexDigit (c : Char) : Bool :=
  isDecDigit c || (65 ≤ c.toNat && c.toNat ≤ 70) || (97 ≤ c.toNat && c.toNat ≤ 102)

/-- The value of a digit character: `0`-`9`, `A`-`F`, `a`-`f`. -/
def digitValue (c : Char) : Nat :=
  if c.toNat ≤ 57 then c.toNat - 48
  else if c.toNat ≤ 70 then c.toNat - 55
  else c.toNat - 87

/-- The number that a numeral denotes in the given base. -/
def numeral (base : Nat) (text : List Char) : Nat :=
  text.foldl (fun acc c => acc * base + digitValue c) 0

/-- A data line of a history file, `<timelineId>\t<highHex>/<lowHex>` and
the rest of the line, given by its numerals. -/
structure DataLine where
  tli : List Char
  hi : List Char
  lo : List Char
  rest : List Char

/-- The text of a data line. -/
def DataLine.text (d : DataLine) : List Char :=
  d.tli ++ '\t' :: (d.hi ++ '/' :: (d.lo ++ d.rest))

/-- The timeline id that a data line states. -/
def DataLine.tliValue (d : DataLine) : Nat :=
  numeral 10 d.tli

/-- The switchpoint that a data line states, `(highHex << 32) | lowHex`. -/
def DataLine.switchpoint (d : DataLine) : Nat :=
  (numeral 16 d.hi <<< 32) ||| numeral 16 d.lo

/-- A well-formed data line: a decimal timeline id and two hexadecimal halves
of the switchpoint, each with at least one digit and a value that fits in 32
bits; what follows the switchpoint on the line does not continue its last
numeral. -/
def DataLine.WellFormed (d : DataLine) : Prop :=
  (d.tli ≠ [] ∧ (∀ c ∈ d.tli, isDecDigit c = true) ∧ numeral 10 d.tli < 2 ^ 32) ∧
  (d.hi ≠ [] ∧ (∀ c ∈ d.hi, isHexDigit c = true) ∧ numeral 16 d.hi < 2 ^ 32) ∧
  (d.lo ≠ [] ∧ (∀ c ∈ d.lo, isHexDigit c = true) ∧ numeral 16 d.lo < 2 ^ 32) ∧
  (∀ c, d.rest.head? = some c → isHexDigit c = false ∧ c ≠ 'x' ∧ c ≠ 'X') ∧
  IsLine d.rest

/-- A line of a well-formed history file: a data line or an ignored line. -/
inductive HistoryLine where
  | data (d : DataLine) : HistoryLine
  | ignored (text : List Char) : HistoryLine

/-- The text of a line of a history file. -/
def HistoryLine.text : HistoryLine → List Char
  | .data d => d.text
  | .ignored t => t

/-- Well-formedness of a line of a history file. -/
def HistoryLine.WellFormed : HistoryLine → Prop
  | .data d => d.WellFormed
  | .ignored t => Ignorable t ∧ IsLine t

/-- The data lines of a history file, in order. -/
def dataLines : List HistoryLine → List DataLine
  | [] => []
  | .data d :: r => d :: dataLines r
  | .ignored _ :: r => dataLines r

/-- The end of the entry before entry `i` (counting from 0) in the list that
the data lines `ds` describe: the invalid position before the first entry. -/
def prevEnd (ds : List DataLine) (i : Nat) : Nat :=
  match i with
  | 0 => InvalidXLogRecPtr
  | j + 1 =>
    match ds[j]? with
    | some d => d.switchpoint
    | none => InvalidXLogRecPtr

/-- The entries that the data lines describe, the first beginning at `prev`. -/
def entriesOf : Nat → List DataLine → List TimeLineHistoryEntry
  | _, [] => []
  | prev, d :: ds =>
    { tli := d.tliValue, begin := prev, «end» := d.switchpoint } :: entriesOf d.switchpoint ds

/-- The end of the last entry that the data lines describe, `prev` if there is none. -/
def lastEnd : Nat → List DataLine → Nat
  | prev, [] => prev
  | _, d :: ds => lastEnd d.switchpoint ds

/-- The last timeline id that the data lines state, `prev` if there is none. -/
def lastTli : Nat → List DataLine → Nat
  | prev, [] => prev
  | _, d :: ds => lastTli d.tliValue ds

/-- The history file of two switches, `1\t0/1000000` and `2\t0/2000000`, with
a final newline. -/
def exampleHistory : List HistoryLine :=
  [.data { tli := ['1'], hi := ['0'], lo := "1000000".toList, rest := [] },
   .data { tli := ['2'], hi := ['0'], lo := "2000000".toList, rest := [] },
   .ignored []]

/-- The lines of a history file with comments, blank lines and reasons. -/
def exampleCommented : List (List Char) :=
  ["# history of timeline 3".toList, "1\t0/1000000\tno recovery target".toList, "   ".toList,
   " \t# second switch".toList, "2\t0/2000000\tno recovery target".toList, []]

/-- The data lines of `exampleCommented` alone. -/
def exampleBare : List (List Char) :=
  ["1\t0/1000000\tno recovery target".toList, "2\t0/2000000\tno recovery target".toList]

/-! ## Protocol frames and segment storage, as the specification speaks of them -/

/-- The big-endian 64-bit integer in the 8 bytes of `buf` from offset `off` on. -/
def bigEndian64 (buf : List Nat) (off : Nat) : Nat :=
  (buf.getD off 0 % 256) * 2 ^ 56 + (buf.getD (off + 1) 0 % 256) * 2 ^ 48 +
  (buf.getD (off + 2) 0 % 256) * 2 ^ 40 + (buf.getD (off + 3) 0 % 256) * 2 ^ 32 +
  (buf.getD (off + 4) 0 % 256) * 2 ^ 24 + (buf.getD (off + 5) 0 % 256) * 2 ^ 16 +
  (buf.getD (off + 6) 0 % 256) * 2 ^ 8 + buf.getD (off + 7) 0 % 256

/-- The byte that segment storage holds for a stream position on a timeline:
the one at offset `pos mod segmentSize` of segment `pos div segmentSize`. -/
def storedAt (st : RcvState) (tli pos : Nat) : Option Nat :=
  st.segments ⟨tli, pos / st.wal_segment_size⟩ (pos % st.wal_segment_size)

/-- A call of `pg_pwrite` that transferred nothing: it returned zero or a
negative value. -/
def Event.failedWrite : Event → Bool
  | .pwrite _ _ _ ret => decide (ret ≤ 0)
  | _ => false

/-- What a step of the receiver leaves alone when it does not write: the
segment files, the values that `pg_pwrite` is going to return, the segment
size and the variables of the open segment file. -/
def StorageUntouched (a b : RcvState) : Prop :=
  b.segments = a.segments ∧ b.pwriteReturns = a.pwriteReturns ∧
  b.wal_segment_size = a.wal_segment_size ∧ b.recvFile = a.recvFile ∧
  b.recvSegNo = a.recvSegNo ∧ b.recvFileTLI = a.recvFileTLI

/-- The trace of `b` is the trace of `a` followed by calls none of which is
a failed write. -/
def QuietlyExtends (a b : RcvState) : Prop :=
  ∃ evs, b.trace = a.trace ++ evs ∧ ∀ e ∈ evs, e.failedWrite = false

/-- What the trace of a call of the write path looks like: after a return
the calls it added hold no failed write; after an error, which is the `PANIC`
for file access, the last call it added is a failed write, the only one. -/
def WriteTraceSpec {α : Type} (st : RcvState) : Outcome α → Prop
  | .ok _ st1 => QuietlyExtends st st1
  | .raised l c st1 =>
    l = .PANIC ∧ c = .FILE_ACCESS ∧
      ∃ evs e, st1.trace = st.trace ++ (evs ++ [e]) ∧ e.failedWrite = true ∧
        ∀ x ∈ evs, x.failedWrite = false

/-- The variables of the open segment file agree with the timeline of the
attempt: no file is open, or the file open is the segment `recvSegNo` of
timeline `tli`. -/
def OpenFileOf (st : RcvState) (tli : Nat) : Prop :=
  st.recvFile = none ∨ st.recvFile = some ⟨tli, st.recvSegNo⟩

/-- What a successful run of the write path from `st` to `st1` has done with
the bytes `data` for the positions from `start` on, on timeline `tli`: they are
in segment storage at their positions, every other byte of storage is as it
was, the segment size is the same, the values that `pg_pwrite` is going to
return are still positive and the open file is still one of the timeline. -/
def StoredRange (st st1 : RcvState) (tli start : Nat) (data : List Nat) : Prop :=
  st1.wal_segment_size = st.wal_segment_size ∧
  (∀ r ∈ st1.pwriteReturns, 0 < r) ∧
  OpenFileOf st1 tli ∧
  (∀ i, i < data.length → storedAt st1 tli (start + i) = data[i]?) ∧
  (∀ (f : SegFile) (o : Nat),
    (∀ i, i < data.length →
      ¬ (f = ⟨tli, (start + i) / st.wal_segment_size⟩ ∧ o = (start + i) % st.wal_segment_size)) →
    st1.segments f o = st.segments f o)

/-- The payloads of `w` messages that follow one another from the position
`pos` on: each has its header of 24 bytes, states the position at which the
one before it ended as its `startPosition`, and the first states `pos`. -/
def Contiguous : Nat → List (List Nat) → Prop
  | _, [] => True
  | pos, p :: ps => 24 ≤ p.length ∧ bigEndian64 p 0 = pos ∧ Contiguous (pos + (p.length - 24)) ps

/-- The WAL bytes that the payloads of `w` messages carry, one after the other. -/
def framesData : List (List Nat) → List Nat
  | [] => []
  | p :: ps => p.drop 24 ++ framesData ps

/-- Two data messages that follow one another from position 40: five bytes,
then seven. -/
def exampleFrames : List (List Nat) :=
  [[0, 0, 0, 0, 0, 0, 0, 40, 0, 0, 0, 0, 0, 0, 0, 64, 0, 0, 0, 0, 0, 0, 0, 7,
    1, 2, 3, 4, 5],
   [0, 0, 0, 0, 0, 0, 0, 45, 0, 0, 0, 0, 0, 0, 0, 64, 0, 0, 0, 0, 0, 0, 0, 8,
    6, 7, 8, 9, 10, 11, 12]]

/-- A state at the start of a streaming attempt, with segments of 16 bytes,
no segment file open and the cursors at position 40. -/
def startState : RcvState :=
  { wal_receiver_status_interval := 10
    wal_receiver_timeout := 60000
    hot_standby_feedback := false
    wal_segment_size := 16
    XLogArchiveMode := .ARCHIVE_MODE_OFF
    update_process_title := false
    recvFile := none
    recvFileTLI := 0
    recvSegNo := 0
    LogstreamResult := { Write := 40, Flush := 40 }
    wakeup := fun _ => 5000000
    reply_message := { data := [], cursor := 0 }
    incoming_message := { data := [], cursor := 0 }
    writePtr := 40
    flushPtr := 40
    primary_has_standby_xmin := false
    walrcv :=
      { walRcvState := .WALRCV_STREAMING
        pid := 4242
        ready_to_display := true
        latch := true
        force_reply := false
        conninfo := []
        slotname := []
        is_temp_slot := false
        sender_host := []
        sender_port := 5432
        receiveStart := 40
        receiveStartTLI := 1
        writtenUpto := 0
        flushedUpto := 40
        latestChunkStart := 40
        receivedTLI := 1
        latestWalEnd := 0
        latestWalEndTime := 0
        lastMsgSendTime := 0
        lastMsgReceiptTime := 0 }
    clock := fun k => 1000 + k
    clockReads := 0
    replayPtr := 40
    hotStandbyActive := false
    replicationHorizons := (0, 0)
    nextFullXid := 100
    allowCascadeReplication := false
    pwriteReturns := []
    segments := fun _ _ => none
    trace := [] }

/-- A keepalive of 17 bytes: end of WAL 64, send time 7, reply requested. -/
def exampleKeepalive : List Nat :=
  [0, 0, 0, 0, 0, 0, 0, 64, 0, 0, 0, 0, 0, 0, 0, 7, 1]

/-- A data message: start position 40, end of WAL 64, send time 7, and the
ten bytes 1 to 10 of WAL. -/
def exampleData : List Nat :=
  [0, 0, 0, 0, 0, 0, 0, 40, 0, 0, 0, 0, 0, 0, 0, 64, 0, 0, 0, 0, 0, 0, 0, 7,
   1, 2, 3, 4, 5, 6, 7, 8, 9, 10]

/-! ## Cursors, barriers and wake-up times, as the specification speaks of them -/

/-- A durability barrier: a call of `issue_xlog_fsync`. -/
def Event.isFsync : Event → Bool
  | .fsync _ _ _ => true
  | _ => false

/-- The trace of `b` is the trace of `a` followed by calls none of which is a
durability barrier. -/
def NoBarrier (a b : RcvState) : Prop :=
  ∃ evs, b.trace = a.trace ++ evs ∧ ∀ e ∈ evs, e.isFsync = false

/-- What a step that neither writes nor flushes leaves alone: the local
cursors and the published `writtenUpto`, `flushedUpto` and `receivedTLI`; and
it issues no barrier. -/
def CursorsKept (a b : RcvState) : Prop :=
  b.LogstreamResult = a.LogstreamResult ∧ b.walrcv.writtenUpto = a.walrcv.writtenUpto ∧
  b.walrcv.flushedUpto = a.walrcv.flushedUpto ∧ b.walrcv.receivedTLI = a.walrcv.receivedTLI ∧
  NoBarrier a b

/-- What a call of `XLogWalRcvFlush` for timeline `tli` does between `a` and
`b` when it issues its barrier: the barrier is the first call added and the
only barrier, the flush cursor is the write cursor, and the published
`flushedUpto` and `receivedTLI` are updated when `flushedUpto` was below the
write cursor, else left alone. -/
def BarrierStep (a b : RcvState) (tli : Nat) : Prop :=
  a.LogstreamResult.Flush < a.LogstreamResult.Write ∧
  b.LogstreamResult.Flush = a.LogstreamResult.Write ∧
  b.walrcv.flushedUpto =
    (if a.walrcv.flushedUpto < a.LogstreamResult.Write then a.LogstreamResult.Write
     else a.walrcv.flushedUpto) ∧
  b.walrcv.receivedTLI =
    (if a.walrcv.flushedUpto < a.LogstreamResult.Write then tli else a.walrcv.receivedTLI) ∧
  ∃ evs, b.trace = a.trace ++ .fsync a.recvFile a.recvSegNo tli :: evs ∧
    ∀ e ∈ evs, e.isFsync = false

/-- A step from `a` to `b` that leaves the write cursor and `writtenUpto`
alone and either issues the barrier of a flush or keeps the flush cursor and
what is published of it. -/
def FlushedOrKept (a b : RcvState) (tli : Nat) : Prop :=
  b.LogstreamResult.Write = a.LogstreamResult.Write ∧
  b.walrcv.writtenUpto = a.walrcv.writtenUpto ∧
  (BarrierStep a b tli ∨
    (b.LogstreamResult.Flush = a.LogstreamResult.Flush ∧
      b.walrcv.flushedUpto = a.walrcv.flushedUpto ∧
      b.walrcv.receivedTLI = a.walrcv.receivedTLI ∧ NoBarrier a b))

/-- Between `a` and `b` the published `flushedUpto` and `receivedTLI` changed
only if a durability barrier was issued: among the calls added to the trace
there is a barrier, or both are as they were. -/
def PublishedOnlyByFlush (a b : RcvState) : Prop :=
  ∃ evs, b.trace = a.trace ++ evs ∧
    ((∃ e ∈ evs, e.isFsync = true) ∨
      (b.walrcv.flushedUpto = a.walrcv.flushedUpto ∧
        b.walrcv.receivedTLI = a.walrcv.receivedTLI))

/-- The local cursors and the published `flushedUpto` are at most `bound`. -/
def CursorsBelow (st : RcvState) (bound : Nat) : Prop :=
  st.LogstreamResult.Flush ≤ bound ∧ st.LogstreamResult.Write ≤ bound ∧
  st.walrcv.flushedUpto ≤ bound

/-- The position at which a call of `XLogWalRcvWrite` for the bytes `buf` at
`recptr` is to leave the write cursor: the end of the bytes, or the cursor as
it is when there are no bytes. -/
def writeEnd (st : RcvState) (buf : List Nat) (recptr : Nat) : Nat :=
  if buf.length = 0 then st.LogstreamResult.Write else recptr + buf.length

/-- The reference definition of the scheduler: the wake-up time of a reason,
from the time `now` (in microseconds), the silence timeout (in milliseconds),
the reporting interval (in seconds) and the feedback flag; `TIMESTAMP_INFINITY`
is "never". -/
def referenceWakeup (reason : WalRcvWakeupReason) (now silenceTimeout reportingInterval : Int)
    (feedback : Bool) : Int :=
  match reason with
  | .WALRCV_WAKEUP_TERMINATE =>
    if silenceTimeout ≤ 0 then TIMESTAMP_INFINITY else now + silenceTimeout * 1000
  | .WALRCV_WAKEUP_PING =>
    if silenceTimeout ≤ 0 then TIMESTAMP_INFINITY else now + silenceTimeout / 2 * 1000
  | .WALRCV_WAKEUP_REPLY =>
    if reportingInterval ≤ 0 then TIMESTAMP_INFINITY else now + reportingInterval * 1000000
  | .WALRCV_WAKEUP_HSFEEDBACK =>
    if reportingInterval ≤ 0 ∨ feedback = false then TIMESTAMP_INFINITY
    else now + reportingInterval * 1000000

/-- The 8 bytes of the big-endian 64-bit integer `v`, the most significant
byte first. -/
def bigEndianBytes (v : Nat) : List Nat :=
  [v / 2 ^ 56 % 256, v / 2 ^ 48 % 256, v / 2 ^ 40 % 256, v / 2 ^ 32 % 256,
   v / 2 ^ 24 % 256, v / 2 ^ 16 % 256, v / 2 ^ 8 % 256, v % 256]

/-- The status reply of the wire format: the tag `r`, the write, flush and
apply positions and the timestamp (as a 64-bit pattern), 8 bytes each, and the
flag byte. -/
def statusReply (write flush apply : Nat) (timestamp : Int) (replyRequested : Bool) : List Nat :=
  'r'.toNat :: (bigEndianBytes write ++ bigEndianBytes flush ++ bigEndianBytes apply ++
    bigEndianBytes (timestamp % 2 ^ 64).toNat ++ [if replyRequested then 1 else 0])

/-- Whether a trace closes a segment file dirty: with `dirty` the files that
hold written bytes that no barrier has covered yet, whether some file is
closed while it is in that list.  A write that transferred bytes makes its
file dirty, a barrier on a file makes it clean. -/
def closedDirty : List Event → List SegFile → Bool
  | [], _ => false
  | .pwrite file _ _ ret :: rest, dirty =>
    closedDirty rest (if 0 < ret then file :: dirty else dirty)
  | .fsync (some file) _ _ :: rest, dirty => closedDirty rest (dirty.filter (fun f => f ≠ file))
  | .close file :: rest, dirty => decide (file ∈ dirty) || closedDirty rest dirty
  | _ :: rest, dirty => closedDirty rest dirty

/-- The segment files that, at the end of a trace, hold written bytes that no
barrier has covered, `dirty` being those at its start: a write that transferred
bytes makes its file one of them, a barrier on a file takes it out. -/
def unflushedFiles : List Event → List SegFile → List SegFile
  | [], dirty => dirty
  | .pwrite file _ _ ret :: rest, dirty =>
    unflushedFiles rest (if 0 < ret then file :: dirty else dirty)
  | .fsync (some file) _ _ :: rest, dirty =>
    unflushedFiles rest (dirty.filter (fun f => f ≠ file))
  | _ :: rest, dirty => unflushedFiles rest dirty

/-- A state at the start of a streaming attempt that was asked to stream from
position 32, the start of the segment (of 16 bytes) in which the replay
position 40 lies: as `startState`, with `receiveStart` at 32. -/
def midSegmentState : RcvState :=
  { startState with walrcv := { startState.walrcv with receiveStart := 32 } }

/-- A state at the start of a later attempt of the same process: as
`midSegmentState`, and `writtenUpto` still holds the position 40 that the
attempt before published. -/
def restartState : RcvState :=
  { midSegmentState with walrcv := { midSegmentState.walrcv with writtenUpto := 40 } }

/-- A state in the middle of an attempt on timeline 2: segment 3 is open, the
write cursor at 50 is past the flush cursor at 40, and shared memory holds a
`flushedUpto` of 100 on timeline 1 from streaming done before. -/
def aheadState : RcvState :=
  { startState with
      recvFile := some ⟨2, 3⟩
      recvFileTLI := 2
      recvSegNo := 3
      LogstreamResult := { Write := 50, Flush := 40 }
      walrcv := { startState.walrcv with writtenUpto := 50, flushedUpto := 100 } }

/-- A state in which the write cursor at 45 is past the position 40 of the
last reply, before the time 5000000 of the next regular reply. -/
def advancedState : RcvState :=
  { startState with LogstreamResult := { Write := 45, Flush := 40 } }

/-- A state in which nothing has arrived since time 0: the wake-up times of
the timeout (60000 ms) and of the ping are those computed at time 0, and the
clock reads 31000000 microseconds and on. -/
def silentState : RcvState :=
  { WalRcvComputeNextWakeup
      (WalRcvComputeNextWakeup startState .WALRCV_WAKEUP_TERMINATE 0) .WALRCV_WAKEUP_PING 0 with
    clock := fun k => 31000000 + k }

/-- A data message that starts at the beginning of the segment of position 40:
start position 32, end of WAL 64, send time 7, and four bytes of WAL. -/
def exampleSegmentStart : List Nat :=
  [119, 0, 0, 0, 0, 0, 0, 0, 32, 0, 0, 0, 0, 0, 0, 0, 64, 0, 0, 0, 0, 0, 0, 0, 7,
   1, 2, 3, 4]

/-! ## Feedback, the life cycle and the status view, as the specification speaks of them -/

/-- The 4 bytes of the big-endian 32-bit integer `v`, the most significant
byte first. -/
def bigEndianBytes4 (v : Nat) : List Nat :=
  [v / 2 ^ 24 % 256, v / 2 ^ 16 % 256, v / 2 ^ 8 % 256, v % 256]

/-- The hot-standby feedback of the wire format: the tag `h`, the timestamp
(as a 64-bit pattern) in 8 bytes, then `xmin`, its epoch, `catalogXmin` and
its epoch in 4 bytes each. -/
def feedbackFrame (timestamp : Int) (xmin xminEpoch catalogXmin catalogXminEpoch : Nat) :
    List Nat :=
  'h'.toNat :: (bigEndianBytes (timestamp % 2 ^ 64).toNat ++ bigEndianBytes4 xmin ++
    bigEndianBytes4 xminEpoch ++ bigEndianBytes4 catalogXmin ++
    bigEndianBytes4 catalogXminEpoch)

/-- The epoch to send with a transaction id `xid`: the epoch of the
next-assigned transaction id (the upper 32 bits of the 64-bit id), one less
modulo 2^32 when the 32-bit next-assigned id (the lower 32 bits) is numerically
less than `xid`. -/
def epochFor (nextFullXid xid : Nat) : Nat :=
  if nextFullXid % 2 ^ 32 < xid then
    (if nextFullXid / 2 ^ 32 % 2 ^ 32 = 0 then 2 ^ 32 - 1 else nextFullXid / 2 ^ 32 % 2 ^ 32 - 1)
  else nextFullXid / 2 ^ 32 % 2 ^ 32

/-- A hot-standby feedback frame sent to the primary: a message whose tag is
`h`. -/
def Event.isFeedback : Event → Bool
  | .send msg => decide (msg.head? = some 'h'.toNat)
  | _ => false

/-- A frame sent to the primary. -/
def Event.isSend : Event → Bool
  | .send _ => true
  | _ => false

/-- The trace of `b` is the trace of `a` followed by calls none of which
sends a feedback frame. -/
def NoFeedback (a b : RcvState) : Prop :=
  ∃ evs, b.trace = a.trace ++ evs ∧ ∀ e ∈ evs, e.isFeedback = false

/-- Feedback is disabled and the primary holds no xmin of this standby. -/
def FeedbackOff (st : RcvState) : Prop :=
  st.hot_standby_feedback = false ∧ st.primary_has_standby_xmin = false

/-- What an operation of the receiver that is neither its start, nor its end,
nor a reload of the configuration, nor the wait for a start position leaves
alone between `a` and `b`: the shared state and process id and the feedback
setting; and, when feedback is off in `a`, it is off in `b` and no feedback
frame was sent. -/
def Steady (a b : RcvState) : Prop :=
  b.walrcv.walRcvState = a.walrcv.walRcvState ∧ b.walrcv.pid = a.walrcv.pid ∧
  b.hot_standby_feedback = a.hot_standby_feedback ∧
  (FeedbackOff a → FeedbackOff b ∧ NoFeedback a b)

/-- Modelled from the spec: what the other processes do to the shared record
(section 4.1; their code, `walreceiverfuncs.c`, is absent from the sources).
They never write the process id, and they change the state only along
`STOPPED → STARTING`, `WAITING → RESTARTING` and to `STOPPING`. -/
def ExternalStep (a b : WalRcvData) : Prop :=
  b.pid = a.pid ∧
  (b.walRcvState = a.walRcvState ∨
    (a.walRcvState = .WALRCV_STOPPED ∧ b.walRcvState = .WALRCV_STARTING) ∨
    (a.walRcvState = .WALRCV_WAITING ∧ b.walRcvState = .WALRCV_RESTARTING) ∨
    b.walRcvState = .WALRCV_STOPPING)

/-- The states that can be observed between the critical sections of a
receiver with process id `pid` once it has started: the state after the
critical section of its start from `WALRCV_STARTING`, and any state reached
from there by a step of another process, by the two critical sections of
`WalRcvWaitForStartPosition`, by `WalRcvDie`, or by an operation that is
`Steady`. -/
inductive Observable (pid : Nat) : RcvState → Prop where
  | started (st st1 : RcvState) (hs : st.walrcv.walRcvState = .WALRCV_STARTING)
      (hr : WalReceiverMain_claim st pid = .running st1) : Observable pid st1
  | external (a b : RcvState) (ha : Observable pid a) (hx : ExternalStep a.walrcv b.walrcv) :
      Observable pid b
  | waitEnter (a : RcvState) (ha : Observable pid a) :
      Observable pid (WalRcvWaitForStartPosition_enter a).state
  | waitPoll (a : RcvState) (ha : Observable pid a) :
      Observable pid (WalRcvWaitForStartPosition_poll a).state
  | died (a : RcvState) (wrconn : Bool) (tli : Nat) (ha : Observable pid a) :
      Observable pid (WalRcvDie a wrconn tli)
  | operation (a b : RcvState) (ha : Observable pid a) (hk : Steady a b) : Observable pid b

/-- The shared state says that a receiver is active. -/
def WalRcvData.active (w : WalRcvData) : Prop :=
  w.walRcvState = .WALRCV_STREAMING ∨ w.walRcvState = .WALRCV_WAITING ∨
  w.walRcvState = .WALRCV_RESTARTING

/-- The number of bytes that the calls of `pg_pwrite` in a trace transferred:
the sum of their positive return values. -/
def transferred : List Event → Nat
  | [] => 0
  | .pwrite _ _ _ ret :: rest => ret.toNat + transferred rest
  | _ :: rest => transferred rest

/-- The trace of `b` is the trace of `a` followed by calls that transferred
no byte to a segment file. -/
def NoTransfer (a b : RcvState) : Prop :=
  ∃ evs, b.trace = a.trace ++ evs ∧ transferred evs = 0

/-- Each entry of the list begins where the one before it ends, the first at
`prev`. -/
def Chained : Nat → List TimeLineHistoryEntry → Prop
  | _, [] => True
  | prev, e :: es => e.begin = prev ∧ Chained e.end es

/-- The switchpoint that a line states, when `sscanf` reads its three fields. -/
def Scanned.switchpoint? : Scanned → Option Nat
  | .three _ hi lo => some ((hi <<< 32) ||| lo)
  | _ => none

/-- The switchpoints that the lines of a buffer state, in order; the lines
that the parser skips state none. -/
def statedSwitchpoints (lines : List (List Char)) : List Nat :=
  lines.filterMap (fun l => if isIgnored l then none else (sscanf l).switchpoint?)

/-- A history file whose first line states the switchpoint `0/0`. -/
def zeroSwitchHistory : List Char :=
  "1\t0/0\n2\t0/5\n".toList

/-- A state at the start of the process: as `startState`, with the shared
record as the startup process leaves it when it asks for a receiver, in the
given state, no process id, not ready to display and no latch. -/
def launchState (state : WalRcvState) : RcvState :=
  { startState with
      walrcv := { startState.walrcv with
                    walRcvState := state
                    pid := 0
                    ready_to_display := false
                    latch := false } }

/-- A state in which feedback has been on and a frame with a valid xmin has
been sent: the standby accepts queries, the horizons are 90 and 95, the next
transaction id is 100 in epoch 3. -/
def feedbackState : RcvState :=
  { startState with
      hot_standby_feedback := true
      primary_has_standby_xmin := true
      hotStandbyActive := true
      replicationHorizons := (90, 95)
      nextFullXid := 3 * 2 ^ 32 + 100 }

/-- A state after a wrap of the transaction ids: the next id is 5 in epoch 3
and the horizons, 4000000000 and 3, lie on either side of it. -/
def wrappedState : RcvState :=
  { feedbackState with
      replicationHorizons := (4000000000, 3)
      nextFullXid := 3 * 2 ^ 32 + 5 }

/-- A shared record of a receiver that streams, with other positions, times
and names than that of `startState`, and the same process id. -/
def otherShared : WalRcvData :=
  { startState.walrcv with
      walRcvState := .WALRCV_WAITING
      conninfo := "host=primary".toList
      slotname := "slot1".toList
      sender_host := "primary".toList
      sender_port := 5433
      receiveStart := 4096
      receiveStartTLI := 7
      writtenUpto := 5000
      flushedUpto := 4800
      receivedTLI := 7
      latestWalEnd := 6000
      latestWalEndTime := 99
      lastMsgSendTime := 98
      lastMsgReceiptTime := 97 }

/-! ## Shared memory, pages and the object database, as the claims speak of them -/

/-- A call of one of the two allocating functions, with the size requested. -/
inductive ShmemCall where
  | raw (size : Nat) : ShmemCall
  | unlocked (size : Nat) : ShmemCall
deriving DecidableEq, Repr

/-- The size that a call requests. -/
def ShmemCall.size : ShmemCall → Nat
  | .raw size => size
  | .unlocked size => size

/-- The call made on a header: the offset returned when the allocation
succeeds, and the header after the call. -/
def ShmemCall.run (hdr : PGShmemHeader) : ShmemCall → Option Nat × PGShmemHeader
  | .raw size => ((ShmemAllocRaw hdr size).1, (ShmemAllocRaw hdr size).2.2)
  | .unlocked size =>
    match ShmemAllocUnlocked hdr size with
    | .ok newSpace hdr1 => (newSpace, hdr1)
    | .raised _ _ hdr1 => (none, hdr1)

/-- The header after a sequence of calls. -/
def headerAfter : PGShmemHeader → List ShmemCall → PGShmemHeader
  | hdr, [] => hdr
  | hdr, c :: cs => headerAfter (c.run hdr).2 cs

/-- The regions that the successful allocations of a sequence of calls
return, in order: for each the offset returned and the size requested. -/
def allocations : PGShmemHeader → List ShmemCall → List (Nat × Nat)
  | _, [] => []
  | hdr, c :: cs =>
    match (c.run hdr).1 with
    | some offset => (offset, c.size) :: allocations (c.run hdr).2 cs
    | none => allocations (c.run hdr).2 cs

/-- Two regions, each an offset and a size, have no byte in common. -/
def Apart (a b : Nat × Nat) : Prop :=
  a.1 + a.2 ≤ b.1 ∨ b.1 + b.2 ≤ a.1

/-- A header of a segment of 1024 bytes of which 256 are allocated. -/
def smallSegment : PGShmemHeader :=
  { totalsize := 1024, freeoffset := 256 }

/-- A page header whose `pd_lower` is one byte past the header. -/
def oddPage : PageHeaderData :=
  { pd_lsn := (0, 0), pd_checksum := 0, pd_flags := 0, pd_lower := 25, pd_upper := 8192,
    pd_special := 8192, pd_pagesize_version := 8196, pd_prune_xid := 0 }

/-- A page header after two items have been added to a page of 8192 bytes. -/
def twoItemPage : PageHeaderData :=
  { oddPage with pd_lower := 32, pd_upper := 8000 }

/-- A working directory without `.dircache`, with `SHA1_FILE_DIRECTORY` set
to the existing directory `/srv/objects`. -/
def sharedSetup : FsState :=
  { sha1_file_directory := some "/srv/objects".toList
    dirs := ["/srv/objects".toList]
    files := []
    refused := []
    stderr := [] }

/-- What a run leaves of the file system it started in: nothing but
directories is there, nowhere is `mkdir` refused, the directories that were
there are there, and `stderr` holds what it held followed by `texts`. -/
def Grown (a b : FsState) (texts : List (List Char)) : Prop :=
  b.files = [] ∧ b.refused = [] ∧ b.sha1_file_directory = a.sha1_file_directory ∧
  (∀ p ∈ a.dirs, p ∈ b.dirs) ∧ b.stderr = a.stderr ++ texts

/-! ## The places of the writes, the wait for a start position, barriers and pings, as the claims speak of them -/

/-- The calls of `pg_pwrite` in a list of calls are those of a run that
writes its bytes from position `p` on, in segments of `segsz` bytes on
timeline `tli`: each call is made on the segment that holds the position
reached, at the offset of the position in it, with at least one byte and no
byte past the end of the segment; the position moves on by what the call
transferred. -/
def WritesAt (segsz tli : Nat) : Nat → List Event → Prop
  | _, [] => True
  | p, .pwrite file offset bytes ret :: rest =>
    file = ⟨tli, p / segsz⟩ ∧ offset = p % segsz ∧ 1 ≤ bytes.length ∧
      offset + bytes.length ≤ segsz ∧ WritesAt segsz tli (p + ret.toNat) rest
  | p, _ :: rest => WritesAt segsz tli p rest

/-- The shared record after the first critical section of
`WalRcvWaitForStartPosition` in the state `WALRCV_STREAMING`: the state is
`WALRCV_WAITING`, the start position is the invalid position and the start
timeline 0; every other field is as it was. -/
def waitingRecord (w : WalRcvData) : WalRcvData :=
  { w with walRcvState := .WALRCV_WAITING
           receiveStart := InvalidXLogRecPtr
           receiveStartTLI := 0 }

/-- The shared record that turn `k` of the loop of
`WalRcvWaitForStartPosition` finds when the turns before it left the function
waiting: what the other processes did before the turns up to `k`, applied in
order to the record `w0` with which the loop started. -/
def observedAt (w0 : WalRcvData) (turns : List WaitTurn) (k : Nat) : WalRcvData :=
  (turns.take (k + 1)).foldl (fun w t => t.others w) w0

/-- Two turns of waiting: nothing happens before the first; before the second
the startup process asks for streaming from position 4096 on timeline 2. -/
def restartTurns : List WaitTurn :=
  [{ shutdownRequested := false, others := fun w => w },
   { shutdownRequested := false
     others := fun w => { w with walRcvState := .WALRCV_RESTARTING
                                 receiveStart := 4096
                                 receiveStartTLI := 2 } }]

/-- A durability barrier issued without an open segment file: a call of
`issue_xlog_fsync` on the descriptor `-1`. -/
def Event.blindFsync : Event → Bool
  | .fsync none _ _ => true
  | _ => false

/-- When no segment file is open, the local flush cursor is not behind the
local write cursor. -/
def Covered (st : RcvState) : Prop :=
  st.recvFile = none → st.LogstreamResult.Write ≤ st.LogstreamResult.Flush

/-- The trace of `b` is the trace of `a` followed by calls none of which is a
barrier without an open segment file. -/
def OpenBarriers (a b : RcvState) : Prop :=
  ∃ evs, b.trace = a.trace ++ evs ∧ ∀ e ∈ evs, e.blindFsync = false

/-- The states that a receiver reaches from `s0` through the start of a
streaming attempt and then through `XLogWalRcvWrite` (returned or failed),
`XLogWalRcvFlush`, `XLogWalRcvClose`, the close at the end of the stream,
`WalRcvDie`, and the start of a further attempt. -/
inductive Streamed (s0 : RcvState) : RcvState → Prop where
  | start : Streamed s0 (WalReceiverMain_startStreaming s0)
  | write (st : RcvState) (buf : List Nat) (recptr tli : Nat) (h : Streamed s0 st) :
      Streamed s0 (XLogWalRcvWrite st buf recptr tli).state
  | flush (st : RcvState) (dying : Bool) (tli : Nat) (h : Streamed s0 st) :
      Streamed s0 (XLogWalRcvFlush st dying tli)
  | close (st : RcvState) (recptr tli : Nat) (h : Streamed s0 st) :
      Streamed s0 (XLogWalRcvClose st recptr tli)
  | endOfStream (st : RcvState) (tli : Nat) (h : Streamed s0 st) :
      Streamed s0 (WalReceiverMain_endOfStream st tli)
  | die (st : RcvState) (wrconn : Bool) (tli : Nat) (h : Streamed s0 st) :
      Streamed s0 (WalRcvDie st wrconn tli)
  | again (st : RcvState) (h : Streamed s0 st) :
      Streamed s0 (WalReceiverMain_startStreaming st)

/-- The timelines for which a list of calls asks the primary for the history
file, in the order of the calls. -/
def fetched : List HistoryEvent → List Nat
  | [] => []
  | .readtimelinehistoryfile tli :: rest => tli :: fetched rest
  | _ :: rest => fetched rest

/-- The timelines `t` with `first <= t <= last`, `t != 1`, whose history file
is not among those that exist, in increasing order. -/
def missingTimelines (existing : List Nat) (first last : Nat) : List Nat :=
  (List.range' first (last + 1 - first)).filter (fun t => decide (t ≠ 1 ∧ t ∉ existing))

/-- A standby that holds the history file of timeline 2 only, with a primary
that hands over, for every timeline, a history file of the expected name. -/
def historyState : HistoryState :=
  { XLogArchiveMode := .ARCHIVE_MODE_OFF
    existing := [2]
    primary := fun t => (TLHistoryFileName t, [])
    trace := [] }

/-- A ping: a status reply, the message of tag `r`, sent with its
`replyRequested` flag, the last byte, set. -/
def Event.isPing : Event → Bool
  | .send msg => decide (msg.head? = some 'r'.toNat ∧ msg.getLast? ≠ some 0)
  | _ => false

/-- What a step leaves alone of the ping: the clock, the PING entry of the
wake-up table; and it sends no ping. -/
def PingKept (a b : RcvState) : Prop :=
  b.clock = a.clock ∧ b.wakeup .WALRCV_WAKEUP_PING = a.wakeup .WALRCV_WAKEUP_PING ∧
  ∃ evs, b.trace = a.trace ++ evs ∧ ∀ e ∈ evs, e.isPing = false

/-- A step of the receiver in which no frame from the primary is processed,
the configuration is not read anew and no streaming attempt is started.  In
the streaming loop of `WalReceiverMain`: the nap is computed (lines 526-534),
the latch is found set (lines 555-571), the time of the nap is over (lines
573-608), with or without the error of the timeout; the other processes write
to the shared record, as the startup process does when it asks for a reply.
When the primary ends the stream: the reply and the flush of lines 513-521,
the close of lines 633-654, `WalRcvWaitForStartPosition`; and `WalRcvDie`. -/
def SilentStep (a b : RcvState) : Prop :=
  b = (WalReceiverMain_nap a).2 ∨ b = WalReceiverMain_latch a ∨
  b = (WalReceiverMain_timeout a).state ∨ (∃ w : WalRcvData, b = { a with walrcv := w }) ∨
  (∃ tli : Nat, b = WalReceiverMain_batchEnd a tli) ∨
  (∃ tli : Nat, b = WalReceiverMain_endOfStream a tli) ∨
  (∃ turns : List WaitTurn, b = (WalRcvWaitForStartPosition a turns).state) ∨
  ∃ (wrconn : Bool) (tli : Nat), b = WalRcvDie a wrconn tli

/-- A stretch of silence: any number of silent steps, one after the other. -/
inductive Silence : RcvState → RcvState → Prop where
  | none (a : RcvState) : Silence a a
  | step (a b c : RcvState) (h : Silence a b) (hs : SilentStep b c) : Silence a c

/-- A state in which nothing has arrived since time 0, as `silentState`, with
a clock that reads times from 31000000 microseconds on and never the time
"never". -/
def pingState : RcvState :=
  { silentState with clock := fun k => 31000000 + ((k % 1000 : Nat) : Int) }

/-- A state in which nothing has arrived since time 0, as `silentState`, with
a clock that reads 31000000 microseconds the first eight times and 62000000,
thirty-one seconds later, from then on. -/
def lateState : RcvState :=
  { silentState with clock := fun k => if k < 8 then 31000000 else 62000000 }

/-! ## Lemmas on lines -/

theorem cstr_eq_self {s : List Char} (h : NUL ∉ s) : cstr s = s := by
  unfold cstr
  rw [List.takeWhile_eq_self_iff]
  intro c hc
  have : c ≠ NUL := fun e => h (e ▸ hc)
  simpa using this

theorem splitLines_ne_nil (s : List Char) : splitLines s ≠ [] := by
  cases s with
  | nil => simp [splitLines]
  | cons c cs =>
    unfold splitLines
    split
    · simp
    · split <;> simp

theorem splitLines_line {l : List Char} (h : '\n' ∉ l) : splitLines l = [l] := by
  induction l with
  | nil => rfl
  | cons c cs ih =>
    have hc : c ≠ '\n' := fun e => h (by simp [e])
    have hcs : '\n' ∉ cs := fun e => h (List.mem_cons_of_mem _ e)
    simp [splitLines, hc, ih hcs]

theorem splitLines_append_newline {l : List Char} (h : '\n' ∉ l) (s : List Char) :
    splitLines (l ++ '\n' :: s) = l :: splitLines s := by
  induction l with
  | nil => simp [splitLines]
  | cons c cs ih =>
    have hc : c ≠ '\n' := fun e => h (by simp [e])
    have hcs : '\n' ∉ cs := fun e => h (List.mem_cons_of_mem _ e)
    simp [splitLines, hc, ih hcs]

theorem splitLines_joinLines {ls : List (List Char)} (hne : ls ≠ [])
    (h : ∀ l ∈ ls, '\n' ∉ l) : splitLines (joinLines ls) = ls := by
  induction ls with
  | nil => exact absurd rfl hne
  | cons l rest ih =>
    cases rest with
    | nil => simpa [joinLines] using splitLines_line (h l (by simp))
    | cons l2 ls =>
      rw [joinLines, splitLines_append_newline (h l (by simp)),
        ih (by simp) (fun x hx => h x (List.mem_cons_of_mem _ hx))]

theorem joinLines_no_NUL {ls : List (List Char)} (h : ∀ l ∈ ls, NUL ∉ l) :
    NUL ∉ joinLines ls := by
  induction ls with
  | nil => simp [joinLines]
  | cons l rest ih =>
    cases rest with
    | nil => simpa [joinLines] using h l (by simp)
    | cons l2 ls =>
      have h1 := h l (by simp)
      have h2 := ih (fun x hx => h x (List.mem_cons_of_mem _ hx))
      have h3 : NUL ≠ '\n' := by decide
      simp only [joinLines, List.mem_append, List.mem_cons, not_or]
      exact ⟨h1, h3, h2⟩

/-- The lines the parser visits in a file built from lines. -/
theorem lines_of_joinLines {ls : List (List Char)} (hne : ls ≠ [])
    (h : ∀ l ∈ ls, IsLine l) : splitLines (cstr (joinLines ls)) = ls := by
  rw [cstr_eq_self (joinLines_no_NUL (fun l hl => (h l hl).2)),
    splitLines_joinLines hne (fun l hl => (h l hl).1)]

/-! ## Lemmas on the loop -/

theorem skipSpace_append_of_space {ws : List Char} (h : ∀ c ∈ ws, isspace c = true)
    (s : List Char) : skipSpace (ws ++ s) = skipSpace s := by
  induction ws with
  | nil => rfl
  | cons c cs ih =>
    have hc := h c (by simp)
    simp only [skipSpace, List.cons_append, List.dropWhile_cons, hc, if_true] at ih ⊢
    exact ih (fun x hx => h x (List.mem_cons_of_mem _ hx))

theorem isIgnored_of_ignorable {l : List Char} (h : Ignorable l) : isIgnored l = true := by
  rcases h with h | ⟨ws, rest, rfl, hws⟩
  · have := skipSpace_append_of_space h []
    simp only [List.append_nil] at this
    rw [isIgnored, this]
    rfl
  · rw [isIgnored, skipSpace_append_of_space hws]
    have : isspace '#' = false := by decide
    simp [skipSpace, List.dropWhile_cons, this]

theorem parseLine_ignored {l : List Char} (h : isIgnored l = true) (st : ParseState) :
    parseLine st l = .ok st := by
  simp [parseLine, h]

theorem parseLines_ignorableEdit {a b : List (List Char)} (h : IgnorableEdit a b)
    (st : ParseState) : parseLines a st = parseLines b st := by
  induction h generalizing st with
  | nil => rfl
  | keep l _ ih =>
    simp only [parseLines]
    cases parseLine st l with
    | error e => rfl
    | ok st1 => exact ih st1
  | insert l hl _ ih =>
    simp only [parseLines, parseLine_ignored (isIgnored_of_ignorable hl)]
    exact ih st
  | delete l hl _ ih =>
    simp only [parseLines, parseLine_ignored (isIgnored_of_ignorable hl)]
    exact ih st

theorem parseLines_nil_line (st : ParseState) : parseLines [[]] st = .ok st := by
  simp [parseLines, parseLine, isIgnored, skipSpace]

/-- The lines visited in the file of `ls`, also when `ls` is empty. -/
theorem parseLines_of_joinLines {ls : List (List Char)} (h : ∀ l ∈ ls, IsLine l)
    (st : ParseState) :
    parseLines (splitLines (cstr (joinLines ls))) st = parseLines ls st := by
  cases ls with
  | nil => exact parseLines_nil_line st
  | cons l rest => rw [lines_of_joinLines (by simp) h]

theorem parseLines_append (a b : List (List Char)) (st : ParseState) :
    parseLines (a ++ b) st =
      (match parseLines a st with
       | .error e => .error e
       | .ok st1 => parseLines b st1) := by
  induction a generalizing st with
  | nil => rfl
  | cons l rest ih =>
    simp only [List.cons_append, parseLines]
    cases parseLine st l with
    | error e => rfl
    | ok st1 => exact ih st1

theorem parseLines_all_ignored {ls : List (List Char)} (h : ∀ l ∈ ls, isIgnored l = true)
    (st : ParseState) : parseLines ls st = .ok st := by
  induction ls with
  | nil => rfl
  | cons l rest ih =>
    simp only [parseLines, parseLine_ignored (h l (by simp))]
    exact ih (fun x hx => h x (List.mem_cons_of_mem _ hx))

/-- A line that is read leaves its timeline id in `lasttli` and an entry in `entries`. -/
theorem parseLine_ok_data {st st1 : ParseState} {l : List Char} (hl : isIgnored l = false)
    (h : parseLine st l = .ok st1) :
    ∃ tli hi lo, sscanf l = .three tli hi lo ∧ st1.lasttli = tli ∧ st1.entries ≠ [] ∧
      (st.entries ≠ [] → st.lasttli < tli) ∧
      st1 = { entries := st.entries ++ [{ tli := tli, begin := st.prevend,
                                          «end» := (hi <<< 32) ||| lo }],
              lasttli := tli, prevend := (hi <<< 32) ||| lo } := by
  simp only [parseLine, hl, Bool.false_eq_true, if_false] at h
  cases hs : sscanf l with
  | three tli hi lo =>
    simp only [hs] at h
    split at h
    · exact absurd h (by simp)
    · rename_i hc
      refine ⟨tli, hi, lo, rfl, ?_, ?_, ?_, ?_⟩
      · cases h; rfl
      · cases h; simp
      · intro hne
        by_contra hlt
        exact hc ⟨hne, Nat.le_of_not_lt hlt⟩
      · cases h; rfl
  | eof => simp [hs] at h
  | zero => simp [hs] at h
  | one t => simp [hs] at h
  | two t hi => simp [hs] at h

/-- Once an entry exists, `lasttli` only grows and `entries` stays non-empty. -/
theorem parseLines_ok_mono {ls : List (List Char)} {st st1 : ParseState}
    (h : parseLines ls st = .ok st1) (hne : st.entries ≠ []) :
    st1.entries ≠ [] ∧ st.lasttli ≤ st1.lasttli := by
  induction ls generalizing st with
  | nil => cases h; exact ⟨hne, le_refl _⟩
  | cons l rest ih =>
    simp only [parseLines] at h
    cases hp : parseLine st l with
    | error e => simp [hp] at h
    | ok st2 =>
      simp only [hp] at h
      cases hl : isIgnored l with
      | true =>
        rw [parseLine_ignored hl] at hp
        cases hp
        exact ih h hne
      | false =>
        obtain ⟨tli, hi, lo, _, h1, h2, h3, _⟩ := parseLine_ok_data hl hp
        obtain ⟨h4, h5⟩ := ih h h2
        have h6 := h3 hne
        exact ⟨h4, by omega⟩

/-- After a successful loop every timeline id read is at most `lasttli`. -/
theorem parseLines_ok_bound {ls : List (List Char)} {st st1 : ParseState}
    (h : parseLines ls st = .ok st1) {l : List Char} (hmem : l ∈ ls)
    (hl : isIgnored l = false) {t : Nat} (ht : (sscanf l).tli? = some t) :
    st1.entries ≠ [] ∧ t ≤ st1.lasttli := by
  induction ls generalizing st with
  | nil => cases hmem
  | cons l2 rest ih =>
    simp only [parseLines] at h
    cases hp : parseLine st l2 with
    | error e => simp [hp] at h
    | ok st2 =>
      simp only [hp] at h
      rcases List.mem_cons.mp hmem with rfl | hrest
      · obtain ⟨tli, hi, lo, hs, h1, h2, _, _⟩ := parseLine_ok_data hl hp
        rw [hs] at ht
        simp only [Scanned.tli?, Option.some.injEq] at ht
        obtain ⟨h3, h4⟩ := parseLines_ok_mono h h2
        exact ⟨h3, by omega⟩
      · exact ih h hrest

/-- A line that is not ignored and from which `sscanf` does not read three
fields ends the loop in an error, unless an earlier line did. -/
theorem parseLines_error_of_bad_line {ls : List (List Char)} {l : List Char} (hmem : l ∈ ls)
    (hl : isIgnored l = false) (hbad : (sscanf l).nfields ≠ 3) (st : ParseState) :
    ∃ e, parseLines ls st = .error e := by
  induction ls generalizing st with
  | nil => cases hmem
  | cons l2 rest ih =>
    simp only [parseLines]
    cases hp : parseLine st l2 with
    | error e => exact ⟨e, rfl⟩
    | ok st2 =>
      rcases List.mem_cons.mp hmem with rfl | hrest
      · obtain ⟨tli, hi, lo, hs, _⟩ := parseLine_ok_data hl hp
        rw [hs] at hbad
        exact absurd rfl hbad
      · exact ih hrest st2

theorem parse_error_of_loop_error {buffer : List Char} {e : ParseError}
    (h : parseLines (splitLines (cstr buffer))
      { entries := [], lasttli := 0, prevend := InvalidXLogRecPtr } = .error e)
    (targetTLI : Nat) : rewind_parseTimeLineHistory buffer targetTLI = .error e := by
  simp [rewind_parseTimeLineHistory, h]

/-! ## Lemmas on `sscanf` -/

theorem digitIn_of_isDecDigit {c : Char} (h : isDecDigit c = true) (base : Nat) :
    digitIn base c = some (digitValue c) := by
  simp only [isDecDigit, Bool.and_eq_true, decide_eq_true_eq] at h
  simp [digitIn, digitValue, h.1, h.2]

theorem digitIn_of_isHexDigit {c : Char} (h : isHexDigit c = true) :
    digitIn 16 c = some (digitValue c) := by
  simp only [isHexDigit, isDecDigit, Bool.or_eq_true, Bool.and_eq_true, decide_eq_true_eq] at h
  unfold digitIn digitValue
  simp only [true_and]
  rcases h with (h | h) | h
  · simp [h.1, h.2]
  · have h1 : ¬ c.toNat ≤ 57 := by omega
    have h2 : ¬ (97 ≤ c.toNat ∧ c.toNat ≤ 102) := by omega
    simp [h1, h2, h.1, h.2]
  · have h1 : ¬ c.toNat ≤ 57 := by omega
    have h2 : ¬ c.toNat ≤ 70 := by omega
    simp [h1, h2, h.1, h.2]

theorem digitIn_eq_none_of_not_hex {c : Char} (h : isHexDigit c = false) (base : Nat) :
    digitIn base c = none := by
  simp only [isHexDigit, isDecDigit, Bool.or_eq_false_iff, Bool.and_eq_false_iff,
    decide_eq_false_iff_not] at h
  unfold digitIn
  obtain ⟨⟨h1, h2⟩, h3⟩ := h
  have a1 : ¬ (48 ≤ c.toNat ∧ c.toNat ≤ 57) := by omega
  have a2 : ¬ (base = 16 ∧ 97 ≤ c.toNat ∧ c.toNat ≤ 102) := by omega
  have a3 : ¬ (base = 16 ∧ 65 ≤ c.toNat ∧ c.toNat ≤ 70) := by omega
  simp [a1, a2, a3]

/-- The digits of a numeral are read up to the first character that is not a digit. -/
theorem spanDigits_numeral (base : Nat) (ds tail : List Char)
    (hds : ∀ c ∈ ds, digitIn base c = some (digitValue c))
    (htail : ∀ c, tail.head? = some c → digitIn base c = none) :
    spanDigits base (ds ++ tail) = (ds.map digitValue, tail) := by
  induction ds with
  | nil =>
    cases tail with
    | nil => rfl
    | cons c cs => simp [spanDigits, htail c rfl]
  | cons c cs ih =>
    have ih2 := ih (fun x hx => hds x (List.mem_cons_of_mem _ hx))
    simp [spanDigits, hds c (by simp), ih2]

theorem digitsVal_map_digitValue (base : Nat) (ds : List Char) :
    digitsVal base (ds.map digitValue) = numeral base ds := by
  simp [digitsVal, numeral, List.foldl_map]

theorem isspace_of_isHexDigit {c : Char} (h : isHexDigit c = true) : isspace c = false := by
  simp only [isHexDigit, isDecDigit, Bool.or_eq_true, Bool.and_eq_true, decide_eq_true_eq] at h
  simp only [isspace, Bool.or_eq_false_iff, Bool.and_eq_false_iff, beq_eq_false_iff_ne,
    decide_eq_false_iff_not]
  omega

theorem ne_of_not_isHexDigit {c x : Char} (h : isHexDigit c = true)
    (hx : isHexDigit x = false) : c ≠ x := by
  intro e
  rw [e, hx] at h
  exact absurd h (by simp)

theorem isHexDigit_of_isDecDigit {c : Char} (h : isDecDigit c = true) :
    isHexDigit c = true := by
  simp [isHexDigit, h]

theorem skipSpace_cons_of_not_space {c : Char} (h : isspace c = false) (s : List Char) :
    skipSpace (c :: s) = c :: s := by
  simp [skipSpace, List.dropWhile_cons, h]

/-- A conversion reads the digits that stand at the head of the input. -/
theorem scanUnsigned_digits (base : Nat) (ds tail : List Char) (hne : ds ≠ [])
    (hhex : ∀ c ∈ ds, isHexDigit c = true)
    (hds : ∀ c ∈ ds, digitIn base c = some (digitValue c))
    (htail : ∀ c, tail.head? = some c → digitIn base c = none ∧ c ≠ 'x' ∧ c ≠ 'X') :
    scanUnsigned base (ds ++ tail) = .ok (strtoul false (numeral base ds) % 2 ^ 32) tail := by
  cases ds with
  | nil => exact absurd rfl hne
  | cons d ds1 =>
    have hd := hhex d (by simp)
    have hsp := isspace_of_isHexDigit hd
    have hminus : d ≠ '-' := ne_of_not_isHexDigit hd (by decide)
    have hplus : d ≠ '+' := ne_of_not_isHexDigit hd (by decide)
    have hsign : scanSign (d :: (ds1 ++ tail)) = (false, d :: (ds1 ++ tail)) := by
      simp [scanSign, hminus, hplus]
    have hpre : scanHexPrefix base (d :: (ds1 ++ tail)) = ([], d :: (ds1 ++ tail)) := by
      cases hr : ds1 ++ tail with
      | nil => rfl
      | cons x r =>
        have hx : x ≠ 'x' ∧ x ≠ 'X' := by
          cases ds1 with
          | nil =>
            simp only [List.nil_append] at hr
            have := htail x (by simp [hr])
            exact this.2
          | cons y ys =>
            simp only [List.cons_append, List.cons.injEq] at hr
            have hy := hhex y (by simp)
            rw [hr.1] at hy
            exact ⟨ne_of_not_isHexDigit hy (by decide), ne_of_not_isHexDigit hy (by decide)⟩
        simp [scanHexPrefix, hx.1, hx.2]
    have hspan := spanDigits_numeral base (d :: ds1) tail hds (fun c hc => (htail c hc).1)
    simp only [List.cons_append] at hspan ⊢
    simp only [scanUnsigned, skipSpace_cons_of_not_space hsp, hsign, hpre, hspan,
      List.nil_append, digitsVal_map_digitValue]
    simp

/-- A conversion reads a numeral that stands at the head of the input, when
its value fits in 32 bits. -/
theorem scanUnsigned_numeral (base : Nat) (ds tail : List Char) (hne : ds ≠ [])
    (hhex : ∀ c ∈ ds, isHexDigit c = true)
    (hds : ∀ c ∈ ds, digitIn base c = some (digitValue c))
    (htail : ∀ c, tail.head? = some c → digitIn base c = none ∧ c ≠ 'x' ∧ c ≠ 'X')
    (hval : numeral base ds < 2 ^ 32) :
    scanUnsigned base (ds ++ tail) = .ok (numeral base ds) tail := by
  have hv : strtoul false (numeral base ds) % 2 ^ 32 = numeral base ds := by
    have h64 : ¬ 2 ^ 64 ≤ numeral base ds := by
      have : (2 : Nat) ^ 32 < 2 ^ 64 := by norm_num
      omega
    simp only [strtoul, h64, if_false]
    exact Nat.mod_eq_of_lt hval
  rw [scanUnsigned_digits base ds tail hne hhex hds htail, hv]

theorem skipSpace_of_all_space {ws : List Char} (h : ∀ c ∈ ws, isspace c = true) :
    skipSpace ws = [] := by
  have := skipSpace_append_of_space h []
  simpa [skipSpace] using this

/-- From a line that holds a decimal number and nothing else but white space
after it, `sscanf` reads one field. -/
theorem sscanf_only_tli (ds ws : List Char) (hne : ds ≠ [])
    (hdec : ∀ c ∈ ds, isDecDigit c = true) (hws : ∀ c ∈ ws, isspace c = true) :
    (sscanf (ds ++ ws)).nfields = 1 ∧ isIgnored (ds ++ ws) = false := by
  have hsp : ∀ c, isspace c = true → digitIn 10 c = none ∧ c ≠ 'x' ∧ c ≠ 'X' := by
    intro c hc
    have hx : isHexDigit c = false := by
      cases hh : isHexDigit c with
      | false => rfl
      | true => rw [isspace_of_isHexDigit hh] at hc; exact absurd hc (by simp)
    refine ⟨digitIn_eq_none_of_not_hex hx 10, ?_, ?_⟩
    · rintro rfl
      exact absurd hc (by decide)
    · rintro rfl
      exact absurd hc (by decide)
  have e1 := scanUnsigned_digits 10 ds ws hne
    (fun c hc => isHexDigit_of_isDecDigit (hdec c hc))
    (fun c hc => digitIn_of_isDecDigit (hdec c hc) 10)
    (fun c hc => hsp c (hws c (List.mem_of_mem_head? hc)))
  constructor
  · simp only [sscanf, e1, skipSpace_of_all_space hws]
    rfl
  · cases hd : ds with
    | nil => exact absurd hd hne
    | cons x xs =>
      have hx := hdec x (by simp [hd])
      have hs := isspace_of_isHexDigit (isHexDigit_of_isDecDigit hx)
      have hne2 : x ≠ '#' := ne_of_not_isHexDigit (isHexDigit_of_isDecDigit hx) (by decide)
      simp [isIgnored, skipSpace_cons_of_not_space hs, hne2]

/-- From a line whose first character after the white space is neither a
digit nor a sign, `sscanf` reads no field. -/
theorem sscanf_not_number (ws rest : List Char) (c : Char)
    (hws : ∀ x ∈ ws, isspace x = true) (hc : isspace c = false)
    (hdig : isDecDigit c = false) (hplus : c ≠ '+') (hminus : c ≠ '-') :
    (sscanf (ws ++ c :: rest)).nfields = 0 := by
  have hd : digitIn 10 c = none := by
    simp only [isDecDigit, Bool.and_eq_false_iff, decide_eq_false_iff_not] at hdig
    unfold digitIn
    have a1 : ¬ (48 ≤ c.toNat ∧ c.toNat ≤ 57) := by omega
    simp [a1]
  have e : scanUnsigned 10 (ws ++ c :: rest) = .matchFailure := by
    simp only [scanUnsigned, skipSpace_append_of_space hws, skipSpace_cons_of_not_space hc]
    have hp : scanHexPrefix 10 (c :: rest) = ([], c :: rest) := by
      cases rest <;> simp [scanHexPrefix]
    simp [scanSign, hplus, hminus, hp, spanDigits, hd]
  simp only [sscanf, e]
  rfl

/-- On a well-formed data line `sscanf` reads the three numbers that the line states. -/
theorem sscanf_wellFormed {d : DataLine} (h : d.WellFormed) :
    sscanf d.text = .three (numeral 10 d.tli) (numeral 16 d.hi) (numeral 16 d.lo) := by
  obtain ⟨⟨t1, t2, t3⟩, ⟨h1, h2, h3⟩, ⟨l1, l2, l3⟩, hrest, _⟩ := h
  have e1 : scanUnsigned 10 d.text =
      .ok (numeral 10 d.tli) ('\t' :: (d.hi ++ '/' :: (d.lo ++ d.rest))) := by
    apply scanUnsigned_numeral 10 d.tli _ t1
      (fun c hc => isHexDigit_of_isDecDigit (t2 c hc))
      (fun c hc => digitIn_of_isDecDigit (t2 c hc) 10) _ t3
    intro c hc
    simp only [List.head?_cons, Option.some.injEq] at hc
    subst hc
    exact ⟨by decide, by decide, by decide⟩
  have e2 : scanUnsigned 16 (skipSpace ('\t' :: (d.hi ++ '/' :: (d.lo ++ d.rest)))) =
      .ok (numeral 16 d.hi) ('/' :: (d.lo ++ d.rest)) := by
    have hs : skipSpace ('\t' :: (d.hi ++ '/' :: (d.lo ++ d.rest))) =
        skipSpace (d.hi ++ '/' :: (d.lo ++ d.rest)) :=
      @skipSpace_append_of_space ['\t'] (by simp; decide) _
    cases hhi : d.hi with
    | nil => exact absurd hhi h1
    | cons x xs =>
      rw [hhi] at h1 h2 h3 hs
      rw [hs, List.cons_append,
        skipSpace_cons_of_not_space (isspace_of_isHexDigit (h2 x (by simp))), ← List.cons_append]
      apply scanUnsigned_numeral 16 (x :: xs) _ h1 h2
        (fun c hc => digitIn_of_isHexDigit (h2 c hc)) _ h3
      intro c hc
      simp only [List.head?_cons, Option.some.injEq] at hc
      subst hc
      exact ⟨by decide, by decide, by decide⟩
  have e3 : scanUnsigned 16 (d.lo ++ d.rest) = .ok (numeral 16 d.lo) d.rest := by
    apply scanUnsigned_numeral 16 d.lo _ l1 l2
      (fun c hc => digitIn_of_isHexDigit (l2 c hc)) _ l3
    intro c hc
    obtain ⟨a, b, c2⟩ := hrest c hc
    exact ⟨digitIn_eq_none_of_not_hex a 16, b, c2⟩
  simp only [sscanf, DataLine.text] at e1 ⊢
  rw [e1]
  simp only [e2, e3]

theorem isIgnored_wellFormed {d : DataLine} (h : d.WellFormed) : isIgnored d.text = false := by
  obtain ⟨⟨t1, t2, _⟩, _⟩ := h
  cases ht : d.tli with
  | nil => exact absurd ht t1
  | cons x xs =>
    have hx := t2 x (by simp [ht])
    have hsp := isspace_of_isHexDigit (isHexDigit_of_isDecDigit hx)
    have hne : x ≠ '#' := ne_of_not_isHexDigit (isHexDigit_of_isDecDigit hx) (by decide)
    simp [isIgnored, DataLine.text, ht, skipSpace_cons_of_not_space hsp, hne]

theorem isLine_wellFormed {d : DataLine} (h : d.WellFormed) : IsLine d.text := by
  obtain ⟨⟨_, t2, _⟩, ⟨_, h2, _⟩, ⟨_, l2, _⟩, _, r1, r2⟩ := h
  have key : ∀ x : Char, isHexDigit x = false → x ≠ '\t' → x ≠ '/' → x ∉ d.rest →
      x ∉ d.text := by
    intro x hx ht hs hr
    simp only [DataLine.text, List.mem_append, List.mem_cons, not_or]
    refine ⟨fun hm => ?_, ht, fun hm => ?_, hs, fun hm => ?_, hr⟩
    · exact ne_of_not_isHexDigit (isHexDigit_of_isDecDigit (t2 x hm)) hx rfl
    · exact ne_of_not_isHexDigit (h2 x hm) hx rfl
    · exact ne_of_not_isHexDigit (l2 x hm) hx rfl
  exact ⟨key _ (by decide) (by decide) (by decide) r1,
    key _ (by decide) (by decide) (by decide) r2⟩

theorem isLine_historyLine {h : HistoryLine} (hw : h.WellFormed) : IsLine h.text := by
  cases h with
  | data d => exact isLine_wellFormed hw
  | ignored t => exact hw.2

/-- The loop on the lines of a well-formed file. -/
theorem parseLines_wellFormed (file : List HistoryLine) (st : ParseState)
    (hwf : ∀ h ∈ file, h.WellFormed)
    (hinc : ((dataLines file).map DataLine.tliValue).Pairwise (· < ·))
    (hst : st.entries ≠ [] → ∀ d ∈ dataLines file, st.lasttli < d.tliValue) :
    parseLines (file.map HistoryLine.text) st = .ok
      { entries := st.entries ++ entriesOf st.prevend (dataLines file)
        lasttli := lastTli st.lasttli (dataLines file)
        prevend := lastEnd st.prevend (dataLines file) } := by
  induction file generalizing st with
  | nil => simp [parseLines, dataLines, entriesOf, lastTli, lastEnd]
  | cons h rest ih =>
    have hrest : ∀ x ∈ rest, x.WellFormed := fun x hx => hwf x (List.mem_cons_of_mem _ hx)
    cases h with
    | ignored t =>
      have hw := hwf (.ignored t) (by simp)
      simp only [List.map_cons, HistoryLine.text, parseLines,
        parseLine_ignored (isIgnored_of_ignorable hw.1), dataLines] at hinc hst ⊢
      exact ih st hrest hinc hst
    | data d =>
      have hw : d.WellFormed := hwf (.data d) (by simp)
      simp only [dataLines, List.map_cons, List.pairwise_cons, List.mem_map,
        forall_exists_index, and_imp, forall_apply_eq_imp_iff₂] at hinc
      have hcond : ¬ (st.entries ≠ [] ∧ d.tliValue ≤ st.lasttli) := by
        rintro ⟨a, b⟩
        have := hst a d (by simp [dataLines])
        omega
      have hline : parseLine st d.text = .ok
          { entries := st.entries ++ [{ tli := d.tliValue, begin := st.prevend,
                                        «end» := d.switchpoint }]
            lasttli := d.tliValue
            prevend := d.switchpoint } := by
        simp only [parseLine, isIgnored_wellFormed hw, sscanf_wellFormed hw]
        simp only [DataLine.tliValue] at hcond
        simp [hcond, DataLine.tliValue, DataLine.switchpoint]
      simp only [List.map_cons, HistoryLine.text, parseLines, hline, dataLines]
      rw [ih _ hrest hinc.2 (fun _ x hx => hinc.1 x hx)]
      simp [entriesOf, lastTli, lastEnd]

theorem entriesOf_length (prev : Nat) (ds : List DataLine) :
    (entriesOf prev ds).length = ds.length := by
  induction ds generalizing prev with
  | nil => rfl
  | cons d r ih => simp [entriesOf, ih]

theorem entriesOf_getElem? (prev : Nat) (ds : List DataLine) (i : Nat) (d : DataLine)
    (h : ds[i]? = some d) :
    (entriesOf prev ds)[i]? = some
      { tli := d.tliValue
        begin := (match i with
          | 0 => prev
          | j + 1 => prevEnd ds (j + 1))
        «end» := d.switchpoint } := by
  induction ds generalizing prev i with
  | nil => simp at h
  | cons d0 r ih =>
    cases i with
    | zero =>
      simp only [List.getElem?_cons_zero, Option.some.injEq] at h
      subst h
      simp [entriesOf]
    | succ j =>
      simp only [List.getElem?_cons_succ] at h
      simp only [entriesOf, List.getElem?_cons_succ, ih d0.switchpoint j h]
      cases j with
      | zero => simp [prevEnd]
      | succ k => simp [prevEnd]

theorem lastEnd_eq_prevEnd (prev : Nat) (ds : List DataLine) :
    lastEnd prev ds =
      (match ds.length with
       | 0 => prev
       | j + 1 => prevEnd ds (j + 1)) := by
  induction ds generalizing prev with
  | nil => rfl
  | cons d r ih =>
    simp only [lastEnd, ih d.switchpoint, List.length_cons]
    cases r with
    | nil => simp [prevEnd]
    | cons d2 r2 => simp [prevEnd]

theorem lastTli_mem (prev : Nat) (ds : List DataLine) (hne : ds ≠ []) :
    ∃ d ∈ ds, lastTli prev ds = d.tliValue := by
  induction ds generalizing prev with
  | nil => exact absurd rfl hne
  | cons d r ih =>
    cases r with
    | nil => exact ⟨d, by simp, rfl⟩
    | cons d2 r2 =>
      obtain ⟨x, hx, e⟩ := ih d.tliValue (by simp)
      exact ⟨x, List.mem_cons_of_mem _ hx, by simpa [lastTli] using e⟩

theorem ignorable_of_isIgnored {l : List Char} (h : isIgnored l = true) : Ignorable l := by
  unfold isIgnored skipSpace at h
  cases hd : l.dropWhile isspace with
  | nil =>
    left
    exact List.dropWhile_eq_nil_iff.mp hd
  | cons c r =>
    right
    rw [hd] at h
    simp only [decide_eq_true_eq] at h
    refine ⟨l.takeWhile isspace, r, ?_, fun x hx => (List.mem_takeWhile_imp hx)⟩
    rw [← h, ← hd, List.takeWhile_append_dropWhile]

theorem isIgnored_eq_false {l : List Char} (h : ¬ Ignorable l) : isIgnored l = false := by
  cases hi : isIgnored l with
  | false => rfl
  | true => exact absurd (ignorable_of_isIgnored hi) h

/-- A prefix `0x` that no hexadecimal digit follows is read as the number 0
and the input goes on after it: from the line `1\t0x/5` `sscanf` reads the three
fields 1, 0 and 5, and the parse of a file of that line returns its entries;
from `1\t0xg/5` it reads two fields, the `g` not being the `/` of the format. -/
theorem parse_reads_bare_hex_prefix :
    sscanf ("1\t0x/5".toList) = .three 1 0 5 ∧
    rewind_parseTimeLineHistory ("1\t0x/5\n".toList) 3 = .ok
      [{ tli := 1, begin := InvalidXLogRecPtr, «end» := 5 },
       { tli := 3, begin := 5, «end» := InvalidXLogRecPtr }] ∧
    sscanf ("1\t0xg/5".toList) = .two 1 0 :=
  ⟨by rfl, by rfl, by rfl⟩

/-! ## The claims on `rewind_parseTimeLineHistory` -/

/-- C1: for every well-formed history file whose data lines state strictly
increasing timeline ids, all below the target, `rewind_parseTimeLineHistory`
returns one entry per data line and one more: entry `i` has the timeline id and
the switchpoint `(highHex << 32) | lowHex` of data line `i` as `tli` and `end`,
and the `end` of the entry before it as `begin` (the invalid position for the
first); the last entry is the target, beginning at the end of the entry before
it, with the invalid position as `end`.  The file `1\t0/1000000\n2\t0/2000000\n`
with target 3 gives the three entries of the specification. -/
theorem parse_wellFormed_history (file : List HistoryLine) (targetTLI : Nat)
    (hwf : ∀ h ∈ file, h.WellFormed)
    (hinc : ((dataLines file).map DataLine.tliValue).Pairwise (· < ·))
    (hlt : ∀ d ∈ dataLines file, d.tliValue < targetTLI) :
    (∃ es, rewind_parseTimeLineHistory (joinLines (file.map HistoryLine.text)) targetTLI
          = .ok es ∧
        es.length = (dataLines file).length + 1 ∧
        (∀ (i : Nat) (d : DataLine), (dataLines file)[i]? = some d →
          es[i]? = some ⟨d.tliValue, prevEnd (dataLines file) i, d.switchpoint⟩) ∧
        es[(dataLines file).length]? = some
          ⟨targetTLI, prevEnd (dataLines file) (dataLines file).length, InvalidXLogRecPtr⟩) ∧
    rewind_parseTimeLineHistory ("1\t0/1000000\n2\t0/2000000\n".toList) 3 = .ok
      [{ tli := 1, begin := InvalidXLogRecPtr, «end» := 0x1000000 },
       { tli := 2, begin := 0x1000000, «end» := 0x2000000 },
       { tli := 3, begin := 0x2000000, «end» := InvalidXLogRecPtr }] := by
  refine ⟨?_, by rfl⟩
  have hlines : ∀ l ∈ file.map HistoryLine.text, IsLine l := by
    intro l hl
    obtain ⟨h, hh, rfl⟩ := List.mem_map.mp hl
    exact isLine_historyLine (hwf h hh)
  have hloop := parseLines_wellFormed file
    { entries := [], lasttli := 0, prevend := InvalidXLogRecPtr } hwf hinc
    (fun hne => absurd rfl hne)
  have hcond : ¬ (entriesOf InvalidXLogRecPtr (dataLines file) ≠ [] ∧
      targetTLI ≤ lastTli 0 (dataLines file)) := by
    rintro ⟨a, b⟩
    have hne : dataLines file ≠ [] := by
      intro e
      rw [e] at a
      exact a rfl
    obtain ⟨d, hd, e⟩ := lastTli_mem 0 _ hne
    have := hlt d hd
    omega
  refine ⟨entriesOf InvalidXLogRecPtr (dataLines file) ++
    [{ tli := targetTLI, begin := lastEnd InvalidXLogRecPtr (dataLines file),
       «end» := InvalidXLogRecPtr }], ?_, ?_, ?_, ?_⟩
  · simp only [rewind_parseTimeLineHistory, parseLines_of_joinLines hlines, hloop]
    simp only [hcond, if_false, List.nil_append]
  · simp [entriesOf_length]
  · intro i d hd
    have hi : i < (entriesOf InvalidXLogRecPtr (dataLines file)).length := by
      rw [entriesOf_length]
      by_contra hge
      rw [List.getElem?_eq_none (Nat.le_of_not_lt hge)] at hd
      exact absurd hd (by simp)
    rw [List.getElem?_append_left hi, entriesOf_getElem? _ _ i d hd]
    cases i <;> rfl
  · rw [List.getElem?_append_right (by rw [entriesOf_length]), entriesOf_length,
      lastEnd_eq_prevEnd]
    cases hlen : (dataLines file).length <;> simp [prevEnd]

theorem parse_wellFormed_history_witness :
    ∃ es, rewind_parseTimeLineHistory
        (joinLines (exampleHistory.map HistoryLine.text)) 3 = .ok es ∧
      es.length = 3 ∧
      es[2]? = some ⟨3, 0x2000000, InvalidXLogRecPtr⟩ := by
  have hwf : ∀ h ∈ exampleHistory, h.WellFormed := by
    intro h hh
    simp only [exampleHistory, List.mem_cons, List.mem_singleton, List.not_mem_nil,
      or_false] at hh
    rcases hh with rfl | rfl | rfl
    · exact ⟨⟨by decide, by decide, by decide⟩, ⟨by decide, by decide, by decide⟩,
        ⟨by decide, by decide, by decide⟩, by simp, by decide⟩
    · exact ⟨⟨by decide, by decide, by decide⟩, ⟨by decide, by decide, by decide⟩,
        ⟨by decide, by decide, by decide⟩, by simp, by decide⟩
    · exact ⟨Or.inl (by simp), by decide⟩
  obtain ⟨es, h1, h2, _, h4⟩ :=
    (parse_wellFormed_history exampleHistory 3 hwf (by decide) (by decide)).1
  exact ⟨es, h1, h2, h4⟩

/-- C2: when a data line of the history file (a line that is not ignored)
states a timeline id that is not strictly greater than the id of the data line
before it, equal ids included, `rewind_parseTimeLineHistory` ends in an error
and returns no entries; so it does on `2\t...\n1\t...\n` and on a repeated id. -/
theorem parse_rejects_non_increasing (buffer : List Char) (targetTLI : Nat)
    (pre mid post : List (List Char)) (l1 l2 : List Char) (t1 t2 : Nat)
    (hlines : splitLines (cstr buffer) = pre ++ l1 :: (mid ++ l2 :: post))
    (hmid : ∀ l ∈ mid, Ignorable l)
    (h1 : ¬ Ignorable l1) (h2 : ¬ Ignorable l2)
    (ht1 : (sscanf l1).tli? = some t1) (ht2 : (sscanf l2).tli? = some t2)
    (hle : t2 ≤ t1) :
    (∃ e, rewind_parseTimeLineHistory buffer targetTLI = .error e) ∧
    rewind_parseTimeLineHistory ("2\t0/2000000\n1\t0/1000000\n".toList) 3 =
      .error (.notIncreasing ("1\t0/1000000".toList)) ∧
    rewind_parseTimeLineHistory ("1\t0/1000000\n1\t0/2000000\n".toList) 3 =
      .error (.notIncreasing ("1\t0/2000000".toList)) := by
  refine ⟨?_, by rfl, by rfl⟩
  have key : ∃ e, parseLines (pre ++ l1 :: (mid ++ l2 :: post))
      { entries := [], lasttli := 0, prevend := InvalidXLogRecPtr } = .error e := by
    rw [parseLines_append]
    cases hpre : parseLines pre { entries := [], lasttli := 0, prevend := InvalidXLogRecPtr } with
    | error e => exact ⟨e, rfl⟩
    | ok st1 =>
      simp only [parseLines]
      cases hp1 : parseLine st1 l1 with
      | error e => exact ⟨e, rfl⟩
      | ok st2 =>
        obtain ⟨tli, hi, lo, hs, hl, hne, _, _⟩ := parseLine_ok_data (isIgnored_eq_false h1) hp1
        rw [hs] at ht1
        simp only [Scanned.tli?, Option.some.injEq] at ht1
        simp only [parseLines_append,
          parseLines_all_ignored (fun l hl => isIgnored_of_ignorable (hmid l hl)), parseLines]
        cases hp2 : parseLine st2 l2 with
        | error e => exact ⟨e, rfl⟩
        | ok st3 =>
          obtain ⟨tli2, hi2, lo2, hs2, _, _, hlt, _⟩ :=
            parseLine_ok_data (isIgnored_eq_false h2) hp2
          rw [hs2] at ht2
          simp only [Scanned.tli?, Option.some.injEq] at ht2
          have := hlt hne
          omega
  obtain ⟨e, he⟩ := key
  rw [← hlines] at he
  exact ⟨e, parse_error_of_loop_error he targetTLI⟩

theorem parse_rejects_non_increasing_witness :
    ∃ e, rewind_parseTimeLineHistory ("3\t0/3000000\n# note\n2\t0/4000000".toList) 9
      = .error e :=
  (parse_rejects_non_increasing ("3\t0/3000000\n# note\n2\t0/4000000".toList) 9
    [] ["# note".toList] [] ("3\t0/3000000".toList) ("2\t0/4000000".toList) 3 2
    (by rfl)
    (by
      intro l hl
      rw [List.mem_singleton.mp hl]
      exact Or.inr ⟨[], " note".toList, rfl, by simp⟩)
    (fun h => absurd (isIgnored_of_ignorable h) (by decide))
    (fun h => absurd (isIgnored_of_ignorable h) (by decide))
    (by rfl) (by rfl) (by decide)).1

/-- C3: when the target timeline is less than or equal to a timeline id stated
by a data line of the history file, `rewind_parseTimeLineHistory` ends in an
error; hence a parse that succeeds has a target strictly greater than every
listed id. -/
theorem parse_rejects_target_not_above (buffer : List Char) (targetTLI : Nat)
    (l : List Char) (t : Nat)
    (hmem : l ∈ splitLines (cstr buffer)) (hdata : ¬ Ignorable l)
    (ht : (sscanf l).tli? = some t) (hle : targetTLI ≤ t) :
    ∃ e, rewind_parseTimeLineHistory buffer targetTLI = .error e := by
  cases hloop : parseLines (splitLines (cstr buffer))
      { entries := [], lasttli := 0, prevend := InvalidXLogRecPtr } with
  | error e => exact ⟨e, parse_error_of_loop_error hloop targetTLI⟩
  | ok st =>
    obtain ⟨hne, hb⟩ := parseLines_ok_bound hloop hmem (isIgnored_eq_false hdata) ht
    have hc : st.entries ≠ [] ∧ targetTLI ≤ st.lasttli := ⟨hne, by omega⟩
    exact ⟨.notLessThanChild, by
      simp only [rewind_parseTimeLineHistory, hloop]
      rw [if_pos hc]⟩

theorem parse_rejects_target_not_above_witness :
    ∃ e, rewind_parseTimeLineHistory ("1\t0/1000000\n5\t0/2000000\n".toList) 5 = .error e :=
  parse_rejects_target_not_above ("1\t0/1000000\n5\t0/2000000\n".toList) 5
    ("5\t0/2000000".toList) 5 (by decide)
    (fun h => absurd (isIgnored_of_ignorable h) (by decide)) (by rfl) (by decide)

/-- C4: blank lines and `#` lines are ignored: two history files that differ
by insertions and deletions of empty lines, lines of white space and lines whose
first character after the white space is `#`, at any place, give the same
result of `rewind_parseTimeLineHistory`, error or entries. -/
theorem parse_ignores_ignorable_lines (a b : List (List Char)) (targetTLI : Nat)
    (ha : ∀ l ∈ a, IsLine l) (hb : ∀ l ∈ b, IsLine l) (h : IgnorableEdit a b) :
    rewind_parseTimeLineHistory (joinLines a) targetTLI =
      rewind_parseTimeLineHistory (joinLines b) targetTLI := by
  simp only [rewind_parseTimeLineHistory, parseLines_of_joinLines ha,
    parseLines_of_joinLines hb, parseLines_ignorableEdit h]

theorem parse_ignores_ignorable_lines_witness :
    rewind_parseTimeLineHistory (joinLines exampleBare) 3 =
      rewind_parseTimeLineHistory (joinLines exampleCommented) 3 :=
  parse_ignores_ignorable_lines exampleBare exampleCommented 3 (by decide) (by decide)
    (.insert _ (Or.inr ⟨[], " history of timeline 3".toList, rfl, by simp⟩)
      (.keep _
        (.insert _ (Or.inl (by decide))
          (.insert _ (Or.inr ⟨[' ', '\t'], " second switch".toList, rfl, by decide⟩)
            (.keep _ (.insert _ (Or.inl (by simp)) .nil))))))

/-- C5: a line of the history file that is not ignored and from which the
`sscanf` of line 70 does not read all three fields (timeline id, high and low
half of the switchpoint) makes `rewind_parseTimeLineHistory` end in an error,
with no entries returned.  Such are a line that holds only a timeline id and a
line that does not start with a number; the parse of `1\t0/1000000\n2\n` ends
in the error for a missing switchpoint and that of `one\t0/1000000\n` in the
error for a missing timeline id. -/
theorem parse_rejects_malformed_line (buffer : List Char) (targetTLI : Nat) (l : List Char)
    (hmem : l ∈ splitLines (cstr buffer)) (hdata : ¬ Ignorable l) :
    ((sscanf l).nfields ≠ 3 →
      ∃ e, rewind_parseTimeLineHistory buffer targetTLI = .error e) ∧
    (∀ ds ws : List Char, l = ds ++ ws → ds ≠ [] → (∀ c ∈ ds, isDecDigit c = true) →
      (∀ c ∈ ws, isspace c = true) →
      ∃ e, rewind_parseTimeLineHistory buffer targetTLI = .error e) ∧
    (∀ (ws rest : List Char) (c : Char), l = ws ++ c :: rest →
      (∀ x ∈ ws, isspace x = true) → isspace c = false → isDecDigit c = false →
      c ≠ '+' → c ≠ '-' →
      ∃ e, rewind_parseTimeLineHistory buffer targetTLI = .error e) ∧
    rewind_parseTimeLineHistory ("1\t0/1000000\n2\n".toList) 3 =
      .error (.expectedSwitchpoint ['2']) ∧
    rewind_parseTimeLineHistory ("one\t0/1000000\n".toList) 3 =
      .error (.expectedTimelineID ("one\t0/1000000".toList)) := by
  have key : (sscanf l).nfields ≠ 3 →
      ∃ e, rewind_parseTimeLineHistory buffer targetTLI = .error e := by
    intro hbad
    obtain ⟨e, he⟩ := parseLines_error_of_bad_line hmem (isIgnored_eq_false hdata) hbad
      { entries := [], lasttli := 0, prevend := InvalidXLogRecPtr }
    exact ⟨e, parse_error_of_loop_error he targetTLI⟩
  refine ⟨key, ?_, ?_, by rfl, by rfl⟩
  · intro ds ws hl hne hdec hws
    apply key
    rw [hl, (sscanf_only_tli ds ws hne hdec hws).1]
    decide
  · intro ws rest c hl hws hc hdig hplus hminus
    apply key
    rw [hl, sscanf_not_number ws rest c hws hc hdig hplus hminus]
    decide

theorem parse_rejects_malformed_line_witness :
    ∃ e, rewind_parseTimeLineHistory ("1\t0/1000000\n2\t0-2000000\n".toList) 3 = .error e :=
  (parse_rejects_malformed_line ("1\t0/1000000\n2\t0-2000000\n".toList) 3
    ("2\t0-2000000".toList) (by decide)
    (fun h => absurd (isIgnored_of_ignorable h) (by decide))).1 (by decide)

/-! ## Lemmas on the write path -/

/-- The write loop raises nothing but the file-access `PANIC`. -/
theorem XLogWalRcvWrite_loop_raised (turns : Nat) (st : RcvState) (buf : List Nat)
    (recptr tli : Nat) (l : ErrLevel) (c : ErrCode) (s1 : RcvState)
    (h : XLogWalRcvWrite_loop turns st buf recptr tli = .raised l c s1) :
    l = .PANIC ∧ c = .FILE_ACCESS := by
  induction turns generalizing st buf recptr with
  | zero => simp [XLogWalRcvWrite_loop] at h
  | succ n ih =>
    rw [XLogWalRcvWrite_loop] at h
    by_cases hb : buf.length = 0
    · simp [hb] at h
    · rw [if_neg hb] at h
      by_cases hw : (XLogWalRcvWrite_pwrite (XLogWalRcvWrite_segment st recptr tli) buf recptr).1 ≤ 0
      · simp only [hw, if_true, Outcome.raised.injEq] at h
        exact ⟨h.1.symm, h.2.1.symm⟩
      · simp only [hw, if_false] at h
        exact ih _ _ _ h

/-- The function `XLogWalRcvWrite` raises nothing but the file-access `PANIC`. -/
theorem XLogWalRcvWrite_raised (st : RcvState) (buf : List Nat) (recptr tli : Nat)
    (l : ErrLevel) (c : ErrCode) (s1 : RcvState)
    (h : XLogWalRcvWrite st buf recptr tli = .raised l c s1) :
    l = .PANIC ∧ c = .FILE_ACCESS := by
  unfold XLogWalRcvWrite at h
  cases hl : XLogWalRcvWrite_loop buf.length st buf recptr tli with
  | raised l2 c2 s2 =>
    rw [hl] at h
    simp only [Outcome.raised.injEq] at h
    obtain ⟨h1, h2⟩ := XLogWalRcvWrite_loop_raised _ _ _ _ _ _ _ _ hl
    exact ⟨h.1 ▸ h1, h.2.1 ▸ h2⟩
  | ok r s2 =>
    rw [hl] at h
    simp only at h
    split at h <;> simp at h

/-! ## The claims on `XLogWalRcvProcessMsg` -/

/-- C6: `XLogWalRcvProcessMsg` raises the protocol-violation error exactly
when the tag is `w` and the payload is shorter than 24 bytes, or the tag is `k`
and the payload is not of 17 bytes, or the tag is neither; it then ends in the
state in which it was called but for the emptied decode buffer: segment
storage, the stream cursors, the telemetry fields of shared memory and the
trace of calls (so the frames sent) are as before. -/
theorem processMsg_protocol_violation (st : RcvState) (type : Nat) (buf : List Nat)
    (tli : Nat) :
    ((∃ st1, XLogWalRcvProcessMsg st type buf tli =
          .raised .ERROR .ERRCODE_PROTOCOL_VIOLATION st1) ↔
      ((type = 'w'.toNat ∧ buf.length < 24) ∨ (type = 'k'.toNat ∧ buf.length ≠ 17) ∨
        (type ≠ 'w'.toNat ∧ type ≠ 'k'.toNat))) ∧
    (∀ (l : ErrLevel) (st1 : RcvState),
      XLogWalRcvProcessMsg st type buf tli = .raised l .ERRCODE_PROTOCOL_VIOLATION st1 →
        l = .ERROR ∧ st1 = { st with incoming_message := resetStringInfo } ∧
        st1.segments = st.segments ∧ st1.LogstreamResult = st.LogstreamResult ∧
        st1.walrcv = st.walrcv ∧ st1.trace = st.trace) := by
  have hwk : 'w'.toNat ≠ 'k'.toNat := by decide
  by_cases hw : type = 'w'.toNat
  · have hk : type ≠ 'k'.toNat := fun e => hwk (hw ▸ e)
    by_cases hlen : buf.length < 24
    · have hr : XLogWalRcvProcessMsg st type buf tli =
          .raised .ERROR .ERRCODE_PROTOCOL_VIOLATION
            { st with incoming_message := resetStringInfo } := by
        simp only [XLogWalRcvProcessMsg, hw, hlen, if_true, if_false]
      refine ⟨⟨fun _ => Or.inl ⟨hw, hlen⟩, fun _ => ⟨_, hr⟩⟩, ?_⟩
      intro l st1 h
      rw [hr] at h
      simp only [Outcome.raised.injEq] at h
      obtain ⟨h1, -, h3⟩ := h
      subst h1 h3
      exact ⟨rfl, rfl, rfl, rfl, rfl, rfl⟩
    · have hr : XLogWalRcvProcessMsg st type buf tli =
          XLogWalRcvWrite
            (ProcessWalSndrMessage
              { st with incoming_message :=
                  (pq_getmsgint64 (pq_getmsgint64 (pq_getmsgint64
                    (appendBinaryStringInfo resetStringInfo buf 24)).2).2).2 }
              (pq_getmsgint64 (pq_getmsgint64
                (appendBinaryStringInfo resetStringInfo buf 24)).2).1
              (toInt64 (pq_getmsgint64 (pq_getmsgint64 (pq_getmsgint64
                (appendBinaryStringInfo resetStringInfo buf 24)).2).2).1))
            (buf.drop 24) (pq_getmsgint64 (appendBinaryStringInfo resetStringInfo buf 24)).1
            tli := by
        simp only [XLogWalRcvProcessMsg, hw, hlen, if_true, if_false]
      have hno : ∀ (l : ErrLevel) (st1 : RcvState),
          XLogWalRcvProcessMsg st type buf tli ≠
            .raised l .ERRCODE_PROTOCOL_VIOLATION st1 := by
        intro l st1 h
        rw [hr] at h
        have := (XLogWalRcvWrite_raised _ _ _ _ _ _ _ h).2
        exact absurd this (by decide)
      refine ⟨⟨fun ⟨st1, h⟩ => absurd h (hno _ _), ?_⟩, fun l st1 h => absurd h (hno _ _)⟩
      rintro (⟨_, h⟩ | ⟨h, _⟩ | ⟨h, _⟩)
      · exact absurd h hlen
      · exact absurd h hk
      · exact absurd hw h
  · by_cases hk : type = 'k'.toNat
    · by_cases hlen : buf.length = 17
      · have hno : ∀ (l : ErrLevel) (c : ErrCode) (st1 : RcvState),
            XLogWalRcvProcessMsg st type buf tli ≠ .raised l c st1 := by
          intro l c st1 h
          subst hk
          simp only [XLogWalRcvProcessMsg, hwk.symm, hlen, if_false, ne_eq,
            not_true_eq_false] at h
          split_ifs at h
        refine ⟨⟨fun ⟨st1, h⟩ => absurd h (hno _ _ _), ?_⟩, fun l st1 h => absurd h (hno _ _ _)⟩
        rintro (⟨h, _⟩ | ⟨_, h⟩ | ⟨_, h⟩)
        · exact absurd h hw
        · exact absurd hlen h
        · exact absurd hk h
      · have hr : XLogWalRcvProcessMsg st type buf tli =
            .raised .ERROR .ERRCODE_PROTOCOL_VIOLATION
              { st with incoming_message := resetStringInfo } := by
          simp only [XLogWalRcvProcessMsg, hk, hwk.symm, hlen, if_true, if_false, ne_eq, not_false_eq_true]
        refine ⟨⟨fun _ => Or.inr (Or.inl ⟨hk, hlen⟩), fun _ => ⟨_, hr⟩⟩, ?_⟩
        intro l st1 h
        rw [hr] at h
        simp only [Outcome.raised.injEq] at h
        obtain ⟨h1, -, h3⟩ := h
        subst h1 h3
        exact ⟨rfl, rfl, rfl, rfl, rfl, rfl⟩
    · have hr : XLogWalRcvProcessMsg st type buf tli =
          .raised .ERROR .ERRCODE_PROTOCOL_VIOLATION
            { st with incoming_message := resetStringInfo } := by
        simp only [XLogWalRcvProcessMsg, hw, hk, if_false]
      refine ⟨⟨fun _ => Or.inr (Or.inr ⟨hw, hk⟩), fun _ => ⟨_, hr⟩⟩, ?_⟩
      intro l st1 h
      rw [hr] at h
      simp only [Outcome.raised.injEq] at h
      obtain ⟨h1, -, h3⟩ := h
      subst h1 h3
      exact ⟨rfl, rfl, rfl, rfl, rfl, rfl⟩

theorem processMsg_protocol_violation_witness :
    (∃ st1, XLogWalRcvProcessMsg startState 'x'.toNat exampleKeepalive 1 =
        .raised .ERROR .ERRCODE_PROTOCOL_VIOLATION st1) ∧
    (∃ st1, XLogWalRcvProcessMsg startState 'k'.toNat exampleData 1 =
        .raised .ERROR .ERRCODE_PROTOCOL_VIOLATION st1) :=
  ⟨(processMsg_protocol_violation startState 'x'.toNat exampleKeepalive 1).1.mpr
      (Or.inr (Or.inr ⟨by decide, by decide⟩)),
   (processMsg_protocol_violation startState 'k'.toNat exampleData 1).1.mpr
      (Or.inr (Or.inl ⟨rfl, by decide⟩))⟩

theorem exists_cons8 : ∀ (l : List Nat), 8 ≤ l.length →
    ∃ a b c d e f g h r, l = a :: b :: c :: d :: e :: f :: g :: h :: r
  | a :: b :: c :: d :: e :: f :: g :: h :: r, _ => ⟨a, b, c, d, e, f, g, h, r, rfl⟩
  | [], h => by simp at h
  | [_], h => by simp at h
  | [_, _], h => by simp at h
  | [_, _, _], h => by simp at h
  | [_, _, _, _], h => by simp at h
  | [_, _, _, _, _], h => by simp at h
  | [_, _, _, _, _, _], h => by simp at h
  | [_, _, _, _, _, _, _], h => by simp at h

/-- Eight bytes read in network order are the big-endian number that they write. -/
theorem ntoh_take8 (buf : List Nat) (off : Nat) (h : off + 8 ≤ buf.length) :
    ntoh ((buf.drop off).take 8) = bigEndian64 buf off := by
  obtain ⟨a, b, c, d, e, f, g, x, r, hr⟩ := exists_cons8 (buf.drop off) (by simp; omega)
  have hg : ∀ i, buf.getD (off + i) 0 = (buf.drop off).getD i 0 := by
    intro i
    simp [List.getElem?_drop]
  have h0 : buf.getD off 0 = (buf.drop off).getD 0 0 := by simp
  simp only [bigEndian64, hg, h0, hr, ntoh, List.take, List.foldl, List.getD_cons_zero,
    List.getD_cons_succ]
  omega

theorem pq_getmsgint64_header (buf : List Nat) (n off : Nat) (hn : off + 8 ≤ n)
    (hlen : n ≤ buf.length) :
    pq_getmsgint64 { data := buf.take n, cursor := off } =
      (bigEndian64 buf off, { data := buf.take n, cursor := off + 8 }) := by
  have e : ((buf.take n).drop off).take 8 = (buf.drop off).take 8 := by
    rw [List.drop_take, List.take_take]
    congr 1
    omega
  simp only [pq_getmsgint64, e, ntoh_take8 buf off (by omega)]

/-- A `w` message with its header: the three fields are read from the first
24 bytes and the rest is written at the first of them. -/
theorem XLogWalRcvProcessMsg_data (st : RcvState) (buf : List Nat) (tli : Nat)
    (hlen : 24 ≤ buf.length) :
    XLogWalRcvProcessMsg st 'w'.toNat buf tli =
      XLogWalRcvWrite
        (ProcessWalSndrMessage
          { st with incoming_message := { data := buf.take 24, cursor := 24 } }
          (bigEndian64 buf 8) (toInt64 (bigEndian64 buf 16)))
        (buf.drop 24) (bigEndian64 buf 0) tli := by
  have hnot : ¬ buf.length < 24 := by omega
  have hm : appendBinaryStringInfo resetStringInfo buf 24 =
      { data := buf.take 24, cursor := 0 } := by
    simp [appendBinaryStringInfo, resetStringInfo]
  simp only [XLogWalRcvProcessMsg, if_true, hnot, if_false, hm,
    pq_getmsgint64_header buf 24 0 (by omega) hlen,
    pq_getmsgint64_header buf 24 8 (by omega) hlen,
    pq_getmsgint64_header buf 24 16 (by omega) hlen]

/-- C7: for a `w` message whose payload has at least 24 bytes,
`XLogWalRcvProcessMsg` reads `startPosition`, `streamEndPosition` and
`sendTimestamp` as the big-endian 64-bit integers in bytes 0-7, 8-15 and 16-23
of the payload, updates the telemetry with `streamEndPosition` and
`sendTimestamp` (as a signed 64-bit time) and calls `XLogWalRcvWrite` on the
payload from offset 24 on, of length `len - 24`, at `startPosition`. -/
theorem processMsg_data_frame (st : RcvState) (buf : List Nat) (tli : Nat)
    (hlen : 24 ≤ buf.length) :
    XLogWalRcvProcessMsg st 'w'.toNat buf tli =
      XLogWalRcvWrite
        (ProcessWalSndrMessage
          { st with incoming_message := { data := buf.take 24, cursor := 24 } }
          (bigEndian64 buf 8) (toInt64 (bigEndian64 buf 16)))
        (buf.drop 24) (bigEndian64 buf 0) tli ∧
    (buf.drop 24).length = buf.length - 24 ∧
    (∀ i, (buf.drop 24)[i]? = buf[24 + i]?) ∧
    (ProcessWalSndrMessage
        { st with incoming_message := { data := buf.take 24, cursor := 24 } }
        (bigEndian64 buf 8) (toInt64 (bigEndian64 buf 16))).walrcv.latestWalEnd =
      bigEndian64 buf 8 ∧
    (ProcessWalSndrMessage
        { st with incoming_message := { data := buf.take 24, cursor := 24 } }
        (bigEndian64 buf 8) (toInt64 (bigEndian64 buf 16))).walrcv.lastMsgSendTime =
      toInt64 (bigEndian64 buf 16) :=
  ⟨XLogWalRcvProcessMsg_data st buf tli hlen, by simp, fun i => List.getElem?_drop _ _ _,
    rfl, rfl⟩

theorem processMsg_data_frame_witness :
    XLogWalRcvProcessMsg startState 'w'.toNat exampleData 1 =
      XLogWalRcvWrite
        (ProcessWalSndrMessage
          { startState with incoming_message := { data := exampleData.take 24, cursor := 24 } }
          64 7)
        [1, 2, 3, 4, 5, 6, 7, 8, 9, 10] 40 1 :=
  (processMsg_data_frame startState exampleData 1 (by decide)).1

theorem hton_length (n v : Nat) : (hton n v).length = n := by
  induction n generalizing v with
  | zero => rfl
  | succ k ih => simp [hton, ih]

theorem replyMessage_length (w f a : Nat) (t : Int) (rr : Bool) :
    (replyMessage w f a t rr).data.length = 34 := by
  simp [replyMessage, pq_sendbyte, pq_sendint64, resetStringInfo, hton_length]

theorem replyMessage_head (w f a : Nat) (t : Int) (rr : Bool) :
    (replyMessage w f a t rr).data.head? = some 'r'.toNat := by
  simp [replyMessage, pq_sendbyte, pq_sendint64, resetStringInfo]

/-- A forced call of `XLogWalRcvSendReply` sends one message, whatever the
state: the reply built from the cursors, the replay position and the clock. -/
theorem XLogWalRcvSendReply_force_trace (st : RcvState) (requestReply : Bool) :
    (XLogWalRcvSendReply st true requestReply).trace =
      st.trace ++ [.send (replyMessage st.LogstreamResult.Write st.LogstreamResult.Flush
        st.replayPtr (st.clock (st.clockReads + 1)) requestReply).data] := by
  simp [XLogWalRcvSendReply, walrcv_send, emit, GetCurrentTimestamp, WalRcvComputeNextWakeup]

/-- C8: a keepalive of 17 bytes whose `replyRequested` byte is set makes
`XLogWalRcvProcessMsg` send exactly one message before it returns, a status
reply (34 bytes, tag `r`), whatever `wal_receiver_status_interval` is and
whether or not the positions changed since the last reply. -/
theorem keepalive_reply_requested (st : RcvState) (buf : List Nat) (tli : Nat)
    (hlen : buf.length = 17) (hreq : buf.getD 16 0 % 256 ≠ 0) :
    ∃ st1 msg, XLogWalRcvProcessMsg st 'k'.toNat buf tli = .ok () st1 ∧
      st1.trace = st.trace ++ [.send msg] ∧
      msg = (replyMessage st.LogstreamResult.Write st.LogstreamResult.Flush st.replayPtr
        (st.clock (st.clockReads + 2)) false).data ∧
      msg.length = 34 ∧ msg.head? = some 'r'.toNat := by
  have hkw : ¬ 'k'.toNat = 'w'.toNat := by decide
  have hm : appendBinaryStringInfo resetStringInfo buf 17 =
      { data := buf.take 17, cursor := 0 } := by
    simp [appendBinaryStringInfo, resetStringInfo]
  have hbyte : (pq_getmsgbyte { data := buf.take 17, cursor := 16 }).1 = buf.getD 16 0 % 256 := by
    simp [pq_getmsgbyte, List.getElem?_take_of_lt]
  refine ⟨XLogWalRcvSendReply
      (ProcessWalSndrMessage
        { st with incoming_message := { data := buf.take 17, cursor := 17 } }
        (bigEndian64 buf 0) (toInt64 (bigEndian64 buf 8))) true false,
    _, ?_, ?_, rfl, replyMessage_length _ _ _ _ _, replyMessage_head _ _ _ _ _⟩
  · simp only [XLogWalRcvProcessMsg, hkw, if_false, hlen, ne_eq, not_true_eq_false, hm,
      pq_getmsgint64_header buf 17 0 (by omega) (by omega),
      pq_getmsgint64_header buf 17 8 (by omega) (by omega), hbyte, hreq, not_false_eq_true,
      if_true]
    rfl
  · rw [XLogWalRcvSendReply_force_trace]
    rfl

theorem keepalive_reply_requested_witness :
    ∃ st1 msg, XLogWalRcvProcessMsg
        { startState with wal_receiver_status_interval := 0 } 'k'.toNat exampleKeepalive 1 =
          .ok () st1 ∧
      st1.trace = [.send msg] ∧ msg.length = 34 ∧ msg.head? = some 'r'.toNat := by
  obtain ⟨st1, msg, h1, h2, _, h4, h5⟩ :=
    keepalive_reply_requested { startState with wal_receiver_status_interval := 0 }
      exampleKeepalive 1 (by decide) (by decide)
  exact ⟨st1, msg, h1, h2, h4, h5⟩

/-! ## What the reply, flush and close paths leave alone -/

theorem StorageUntouched.same (a : RcvState) : StorageUntouched a a :=
  ⟨rfl, rfl, rfl, rfl, rfl, rfl⟩

theorem StorageUntouched.andThen {a b c : RcvState} (h1 : StorageUntouched a b)
    (h2 : StorageUntouched b c) : StorageUntouched a c := by
  refine ⟨?_, ?_, ?_, ?_, ?_, ?_⟩
  · rw [h2.1, h1.1]
  · rw [h2.2.1, h1.2.1]
  · rw [h2.2.2.1, h1.2.2.1]
  · rw [h2.2.2.2.1, h1.2.2.2.1]
  · rw [h2.2.2.2.2.1, h1.2.2.2.2.1]
  · rw [h2.2.2.2.2.2, h1.2.2.2.2.2]

theorem QuietlyExtends.nothing (a : RcvState) : QuietlyExtends a a :=
  ⟨[], by simp, by simp⟩

theorem QuietlyExtends.followedBy {a b c : RcvState} (h1 : QuietlyExtends a b)
    (h2 : QuietlyExtends b c) : QuietlyExtends a c := by
  obtain ⟨e1, t1, q1⟩ := h1
  obtain ⟨e2, t2, q2⟩ := h2
  refine ⟨e1 ++ e2, by rw [t2, t1, List.append_assoc], ?_⟩
  intro e he
  rcases List.mem_append.mp he with h | h
  · exact q1 e h
  · exact q2 e h

theorem QuietlyExtends.oneCall (a : RcvState) (e : Event) (h : e.failedWrite = false) :
    QuietlyExtends a (emit a e) :=
  ⟨[e], rfl, by simpa using h⟩

theorem StorageUntouched.afterCall (a : RcvState) (e : Event) : StorageUntouched a (emit a e) :=
  ⟨rfl, rfl, rfl, rfl, rfl, rfl⟩

theorem XLogWalRcvSendReply_untouched (st : RcvState) (force requestReply : Bool) :
    StorageUntouched st (XLogWalRcvSendReply st force requestReply) ∧
    QuietlyExtends st (XLogWalRcvSendReply st force requestReply) := by
  unfold XLogWalRcvSendReply
  dsimp only
  split_ifs
  · exact ⟨.same _, .nothing _⟩
  · exact ⟨⟨rfl, rfl, rfl, rfl, rfl, rfl⟩, ⟨[], (List.append_nil _).symm, by simp⟩⟩
  · exact ⟨⟨rfl, rfl, rfl, rfl, rfl, rfl⟩, ⟨[.send _], rfl, by simp [Event.failedWrite]⟩⟩

theorem XLogWalRcvSendHSFeedback_untouched (st : RcvState) (immed : Bool) :
    StorageUntouched st (XLogWalRcvSendHSFeedback st immed) ∧
    QuietlyExtends st (XLogWalRcvSendHSFeedback st immed) := by
  unfold XLogWalRcvSendHSFeedback
  dsimp only
  split_ifs
  · exact ⟨.same _, .nothing _⟩
  · exact ⟨⟨rfl, rfl, rfl, rfl, rfl, rfl⟩, ⟨[], (List.append_nil _).symm, by simp⟩⟩
  · exact ⟨⟨rfl, rfl, rfl, rfl, rfl, rfl⟩, ⟨[], (List.append_nil _).symm, by simp⟩⟩
  · exact ⟨⟨rfl, rfl, rfl, rfl, rfl, rfl⟩, ⟨[.send _], rfl, by simp [Event.failedWrite]⟩⟩

theorem ProcessWalSndrMessage_untouched (st : RcvState) (walEnd : Nat) (sendTime : Int) :
    StorageUntouched st (ProcessWalSndrMessage st walEnd sendTime) ∧
    QuietlyExtends st (ProcessWalSndrMessage st walEnd sendTime) :=
  ⟨⟨rfl, rfl, rfl, rfl, rfl, rfl⟩, ⟨[], (List.append_nil _).symm, by simp⟩⟩

theorem XLogWalRcvFlush_shared_untouched (st : RcvState) (tli : Nat) :
    StorageUntouched st (XLogWalRcvFlush_shared st tli) ∧
    QuietlyExtends st (XLogWalRcvFlush_shared st tli) := by
  unfold XLogWalRcvFlush_shared
  split_ifs
  · exact ⟨⟨rfl, rfl, rfl, rfl, rfl, rfl⟩, ⟨[], (List.append_nil _).symm, by simp⟩⟩
  · exact ⟨.same _, .nothing _⟩

theorem XLogWalRcvFlush_notify_untouched (st : RcvState) :
    StorageUntouched st (XLogWalRcvFlush_notify st) ∧
    QuietlyExtends st (XLogWalRcvFlush_notify st) := by
  unfold XLogWalRcvFlush_notify
  dsimp only
  have q1 : QuietlyExtends st (PgSrc.emit st .wakeupRecovery) := .oneCall _ .wakeupRecovery rfl
  split_ifs
  · exact ⟨⟨rfl, rfl, rfl, rfl, rfl, rfl⟩,
      (q1.followedBy (.oneCall _ .walSndWakeup rfl)).followedBy (.oneCall _ (.psDisplay _) rfl)⟩
  · exact ⟨⟨rfl, rfl, rfl, rfl, rfl, rfl⟩, q1.followedBy (.oneCall _ .walSndWakeup rfl)⟩
  · exact ⟨⟨rfl, rfl, rfl, rfl, rfl, rfl⟩, q1.followedBy (.oneCall _ (.psDisplay _) rfl)⟩
  · exact ⟨⟨rfl, rfl, rfl, rfl, rfl, rfl⟩, q1⟩

theorem XLogWalRcvFlush_untouched (st : RcvState) (dying : Bool) (tli : Nat) :
    StorageUntouched st (XLogWalRcvFlush st dying tli) ∧
    QuietlyExtends st (XLogWalRcvFlush st dying tli) := by
  unfold XLogWalRcvFlush
  dsimp only
  have s1 : StorageUntouched st (setFlush (PgSrc.emit st (.fsync st.recvFile st.recvSegNo tli))) :=
    ⟨rfl, rfl, rfl, rfl, rfl, rfl⟩
  have q1 : QuietlyExtends st (setFlush (PgSrc.emit st (.fsync st.recvFile st.recvSegNo tli))) :=
    ⟨[.fsync st.recvFile st.recvSegNo tli], rfl, by simp [Event.failedWrite]⟩
  have a := XLogWalRcvFlush_shared_untouched
    (setFlush (PgSrc.emit st (.fsync st.recvFile st.recvSegNo tli))) tli
  have b := XLogWalRcvFlush_notify_untouched (XLogWalRcvFlush_shared
    (setFlush (PgSrc.emit st (.fsync st.recvFile st.recvSegNo tli))) tli)
  have s2 := (s1.andThen a.1).andThen b.1
  have q2 := (q1.followedBy a.2).followedBy b.2
  split_ifs
  · have c := XLogWalRcvSendReply_untouched (XLogWalRcvFlush_notify (XLogWalRcvFlush_shared
      (setFlush (PgSrc.emit st (.fsync st.recvFile st.recvSegNo tli))) tli)) false false
    have d := XLogWalRcvSendHSFeedback_untouched (XLogWalRcvSendReply
      (XLogWalRcvFlush_notify (XLogWalRcvFlush_shared
        (setFlush (PgSrc.emit st (.fsync st.recvFile st.recvSegNo tli))) tli)) false false) false
    exact ⟨(s2.andThen c.1).andThen d.1, (q2.followedBy c.2).followedBy d.2⟩
  · exact ⟨s2, q2⟩
  · exact ⟨.same _, .nothing _⟩

theorem XLogWalRcvClose_file_untouched (st : RcvState) :
    StorageUntouched st (XLogWalRcvClose_file st) ∧
    QuietlyExtends st (XLogWalRcvClose_file st) := by
  unfold XLogWalRcvClose_file
  dsimp only
  cases st.recvFile with
  | none =>
    dsimp only
    split_ifs
    · exact ⟨.afterCall _ _, .oneCall _ (.archiveForceDone _ _) rfl⟩
    · exact ⟨.afterCall _ _, .oneCall _ (.archiveNotify _ _) rfl⟩
  | some f =>
    dsimp only
    have q1 : QuietlyExtends st (PgSrc.emit st (.close f)) := .oneCall _ (.close f) rfl
    split_ifs
    · exact ⟨⟨rfl, rfl, rfl, rfl, rfl, rfl⟩, q1.followedBy (.oneCall _ (.archiveForceDone _ _) rfl)⟩
    · exact ⟨⟨rfl, rfl, rfl, rfl, rfl, rfl⟩, q1.followedBy (.oneCall _ (.archiveNotify _ _) rfl)⟩

/-- The function `XLogWalRcvClose` leaves the segment files alone and ends
with no segment file open. -/
theorem XLogWalRcvClose_untouched (st : RcvState) (recptr tli : Nat) :
    (XLogWalRcvClose st recptr tli).segments = st.segments ∧
    (XLogWalRcvClose st recptr tli).pwriteReturns = st.pwriteReturns ∧
    (XLogWalRcvClose st recptr tli).wal_segment_size = st.wal_segment_size ∧
    (XLogWalRcvClose st recptr tli).recvFile = none ∧
    QuietlyExtends st (XLogWalRcvClose st recptr tli) := by
  obtain ⟨f, q⟩ := XLogWalRcvFlush_untouched st false tli
  obtain ⟨f2, q2⟩ := XLogWalRcvClose_file_untouched (XLogWalRcvFlush st false tli)
  obtain ⟨h1, h2, h3, _⟩ := f.andThen f2
  obtain ⟨evs, he, hq⟩ := q.followedBy q2
  exact ⟨h1, h2, h3, rfl, ⟨evs, he, hq⟩⟩

/-! ## The write loop -/

theorem WriteTraceSpec.of_quiet {α : Type} {a b : RcvState} {out : Outcome α}
    (h : QuietlyExtends a b) (hs : WriteTraceSpec b out) : WriteTraceSpec a out := by
  cases out with
  | ok v st1 => exact h.followedBy hs
  | raised l c st1 =>
    obtain ⟨h1, h2, evs, e, ht, he, hq⟩ := hs
    obtain ⟨evs0, ht0, hq0⟩ := h
    refine ⟨h1, h2, evs0 ++ evs, e, by rw [ht, ht0]; simp only [List.append_assoc], he, ?_⟩
    intro x hx
    rcases List.mem_append.mp hx with hx | hx
    · exact hq0 x hx
    · exact hq x hx

/-- Lines 918-928 leave the segment files alone and end with the segment of
`recptr` open. -/
theorem XLogWalRcvWrite_segment_spec (st : RcvState) (recptr tli : Nat) :
    (XLogWalRcvWrite_segment st recptr tli).segments = st.segments ∧
    (XLogWalRcvWrite_segment st recptr tli).pwriteReturns = st.pwriteReturns ∧
    (XLogWalRcvWrite_segment st recptr tli).wal_segment_size = st.wal_segment_size ∧
    QuietlyExtends st (XLogWalRcvWrite_segment st recptr tli) ∧
    (XLogWalRcvWrite_segment st recptr tli).recvFile ≠ none ∧
    (OpenFileOf st tli →
      (XLogWalRcvWrite_segment st recptr tli).recvFile =
          some ⟨tli, recptr / st.wal_segment_size⟩ ∧
        (XLogWalRcvWrite_segment st recptr tli).recvSegNo = recptr / st.wal_segment_size) := by
  unfold XLogWalRcvWrite_segment
  dsimp only
  by_cases hc : st.recvFile.isSome = true ∧
      XLByteInSeg recptr st.recvSegNo st.wal_segment_size = false
  · obtain ⟨c1, c2, c3, c4, c5⟩ := XLogWalRcvClose_untouched st recptr tli
    rw [if_pos hc, if_pos c4]
    refine ⟨c1, c2, c3, c5.followedBy (.oneCall _ (.fileInit _) rfl), by simp [emit], fun _ => ?_⟩
    simp [emit, XLByteToSeg, c3]
  · rw [if_neg hc]
    by_cases hn : st.recvFile = none
    · rw [if_pos hn]
      refine ⟨rfl, rfl, rfl, .oneCall _ (.fileInit _) rfl, by simp [emit], fun _ => ?_⟩
      simp [emit, XLByteToSeg]
    · rw [if_neg hn]
      refine ⟨rfl, rfl, rfl, .nothing _, hn, fun hinv => ?_⟩
      rcases hinv with h | h
      · exact absurd h hn
      · have hin : XLByteInSeg recptr st.recvSegNo st.wal_segment_size = true := by
          by_contra hx
          exact hc ⟨by simp [h], by simpa using hx⟩
        have hseg : recptr / st.wal_segment_size = st.recvSegNo := by
          simpa [XLByteInSeg] using hin
        rw [hseg]
        exact ⟨h, rfl⟩

/-- Line 941 on an open segment file. -/
theorem XLogWalRcvWrite_pwrite_open (st : RcvState) (buf : List Nat) (recptr : Nat)
    (f : SegFile) (hf : st.recvFile = some f) :
    XLogWalRcvWrite_pwrite st buf recptr =
      (pwriteReturn st (XLogWalRcvWrite_segbytes st buf.length recptr),
       { st with
           pwriteReturns := st.pwriteReturns.tail
           segments := storeBytes st.segments f (XLogSegmentOffset recptr st.wal_segment_size)
             buf (pwriteReturn st (XLogWalRcvWrite_segbytes st buf.length recptr)).toNat
           trace := st.trace ++
             [.pwrite f (XLogSegmentOffset recptr st.wal_segment_size)
               (buf.take (XLogWalRcvWrite_segbytes st buf.length recptr))
               (pwriteReturn st (XLogWalRcvWrite_segbytes st buf.length recptr))] }) := by
  simp only [XLogWalRcvWrite_pwrite, pg_pwrite, hf]

/-- The trace of the write loop. -/
theorem XLogWalRcvWrite_loop_trace (turns : Nat) (st : RcvState) (buf : List Nat)
    (recptr tli : Nat) : WriteTraceSpec st (XLogWalRcvWrite_loop turns st buf recptr tli) := by
  induction turns generalizing st buf recptr with
  | zero => exact QuietlyExtends.nothing st
  | succ n ih =>
    rw [XLogWalRcvWrite_loop]
    by_cases hb : buf.length = 0
    · rw [if_pos hb]
      exact QuietlyExtends.nothing st
    · rw [if_neg hb]
      dsimp only
      obtain ⟨_, _, _, q, hopen, _⟩ := XLogWalRcvWrite_segment_spec st recptr tli
      obtain ⟨f, hf⟩ := Option.ne_none_iff_exists'.mp hopen
      rw [XLogWalRcvWrite_pwrite_open _ buf recptr f hf]
      dsimp only
      by_cases hw : pwriteReturn (XLogWalRcvWrite_segment st recptr tli)
          (XLogWalRcvWrite_segbytes (XLogWalRcvWrite_segment st recptr tli) buf.length recptr) ≤ 0
      · rw [if_pos hw]
        refine WriteTraceSpec.of_quiet q ⟨rfl, rfl, [], _, rfl, ?_, by simp⟩
        simp [Event.failedWrite, hw]
      · rw [if_neg hw]
        refine WriteTraceSpec.of_quiet (q.followedBy ⟨[_], rfl, ?_⟩) (ih _ _ _)
        simp [Event.failedWrite, hw]

/-- The trace of `XLogWalRcvWrite`. -/
theorem XLogWalRcvWrite_trace (st : RcvState) (buf : List Nat) (recptr tli : Nat) :
    WriteTraceSpec st (XLogWalRcvWrite st buf recptr tli) := by
  have h := XLogWalRcvWrite_loop_trace buf.length st buf recptr tli
  unfold XLogWalRcvWrite
  cases hl : XLogWalRcvWrite_loop buf.length st buf recptr tli with
  | raised l c s1 =>
    rw [hl] at h
    exact h
  | ok r s1 =>
    rw [hl] at h
    dsimp only
    have q : QuietlyExtends st
        { s1 with walrcv := { s1.walrcv with writtenUpto := s1.LogstreamResult.Write } } := by
      obtain ⟨evs, h1, h2⟩ := h
      exact ⟨evs, h1, h2⟩
    split_ifs
    · exact q.followedBy (XLogWalRcvClose_untouched _ _ _).2.2.2.2
    · exact q

theorem failed_write_is_last {evs evs1 evs2 : List Event} {e e2 : Event}
    (h : evs ++ [e2] = evs1 ++ e :: evs2) (hq : ∀ x ∈ evs, x.failedWrite = false)
    (he : e.failedWrite = true) : evs2 = [] ∧ evs1 = evs := by
  induction evs generalizing evs1 with
  | nil =>
    cases evs1 with
    | nil =>
      simp only [List.nil_append, List.cons.injEq] at h
      exact ⟨h.2.symm, rfl⟩
    | cons y ys =>
      simp only [List.nil_append, List.cons_append, List.cons.injEq] at h
      have := h.2
      simp at this
  | cons x xs ih =>
    cases evs1 with
    | nil =>
      simp only [List.cons_append, List.nil_append, List.cons.injEq] at h
      have := hq x (by simp)
      rw [h.1, he] at this
      exact absurd this (by simp)
    | cons y ys =>
      simp only [List.cons_append, List.cons.injEq] at h
      obtain ⟨h1, h2⟩ := ih h.2 (fun z hz => hq z (List.mem_cons_of_mem _ hz))
      exact ⟨h1, by rw [h.1, h2]⟩

/-- C10: a call of `pg_pwrite` that returns zero or a negative value is
an unrecoverable fault and is not retried: in every call of `XLogWalRcvWrite`,
if among the calls that it adds to the trace there is a `pg_pwrite` that
returned zero or less, then that call is the last thing the function did (the
write is not issued again and no later part of the request is written), no
earlier write of the request failed, and the function raised the `PANIC` for
file access. -/
theorem write_failure_is_fatal (st : RcvState) (buf : List Nat) (recptr tli : Nat)
    (evs1 evs2 : List Event) (e : Event)
    (htrace : (XLogWalRcvWrite st buf recptr tli).state.trace = st.trace ++ evs1 ++ e :: evs2)
    (he : e.failedWrite = true) :
    evs2 = [] ∧ (∀ x ∈ evs1, x.failedWrite = false) ∧
      XLogWalRcvWrite st buf recptr tli =
        .raised .PANIC .FILE_ACCESS (XLogWalRcvWrite st buf recptr tli).state := by
  have h := XLogWalRcvWrite_trace st buf recptr tli
  cases hout : XLogWalRcvWrite st buf recptr tli with
  | ok v s1 =>
    rw [hout] at h htrace
    obtain ⟨evs, h1, h2⟩ := h
    simp only [Outcome.state] at htrace
    rw [h1, List.append_assoc] at htrace
    have := List.append_cancel_left htrace
    have hmem : e ∈ evs := by rw [this]; simp
    rw [h2 e hmem] at he
    exact absurd he (by simp)
  | raised l c s1 =>
    rw [hout] at h htrace
    obtain ⟨hl, hc, evs, e2, h1, h2, h3⟩ := h
    simp only [Outcome.state] at htrace ⊢
    rw [h1, List.append_assoc] at htrace
    have := List.append_cancel_left htrace
    obtain ⟨a, b⟩ := failed_write_is_last this h3 he
    subst hl hc
    exact ⟨a, by rw [b]; exact h3, rfl⟩

theorem write_failure_is_fatal_witness :
    XLogWalRcvWrite { startState with pwriteReturns := [3, 0] } [1, 2, 3, 4, 5, 6, 7, 8, 9, 10]
        40 1 =
      .raised .PANIC .FILE_ACCESS
        (XLogWalRcvWrite { startState with pwriteReturns := [3, 0] }
          [1, 2, 3, 4, 5, 6, 7, 8, 9, 10] 40 1).state :=
  (write_failure_is_fatal { startState with pwriteReturns := [3, 0] }
    [1, 2, 3, 4, 5, 6, 7, 8, 9, 10] 40 1
    [.fileInit ⟨1, 2⟩, .pwrite ⟨1, 2⟩ 8 [1, 2, 3, 4, 5, 6, 7, 8] 3] []
    (.pwrite ⟨1, 2⟩ 11 [4, 5, 6, 7, 8] 0) (by rfl) (by rfl)).2.2

/-! ## What the write loop stores -/

theorem div_mod_add_of_lt (r size i : Nat) (hs : 0 < size) (h : r % size + i < size) :
    (r + i) / size = r / size ∧ (r + i) % size = r % size + i := by
  have e : r + i = size * (r / size) + (r % size + i) := by
    have := Nat.div_add_mod r size
    omega
  rw [e]
  constructor
  · rw [Nat.mul_add_div hs, Nat.div_eq_of_lt h]
    rfl
  · rw [Nat.mul_add_mod, Nat.mod_eq_of_lt h]

theorem eq_of_div_mod_eq (size p q : Nat) (h1 : p / size = q / size)
    (h2 : p % size = q % size) : p = q := by
  have a := Nat.div_add_mod p size
  have b := Nat.div_add_mod q size
  rw [h1, h2] at a
  omega

theorem pwriteReturn_pos (st : RcvState) (amount : Nat)
    (hpos : ∀ r ∈ st.pwriteReturns, 0 < r) (ha : 0 < amount) :
    0 < pwriteReturn st amount ∧ pwriteReturn st amount ≤ amount := by
  unfold pwriteReturn
  cases hr : st.pwriteReturns with
  | nil =>
    simp only
    omega
  | cons r rest =>
    have := hpos r (by simp [hr])
    simp only
    split_ifs <;> omega

theorem XLogWalRcvWrite_segbytes_bounds (st : RcvState) (nbytes recptr : Nat)
    (hs : 0 < st.wal_segment_size) (hn : 0 < nbytes) :
    0 < XLogWalRcvWrite_segbytes st nbytes recptr ∧
    XLogWalRcvWrite_segbytes st nbytes recptr ≤ nbytes ∧
    recptr % st.wal_segment_size + XLogWalRcvWrite_segbytes st nbytes recptr
      ≤ st.wal_segment_size := by
  have := Nat.mod_lt recptr hs
  unfold XLogWalRcvWrite_segbytes XLogSegmentOffset
  split_ifs <;> omega

/-- One turn of the write loop when every write transfers something: some
bytes at the head of the buffer, at least one and no more than fit in the
segment of `recptr`, are stored at the offset of `recptr` in that segment, and
the loop goes on with the rest. -/
theorem XLogWalRcvWrite_loop_turn (n : Nat) (st : RcvState) (buf : List Nat)
    (recptr tli : Nat) (hb : buf.length ≠ 0) (hs : 0 < st.wal_segment_size)
    (hpos : ∀ r ∈ st.pwriteReturns, 0 < r) (hfile : OpenFileOf st tli) :
    ∃ (bw : Nat) (st3 : RcvState),
      1 ≤ bw ∧ bw ≤ buf.length ∧ recptr % st.wal_segment_size + bw ≤ st.wal_segment_size ∧
      XLogWalRcvWrite_loop (n + 1) st buf recptr tli =
        XLogWalRcvWrite_loop n st3 (buf.drop bw) ((recptr + bw) % 2 ^ 64) tli ∧
      st3.wal_segment_size = st.wal_segment_size ∧
      (∀ r ∈ st3.pwriteReturns, 0 < r) ∧ OpenFileOf st3 tli ∧
      st3.segments = storeBytes st.segments ⟨tli, recptr / st.wal_segment_size⟩
        (recptr % st.wal_segment_size) buf bw := by
  obtain ⟨g1, g2, g3, _, _, g6⟩ := XLogWalRcvWrite_segment_spec st recptr tli
  obtain ⟨hf, hseg⟩ := g6 hfile
  have hs2 : 0 < (XLogWalRcvWrite_segment st recptr tli).wal_segment_size := by rw [g3]; exact hs
  have hpos2 : ∀ r ∈ (XLogWalRcvWrite_segment st recptr tli).pwriteReturns, 0 < r := by
    rw [g2]; exact hpos
  obtain ⟨b1, b2, b3⟩ := XLogWalRcvWrite_segbytes_bounds
    (XLogWalRcvWrite_segment st recptr tli) buf.length recptr hs2 (Nat.pos_of_ne_zero hb)
  obtain ⟨r1, r2⟩ := pwriteReturn_pos (XLogWalRcvWrite_segment st recptr tli) _ hpos2 b1
  rw [g3] at b3
  have hw := XLogWalRcvWrite_pwrite_open (XLogWalRcvWrite_segment st recptr tli) buf recptr _ hf
  have e1 : (XLogWalRcvWrite_pwrite (XLogWalRcvWrite_segment st recptr tli) buf recptr).1 =
      pwriteReturn (XLogWalRcvWrite_segment st recptr tli)
        (XLogWalRcvWrite_segbytes (XLogWalRcvWrite_segment st recptr tli) buf.length recptr) := by
    rw [hw]
  refine ⟨(XLogWalRcvWrite_pwrite (XLogWalRcvWrite_segment st recptr tli) buf recptr).1.toNat,
    setWrite (XLogWalRcvWrite_pwrite (XLogWalRcvWrite_segment st recptr tli) buf recptr).2
      ((recptr +
        (XLogWalRcvWrite_pwrite (XLogWalRcvWrite_segment st recptr tli) buf recptr).1.toNat) %
          2 ^ 64),
    by omega, by omega, by omega, ?_, ?_, ?_, ?_, ?_⟩
  · rw [XLogWalRcvWrite_loop, if_neg hb]
    dsimp only
    rw [if_neg (by omega)]
  · rw [hw]
    exact g3
  · rw [hw]
    intro r hr
    have : r ∈ (XLogWalRcvWrite_segment st recptr tli).pwriteReturns :=
      List.mem_of_mem_tail hr
    exact hpos2 r this
  · right
    rw [hw]
    show (XLogWalRcvWrite_segment st recptr tli).recvFile =
      some ⟨tli, (XLogWalRcvWrite_segment st recptr tli).recvSegNo⟩
    rw [hf, hseg]
  · rw [e1, hw]
    show storeBytes (XLogWalRcvWrite_segment st recptr tli).segments _ _ _ _ = _
    rw [g1, XLogSegmentOffset, g3]

theorem StoredRange.nil (st : RcvState) (tli start : Nat)
    (hpos : ∀ r ∈ st.pwriteReturns, 0 < r) (hfile : OpenFileOf st tli) :
    StoredRange st st tli start [] :=
  ⟨rfl, hpos, hfile, fun i hi => absurd hi (by simp), fun _ _ _ => rfl⟩

/-- The write loop, when every write transfers something, stores the whole
buffer at its positions and touches nothing else of segment storage. -/
theorem XLogWalRcvWrite_loop_stores (turns : Nat) (st : RcvState) (buf : List Nat)
    (recptr tli : Nat) (hturns : buf.length ≤ turns) (hs : 0 < st.wal_segment_size)
    (hpos : ∀ r ∈ st.pwriteReturns, 0 < r) (hfit : recptr + buf.length < 2 ^ 64)
    (hfile : OpenFileOf st tli) :
    ∃ st1, XLogWalRcvWrite_loop turns st buf recptr tli = .ok (recptr + buf.length) st1 ∧
      StoredRange st st1 tli recptr buf := by
  induction turns generalizing st buf recptr with
  | zero =>
    have hnil : buf = [] := List.length_eq_zero.mp (Nat.le_zero.mp hturns)
    subst hnil
    exact ⟨st, rfl, .nil st tli recptr hpos hfile⟩
  | succ n ih =>
    by_cases hb : buf.length = 0
    · have hnil : buf = [] := List.length_eq_zero.mp hb
      subst hnil
      exact ⟨st, by simp [XLogWalRcvWrite_loop], .nil st tli recptr hpos hfile⟩
    · obtain ⟨bw, st3, hbw1, hbw2, hbw3, hloop, h3size, h3pos, h3file, h3seg⟩ :=
        XLogWalRcvWrite_loop_turn n st buf recptr tli hb hs hpos hfile
      have hmod : (recptr + bw) % 2 ^ 64 = recptr + bw := Nat.mod_eq_of_lt (by omega)
      have hlen : (buf.drop bw).length = buf.length - bw := List.length_drop _ _
      obtain ⟨st1, hres, i1, i2, i3, i4, i5⟩ := ih st3 (buf.drop bw) (recptr + bw)
        (by omega) (by omega) h3pos (by omega) h3file
      rw [h3size] at i5
      refine ⟨st1, ?_, i1.trans h3size, i2, i3, ?_, ?_⟩
      · rw [hloop, hmod, hres, hlen]
        congr 1
        omega
      · intro i hi
        by_cases hlt : i < bw
        · obtain ⟨d1, d2⟩ := div_mod_add_of_lt recptr st.wal_segment_size i hs (by omega)
          have hun := i5 ⟨tli, (recptr + i) / st.wal_segment_size⟩
            ((recptr + i) % st.wal_segment_size) (by
              intro j _ hj
              simp only [SegFile.mk.injEq, true_and] at hj
              have := eq_of_div_mod_eq _ _ _ hj.1 hj.2
              omega)
          unfold storedAt
          rw [i1, h3size, hun, h3seg, d1, d2]
          unfold storeBytes
          rw [if_pos ⟨rfl, by omega, by omega⟩, Nat.add_sub_cancel_left]
        · have hj := i4 (i - bw) (by omega)
          have e : recptr + bw + (i - bw) = recptr + i := by omega
          rw [e, List.getElem?_drop] at hj
          have e2 : bw + (i - bw) = i := by omega
          rw [e2] at hj
          exact hj
      · intro f o hno
        have hun := i5 f o (by
          intro j hj
          have := hno (bw + j) (by omega)
          rw [← Nat.add_assoc] at this
          exact this)
        rw [hun, h3seg]
        unfold storeBytes
        rw [if_neg]
        rintro ⟨hf, ho1, ho2⟩
        obtain ⟨d1, d2⟩ := div_mod_add_of_lt recptr st.wal_segment_size
          (o - recptr % st.wal_segment_size) hs (by omega)
        apply hno (o - recptr % st.wal_segment_size) (by omega)
        rw [d1, d2]
        exact ⟨hf, by omega⟩

theorem StoredRange.congr {st s1 s2 : RcvState} {tli start : Nat} {data : List Nat}
    (h : StoredRange st s1 tli start data) (hseg : s2.segments = s1.segments)
    (hsize : s2.wal_segment_size = s1.wal_segment_size)
    (hret : s2.pwriteReturns = s1.pwriteReturns) (hfile : OpenFileOf s2 tli) :
    StoredRange st s2 tli start data := by
  obtain ⟨h1, h2, _, h4, h5⟩ := h
  refine ⟨hsize.trans h1, by rw [hret]; exact h2, hfile, ?_, ?_⟩
  · intro i hi
    have := h4 i hi
    unfold storedAt at this ⊢
    rw [hseg, hsize]
    exact this
  · intro f o hno
    rw [hseg]
    exact h5 f o hno

theorem StoredRange.of_untouched {st sa sb : RcvState} {tli start : Nat} {data : List Nat}
    (hu : StorageUntouched st sa) (h : StoredRange sa sb tli start data) :
    StoredRange st sb tli start data := by
  obtain ⟨u1, _, u3, _⟩ := hu
  obtain ⟨h1, h2, h3, h4, h5⟩ := h
  refine ⟨h1.trans u3, h2, h3, h4, ?_⟩
  intro f o hno
  rw [u3, u1] at h5
  exact h5 f o hno

/-- Two runs of the write path, the second on the positions after those of
the first, are a run on the bytes of both. -/
theorem StoredRange.append {a b c : RcvState} {tli start : Nat} {d1 d2 : List Nat}
    (h1 : StoredRange a b tli start d1)
    (h2 : StoredRange b c tli (start + d1.length) d2) :
    StoredRange a c tli start (d1 ++ d2) := by
  obtain ⟨a1, _, _, a4, a5⟩ := h1
  obtain ⟨b1, b2, b3, b4, b5⟩ := h2
  rw [a1] at b5
  refine ⟨b1.trans a1, b2, b3, ?_, ?_⟩
  · intro i hi
    rw [List.length_append] at hi
    by_cases hlt : i < d1.length
    · have hun := b5 ⟨tli, (start + i) / a.wal_segment_size⟩
        ((start + i) % a.wal_segment_size) (by
          intro j _ hj
          simp only [SegFile.mk.injEq, true_and] at hj
          have := eq_of_div_mod_eq _ _ _ hj.1 hj.2
          omega)
      have hst := a4 i hlt
      unfold storedAt at hst ⊢
      rw [b1, a1, hun]
      rw [a1] at hst
      rw [hst, List.getElem?_append_left hlt]
    · have hj := b4 (i - d1.length) (by omega)
      have e : start + d1.length + (i - d1.length) = start + i := by omega
      rw [e] at hj
      rw [hj, List.getElem?_append_right (by omega)]
  · intro f o hno
    rw [b5 f o, a5 f o]
    · intro i hi
      exact hno i (by rw [List.length_append]; omega)
    · intro j hj
      have := hno (d1.length + j) (by rw [List.length_append]; omega)
      rw [← Nat.add_assoc] at this
      exact this

/-- The function `XLogWalRcvWrite`, when every write transfers something,
returns with the buffer stored at its positions. -/
theorem XLogWalRcvWrite_stores (st : RcvState) (buf : List Nat) (recptr tli : Nat)
    (hs : 0 < st.wal_segment_size) (hpos : ∀ r ∈ st.pwriteReturns, 0 < r)
    (hfit : recptr + buf.length < 2 ^ 64) (hfile : OpenFileOf st tli) :
    ∃ st1, XLogWalRcvWrite st buf recptr tli = .ok () st1 ∧
      StoredRange st st1 tli recptr buf := by
  obtain ⟨s1, hloop, hst⟩ :=
    XLogWalRcvWrite_loop_stores buf.length st buf recptr tli (le_refl _) hs hpos hfit hfile
  unfold XLogWalRcvWrite
  rw [hloop]
  dsimp only
  have h2 : StoredRange st
      { s1 with walrcv := { s1.walrcv with writtenUpto := s1.LogstreamResult.Write } }
      tli recptr buf := hst.congr rfl rfl rfl hst.2.2.1
  split_ifs
  · obtain ⟨c1, c2, c3, c4, _⟩ := XLogWalRcvClose_untouched
      { s1 with walrcv := { s1.walrcv with writtenUpto := s1.LogstreamResult.Write } }
      (recptr + buf.length) tli
    exact ⟨_, rfl, h2.congr c1 c3 c2 (Or.inl c4)⟩
  · exact ⟨_, rfl, h2⟩

/-- A `w` message received in the main loop ends in a call of
`XLogWalRcvWrite` on its WAL bytes at its `startPosition`, with segment
storage as it was. -/
theorem WalReceiverMain_received_data (st : RcvState) (p : List Nat) (tli : Nat)
    (hlen : 24 ≤ p.length) :
    ∃ sa, WalReceiverMain_received st ('w'.toNat :: p) tli =
        XLogWalRcvWrite sa (p.drop 24) (bigEndian64 p 0) tli ∧
      StorageUntouched st sa := by
  unfold WalReceiverMain_received
  dsimp only [List.headD_cons, List.tail_cons]
  rw [XLogWalRcvProcessMsg_data _ p tli hlen]
  refine ⟨_, rfl, ?_⟩
  refine (StorageUntouched.andThen ?_ (ProcessWalSndrMessage_untouched _ _ _).1)
  refine ⟨?_, ?_, ?_, ?_, ?_, ?_⟩ <;> rfl

/-- A `w` message received in the main loop, when every write transfers
something, returns with its WAL bytes stored at its `startPosition`. -/
theorem WalReceiverMain_received_stores (st : RcvState) (p : List Nat) (tli : Nat)
    (hlen : 24 ≤ p.length) (hs : 0 < st.wal_segment_size)
    (hpos : ∀ r ∈ st.pwriteReturns, 0 < r)
    (hfit : bigEndian64 p 0 + (p.length - 24) < 2 ^ 64) (hfile : OpenFileOf st tli) :
    ∃ st1, WalReceiverMain_received st ('w'.toNat :: p) tli = .ok () st1 ∧
      StoredRange st st1 tli (bigEndian64 p 0) (p.drop 24) := by
  obtain ⟨sa, hsa, u1, u2, u3, u4, u5, u6⟩ := WalReceiverMain_received_data st p tli hlen
  obtain ⟨st1, h1, h2⟩ := XLogWalRcvWrite_stores sa (p.drop 24) (bigEndian64 p 0) tli
    (by rw [u3]; exact hs) (by rw [u2]; exact hpos) (by rw [List.length_drop]; exact hfit)
    (by
      unfold OpenFileOf at hfile ⊢
      rw [u4, u5]
      exact hfile)
  exact ⟨st1, hsa.trans h1, .of_untouched ⟨u1, u2, u3, u4, u5, u6⟩ h2⟩

/-- The messages of a contiguous run of `w` frames, when every write
transfers something, are all processed, and their WAL bytes are stored at the
positions from the first `startPosition` on. -/
theorem WalReceiverMain_receiveAll_stores (frames : List (List Nat)) (st : RcvState)
    (tli start : Nat) (hs : 0 < st.wal_segment_size)
    (hpos : ∀ r ∈ st.pwriteReturns, 0 < r) (hfile : OpenFileOf st tli)
    (hchain : Contiguous start frames)
    (hfit : start + (framesData frames).length < 2 ^ 64) :
    ∃ st1, WalReceiverMain_receiveAll st (frames.map (fun p => 'w'.toNat :: p)) tli =
        .ok () st1 ∧
      StoredRange st st1 tli start (framesData frames) ∧
      (∀ p ∈ frames, ∀ i, i < p.length - 24 →
        storedAt st1 tli (bigEndian64 p 0 + i) = p[24 + i]?) := by
  induction frames generalizing st start with
  | nil =>
    exact ⟨st, rfl, .nil st tli start hpos hfile, fun p hp => absurd hp (by simp)⟩
  | cons p ps ih =>
    obtain ⟨hlen, hstart, hrest⟩ := hchain
    simp only [framesData, List.length_append, List.length_drop] at hfit
    obtain ⟨sb, hb1, hb2⟩ := WalReceiverMain_received_stores st p tli hlen hs hpos
      (by rw [hstart]; omega) hfile
    rw [hstart] at hb2
    have hlen2 : (p.drop 24).length = p.length - 24 := List.length_drop _ _
    obtain ⟨sc, hc1, hc2, hc3⟩ := ih sb (start + (p.length - 24)) (by rw [hb2.1]; exact hs)
      hb2.2.1 hb2.2.2.1 hrest (by omega)
    have hall : StoredRange st sc tli start (p.drop 24 ++ framesData ps) :=
      hb2.append (by rw [hlen2]; exact hc2)
    refine ⟨sc, ?_, hall, ?_⟩
    · simp only [List.map_cons, WalReceiverMain_receiveAll, hb1]
      exact hc1
    · intro q hq i hi
      rcases List.mem_cons.mp hq with rfl | hq
      · have := hall.2.2.2.1 i (by rw [List.length_append, hlen2]; omega)
        rw [List.getElem?_append_left (by rw [hlen2]; exact hi), List.getElem?_drop] at this
        rw [hstart]
        exact this
      · exact hc3 q hq i hi

/-- C9: for every run of `w` frames in which each frame begins where the one
before it ended, every segment size and every state in which the open segment
file, if any, is of the timeline of the attempt, provided every call of
`pg_pwrite` transfers at least one byte (it may transfer fewer than asked): the
frames are all processed and then, for every frame and every index `i` below
its data length, segment storage holds the frame's `i`-th data byte in segment
`(startPosition + i) div segmentSize` at offset `(startPosition + i) mod
segmentSize`; so the bytes stored from the first `startPosition` on are the
bytes sent, one frame after the other. -/
theorem contiguous_frames_are_stored (st : RcvState) (tli start : Nat)
    (frames : List (List Nat)) (hs : 0 < st.wal_segment_size)
    (hpos : ∀ r ∈ st.pwriteReturns, 0 < r) (hfile : OpenFileOf st tli)
    (hchain : Contiguous start frames)
    (hfit : start + (framesData frames).length < 2 ^ 64) :
    ∃ st1, WalReceiverMain_receiveAll st (frames.map (fun p => 'w'.toNat :: p)) tli =
        .ok () st1 ∧
      st1.wal_segment_size = st.wal_segment_size ∧
      (∀ p ∈ frames, ∀ i, i < p.length - 24 →
        st1.segments ⟨tli, (bigEndian64 p 0 + i) / st.wal_segment_size⟩
          ((bigEndian64 p 0 + i) % st.wal_segment_size) = p[24 + i]?) ∧
      (∀ i, i < (framesData frames).length →
        st1.segments ⟨tli, (start + i) / st.wal_segment_size⟩
          ((start + i) % st.wal_segment_size) = (framesData frames)[i]?) := by
  obtain ⟨st1, h1, h2, h3⟩ :=
    WalReceiverMain_receiveAll_stores frames st tli start hs hpos hfile hchain hfit
  refine ⟨st1, h1, h2.1, ?_, ?_⟩
  · intro p hp i hi
    have := h3 p hp i hi
    unfold storedAt at this
    rw [h2.1] at this
    exact this
  · intro i hi
    have := h2.2.2.2.1 i hi
    unfold storedAt at this
    rw [h2.1] at this
    exact this

theorem contiguous_frames_are_stored_witness :
    ∃ st1, WalReceiverMain_receiveAll { startState with pwriteReturns := [2, 1] }
        (exampleFrames.map (fun p => 'w'.toNat :: p)) 1 = .ok () st1 ∧
      (∀ i, i < 12 → st1.segments ⟨1, (40 + i) / 16⟩ ((40 + i) % 16) =
        [1, 2, 3, 4, 5, 6, 7, 8, 9, 10, 11, 12][i]?) := by
  obtain ⟨st1, h1, _, _, h4⟩ :=
    contiguous_frames_are_stored { startState with pwriteReturns := [2, 1] } 1 40
      exampleFrames (by decide) (by decide) (Or.inl rfl)
      ⟨by decide, by decide, by decide, by decide, trivial⟩ (by decide)
  exact ⟨st1, h1, h4⟩

/-! ## The status reply -/

theorem hton8_bytes (v : Nat) : hton 8 v = bigEndianBytes v := by
  simp only [hton, bigEndianBytes, List.nil_append, List.cons_append, List.cons.injEq, and_true]
  omega

theorem bigEndianBytes_pattern (w : Nat) :
    bigEndianBytes ((w : Int) % 2 ^ 64).toNat = bigEndianBytes w := by
  have h : ((w : Int) % 2 ^ 64).toNat = w % 2 ^ 64 := by
    have : ((w : Int) % 2 ^ 64) = ((w % 2 ^ 64 : Nat) : Int) := by push_cast; rfl
    rw [this, Int.toNat_natCast]
  rw [h]
  simp only [bigEndianBytes, List.cons.injEq, and_true]
  omega

theorem replyMessage_data (w f a : Nat) (t : Int) (rr : Bool) :
    (replyMessage w f a t rr).data = statusReply w f a t rr := by
  simp only [replyMessage, pq_sendbyte, pq_sendint64, resetStringInfo, statusReply, hton8_bytes,
    bigEndianBytes_pattern]
  cases rr <;> simp

theorem statusReply_length (w f a : Nat) (t : Int) (rr : Bool) :
    (statusReply w f a t rr).length = 34 := by
  simp [statusReply, bigEndianBytes]

/-- What `XLogWalRcvSendReply` does when it sends. -/
theorem XLogWalRcvSendReply_sends (st : RcvState) (force requestReply : Bool)
    (h : force = true ∨ (0 < st.wal_receiver_status_interval ∧
      (st.writePtr ≠ st.LogstreamResult.Write ∨ st.flushPtr ≠ st.LogstreamResult.Flush ∨
        st.wakeup .WALRCV_WAKEUP_REPLY ≤ st.clock st.clockReads))) :
    (XLogWalRcvSendReply st force requestReply).trace =
      st.trace ++ [.send (statusReply st.LogstreamResult.Write st.LogstreamResult.Flush
        st.replayPtr (st.clock (st.clockReads + 1)) requestReply)] ∧
    (XLogWalRcvSendReply st force requestReply).reply_message.data =
      statusReply st.LogstreamResult.Write st.LogstreamResult.Flush
        st.replayPtr (st.clock (st.clockReads + 1)) requestReply := by
  rw [← replyMessage_data]
  unfold XLogWalRcvSendReply
  dsimp only
  have c1 : ¬ (force = false ∧ st.wal_receiver_status_interval ≤ 0) := by
    rintro ⟨hf, hi⟩
    rcases h with h | h
    · rw [hf] at h; exact absurd h (by decide)
    · omega
  rw [if_neg c1]
  have c2 : ¬ (force = false ∧ (GetCurrentTimestamp st).2.writePtr =
      (GetCurrentTimestamp st).2.LogstreamResult.Write ∧
      (GetCurrentTimestamp st).2.flushPtr = (GetCurrentTimestamp st).2.LogstreamResult.Flush ∧
      (GetCurrentTimestamp st).1 < (GetCurrentTimestamp st).2.wakeup .WALRCV_WAKEUP_REPLY) := by
    rintro ⟨hf, hw, hfl, ht⟩
    rcases h with h | h
    · rw [hf] at h; exact absurd h (by decide)
    · simp only [GetCurrentTimestamp] at hw hfl ht
      rcases h.2 with h2 | h2 | h2
      · exact h2 hw
      · exact h2 hfl
      · omega
  rw [if_neg c2]
  exact ⟨rfl, rfl⟩

/-- What `XLogWalRcvSendReply` does when it does not send. -/
theorem XLogWalRcvSendReply_silent (st : RcvState) (requestReply : Bool)
    (h : ¬ (0 < st.wal_receiver_status_interval ∧
      (st.writePtr ≠ st.LogstreamResult.Write ∨ st.flushPtr ≠ st.LogstreamResult.Flush ∨
        st.wakeup .WALRCV_WAKEUP_REPLY ≤ st.clock st.clockReads))) :
    (XLogWalRcvSendReply st false requestReply).trace = st.trace ∧
    (XLogWalRcvSendReply st false requestReply).wakeup = st.wakeup ∧
    (XLogWalRcvSendReply st false requestReply).reply_message = st.reply_message := by
  unfold XLogWalRcvSendReply
  dsimp only
  by_cases c1 : st.wal_receiver_status_interval ≤ 0
  · rw [if_pos ⟨rfl, c1⟩]
    exact ⟨rfl, rfl, rfl⟩
  · rw [if_neg (fun hh => c1 hh.2)]
    have c2 : (GetCurrentTimestamp st).2.writePtr =
        (GetCurrentTimestamp st).2.LogstreamResult.Write ∧
        (GetCurrentTimestamp st).2.flushPtr = (GetCurrentTimestamp st).2.LogstreamResult.Flush ∧
        (GetCurrentTimestamp st).1 < (GetCurrentTimestamp st).2.wakeup .WALRCV_WAKEUP_REPLY := by
      simp only [GetCurrentTimestamp]
      by_contra hc
      apply h
      refine ⟨by omega, ?_⟩
      by_cases a : st.writePtr = st.LogstreamResult.Write
      · by_cases b : st.flushPtr = st.LogstreamResult.Flush
        · right; right
          by_contra hlt
          exact hc ⟨a, b, by omega⟩
        · exact Or.inr (Or.inl b)
      · exact Or.inl a
    rw [if_pos ⟨rfl, c2⟩]
    exact ⟨rfl, rfl, rfl⟩

/-! ## What a flush does to the cursors -/

theorem noBarrier_refl (a : RcvState) : NoBarrier a a :=
  ⟨[], (List.append_nil _).symm, fun _ h => absurd h (List.not_mem_nil _)⟩

theorem noBarrier_trans {a b c : RcvState} (h1 : NoBarrier a b) (h2 : NoBarrier b c) :
    NoBarrier a c := by
  obtain ⟨e1, t1, q1⟩ := h1
  obtain ⟨e2, t2, q2⟩ := h2
  refine ⟨e1 ++ e2, ?_, fun e he => ?_⟩
  · rw [t2, t1, List.append_assoc]
  · exact (List.mem_append.mp he).elim (q1 e) (q2 e)

theorem noBarrier_emit (a : RcvState) (e : Event) (h : e.isFsync = false) :
    NoBarrier a (emit a e) :=
  ⟨[e], rfl, fun x hx => by rw [List.mem_singleton.mp hx]; exact h⟩

theorem cursorsKept_refl (a : RcvState) : CursorsKept a a :=
  ⟨rfl, rfl, rfl, rfl, noBarrier_refl a⟩

theorem cursorsKept_trans {a b c : RcvState} (h1 : CursorsKept a b) (h2 : CursorsKept b c) :
    CursorsKept a c := by
  refine ⟨?_, ?_, ?_, ?_, noBarrier_trans h1.2.2.2.2 h2.2.2.2.2⟩
  · rw [h2.1, h1.1]
  · rw [h2.2.1, h1.2.1]
  · rw [h2.2.2.1, h1.2.2.1]
  · rw [h2.2.2.2.1, h1.2.2.2.1]

theorem cursorsKept_emit (a : RcvState) (e : Event) (h : e.isFsync = false) :
    CursorsKept a (emit a e) :=
  ⟨rfl, rfl, rfl, rfl, noBarrier_emit a e h⟩

/-- A step that changes neither the cursors, nor shared memory, nor the trace. -/
theorem cursorsKept_of_eq {a b : RcvState} (h1 : b.LogstreamResult = a.LogstreamResult)
    (h2 : b.walrcv = a.walrcv) (h3 : b.trace = a.trace) : CursorsKept a b :=
  ⟨h1, by rw [h2], by rw [h2], by rw [h2], ⟨[], by rw [h3, List.append_nil],
    fun _ h => absurd h (List.not_mem_nil _)⟩⟩

theorem WalRcvComputeNextWakeup_cursors (st : RcvState) (reason : WalRcvWakeupReason)
    (now : Int) : CursorsKept st (WalRcvComputeNextWakeup st reason now) :=
  cursorsKept_of_eq rfl rfl rfl

theorem XLogWalRcvSendReply_cursors (st : RcvState) (force requestReply : Bool) :
    CursorsKept st (XLogWalRcvSendReply st force requestReply) := by
  unfold XLogWalRcvSendReply
  dsimp only
  split_ifs
  · exact cursorsKept_refl _
  · exact cursorsKept_of_eq rfl rfl rfl
  · exact ⟨rfl, rfl, rfl, rfl, ⟨[.send _], rfl, by simp [Event.isFsync]⟩⟩

theorem XLogWalRcvSendHSFeedback_cursors (st : RcvState) (immed : Bool) :
    CursorsKept st (XLogWalRcvSendHSFeedback st immed) := by
  unfold XLogWalRcvSendHSFeedback
  dsimp only
  split_ifs
  · exact cursorsKept_refl _
  · exact cursorsKept_of_eq rfl rfl rfl
  · exact cursorsKept_of_eq rfl rfl rfl
  · exact ⟨rfl, rfl, rfl, rfl, ⟨[.send _], rfl, by simp [Event.isFsync]⟩⟩

theorem ProcessWalSndrMessage_cursors (st : RcvState) (walEnd : Nat) (sendTime : Int) :
    CursorsKept st (ProcessWalSndrMessage st walEnd sendTime) :=
  ⟨rfl, rfl, rfl, rfl, ⟨[], (List.append_nil _).symm, fun _ h => absurd h (List.not_mem_nil _)⟩⟩

theorem XLogWalRcvFlush_notify_cursors (st : RcvState) :
    CursorsKept st (XLogWalRcvFlush_notify st) := by
  unfold XLogWalRcvFlush_notify
  dsimp only
  have q1 : CursorsKept st (PgSrc.emit st .wakeupRecovery) := cursorsKept_emit _ .wakeupRecovery rfl
  split_ifs
  · exact cursorsKept_trans (cursorsKept_trans q1 (cursorsKept_emit _ .walSndWakeup rfl))
      (cursorsKept_emit _ (.psDisplay _) rfl)
  · exact cursorsKept_trans q1 (cursorsKept_emit _ .walSndWakeup rfl)
  · exact cursorsKept_trans q1 (cursorsKept_emit _ (.psDisplay _) rfl)
  · exact q1

theorem XLogWalRcvClose_file_cursors (st : RcvState) :
    CursorsKept st (XLogWalRcvClose_file st) := by
  unfold XLogWalRcvClose_file
  dsimp only
  cases st.recvFile with
  | none =>
    dsimp only
    split_ifs
    · exact cursorsKept_emit _ (.archiveForceDone _ _) rfl
    · exact cursorsKept_emit _ (.archiveNotify _ _) rfl
  | some f =>
    dsimp only
    have q1 : CursorsKept st (PgSrc.emit st (.close f)) := cursorsKept_emit _ (.close f) rfl
    split_ifs
    · exact cursorsKept_trans q1 (cursorsKept_emit _ (.archiveForceDone _ _) rfl)
    · exact cursorsKept_trans q1 (cursorsKept_emit _ (.archiveNotify _ _) rfl)

/-- The state of `XLogWalRcvFlush` after the barrier and the update of shared
memory (lines 998-1010). -/
theorem XLogWalRcvFlush_shared_spec (st : RcvState) (tli : Nat) (e : Event) :
    (XLogWalRcvFlush_shared (setFlush (PgSrc.emit st e)) tli).LogstreamResult =
      { Write := st.LogstreamResult.Write, Flush := st.LogstreamResult.Write } ∧
    (XLogWalRcvFlush_shared (setFlush (PgSrc.emit st e)) tli).walrcv.writtenUpto =
      st.walrcv.writtenUpto ∧
    (XLogWalRcvFlush_shared (setFlush (PgSrc.emit st e)) tli).walrcv.flushedUpto =
      (if st.walrcv.flushedUpto < st.LogstreamResult.Write then st.LogstreamResult.Write
       else st.walrcv.flushedUpto) ∧
    (XLogWalRcvFlush_shared (setFlush (PgSrc.emit st e)) tli).walrcv.receivedTLI =
      (if st.walrcv.flushedUpto < st.LogstreamResult.Write then tli
       else st.walrcv.receivedTLI) ∧
    (XLogWalRcvFlush_shared (setFlush (PgSrc.emit st e)) tli).trace = st.trace ++ [e] := by
  unfold XLogWalRcvFlush_shared
  by_cases h : st.walrcv.flushedUpto < st.LogstreamResult.Write
  · have h2 : (setFlush (PgSrc.emit st e)).walrcv.flushedUpto <
        (setFlush (PgSrc.emit st e)).LogstreamResult.Flush := h
    rw [if_pos h2, if_pos h, if_pos h]
    exact ⟨rfl, rfl, rfl, rfl, rfl⟩
  · have h2 : ¬ (setFlush (PgSrc.emit st e)).walrcv.flushedUpto <
        (setFlush (PgSrc.emit st e)).LogstreamResult.Flush := h
    rw [if_neg h2, if_neg h, if_neg h]
    exact ⟨rfl, rfl, rfl, rfl, rfl⟩

/-- What `XLogWalRcvFlush` does when the write cursor is past the flush
cursor. -/
theorem XLogWalRcvFlush_barrier (st : RcvState) (dying : Bool) (tli : Nat)
    (h : st.LogstreamResult.Flush < st.LogstreamResult.Write) :
    BarrierStep st (XLogWalRcvFlush st dying tli) tli ∧
    (XLogWalRcvFlush st dying tli).LogstreamResult.Write = st.LogstreamResult.Write ∧
    (XLogWalRcvFlush st dying tli).walrcv.writtenUpto = st.walrcv.writtenUpto := by
  obtain ⟨s1, s2, s3, s4, s5⟩ :=
    XLogWalRcvFlush_shared_spec st tli (.fsync st.recvFile st.recvSegNo tli)
  have k : CursorsKept
      (XLogWalRcvFlush_shared (setFlush (PgSrc.emit st (.fsync st.recvFile st.recvSegNo tli))) tli)
      (XLogWalRcvFlush st dying tli) := by
    unfold XLogWalRcvFlush
    rw [if_pos h]
    dsimp only
    split_ifs
    · exact cursorsKept_trans (cursorsKept_trans (XLogWalRcvFlush_notify_cursors _)
        (XLogWalRcvSendReply_cursors _ false false)) (XLogWalRcvSendHSFeedback_cursors _ false)
    · exact XLogWalRcvFlush_notify_cursors _
  obtain ⟨k1, k2, k3, k4, evs, k5, k6⟩ := k
  refine ⟨⟨h, ?_, ?_, ?_, evs, ?_, k6⟩, ?_, ?_⟩
  · rw [k1, s1]
  · rw [k3, s3]
  · rw [k4, s4]
  · rw [k5, s5, List.append_assoc]
    rfl
  · rw [k1, s1]
  · rw [k2, s2]

theorem XLogWalRcvFlush_idle (st : RcvState) (dying : Bool) (tli : Nat)
    (h : ¬ st.LogstreamResult.Flush < st.LogstreamResult.Write) :
    XLogWalRcvFlush st dying tli = st := by
  unfold XLogWalRcvFlush
  rw [if_neg h]

theorem XLogWalRcvFlush_step (st : RcvState) (dying : Bool) (tli : Nat) :
    FlushedOrKept st (XLogWalRcvFlush st dying tli) tli := by
  by_cases h : st.LogstreamResult.Flush < st.LogstreamResult.Write
  · obtain ⟨b, w, u⟩ := XLogWalRcvFlush_barrier st dying tli h
    exact ⟨w, u, Or.inl b⟩
  · rw [XLogWalRcvFlush_idle st dying tli h]
    exact ⟨rfl, rfl, Or.inr ⟨rfl, rfl, rfl, noBarrier_refl st⟩⟩

/-- A step that keeps the cursors, after a flush step. -/
theorem flushedOrKept_then {a b c : RcvState} {tli : Nat} (h1 : FlushedOrKept a b tli)
    (h2 : CursorsKept b c) : FlushedOrKept a c tli := by
  obtain ⟨w, u, h⟩ := h1
  obtain ⟨k1, k2, k3, k4, k5⟩ := h2
  refine ⟨by rw [k1, w], by rw [k2, u], ?_⟩
  rcases h with ⟨p, f, g, r, evs, t, q⟩ | ⟨f, g, r, n⟩
  · obtain ⟨evs2, t2, q2⟩ := k5
    refine Or.inl ⟨p, by rw [k1, f], by rw [k3, g], by rw [k4, r], evs ++ evs2, ?_, ?_⟩
    · rw [t2, t, List.append_assoc]
      rfl
    · intro e he
      exact (List.mem_append.mp he).elim (q e) (q2 e)
  · exact Or.inr ⟨by rw [k1, f], by rw [k3, g], by rw [k4, r], noBarrier_trans n k5⟩

theorem XLogWalRcvClose_step (st : RcvState) (recptr tli : Nat) :
    FlushedOrKept st (XLogWalRcvClose st recptr tli) tli := by
  have h := flushedOrKept_then (XLogWalRcvFlush_step st false tli)
    (XLogWalRcvClose_file_cursors (XLogWalRcvFlush st false tli))
  obtain ⟨w, u, h⟩ := h
  exact ⟨w, u, h⟩

/-! ## The claims on `XLogWalRcvSendReply` and `WalRcvComputeNextWakeup` -/

/-- C19: when `wal_receiver_status_interval` is zero or negative and `force`
is false, `XLogWalRcvSendReply` does nothing at all, in every state and whether
or not the positions changed since the last reply: the state after the call is
the state before it, so no frame is sent, the wake-up table is as it was and
so are the remembered positions `writePtr` and `flushPtr`. -/
theorem sendReply_disabled_is_noop (st : RcvState) (requestReply : Bool)
    (h : st.wal_receiver_status_interval ≤ 0) :
    XLogWalRcvSendReply st false requestReply = st ∧
    (XLogWalRcvSendReply st false requestReply).trace = st.trace ∧
    (XLogWalRcvSendReply st false requestReply).wakeup = st.wakeup ∧
    (XLogWalRcvSendReply st false requestReply).writePtr = st.writePtr ∧
    (XLogWalRcvSendReply st false requestReply).flushPtr = st.flushPtr := by
  have e : XLogWalRcvSendReply st false requestReply = st := by
    unfold XLogWalRcvSendReply
    rw [if_pos ⟨rfl, h⟩]
  rw [e]
  exact ⟨rfl, rfl, rfl, rfl, rfl⟩

theorem sendReply_disabled_is_noop_witness :
    XLogWalRcvSendReply { advancedState with wal_receiver_status_interval := 0 } false true =
      { advancedState with wal_receiver_status_interval := 0 } :=
  (sendReply_disabled_is_noop { advancedState with wal_receiver_status_interval := 0 } true
    (by decide)).1

/-- C20: every status reply that `XLogWalRcvSendReply` builds is 34 bytes:
the tag `r`, then the local write cursor, the local flush cursor, the replay
position and the reading of the clock taken for the message, 8 bytes each in
big-endian order, then one byte that is 1 when a reply is requested and 0
otherwise.  A call either sends nothing, or it sends exactly that message and
`reply_message` holds exactly its bytes, whatever the buffer held before. -/
theorem status_reply_layout (st : RcvState) (force requestReply : Bool) :
    (XLogWalRcvSendReply st force requestReply).trace = st.trace ∨
    ((XLogWalRcvSendReply st force requestReply).trace =
        st.trace ++ [.send (statusReply st.LogstreamResult.Write st.LogstreamResult.Flush
          st.replayPtr (st.clock (st.clockReads + 1)) requestReply)] ∧
      (XLogWalRcvSendReply st force requestReply).reply_message.data =
        statusReply st.LogstreamResult.Write st.LogstreamResult.Flush
          st.replayPtr (st.clock (st.clockReads + 1)) requestReply ∧
      (statusReply st.LogstreamResult.Write st.LogstreamResult.Flush
          st.replayPtr (st.clock (st.clockReads + 1)) requestReply).length = 34) := by
  by_cases h : force = true ∨ (0 < st.wal_receiver_status_interval ∧
      (st.writePtr ≠ st.LogstreamResult.Write ∨ st.flushPtr ≠ st.LogstreamResult.Flush ∨
        st.wakeup .WALRCV_WAKEUP_REPLY ≤ st.clock st.clockReads))
  · obtain ⟨a, b⟩ := XLogWalRcvSendReply_sends st force requestReply h
    exact Or.inr ⟨a, b, statusReply_length _ _ _ _ _⟩
  · have hf : force = false := by
      cases force
      · rfl
      · exact absurd (Or.inl rfl) h
    subst hf
    exact Or.inl (XLogWalRcvSendReply_silent st requestReply (fun hh => h (Or.inr hh))).1

theorem status_reply_layout_witness :
    (XLogWalRcvSendReply startState true true).trace = startState.trace ∨
    ((XLogWalRcvSendReply startState true true).trace =
        startState.trace ++ [.send (statusReply startState.LogstreamResult.Write
          startState.LogstreamResult.Flush startState.replayPtr
          (startState.clock (startState.clockReads + 1)) true)] ∧
      (XLogWalRcvSendReply startState true true).reply_message.data =
        statusReply startState.LogstreamResult.Write startState.LogstreamResult.Flush
          startState.replayPtr (startState.clock (startState.clockReads + 1)) true ∧
      (statusReply startState.LogstreamResult.Write startState.LogstreamResult.Flush
          startState.replayPtr (startState.clock (startState.clockReads + 1)) true).length = 34) :=
  status_reply_layout startState true true

/-- C18, as stated, fails.  In `advancedState` the write cursor (45) differs
from the position of the last reply (40) and the clock (1000) has not reached
the wake-up time of the reply (5000000), reporting being enabled; a call with
`force = false` sends a reply all the same. -/
theorem sendReply_before_its_time :
    advancedState.writePtr ≠ advancedState.LogstreamResult.Write ∧
    advancedState.clock advancedState.clockReads <
      advancedState.wakeup .WALRCV_WAKEUP_REPLY ∧
    (XLogWalRcvSendReply advancedState false false).trace =
      [.send [114, 0, 0, 0, 0, 0, 0, 0, 45, 0, 0, 0, 0, 0, 0, 0, 40, 0, 0, 0, 0, 0, 0, 0, 40,
        0, 0, 0, 0, 0, 0, 3, 233, 0]] :=
  ⟨by decide, by decide, by rfl⟩

/-- C18, amended: `XLogWalRcvSendReply` with `force = true` always sends one
`r` frame.  With `force = false` it sends one exactly when reporting is enabled
(`wal_receiver_status_interval > 0`) and the write or the flush position
differs from the one of the last reply OR the clock has reached the wake-up
time of the reply; otherwise it sends nothing. -/
theorem sendReply_forced_or_due (st : RcvState) (requestReply : Bool) :
    (XLogWalRcvSendReply st true requestReply).trace =
      st.trace ++ [.send (statusReply st.LogstreamResult.Write st.LogstreamResult.Flush
        st.replayPtr (st.clock (st.clockReads + 1)) requestReply)] ∧
    (XLogWalRcvSendReply st false requestReply).trace =
      (if 0 < st.wal_receiver_status_interval ∧
          (st.writePtr ≠ st.LogstreamResult.Write ∨ st.flushPtr ≠ st.LogstreamResult.Flush ∨
            st.wakeup .WALRCV_WAKEUP_REPLY ≤ st.clock st.clockReads) then
        st.trace ++ [.send (statusReply st.LogstreamResult.Write st.LogstreamResult.Flush
          st.replayPtr (st.clock (st.clockReads + 1)) requestReply)]
      else st.trace) := by
  refine ⟨(XLogWalRcvSendReply_sends st true requestReply (Or.inl rfl)).1, ?_⟩
  split_ifs with h
  · exact (XLogWalRcvSendReply_sends st false requestReply (Or.inr h)).1
  · exact (XLogWalRcvSendReply_silent st requestReply h).1

theorem sendReply_forced_or_due_witness :
    (XLogWalRcvSendReply startState false false).trace = [] :=
  (sendReply_forced_or_due startState false).2.trans (by rfl)

/-- C16: `WalRcvComputeNextWakeup` computes the wake-up time of the
reference definition, for every `now` and every setting: for the timeout,
`now` plus `wal_receiver_timeout` milliseconds, or never when the timeout is
zero or negative; for the ping, `now` plus half the timeout (the integer half
of the number of milliseconds), or never when the timeout is zero or negative;
for the reply, `now` plus `wal_receiver_status_interval` seconds, or never when
the interval is zero or negative; for the feedback, `now` plus the interval, or
never when the interval is zero or negative or `hot_standby_feedback` is off.
The call changes the entry of its reason in the table and nothing else. -/
theorem computeNextWakeup_is_reference (st : RcvState) (reason : WalRcvWakeupReason)
    (now : Int) :
    (WalRcvComputeNextWakeup st reason now).wakeup reason =
      referenceWakeup reason now st.wal_receiver_timeout st.wal_receiver_status_interval
        st.hot_standby_feedback ∧
    (∀ r, r ≠ reason → (WalRcvComputeNextWakeup st reason now).wakeup r = st.wakeup r) ∧
    WalRcvComputeNextWakeup st reason now =
      { st with wakeup := (WalRcvComputeNextWakeup st reason now).wakeup } := by
  refine ⟨?_, ?_, rfl⟩
  · cases reason
    · simp [WalRcvComputeNextWakeup, referenceWakeup, TimestampTzPlusMilliseconds]
    · simp [WalRcvComputeNextWakeup, referenceWakeup, TimestampTzPlusMilliseconds]
    · simp [WalRcvComputeNextWakeup, referenceWakeup, TimestampTzPlusSeconds]
    · simp only [WalRcvComputeNextWakeup, referenceWakeup, TimestampTzPlusSeconds, if_true]
      by_cases a : st.hot_standby_feedback = false <;>
        by_cases b : st.wal_receiver_status_interval ≤ 0 <;> simp [a, b]
  · intro r hr
    simp [WalRcvComputeNextWakeup, hr]

theorem computeNextWakeup_is_reference_witness :
    (WalRcvComputeNextWakeup startState .WALRCV_WAKEUP_PING 7).wakeup .WALRCV_WAKEUP_PING =
      30000007 :=
  (computeNextWakeup_is_reference startState .WALRCV_WAKEUP_PING 7).1.trans (by rfl)

/-! ## What the write loop does to the cursors -/

theorem publishedOnlyByFlush_refl (a : RcvState) : PublishedOnlyByFlush a a :=
  ⟨[], (List.append_nil _).symm, Or.inr ⟨rfl, rfl⟩⟩

theorem publishedOnlyByFlush_trans {a b c : RcvState} (h1 : PublishedOnlyByFlush a b)
    (h2 : PublishedOnlyByFlush b c) : PublishedOnlyByFlush a c := by
  obtain ⟨e1, t1, q1⟩ := h1
  obtain ⟨e2, t2, q2⟩ := h2
  refine ⟨e1 ++ e2, by rw [t2, t1, List.append_assoc], ?_⟩
  rcases q1 with ⟨e, he, hf⟩ | ⟨f1, r1⟩
  · exact Or.inl ⟨e, List.mem_append_left _ he, hf⟩
  · rcases q2 with ⟨e, he, hf⟩ | ⟨f2, r2⟩
    · exact Or.inl ⟨e, List.mem_append_right _ he, hf⟩
    · exact Or.inr ⟨by rw [f2, f1], by rw [r2, r1]⟩

theorem publishedOnlyByFlush_of_kept {a b : RcvState} (h : CursorsKept a b) :
    PublishedOnlyByFlush a b := by
  obtain ⟨_, _, f, r, evs, t, _⟩ := h
  exact ⟨evs, t, Or.inr ⟨f, r⟩⟩

theorem publishedOnlyByFlush_of_step {a b : RcvState} {tli : Nat} (h : FlushedOrKept a b tli) :
    PublishedOnlyByFlush a b := by
  obtain ⟨_, _, h⟩ := h
  rcases h with ⟨_, _, _, _, evs, t, _⟩ | ⟨_, f, r, evs, t, _⟩
  · exact ⟨_, t, Or.inl ⟨_, List.mem_cons_self _ _, rfl⟩⟩
  · exact ⟨evs, t, Or.inr ⟨f, r⟩⟩

theorem cursorsBelow_of_kept {a b : RcvState} {bound : Nat} (h : CursorsKept a b)
    (hb : CursorsBelow a bound) : CursorsBelow b bound := by
  obtain ⟨l, _, f, _, _⟩ := h
  unfold CursorsBelow
  rw [l, f]
  exact hb

theorem cursorsBelow_of_step {a b : RcvState} {tli bound : Nat} (h : FlushedOrKept a b tli)
    (hb : CursorsBelow a bound) : CursorsBelow b bound := by
  obtain ⟨w, _, h⟩ := h
  obtain ⟨b1, b2, b3⟩ := hb
  unfold CursorsBelow
  rw [w]
  rcases h with ⟨_, f, g, _, _⟩ | ⟨f, g, _, _⟩
  · rw [f, g]
    refine ⟨b2, b2, ?_⟩
    split_ifs
    · exact b2
    · exact b3
  · rw [f, g]
    exact ⟨b1, b2, b3⟩

theorem XLogWalRcvWrite_segbytes_le (st : RcvState) (nbytes recptr : Nat) :
    XLogWalRcvWrite_segbytes st nbytes recptr ≤ nbytes := by
  unfold XLogWalRcvWrite_segbytes
  split_ifs <;> omega

theorem pwriteReturn_le (st : RcvState) (amount : Nat) : pwriteReturn st amount ≤ amount := by
  unfold pwriteReturn
  cases st.pwriteReturns with
  | nil => exact le_refl _
  | cons r rest =>
    dsimp only
    split_ifs <;> omega

/-- Line 941 transfers no more than the bytes at hand and leaves the cursors
alone. -/
theorem XLogWalRcvWrite_pwrite_spec (st : RcvState) (buf : List Nat) (recptr : Nat) :
    (XLogWalRcvWrite_pwrite st buf recptr).1 ≤ buf.length ∧
    CursorsKept st (XLogWalRcvWrite_pwrite st buf recptr).2 := by
  unfold XLogWalRcvWrite_pwrite pg_pwrite
  cases st.recvFile with
  | none =>
    dsimp only
    exact ⟨by omega, cursorsKept_refl st⟩
  | some f =>
    dsimp only
    refine ⟨?_, rfl, rfl, rfl, rfl, ⟨[_], rfl, ?_⟩⟩
    · have h1 := pwriteReturn_le st (XLogWalRcvWrite_segbytes st buf.length recptr)
      have h2 := XLogWalRcvWrite_segbytes_le st buf.length recptr
      omega
    · intro e he
      rw [List.mem_singleton.mp he]
      rfl

/-- Lines 918-928: a flush when the open segment is closed, and nothing else
that touches the cursors. -/
theorem XLogWalRcvWrite_segment_step (st : RcvState) (recptr tli : Nat) :
    FlushedOrKept st (XLogWalRcvWrite_segment st recptr tli) tli := by
  unfold XLogWalRcvWrite_segment
  dsimp only
  have init : ∀ s : RcvState, CursorsKept s
      (PgSrc.emit
        { s with
            recvSegNo := XLByteToSeg recptr s.wal_segment_size
            recvFile := some ⟨tli, XLByteToSeg recptr s.wal_segment_size⟩
            recvFileTLI := tli }
        (.fileInit ⟨tli, XLByteToSeg recptr s.wal_segment_size⟩)) := fun s =>
    ⟨rfl, rfl, rfl, rfl, ⟨[_], rfl, fun e he => by rw [List.mem_singleton.mp he]; rfl⟩⟩
  have idle : FlushedOrKept st st tli := ⟨rfl, rfl, Or.inr ⟨rfl, rfl, rfl, noBarrier_refl st⟩⟩
  by_cases hc : st.recvFile.isSome = true ∧
      XLByteInSeg recptr st.recvSegNo st.wal_segment_size = false
  · rw [if_pos hc]
    split_ifs
    · exact flushedOrKept_then (XLogWalRcvClose_step st recptr tli) (init _)
    · exact XLogWalRcvClose_step st recptr tli
  · rw [if_neg hc]
    split_ifs
    · exact flushedOrKept_then idle (init _)
    · exact idle

/-- The write loop changes the published `flushedUpto` and `receivedTLI` only
with a barrier, however it ends. -/
theorem XLogWalRcvWrite_loop_published (turns : Nat) (st : RcvState) (buf : List Nat)
    (recptr tli : Nat) :
    PublishedOnlyByFlush st (XLogWalRcvWrite_loop turns st buf recptr tli).state := by
  induction turns generalizing st buf recptr with
  | zero => exact publishedOnlyByFlush_refl st
  | succ n ih =>
    rw [XLogWalRcvWrite_loop]
    by_cases hb : buf.length = 0
    · rw [if_pos hb]
      exact publishedOnlyByFlush_refl st
    · rw [if_neg hb]
      dsimp only
      have s := publishedOnlyByFlush_of_step (XLogWalRcvWrite_segment_step st recptr tli)
      have p := publishedOnlyByFlush_of_kept
        (XLogWalRcvWrite_pwrite_spec (XLogWalRcvWrite_segment st recptr tli) buf recptr).2
      have sp := publishedOnlyByFlush_trans s p
      split_ifs
      · exact sp
      · refine publishedOnlyByFlush_trans ?_ (ih _ _ _)
        obtain ⟨evs, t, q⟩ := sp
        exact ⟨evs, t, q⟩

/-- The write loop, when it returns: the write cursor is at the end of the
bytes, `writtenUpto` is as it was, and a bound on the cursors that is not
below the end of the bytes is still one. -/
theorem XLogWalRcvWrite_loop_cursors (turns : Nat) (st st1 : RcvState) (buf : List Nat)
    (recptr tli r : Nat) (hturns : buf.length ≤ turns) (hfit : recptr + buf.length < 2 ^ 64)
    (hok : XLogWalRcvWrite_loop turns st buf recptr tli = .ok r st1) :
    r = recptr + buf.length ∧
    st1.LogstreamResult.Write = writeEnd st buf recptr ∧
    st1.walrcv.writtenUpto = st.walrcv.writtenUpto ∧
    ∀ bound, CursorsBelow st bound → writeEnd st buf recptr ≤ bound →
      CursorsBelow st1 bound := by
  induction turns generalizing st buf recptr with
  | zero =>
    have hb : buf.length = 0 := by omega
    simp only [XLogWalRcvWrite_loop, Outcome.ok.injEq] at hok
    obtain ⟨h1, h2⟩ := hok
    subst h1 h2
    refine ⟨by omega, by simp [writeEnd, hb], rfl, fun _ h _ => h⟩
  | succ n ih =>
    rw [XLogWalRcvWrite_loop] at hok
    by_cases hb : buf.length = 0
    · rw [if_pos hb] at hok
      simp only [Outcome.ok.injEq] at hok
      obtain ⟨h1, h2⟩ := hok
      subst h1 h2
      refine ⟨by omega, by simp [writeEnd, hb], rfl, fun _ h _ => h⟩
    · rw [if_neg hb] at hok
      dsimp only at hok
      obtain ⟨hle, hk⟩ :=
        XLogWalRcvWrite_pwrite_spec (XLogWalRcvWrite_segment st recptr tli) buf recptr
      have hs := XLogWalRcvWrite_segment_step st recptr tli
      generalize XLogWalRcvWrite_pwrite (XLogWalRcvWrite_segment st recptr tli) buf recptr = w
        at hok hle hk
      by_cases hw : w.1 ≤ 0
      · rw [if_pos hw] at hok
        exact absurd hok (by simp)
      · rw [if_neg hw] at hok
        have hn : 0 < w.1.toNat ∧ w.1.toNat ≤ buf.length := by omega
        have hmod : (recptr + w.1.toNat) % 2 ^ 64 = recptr + w.1.toNat :=
          Nat.mod_eq_of_lt (by omega)
        rw [hmod] at hok
        have hlen : (buf.drop w.1.toNat).length = buf.length - w.1.toNat := List.length_drop _ _
        obtain ⟨i1, i2, i3, i4⟩ := ih (setWrite w.2 (recptr + w.1.toNat)) (buf.drop w.1.toNat)
          (recptr + w.1.toNat) (by omega) (by omega) hok
        have hend : writeEnd (setWrite w.2 (recptr + w.1.toNat)) (buf.drop w.1.toNat)
            (recptr + w.1.toNat) = recptr + buf.length := by
          unfold writeEnd
          split_ifs with h0
          · simp only [setWrite]
            omega
          · omega
        have hend0 : writeEnd st buf recptr = recptr + buf.length := by
          unfold writeEnd
          rw [if_neg hb]
        rw [hend] at i2 i4
        rw [hend0]
        refine ⟨by omega, i2, ?_, fun bound hbd hle2 => i4 bound ?_ hle2⟩
        · rw [i3]
          exact (hk.2.1.trans hs.2.1 : w.2.walrcv.writtenUpto = st.walrcv.writtenUpto)
        · have c := cursorsBelow_of_kept hk (cursorsBelow_of_step hs hbd)
          exact ⟨c.1, by simp only [setWrite]; omega, c.2.2⟩

/-- The cursors after a call of `XLogWalRcvWrite` that returns. -/
theorem XLogWalRcvWrite_cursors (st st1 : RcvState) (buf : List Nat) (recptr tli : Nat)
    (hfit : recptr + buf.length < 2 ^ 64)
    (hok : XLogWalRcvWrite st buf recptr tli = .ok () st1) :
    st1.LogstreamResult.Write = writeEnd st buf recptr ∧
    st1.walrcv.writtenUpto = writeEnd st buf recptr ∧
    ∀ bound, CursorsBelow st bound → writeEnd st buf recptr ≤ bound →
      CursorsBelow st1 bound := by
  unfold XLogWalRcvWrite at hok
  cases hl : XLogWalRcvWrite_loop buf.length st buf recptr tli with
  | raised l c s1 =>
    rw [hl] at hok
    exact absurd hok (by simp)
  | ok r s1 =>
    rw [hl] at hok
    dsimp only at hok
    obtain ⟨_, i2, _, i4⟩ :=
      XLogWalRcvWrite_loop_cursors buf.length st s1 buf recptr tli r (le_refl _) hfit hl
    have hw : ∀ bound, CursorsBelow s1 bound → CursorsBelow
        { s1 with walrcv := { s1.walrcv with writtenUpto := s1.LogstreamResult.Write } }
        bound := fun _ h => h
    split_ifs at hok
    · simp only [Outcome.ok.injEq, true_and] at hok
      have hs := XLogWalRcvClose_step
        { s1 with walrcv := { s1.walrcv with writtenUpto := s1.LogstreamResult.Write } } r tli
      rw [hok] at hs
      refine ⟨by rw [hs.1]; exact i2, by rw [hs.2.1]; exact i2, fun bound hb hle => ?_⟩
      exact cursorsBelow_of_step hs (hw bound (i4 bound hb hle))
    · simp only [Outcome.ok.injEq, true_and] at hok
      subst hok
      exact ⟨i2, i2, fun bound hb hle => hw bound (i4 bound hb hle)⟩

theorem XLogWalRcvWrite_published (st : RcvState) (buf : List Nat) (recptr tli : Nat) :
    PublishedOnlyByFlush st (XLogWalRcvWrite st buf recptr tli).state := by
  have h := XLogWalRcvWrite_loop_published buf.length st buf recptr tli
  unfold XLogWalRcvWrite
  cases hl : XLogWalRcvWrite_loop buf.length st buf recptr tli with
  | raised l c s1 =>
    rw [hl] at h
    exact h
  | ok r s1 =>
    rw [hl] at h
    dsimp only
    have q : PublishedOnlyByFlush st
        { s1 with walrcv := { s1.walrcv with writtenUpto := s1.LogstreamResult.Write } } := by
      obtain ⟨evs, h1, h2⟩ := h
      exact ⟨evs, h1, h2⟩
    split_ifs
    · exact publishedOnlyByFlush_trans q (publishedOnlyByFlush_of_step (XLogWalRcvClose_step _ r _))
    · exact q

theorem XLogWalRcvProcessMsg_published (st : RcvState) (type : Nat) (buf : List Nat)
    (tli : Nat) : PublishedOnlyByFlush st (XLogWalRcvProcessMsg st type buf tli).state := by
  have h0 : PublishedOnlyByFlush st { st with incoming_message := resetStringInfo } :=
    publishedOnlyByFlush_refl st
  unfold XLogWalRcvProcessMsg
  dsimp only
  split_ifs
  · exact h0
  · refine publishedOnlyByFlush_trans ?_ (XLogWalRcvWrite_published _ _ _ _)
    have k := publishedOnlyByFlush_of_kept (ProcessWalSndrMessage_cursors
      { st with incoming_message := (pq_getmsgint64 (pq_getmsgint64 (pq_getmsgint64
          (appendBinaryStringInfo resetStringInfo buf 24)).2).2).2 }
      (pq_getmsgint64 (pq_getmsgint64 (appendBinaryStringInfo resetStringInfo buf 24)).2).1
      (toInt64 (pq_getmsgint64 (pq_getmsgint64 (pq_getmsgint64
          (appendBinaryStringInfo resetStringInfo buf 24)).2).2).1))
    obtain ⟨evs, h1, h2⟩ := k
    exact ⟨evs, h1, h2⟩
  · exact h0
  · have k := ProcessWalSndrMessage_cursors
      { st with incoming_message := (pq_getmsgbyte (pq_getmsgint64 (pq_getmsgint64
          (appendBinaryStringInfo resetStringInfo buf 17)).2).2).2 }
      (pq_getmsgint64 (appendBinaryStringInfo resetStringInfo buf 17)).1
      (toInt64 (pq_getmsgint64 (pq_getmsgint64
          (appendBinaryStringInfo resetStringInfo buf 17)).2).1)
    have k2 := publishedOnlyByFlush_of_kept
      (cursorsKept_trans k (XLogWalRcvSendReply_cursors _ true false))
    obtain ⟨evs, h1, h2⟩ := k2
    exact ⟨evs, h1, h2⟩
  · have k := publishedOnlyByFlush_of_kept (ProcessWalSndrMessage_cursors
      { st with incoming_message := (pq_getmsgbyte (pq_getmsgint64 (pq_getmsgint64
          (appendBinaryStringInfo resetStringInfo buf 17)).2).2).2 }
      (pq_getmsgint64 (appendBinaryStringInfo resetStringInfo buf 17)).1
      (toInt64 (pq_getmsgint64 (pq_getmsgint64
          (appendBinaryStringInfo resetStringInfo buf 17)).2).1))
    obtain ⟨evs, h1, h2⟩ := k
    exact ⟨evs, h1, h2⟩
  · exact h0

/-! ## The claims on `XLogWalRcvFlush` -/

theorem WalReceiverMain_received_published (st : RcvState) (buf : List Nat) (tli : Nat) :
    PublishedOnlyByFlush st (WalReceiverMain_received st buf tli).state := by
  unfold WalReceiverMain_received
  dsimp only
  refine publishedOnlyByFlush_trans ?_ (XLogWalRcvProcessMsg_published _ _ _ _)
  exact publishedOnlyByFlush_of_kept (cursorsKept_of_eq rfl rfl rfl)

theorem WalReceiverMain_timeout_published (st : RcvState) :
    PublishedOnlyByFlush st (WalReceiverMain_timeout st).state := by
  unfold WalReceiverMain_timeout
  dsimp only
  have k1 : CursorsKept st (GetCurrentTimestamp st).2 := cursorsKept_of_eq rfl rfl rfl
  split_ifs
  · exact publishedOnlyByFlush_of_kept k1
  · have k2 : CursorsKept (GetCurrentTimestamp st).2
        (WalReceiverMain_ping (GetCurrentTimestamp st).2 (GetCurrentTimestamp st).1).2 := by
      unfold WalReceiverMain_ping
      split_ifs
      · exact cursorsKept_of_eq rfl rfl rfl
      · exact cursorsKept_refl _
    exact publishedOnlyByFlush_of_kept (cursorsKept_trans (cursorsKept_trans (cursorsKept_trans k1 k2)
      (XLogWalRcvSendReply_cursors _ _ _)) (XLogWalRcvSendHSFeedback_cursors _ false))

/-- The start of a streaming attempt sets both local cursors to the replay
position and leaves what is published alone. -/
theorem WalReceiverMain_startStreaming_cursors (st : RcvState) :
    (WalReceiverMain_startStreaming st).LogstreamResult =
      { Write := st.replayPtr, Flush := st.replayPtr } ∧
    (WalReceiverMain_startStreaming st).walrcv.writtenUpto = st.walrcv.writtenUpto ∧
    (WalReceiverMain_startStreaming st).walrcv.flushedUpto = st.walrcv.flushedUpto ∧
    PublishedOnlyByFlush st (WalReceiverMain_startStreaming st) := by
  have k : ∀ s : RcvState, CursorsKept s
      (XLogWalRcvSendHSFeedback (XLogWalRcvSendReply s true false) true) := fun s =>
    cursorsKept_trans (XLogWalRcvSendReply_cursors s true false)
      (XLogWalRcvSendHSFeedback_cursors _ true)
  unfold WalReceiverMain_startStreaming
  dsimp only
  refine ⟨(k _).1, (k _).2.1, (k _).2.2.1, ?_⟩
  refine publishedOnlyByFlush_trans ?_ (publishedOnlyByFlush_of_kept (k _))
  exact ⟨[], (List.append_nil _).symm, Or.inr ⟨rfl, rfl⟩⟩

theorem WalReceiverMain_batchEnd_published (st : RcvState) (tli : Nat) :
    PublishedOnlyByFlush st (WalReceiverMain_batchEnd st tli) :=
  publishedOnlyByFlush_trans
    (publishedOnlyByFlush_of_kept (XLogWalRcvSendReply_cursors st false false))
    (publishedOnlyByFlush_of_step (XLogWalRcvFlush_step _ false tli))

theorem WalReceiverMain_endOfStream_published (st : RcvState) (tli : Nat) :
    PublishedOnlyByFlush st (WalReceiverMain_endOfStream st tli) := by
  unfold WalReceiverMain_endOfStream
  cases st.recvFile with
  | none => exact publishedOnlyByFlush_refl st
  | some f =>
    dsimp only
    have h1 := flushedOrKept_then (XLogWalRcvFlush_step st false tli)
      (cursorsKept_emit (XLogWalRcvFlush st false tli) (.close f) rfl)
    split_ifs
    · obtain ⟨evs, t, q⟩ := publishedOnlyByFlush_of_step
        (flushedOrKept_then h1 (cursorsKept_emit _ (.archiveForceDone _ _) rfl))
      exact ⟨evs, t, q⟩
    · obtain ⟨evs, t, q⟩ := publishedOnlyByFlush_of_step
        (flushedOrKept_then h1 (cursorsKept_emit _ (.archiveNotify _ _) rfl))
      exact ⟨evs, t, q⟩

/-- C13: `XLogWalRcvFlush` issues the durability barrier exactly when, on
entry, the local write cursor is past the local flush cursor.  When it is, the
barrier is the first call that the function adds to the trace and the only
barrier among those it adds, and on return the flush cursor is the write
cursor, which has not moved.  When it is not, the state after the call is the
state before it: no barrier, no change of the local or the shared state, nobody
woken, no frame sent.  Hence a flush that follows a flush does nothing. -/
theorem flush_barrier_iff_behind (st : RcvState) (dying : Bool) (tli : Nat) :
    (st.LogstreamResult.Flush < st.LogstreamResult.Write →
      ∃ evs, (XLogWalRcvFlush st dying tli).trace =
          st.trace ++ .fsync st.recvFile st.recvSegNo tli :: evs ∧
        (∀ e ∈ evs, e.isFsync = false) ∧
        (XLogWalRcvFlush st dying tli).LogstreamResult.Flush =
          (XLogWalRcvFlush st dying tli).LogstreamResult.Write ∧
        (XLogWalRcvFlush st dying tli).LogstreamResult.Write = st.LogstreamResult.Write) ∧
    (¬ st.LogstreamResult.Flush < st.LogstreamResult.Write →
      XLogWalRcvFlush st dying tli = st) ∧
    (∀ (dying2 : Bool) (tli2 : Nat),
      XLogWalRcvFlush (XLogWalRcvFlush st dying tli) dying2 tli2 =
        XLogWalRcvFlush st dying tli) := by
  refine ⟨fun h => ?_, XLogWalRcvFlush_idle st dying tli, fun dying2 tli2 => ?_⟩
  · obtain ⟨⟨_, f, _, _, evs, t, q⟩, w, _⟩ := XLogWalRcvFlush_barrier st dying tli h
    exact ⟨evs, t, q, by rw [f, w], w⟩
  · apply XLogWalRcvFlush_idle
    by_cases h : st.LogstreamResult.Flush < st.LogstreamResult.Write
    · obtain ⟨⟨_, f, _⟩, w, _⟩ := XLogWalRcvFlush_barrier st dying tli h
      rw [f, w]
      exact lt_irrefl _
    · rw [XLogWalRcvFlush_idle st dying tli h]
      exact h

theorem flush_barrier_iff_behind_witness :
    (XLogWalRcvFlush aheadState false 2).trace =
      [.fsync (some ⟨2, 3⟩) 3 2, .wakeupRecovery,
       .send [114, 0, 0, 0, 0, 0, 0, 0, 50, 0, 0, 0, 0, 0, 0, 0, 50, 0, 0, 0, 0, 0, 0, 0, 40,
         0, 0, 0, 0, 0, 0, 3, 233, 0]] ∧
    XLogWalRcvFlush (XLogWalRcvFlush aheadState false 2) false 2 =
      XLogWalRcvFlush aheadState false 2 :=
  ⟨by rfl, (flush_barrier_iff_behind aheadState false 2).2.2 false 2⟩

/-- C14, as stated, fails.  In `aheadState` the write cursor (50) is past the
flush cursor (40), so that `XLogWalRcvFlush` for timeline 2 issues its barrier;
shared memory holds a `flushedUpto` of 100 on timeline 1.  On return the flush
cursor is 50, and `flushedUpto` is still 100 and `receivedTLI` still 1. -/
theorem flush_keeps_published_ahead :
    (XLogWalRcvFlush aheadState false 2).trace.head? = some (.fsync (some ⟨2, 3⟩) 3 2) ∧
    (XLogWalRcvFlush aheadState false 2).LogstreamResult.Flush = 50 ∧
    (XLogWalRcvFlush aheadState false 2).walrcv.flushedUpto = 100 ∧
    (XLogWalRcvFlush aheadState false 2).walrcv.receivedTLI = 1 :=
  ⟨by rfl, by rfl, by rfl, by rfl⟩

/-- C14, amended: whenever `XLogWalRcvFlush` issues the durability barrier,
on return the shared `flushedUpto` is the larger of its value before and the
local flush cursor: when it was below the flush cursor (the position written
up to) it now equals it and `receivedTLI` is the timeline of the attempt, and
otherwise both are as they were.  No operation of the receiver changes
`flushedUpto` or `receivedTLI` unless it issues a barrier: for every one of
them, the published values are as before or a barrier is among the calls it
added to the trace. -/
theorem flush_publishes_progress (st : RcvState) (tli : Nat) :
    (∀ dying : Bool, st.LogstreamResult.Flush < st.LogstreamResult.Write →
      (st.walrcv.flushedUpto < (XLogWalRcvFlush st dying tli).LogstreamResult.Flush →
        (XLogWalRcvFlush st dying tli).walrcv.flushedUpto =
            (XLogWalRcvFlush st dying tli).LogstreamResult.Flush ∧
          (XLogWalRcvFlush st dying tli).walrcv.receivedTLI = tli) ∧
      (¬ st.walrcv.flushedUpto < (XLogWalRcvFlush st dying tli).LogstreamResult.Flush →
        (XLogWalRcvFlush st dying tli).walrcv.flushedUpto = st.walrcv.flushedUpto ∧
          (XLogWalRcvFlush st dying tli).walrcv.receivedTLI = st.walrcv.receivedTLI)) ∧
    (∀ dying : Bool, PublishedOnlyByFlush st (XLogWalRcvFlush st dying tli)) ∧
    (∀ recptr : Nat, PublishedOnlyByFlush st (XLogWalRcvClose st recptr tli)) ∧
    (∀ (buf : List Nat) (recptr : Nat),
      PublishedOnlyByFlush st (XLogWalRcvWrite st buf recptr tli).state) ∧
    (∀ (type : Nat) (buf : List Nat),
      PublishedOnlyByFlush st (XLogWalRcvProcessMsg st type buf tli).state) ∧
    (∀ force requestReply : Bool,
      PublishedOnlyByFlush st (XLogWalRcvSendReply st force requestReply)) ∧
    (∀ immed : Bool, PublishedOnlyByFlush st (XLogWalRcvSendHSFeedback st immed)) ∧
    (∀ (walEnd : Nat) (sendTime : Int),
      PublishedOnlyByFlush st (ProcessWalSndrMessage st walEnd sendTime)) ∧
    (∀ (reason : WalRcvWakeupReason) (now : Int),
      PublishedOnlyByFlush st (WalRcvComputeNextWakeup st reason now)) ∧
    PublishedOnlyByFlush st (WalReceiverMain_startStreaming st) ∧
    (∀ buf : List Nat, PublishedOnlyByFlush st (WalReceiverMain_received st buf tli).state) ∧
    PublishedOnlyByFlush st (WalReceiverMain_batchEnd st tli) ∧
    PublishedOnlyByFlush st (WalReceiverMain_timeout st).state ∧
    PublishedOnlyByFlush st (WalReceiverMain_endOfStream st tli) := by
  refine ⟨fun dying h => ?_, fun dying => publishedOnlyByFlush_of_step (XLogWalRcvFlush_step _ _ _),
    fun recptr => publishedOnlyByFlush_of_step (XLogWalRcvClose_step _ recptr _),
    fun buf recptr => XLogWalRcvWrite_published _ _ _ _,
    fun type buf => XLogWalRcvProcessMsg_published _ _ _ _,
    fun force rr => publishedOnlyByFlush_of_kept (XLogWalRcvSendReply_cursors _ _ _),
    fun immed => publishedOnlyByFlush_of_kept (XLogWalRcvSendHSFeedback_cursors _ _),
    fun walEnd sendTime => publishedOnlyByFlush_of_kept (ProcessWalSndrMessage_cursors _ _ _),
    fun reason now => publishedOnlyByFlush_of_kept (WalRcvComputeNextWakeup_cursors _ _ _),
    (WalReceiverMain_startStreaming_cursors st).2.2.2,
    fun buf => WalReceiverMain_received_published _ _ _,
    WalReceiverMain_batchEnd_published _ _, WalReceiverMain_timeout_published _,
    WalReceiverMain_endOfStream_published _ _⟩
  obtain ⟨⟨_, f, g, r, _⟩, _, _⟩ := XLogWalRcvFlush_barrier st dying tli h
  rw [f, g, r]
  constructor
  · intro hlt
    rw [if_pos hlt, if_pos hlt]
    exact ⟨rfl, rfl⟩
  · intro hlt
    rw [if_neg hlt, if_neg hlt]
    exact ⟨rfl, rfl⟩

theorem flush_publishes_progress_witness :
    (XLogWalRcvFlush advancedState false 1).walrcv.flushedUpto = 45 ∧
    (XLogWalRcvFlush advancedState false 1).walrcv.receivedTLI = 1 := by
  have h := ((flush_publishes_progress advancedState 1).1 false (by decide)).1 (by decide)
  exact ⟨h.1.trans (by rfl), h.2⟩

/-! ## The claims on the order of the cursors and on closing a segment -/

/-- C12, as stated, fails.  In `restartState`, at the start of an attempt,
the local write cursor and `writtenUpto` are 40.  The first data message of the
attempt starts at position 32, the start of the segment of position 40, and
carries four bytes; when it has been processed the write cursor and
`writtenUpto` are 36. -/
theorem first_frame_lowers_written :
    restartState.LogstreamResult.Write = 40 ∧ restartState.walrcv.writtenUpto = 40 ∧
    WalReceiverMain_received restartState exampleSegmentStart 1 =
      .ok () (WalReceiverMain_received restartState exampleSegmentStart 1).state ∧
    (WalReceiverMain_received restartState exampleSegmentStart 1).state.LogstreamResult.Write
      = 36 ∧
    (WalReceiverMain_received restartState exampleSegmentStart 1).state.walrcv.writtenUpto
      = 36 ∧
    (WalReceiverMain_received restartState exampleSegmentStart 1).state.trace =
      [.fileInit ⟨1, 2⟩, .pwrite ⟨1, 2⟩ 0 [1, 2, 3, 4] 4] :=
  ⟨by rfl, by rfl, by rfl, by rfl, by rfl, by rfl⟩

/-- C12, amended: a call of `XLogWalRcvWrite` that returns, for bytes that
end below 2^64, leaves the local write cursor at the end of the bytes that it
wrote (where the cursor was, when there are none) and publishes that position
as `writtenUpto`.  So the write cursor is not below its value before the call
when the bytes end at or past that value, and `writtenUpto` is not below its
value before the call when the bytes end at or past that value; both are the
case for bytes that begin at the write cursor when `writtenUpto` is not past
it. -/
theorem write_cursor_moves_to_end (st st1 : RcvState) (buf : List Nat) (recptr tli : Nat)
    (hfit : recptr + buf.length < 2 ^ 64)
    (hok : XLogWalRcvWrite st buf recptr tli = .ok () st1) :
    st1.LogstreamResult.Write = writeEnd st buf recptr ∧
    st1.walrcv.writtenUpto = writeEnd st buf recptr ∧
    (st.LogstreamResult.Write ≤ writeEnd st buf recptr →
      st.LogstreamResult.Write ≤ st1.LogstreamResult.Write) ∧
    (st.walrcv.writtenUpto ≤ writeEnd st buf recptr →
      st.walrcv.writtenUpto ≤ st1.walrcv.writtenUpto) ∧
    (recptr = st.LogstreamResult.Write →
      st.walrcv.writtenUpto ≤ st.LogstreamResult.Write →
      st.LogstreamResult.Write ≤ st1.LogstreamResult.Write ∧
        st.walrcv.writtenUpto ≤ st1.walrcv.writtenUpto) := by
  obtain ⟨c1, c2, _⟩ := XLogWalRcvWrite_cursors st st1 buf recptr tli hfit hok
  rw [c1, c2]
  refine ⟨rfl, rfl, fun h => h, fun h => h, fun hr hw => ?_⟩
  have : st.LogstreamResult.Write ≤ writeEnd st buf recptr := by
    unfold writeEnd
    split_ifs <;> omega
  exact ⟨this, hw.trans this⟩

theorem write_cursor_moves_to_end_witness :
    (XLogWalRcvWrite restartState [1, 2, 3, 4, 5] 40 1).state.LogstreamResult.Write = 45 ∧
    (XLogWalRcvWrite restartState [1, 2, 3, 4, 5] 40 1).state.walrcv.writtenUpto = 45 :=
  ⟨(write_cursor_moves_to_end restartState
      (XLogWalRcvWrite restartState [1, 2, 3, 4, 5] 40 1).state [1, 2, 3, 4, 5] 40 1
      (by decide) (by rfl)).1.trans (by rfl),
   (write_cursor_moves_to_end restartState
      (XLogWalRcvWrite restartState [1, 2, 3, 4, 5] 40 1).state [1, 2, 3, 4, 5] 40 1
      (by decide) (by rfl)).2.1.trans (by rfl)⟩

/-- C15 fails on the code.  An attempt starts in `midSegmentState`, with the
replay position 40 in the middle of segment 2 (segments of 16 bytes); the
primary streams from the start of that segment, as it was asked to: one data
message with four bytes at position 32; then the stream ends.  The receiver opens segment 2, writes the four bytes and
closes the file, and issues no barrier at all: the write cursor (36) never
passed the flush cursor (40). -/
theorem segment_closed_without_barrier :
    (WalReceiverMain_endOfStream
      (WalReceiverMain_batchEnd
        (WalReceiverMain_receiveAll (WalReceiverMain_startStreaming midSegmentState)
          [exampleSegmentStart] 1).state 1) 1).trace =
      [.send [114, 0, 0, 0, 0, 0, 0, 0, 40, 0, 0, 0, 0, 0, 0, 0, 40, 0, 0, 0, 0, 0, 0, 0, 40,
         0, 0, 0, 0, 0, 0, 3, 234, 0],
       .fileInit ⟨1, 2⟩,
       .pwrite ⟨1, 2⟩ 0 [1, 2, 3, 4] 4,
       .send [114, 0, 0, 0, 0, 0, 0, 0, 36, 0, 0, 0, 0, 0, 0, 0, 40, 0, 0, 0, 0, 0, 0, 0, 40,
         0, 0, 0, 0, 0, 0, 3, 238, 0],
       .close ⟨1, 2⟩,
       .archiveForceDone 1 2] ∧
    closedDirty
      (WalReceiverMain_endOfStream
        (WalReceiverMain_batchEnd
          (WalReceiverMain_receiveAll (WalReceiverMain_startStreaming midSegmentState)
            [exampleSegmentStart] 1).state 1) 1).trace [] = true :=
  ⟨by rfl, by rfl⟩

/-! ## The claim on the silence timeout -/

theorem statusReply_last (w f a : Nat) (t : Int) (rr : Bool) :
    (statusReply w f a t rr).getLast? = some (if rr then 1 else 0) := by
  simp [statusReply, List.getLast?_cons, List.getLast?_append]

theorem memsetNulls_length (row : List (Option Datum)) (first count : Nat) :
    (memsetNulls row first count).length = row.length := by
  induction count with
  | zero => rfl
  | succ k ih => simp [memsetNulls, setNull, ih]

theorem memsetNulls_getElem? (row : List (Option Datum)) (first count i : Nat) :
    (memsetNulls row first count)[i]? =
      if first ≤ i ∧ i < first + count ∧ i < row.length then some none else row[i]? := by
  induction count with
  | zero =>
    rw [if_neg (fun c => by omega)]
    rfl
  | succ k ih =>
    simp only [memsetNulls, setNull, List.getElem?_set, memsetNulls_length, ih]
    by_cases h : first + k = i
    · subst h
      by_cases hl : first + k < row.length
      · simp [hl]
      · simp [hl]
        exact Nat.le_of_not_lt hl
    · rw [if_neg h]
      by_cases c : first ≤ i ∧ i < first + k ∧ i < row.length
      · rw [if_pos c, if_pos ⟨c.1, by omega, c.2.2⟩]
      · rw [if_neg c, if_neg]
        intro c2
        exact c ⟨c2.1, by omega, c2.2.2⟩

/-- The row that a caller without the privileges gets. -/
theorem memsetNulls_row (natts : Nat) (v : Datum) (h : 0 < natts) :
    memsetNulls (setValue (List.replicate natts (some Datum.zero)) 0 v) 1 (natts - 1) =
      some v :: List.replicate (natts - 1) none := by
  apply List.ext_getElem?
  intro i
  rw [memsetNulls_getElem?]
  simp only [setValue, List.length_set, List.length_replicate]
  cases i with
  | zero =>
    simp [h]
  | succ j =>
    by_cases hj : j + 1 < natts
    · rw [if_pos ⟨by omega, by omega, hj⟩]
      have : j < natts - 1 := by omega
      simp [List.getElem?_replicate, this]
    · rw [if_neg (fun c => hj c.2.2)]
      have : ¬ j < natts - 1 := by omega
      simp [List.getElem?_replicate, this]
      omega

/-! ## The claims on the start of the process and on the status view -/

theorem WalReceiverMain_startup_starting (st : RcvState) (MyProcPid : Nat)
    (h : st.walrcv.walRcvState = .WALRCV_STARTING) :
    WalReceiverMain_claim st MyProcPid = .running (WalReceiverMain_advertise st MyProcPid) ∧
    WalReceiverMain_startup st MyProcPid =
      .running (WalReceiverMain_writtenUpto (WalReceiverMain_advertise st MyProcPid)) := by
  constructor <;>
    simp only [WalReceiverMain_startup, WalReceiverMain_claim, WalReceiverMain_switch, h]

theorem WalReceiverMain_startup_stopped (st : RcvState) (MyProcPid : Nat)
    (h : st.walrcv.walRcvState = .WALRCV_STOPPED) :
    WalReceiverMain_startup st MyProcPid = .exited 1 (emit st .stoppedBroadcast) := by
  simp only [WalReceiverMain_startup, WalReceiverMain_claim, WalReceiverMain_switch, h]

theorem WalReceiverMain_startup_stopping (st : RcvState) (MyProcPid : Nat)
    (h : st.walrcv.walRcvState = .WALRCV_STOPPING) :
    WalReceiverMain_startup st MyProcPid =
      .exited 1
        (emit { st with walrcv := { st.walrcv with walRcvState := .WALRCV_STOPPED } }
          .stoppedBroadcast) := by
  simp only [WalReceiverMain_startup, WalReceiverMain_claim, WalReceiverMain_switch, h]

theorem WalReceiverMain_startup_running (st : RcvState) (MyProcPid : Nat)
    (h : st.walrcv.walRcvState = .WALRCV_STREAMING ∨ st.walrcv.walRcvState = .WALRCV_WAITING ∨
      st.walrcv.walRcvState = .WALRCV_RESTARTING) :
    WalReceiverMain_startup st MyProcPid = .raised .PANIC .ERRCODE_INTERNAL_ERROR st := by
  rcases h with h | h | h <;>
    simp only [WalReceiverMain_startup, WalReceiverMain_claim, WalReceiverMain_switch, h]

/-- C28: for a caller without the privileges of `pg_read_all_stats`,
`pg_stat_get_wal_receiver` shows the process id and nothing else: for any two
shared records with the same process id, not zero, and both ready to display,
what it returns is the same; when the result type is a row type (of at least
one column), it is the row with the process id in the first column and null in
every other column. -/
theorem stat_shows_pid_only (w1 w2 : WalRcvData) (composite : Bool) (natts : Nat)
    (hpid : w1.pid = w2.pid) (hnz : w1.pid ≠ 0)
    (hr1 : w1.ready_to_display = true) (hr2 : w2.ready_to_display = true) :
    pg_stat_get_wal_receiver w1 false composite natts =
      pg_stat_get_wal_receiver w2 false composite natts ∧
    (0 < natts →
      pg_stat_get_wal_receiver w1 false true natts =
        .row (some (.int32 w1.pid) :: List.replicate (natts - 1) none)) := by
  have c1 : ¬ (w1.pid = 0 ∨ w1.ready_to_display = false) := by
    rintro (h | h)
    · exact hnz h
    · rw [hr1] at h
      exact absurd h (by decide)
  have c2 : ¬ (w2.pid = 0 ∨ w2.ready_to_display = false) := by
    rintro (h | h)
    · exact hnz (hpid.trans h)
    · rw [hr2] at h
      exact absurd h (by decide)
  constructor
  · unfold pg_stat_get_wal_receiver
    rw [if_neg c1, if_neg c2, hpid]
    rfl
  · intro hn
    unfold pg_stat_get_wal_receiver
    rw [if_neg c1]
    simp only [Bool.true_eq_false, if_false, if_true]
    rw [memsetNulls_row natts _ hn]

theorem stat_shows_pid_only_witness :
    pg_stat_get_wal_receiver startState.walrcv false true 15 =
      pg_stat_get_wal_receiver otherShared false true 15 ∧
    pg_stat_get_wal_receiver startState.walrcv false true 15 =
      .row [some (.int32 4242), none, none, none, none, none, none, none, none, none, none,
        none, none, none, none] := by
  have h := stat_shows_pid_only startState.walrcv otherShared true 15 (by rfl) (by decide)
    (by rfl) (by rfl)
  exact ⟨h.1, (h.2 (by decide)).trans (by rfl)⟩

/-- C23: when `WalReceiverMain` starts and finds the shared state
`WALRCV_STOPPED` or `WALRCV_STOPPING`, the process exits through
`proc_exit(1)`: the shared state is `WALRCV_STOPPED`, the process id is as it
was (zero, as the assertion of line 217 has it) and so is every other field of
the shared record and of the state of the process; the only call made is the
broadcast on the condition variable `walRcvStoppedCV`, so that nothing is
connected to nor streamed. -/
theorem startup_when_stopped (st : RcvState) (MyProcPid : Nat)
    (h : st.walrcv.walRcvState = .WALRCV_STOPPED ∨ st.walrcv.walRcvState = .WALRCV_STOPPING) :
    WalReceiverMain_startup st MyProcPid =
      .exited 1
        { st with
            walrcv := { st.walrcv with walRcvState := .WALRCV_STOPPED }
            trace := st.trace ++ [.stoppedBroadcast] } ∧
    (WalReceiverMain_startup st MyProcPid).state.walrcv.pid = st.walrcv.pid := by
  rcases h with h | h
  · have e : st.walrcv = { st.walrcv with walRcvState := .WALRCV_STOPPED } := by
      rw [← h]
    rw [WalReceiverMain_startup_stopped st MyProcPid h]
    refine ⟨?_, rfl⟩
    rw [← e]
    rfl
  · rw [WalReceiverMain_startup_stopping st MyProcPid h]
    exact ⟨rfl, rfl⟩

theorem startup_when_stopped_witness :
    (WalReceiverMain_startup (launchState .WALRCV_STOPPING) 4242).state.walrcv.walRcvState =
      .WALRCV_STOPPED ∧
    (WalReceiverMain_startup (launchState .WALRCV_STOPPING) 4242).state.walrcv.pid = 0 := by
  have h := startup_when_stopped (launchState .WALRCV_STOPPING) 4242 (Or.inr rfl)
  exact ⟨by rw [h.1]; rfl, h.2⟩

/-- C24, as stated, fails.  The shared state `WALRCV_STARTING` is neither
`WALRCV_STOPPED` nor `WALRCV_STOPPING`, and from it `WalReceiverMain` raises
no error: it stores its process id and the state `WALRCV_STREAMING` and goes
on. -/
theorem startup_from_starting_proceeds :
    WalReceiverMain_startup (launchState .WALRCV_STARTING) 4242 =
      .running (WalReceiverMain_startup (launchState .WALRCV_STARTING) 4242).state ∧
    (WalReceiverMain_startup (launchState .WALRCV_STARTING) 4242).state.walrcv.walRcvState =
      .WALRCV_STREAMING ∧
    (WalReceiverMain_startup (launchState .WALRCV_STARTING) 4242).state.walrcv.pid = 4242 ∧
    (WalReceiverMain_startup (launchState .WALRCV_STARTING) 4242).state.trace = [] :=
  ⟨by rfl, by rfl, by rfl, by rfl⟩

/-- C24, amended: on entry to `WalReceiverMain`, every shared state other
than `WALRCV_STOPPED`, `WALRCV_STOPPING` and `WALRCV_STARTING` is a fatal
violation of consistency: for `WALRCV_STREAMING`, `WALRCV_WAITING`,
`WALRCV_RESTARTING` and for a value that is none of the enum the process raises
the `PANIC` "walreceiver still running according to shared memory state" and
does not go on.  `WALRCV_STARTING` is the usual case: the process goes on, with
its process id and the state `WALRCV_STREAMING` in the shared record. -/
theorem startup_by_state (st : RcvState) (MyProcPid : Nat) :
    (st.walrcv.walRcvState = .WALRCV_STREAMING ∨ st.walrcv.walRcvState = .WALRCV_WAITING ∨
        st.walrcv.walRcvState = .WALRCV_RESTARTING →
      ∃ st1, WalReceiverMain_startup st MyProcPid = .raised .PANIC .ERRCODE_INTERNAL_ERROR st1) ∧
    (∃ st1, WalReceiverMain_switch st none = .raised .PANIC .ERRCODE_INTERNAL_ERROR st1) ∧
    (st.walrcv.walRcvState = .WALRCV_STARTING →
      ∃ st1, WalReceiverMain_startup st MyProcPid = .running st1 ∧
        st1.walrcv.walRcvState = .WALRCV_STREAMING ∧ st1.walrcv.pid = MyProcPid) ∧
    (st.walrcv.walRcvState = .WALRCV_STOPPED ∨ st.walrcv.walRcvState = .WALRCV_STOPPING →
      ∃ st1, WalReceiverMain_startup st MyProcPid = .exited 1 st1) := by
  refine ⟨fun h => ⟨st, WalReceiverMain_startup_running st MyProcPid h⟩, ⟨st, rfl⟩,
    fun h => ⟨_, (WalReceiverMain_startup_starting st MyProcPid h).2, rfl, rfl⟩, fun h => ?_⟩
  rcases h with h | h
  · exact ⟨_, WalReceiverMain_startup_stopped st MyProcPid h⟩
  · exact ⟨_, WalReceiverMain_startup_stopping st MyProcPid h⟩

theorem startup_by_state_witness :
    ∃ st1, WalReceiverMain_startup (launchState .WALRCV_WAITING) 4242 =
      .raised .PANIC .ERRCODE_INTERNAL_ERROR st1 :=
  (startup_by_state (launchState .WALRCV_WAITING) 4242).1 (Or.inr (Or.inl rfl))

/-- C25: when `WalReceiverMain` starts and the shared state is
`WALRCV_STREAMING`, `WALRCV_WAITING` or `WALRCV_RESTARTING`, or a value that is
none of the six of the enum, it raises the `PANIC` "walreceiver still running
according to shared memory state" and has changed nothing: the shared state,
the process id in the shared record and every other field are as they were,
and no call has been made. -/
theorem second_start_is_fatal (st : RcvState) (MyProcPid : Nat) :
    (st.walrcv.walRcvState = .WALRCV_STREAMING ∨ st.walrcv.walRcvState = .WALRCV_WAITING ∨
        st.walrcv.walRcvState = .WALRCV_RESTARTING →
      WalReceiverMain_startup st MyProcPid = .raised .PANIC .ERRCODE_INTERNAL_ERROR st) ∧
    WalReceiverMain_switch st none = .raised .PANIC .ERRCODE_INTERNAL_ERROR st :=
  ⟨WalReceiverMain_startup_running st MyProcPid, rfl⟩

theorem second_start_is_fatal_witness :
    WalReceiverMain_startup startState 777 =
      .raised .PANIC .ERRCODE_INTERNAL_ERROR startState :=
  (second_start_is_fatal startState 777).1 (Or.inl rfl)

/-! ## The claim on `WalRcvDie` -/

/-- The calls of a flush made when dying: none sends anything. -/
theorem XLogWalRcvFlush_dying_trace (st : RcvState) (tli : Nat) :
    ∃ evs, (XLogWalRcvFlush st true tli).trace = st.trace ++ evs ∧
      (∀ e ∈ evs, e.isSend = false) ∧
      (st.LogstreamResult.Flush < st.LogstreamResult.Write →
        evs.head? = some (.fsync st.recvFile st.recvSegNo tli)) ∧
      (¬ st.LogstreamResult.Flush < st.LogstreamResult.Write → evs = []) := by
  by_cases h : st.LogstreamResult.Flush < st.LogstreamResult.Write
  · have key : ∀ s : RcvState, ∃ evs, (XLogWalRcvFlush_notify s).trace = s.trace ++ evs ∧
        ∀ e ∈ evs, e.isSend = false := by
      intro s
      unfold XLogWalRcvFlush_notify
      dsimp only
      split_ifs
      · exact ⟨[.wakeupRecovery, .walSndWakeup, .psDisplay s.LogstreamResult.Write],
          by simp [emit],
          by simp [Event.isSend]⟩
      · exact ⟨[.wakeupRecovery, .walSndWakeup], by simp [emit], by simp [Event.isSend]⟩
      · exact ⟨[.wakeupRecovery, .psDisplay s.LogstreamResult.Write], by simp [emit],
          by simp [Event.isSend]⟩
      · exact ⟨[.wakeupRecovery], by simp [emit], by simp [Event.isSend]⟩
    obtain ⟨evs, t, q⟩ := key (XLogWalRcvFlush_shared
      (setFlush (PgSrc.emit st (.fsync st.recvFile st.recvSegNo tli))) tli)
    have ts := (XLogWalRcvFlush_shared_spec st tli (.fsync st.recvFile st.recvSegNo tli)).2.2.2.2
    refine ⟨.fsync st.recvFile st.recvSegNo tli :: evs, ?_, ?_, fun _ => rfl,
      fun c => absurd h c⟩
    · unfold XLogWalRcvFlush
      rw [if_pos h]
      dsimp only
      rw [if_neg (by decide), t, ts, List.append_assoc]
      rfl
    · intro e he
      rcases List.mem_cons.mp he with he | he
      · rw [he]
        rfl
      · exact q e he
  · rw [XLogWalRcvFlush_idle st true tli h]
    exact ⟨[], (List.append_nil _).symm, by simp, fun c => absurd c h, fun _ => rfl⟩

/-- What `WalRcvDie` does from every state, whatever the shared state is when
it is entered.  On return the shared state is `WALRCV_STOPPED`, the process id
is zero, the latch is cleared and `ready_to_display` is false; the local flush
cursor is not behind the write cursor (the barrier was issued, first of all,
when it was behind on entry, and not otherwise); those who wait for the stop
are woken, the connection is disconnected when there is one, the startup
process is woken; and none of the calls made by the final flush sends a frame,
reply or feedback. -/
theorem WalRcvDie_cleanup (st : RcvState) (wrconn : Bool) (tli : Nat) :
    (WalRcvDie st wrconn tli).walrcv.walRcvState = .WALRCV_STOPPED ∧
    (WalRcvDie st wrconn tli).walrcv.pid = 0 ∧
    (WalRcvDie st wrconn tli).walrcv.latch = false ∧
    (WalRcvDie st wrconn tli).walrcv.ready_to_display = false ∧
    ¬ (WalRcvDie st wrconn tli).LogstreamResult.Flush <
      (WalRcvDie st wrconn tli).LogstreamResult.Write ∧
    ∃ evs, (WalRcvDie st wrconn tli).trace =
        st.trace ++ evs ++
          (.stoppedBroadcast :: ((if wrconn then [.disconnect] else []) ++ [.wakeupRecovery])) ∧
      (∀ e ∈ evs, e.isSend = false) ∧
      (st.LogstreamResult.Flush < st.LogstreamResult.Write →
        evs.head? = some (.fsync st.recvFile st.recvSegNo tli)) ∧
      (¬ st.LogstreamResult.Flush < st.LogstreamResult.Write → evs = []) := by
  obtain ⟨evs, t, q, hb, hn⟩ := XLogWalRcvFlush_dying_trace st tli
  have hf : ¬ (XLogWalRcvFlush st true tli).LogstreamResult.Flush <
      (XLogWalRcvFlush st true tli).LogstreamResult.Write := by
    by_cases h : st.LogstreamResult.Flush < st.LogstreamResult.Write
    · obtain ⟨⟨_, f, _⟩, w, _⟩ := XLogWalRcvFlush_barrier st true tli h
      rw [f, w]
      exact lt_irrefl _
    · rw [XLogWalRcvFlush_idle st true tli h]
      exact h
  refine ⟨?_, ?_, ?_, ?_, ?_, evs, ?_, q, hb, hn⟩
  · cases wrconn <;> rfl
  · cases wrconn <;> rfl
  · cases wrconn <;> rfl
  · cases wrconn <;> rfl
  · cases wrconn <;> exact hf
  · cases wrconn
    · simp only [WalRcvDie, emit, Bool.false_eq_true, if_false, t, List.append_assoc,
        List.nil_append, List.cons_append, List.singleton_append]
    · simp only [WalRcvDie, emit, if_true, t, List.append_assoc,
        List.nil_append, List.cons_append, List.singleton_append]

/-- From `aheadState`, where the write cursor is past the flush cursor,
`WalRcvDie` issues the barrier on the open segment file first of all. -/
theorem WalRcvDie_flushes_when_behind :
    (WalRcvDie aheadState true 2).trace =
      [.fsync (some ⟨2, 3⟩) 3 2, .wakeupRecovery, .stoppedBroadcast, .disconnect,
       .wakeupRecovery] ∧
    (WalRcvDie aheadState true 2).walrcv.walRcvState = .WALRCV_STOPPED ∧
    unflushedFiles (WalRcvDie aheadState true 2).trace [⟨2, 3⟩] = [] :=
  ⟨by rfl, (WalRcvDie_cleanup aheadState true 2).1, by rfl⟩

/-- C27 fails on the code.  An attempt starts in `midSegmentState`, with the
replay position 40 in the middle of segment 2 (segments of 16 bytes); the
primary streams from the start of that segment, as it was asked to: one data
message with four bytes at position 32, which is processed and answered (lines
485-521); then the process exits and `WalRcvDie` runs, with a connection, for
timeline 1.  It marks the shared state `WALRCV_STOPPED`, wakes the waiters,
disconnects, and sends nothing; the flush cursor (40) is not behind the write
cursor (36) on return.  But its `XLogWalRcvFlush` issues no barrier, since the
write cursor never passed the flush cursor: the trace holds the write of the
four bytes and no `issue_xlog_fsync`, and segment 2, still open, holds bytes
that were written and not flushed. -/
theorem die_leaves_written_bytes_unflushed :
    (WalReceiverMain_receiveAll (WalReceiverMain_startStreaming midSegmentState)
        [exampleSegmentStart] 1) =
      .ok () (WalReceiverMain_receiveAll (WalReceiverMain_startStreaming midSegmentState)
        [exampleSegmentStart] 1).state ∧
    (WalRcvDie
      (WalReceiverMain_batchEnd
        (WalReceiverMain_receiveAll (WalReceiverMain_startStreaming midSegmentState)
          [exampleSegmentStart] 1).state 1) true 1).trace =
      [.send [114, 0, 0, 0, 0, 0, 0, 0, 40, 0, 0, 0, 0, 0, 0, 0, 40, 0, 0, 0, 0, 0, 0, 0, 40,
         0, 0, 0, 0, 0, 0, 3, 234, 0],
       .fileInit ⟨1, 2⟩,
       .pwrite ⟨1, 2⟩ 0 [1, 2, 3, 4] 4,
       .send [114, 0, 0, 0, 0, 0, 0, 0, 36, 0, 0, 0, 0, 0, 0, 0, 40, 0, 0, 0, 0, 0, 0, 0, 40,
         0, 0, 0, 0, 0, 0, 3, 238, 0],
       .stoppedBroadcast,
       .disconnect,
       .wakeupRecovery] ∧
    (WalRcvDie
      (WalReceiverMain_batchEnd
        (WalReceiverMain_receiveAll (WalReceiverMain_startStreaming midSegmentState)
          [exampleSegmentStart] 1).state 1) true 1).walrcv.walRcvState = .WALRCV_STOPPED ∧
    (WalRcvDie
      (WalReceiverMain_batchEnd
        (WalReceiverMain_receiveAll (WalReceiverMain_startStreaming midSegmentState)
          [exampleSegmentStart] 1).state 1) true 1).LogstreamResult =
      { Write := 36, Flush := 40 } ∧
    (WalRcvDie
      (WalReceiverMain_batchEnd
        (WalReceiverMain_receiveAll (WalReceiverMain_startStreaming midSegmentState)
          [exampleSegmentStart] 1).state 1) true 1).recvFile = some ⟨1, 2⟩ ∧
    unflushedFiles
      (WalRcvDie
        (WalReceiverMain_batchEnd
          (WalReceiverMain_receiveAll (WalReceiverMain_startStreaming midSegmentState)
            [exampleSegmentStart] 1).state 1) true 1).trace [] = [⟨1, 2⟩] :=
  ⟨by rfl, by rfl, by rfl, by rfl, by rfl, by rfl⟩

/-! ## The feedback frame -/

theorem hton4_bytes (v : Nat) : hton 4 (v % 2 ^ 32) = bigEndianBytes4 v := by
  simp only [hton, bigEndianBytes4, List.nil_append, List.cons_append, List.cons.injEq, and_true]
  omega

theorem feedbackMessage_data (t : Int) (x xe c ce : Nat) :
    (feedbackMessage t x xe c ce).data = feedbackFrame t x xe c ce := by
  simp only [feedbackMessage, pq_sendbyte, pq_sendint64, pq_sendint32, resetStringInfo,
    feedbackFrame, hton8_bytes, hton4_bytes]
  simp

theorem feedbackFrame_length (t : Int) (x xe c ce : Nat) :
    (feedbackFrame t x xe c ce).length = 25 := by
  simp [feedbackFrame, bigEndianBytes, bigEndianBytes4]

theorem XLogWalRcvSendHSFeedback_epoch_eq (nextFullXid xid : Nat) :
    XLogWalRcvSendHSFeedback_epoch nextFullXid xid = epochFor nextFullXid xid := by
  unfold XLogWalRcvSendHSFeedback_epoch epochFor
  split_ifs <;> omega

/-- The two transaction ids that a feedback frame states: the horizons as
32-bit values when feedback is on, else the invalid id 0 twice. -/
theorem XLogWalRcvSendHSFeedback_xmin_eq (st : RcvState) :
    XLogWalRcvSendHSFeedback_xmin st =
      (if st.hot_standby_feedback = true then
        (st.replicationHorizons.1 % 2 ^ 32, st.replicationHorizons.2 % 2 ^ 32)
       else (0, 0)) := by
  unfold XLogWalRcvSendHSFeedback_xmin
  cases st.hot_standby_feedback <;> rfl

/-- What `XLogWalRcvSendHSFeedback` does: nothing is sent, or exactly one
message is, the feedback built from the clock, the horizons and the next
transaction id. -/
theorem XLogWalRcvSendHSFeedback_frame (st : RcvState) (immed : Bool) :
    (XLogWalRcvSendHSFeedback st immed).trace = st.trace ∨
    ((XLogWalRcvSendHSFeedback st immed).trace =
        st.trace ++ [.send (feedbackFrame (st.clock (st.clockReads + 1))
          (XLogWalRcvSendHSFeedback_xmin st).1
          (epochFor st.nextFullXid (XLogWalRcvSendHSFeedback_xmin st).1)
          (XLogWalRcvSendHSFeedback_xmin st).2
          (epochFor st.nextFullXid (XLogWalRcvSendHSFeedback_xmin st).2))] ∧
      (XLogWalRcvSendHSFeedback st immed).reply_message.data =
        feedbackFrame (st.clock (st.clockReads + 1))
          (XLogWalRcvSendHSFeedback_xmin st).1
          (epochFor st.nextFullXid (XLogWalRcvSendHSFeedback_xmin st).1)
          (XLogWalRcvSendHSFeedback_xmin st).2
          (epochFor st.nextFullXid (XLogWalRcvSendHSFeedback_xmin st).2) ∧
      (XLogWalRcvSendHSFeedback st immed).primary_has_standby_xmin =
        decide ((XLogWalRcvSendHSFeedback_xmin st).1 ≠ 0 ∨
          (XLogWalRcvSendHSFeedback_xmin st).2 ≠ 0)) := by
  unfold XLogWalRcvSendHSFeedback
  dsimp only
  split_ifs
  · exact Or.inl rfl
  · exact Or.inl rfl
  · exact Or.inl rfl
  · right
    simp only [← feedbackMessage_data, ← XLogWalRcvSendHSFeedback_epoch_eq]
    exact ⟨rfl, rfl, rfl⟩

/-- C21: in every hot-standby feedback frame that `XLogWalRcvSendHSFeedback`
sends, the epoch sent with `xmin` is the epoch of the next-assigned
transaction id, one less modulo 2^32 exactly when the 32-bit next-assigned id
is numerically less than `xmin`; the epoch sent with `catalogXmin` is computed
in the same way from `catalogXmin` and does not depend on `xmin`; `xmin` and
`catalogXmin` are the replication horizons when feedback is on, and when it is
off both are the invalid id 0 and both epochs are the epoch of the
next-assigned id, not decremented. -/
theorem feedback_epochs (st : RcvState) (immed : Bool) :
    (XLogWalRcvSendHSFeedback st immed).trace = st.trace ∨
    ∃ xmin catalogXmin : Nat,
      (st.hot_standby_feedback = true →
        xmin = st.replicationHorizons.1 % 2 ^ 32 ∧
          catalogXmin = st.replicationHorizons.2 % 2 ^ 32) ∧
      (st.hot_standby_feedback = false →
        xmin = 0 ∧ catalogXmin = 0 ∧
          epochFor st.nextFullXid xmin = st.nextFullXid / 2 ^ 32 % 2 ^ 32 ∧
          epochFor st.nextFullXid catalogXmin = st.nextFullXid / 2 ^ 32 % 2 ^ 32) ∧
      (XLogWalRcvSendHSFeedback st immed).trace =
        st.trace ++ [.send (feedbackFrame (st.clock (st.clockReads + 1))
          xmin (epochFor st.nextFullXid xmin)
          catalogXmin (epochFor st.nextFullXid catalogXmin))] := by
  rcases XLogWalRcvSendHSFeedback_frame st immed with h | ⟨h, _, _⟩
  · exact Or.inl h
  · refine Or.inr ⟨_, _, fun hf => ?_, fun hf => ?_, h⟩
    · rw [XLogWalRcvSendHSFeedback_xmin_eq, if_pos hf]
      exact ⟨rfl, rfl⟩
    · rw [XLogWalRcvSendHSFeedback_xmin_eq, if_neg (by rw [hf]; decide)]
      refine ⟨rfl, rfl, ?_, ?_⟩ <;> simp [epochFor]

theorem feedback_epochs_witness :
    (XLogWalRcvSendHSFeedback wrappedState true).trace =
      [.send [104, 0, 0, 0, 0, 0, 0, 3, 233, 238, 107, 40, 0, 0, 0, 0, 2, 0, 0, 0, 3,
        0, 0, 0, 3]] := by
  rcases feedback_epochs wrappedState true with h | ⟨x, c, h1, _, h⟩
  · exact absurd h (by decide)
  · obtain ⟨hx, hc⟩ := h1 rfl
    rw [h, hx, hc]
    rfl

/-! ## What the operations of the receiver leave alone of its identity and of the feedback -/

theorem noFeedback_refl (a : RcvState) : NoFeedback a a :=
  ⟨[], (List.append_nil _).symm, fun _ h => absurd h (List.not_mem_nil _)⟩

theorem noFeedback_trans {a b c : RcvState} (h1 : NoFeedback a b) (h2 : NoFeedback b c) :
    NoFeedback a c := by
  obtain ⟨e1, t1, q1⟩ := h1
  obtain ⟨e2, t2, q2⟩ := h2
  refine ⟨e1 ++ e2, ?_, fun e he => ?_⟩
  · rw [t2, t1, List.append_assoc]
  · exact (List.mem_append.mp he).elim (q1 e) (q2 e)

theorem steady_refl (a : RcvState) : Steady a a :=
  ⟨rfl, rfl, rfl, fun h => ⟨h, noFeedback_refl a⟩⟩

theorem steady_trans {a b c : RcvState} (h1 : Steady a b) (h2 : Steady b c) : Steady a c := by
  obtain ⟨s1, p1, f1, o1⟩ := h1
  obtain ⟨s2, p2, f2, o2⟩ := h2
  refine ⟨by rw [s2, s1], by rw [p2, p1], by rw [f2, f1], fun h => ?_⟩
  obtain ⟨hb, n1⟩ := o1 h
  obtain ⟨hc, n2⟩ := o2 hb
  exact ⟨hc, noFeedback_trans n1 n2⟩

/-- A step that leaves the shared state, the process id, the feedback setting
and the flag `primary_has_standby_xmin` alone and sends no feedback. -/
theorem steady_of_plain {a b : RcvState} (hs : b.walrcv.walRcvState = a.walrcv.walRcvState)
    (hp : b.walrcv.pid = a.walrcv.pid) (hf : b.hot_standby_feedback = a.hot_standby_feedback)
    (hx : b.primary_has_standby_xmin = a.primary_has_standby_xmin) (hn : NoFeedback a b) :
    Steady a b :=
  ⟨hs, hp, hf, fun h => ⟨⟨by rw [hf]; exact h.1, by rw [hx]; exact h.2⟩, hn⟩⟩

theorem noFeedback_of_eq {a b : RcvState} (h : b.trace = a.trace) : NoFeedback a b :=
  ⟨[], by rw [h, List.append_nil], fun _ h => absurd h (List.not_mem_nil _)⟩

theorem noFeedback_emit (a : RcvState) (e : Event) (h : e.isFeedback = false) :
    NoFeedback a (emit a e) :=
  ⟨[e], rfl, fun x hx => by rw [List.mem_singleton.mp hx]; exact h⟩

theorem steady_emit (a : RcvState) (e : Event) (h : e.isFeedback = false) :
    Steady a (emit a e) :=
  steady_of_plain rfl rfl rfl rfl (noFeedback_emit a e h)

theorem WalRcvComputeNextWakeup_steady (st : RcvState) (reason : WalRcvWakeupReason)
    (now : Int) : Steady st (WalRcvComputeNextWakeup st reason now) :=
  steady_of_plain rfl rfl rfl rfl (noFeedback_of_eq rfl)

theorem XLogWalRcvSendReply_steady (st : RcvState) (force requestReply : Bool) :
    Steady st (XLogWalRcvSendReply st force requestReply) := by
  unfold XLogWalRcvSendReply
  dsimp only
  split_ifs
  · exact steady_refl _
  · exact steady_of_plain rfl rfl rfl rfl (noFeedback_of_eq rfl)
  · refine steady_of_plain rfl rfl rfl rfl ⟨[.send _], rfl, fun e he => ?_⟩
    rw [List.mem_singleton.mp he]
    simp [Event.isFeedback, replyMessage_head]

theorem XLogWalRcvSendHSFeedback_steady (st : RcvState) (immed : Bool) :
    Steady st (XLogWalRcvSendHSFeedback st immed) := by
  by_cases hoff : FeedbackOff st
  · have e : XLogWalRcvSendHSFeedback st immed = st := by
      unfold XLogWalRcvSendHSFeedback
      rw [if_pos ⟨Or.inr hoff.1, hoff.2⟩]
    rw [e]
    exact steady_refl st
  · unfold XLogWalRcvSendHSFeedback
    dsimp only
    split_ifs
    · exact steady_refl _
    · exact ⟨rfl, rfl, rfl, fun h => absurd h hoff⟩
    · exact ⟨rfl, rfl, rfl, fun h => absurd h hoff⟩
    · exact ⟨rfl, rfl, rfl, fun h => absurd h hoff⟩

theorem ProcessWalSndrMessage_steady (st : RcvState) (walEnd : Nat) (sendTime : Int) :
    Steady st (ProcessWalSndrMessage st walEnd sendTime) :=
  steady_of_plain rfl rfl rfl rfl (noFeedback_of_eq rfl)

theorem XLogWalRcvFlush_notify_steady (st : RcvState) :
    Steady st (XLogWalRcvFlush_notify st) := by
  unfold XLogWalRcvFlush_notify
  dsimp only
  have q1 : Steady st (PgSrc.emit st .wakeupRecovery) := steady_emit _ .wakeupRecovery rfl
  split_ifs
  · exact steady_trans (steady_trans q1 (steady_emit _ .walSndWakeup rfl))
      (steady_emit _ (.psDisplay _) rfl)
  · exact steady_trans q1 (steady_emit _ .walSndWakeup rfl)
  · exact steady_trans q1 (steady_emit _ (.psDisplay _) rfl)
  · exact q1

theorem XLogWalRcvFlush_shared_steady (st : RcvState) (tli : Nat) :
    Steady st (XLogWalRcvFlush_shared st tli) := by
  unfold XLogWalRcvFlush_shared
  split_ifs
  · exact steady_of_plain rfl rfl rfl rfl (noFeedback_of_eq rfl)
  · exact steady_refl _

theorem XLogWalRcvFlush_steady (st : RcvState) (dying : Bool) (tli : Nat) :
    Steady st (XLogWalRcvFlush st dying tli) := by
  unfold XLogWalRcvFlush
  dsimp only
  have s1 : Steady st (setFlush (PgSrc.emit st (.fsync st.recvFile st.recvSegNo tli))) :=
    steady_of_plain rfl rfl rfl rfl ⟨[.fsync st.recvFile st.recvSegNo tli], rfl,
      fun e he => by rw [List.mem_singleton.mp he]; rfl⟩
  have s2 := steady_trans (steady_trans s1 (XLogWalRcvFlush_shared_steady _ tli))
    (XLogWalRcvFlush_notify_steady _)
  split_ifs
  · exact steady_trans (steady_trans s2 (XLogWalRcvSendReply_steady _ false false))
      (XLogWalRcvSendHSFeedback_steady _ false)
  · exact s2
  · exact steady_refl _

theorem XLogWalRcvClose_file_steady (st : RcvState) :
    Steady st (XLogWalRcvClose_file st) := by
  unfold XLogWalRcvClose_file
  dsimp only
  cases st.recvFile with
  | none =>
    dsimp only
    split_ifs
    · exact steady_emit _ (.archiveForceDone _ _) rfl
    · exact steady_emit _ (.archiveNotify _ _) rfl
  | some f =>
    dsimp only
    have q1 : Steady st (PgSrc.emit st (.close f)) := steady_emit _ (.close f) rfl
    split_ifs
    · exact steady_trans q1 (steady_emit _ (.archiveForceDone _ _) rfl)
    · exact steady_trans q1 (steady_emit _ (.archiveNotify _ _) rfl)

theorem XLogWalRcvClose_steady (st : RcvState) (recptr tli : Nat) :
    Steady st (XLogWalRcvClose st recptr tli) := by
  obtain ⟨a, b, c, d⟩ := steady_trans (XLogWalRcvFlush_steady st false tli)
    (XLogWalRcvClose_file_steady (XLogWalRcvFlush st false tli))
  exact ⟨a, b, c, d⟩

theorem XLogWalRcvWrite_segment_steady (st : RcvState) (recptr tli : Nat) :
    Steady st (XLogWalRcvWrite_segment st recptr tli) := by
  unfold XLogWalRcvWrite_segment
  dsimp only
  have init : ∀ s : RcvState, Steady s
      (PgSrc.emit
        { s with
            recvSegNo := XLByteToSeg recptr s.wal_segment_size
            recvFile := some ⟨tli, XLByteToSeg recptr s.wal_segment_size⟩
            recvFileTLI := tli }
        (.fileInit ⟨tli, XLByteToSeg recptr s.wal_segment_size⟩)) := fun s =>
    steady_of_plain rfl rfl rfl rfl ⟨[_], rfl, fun e he => by rw [List.mem_singleton.mp he]; rfl⟩
  by_cases hc : st.recvFile.isSome = true ∧
      XLByteInSeg recptr st.recvSegNo st.wal_segment_size = false
  · rw [if_pos hc]
    split_ifs
    · exact steady_trans (XLogWalRcvClose_steady st recptr tli) (init _)
    · exact XLogWalRcvClose_steady st recptr tli
  · rw [if_neg hc]
    split_ifs
    · exact init _
    · exact steady_refl _

theorem XLogWalRcvWrite_pwrite_steady (st : RcvState) (buf : List Nat) (recptr : Nat) :
    Steady st (XLogWalRcvWrite_pwrite st buf recptr).2 := by
  unfold XLogWalRcvWrite_pwrite pg_pwrite
  cases st.recvFile with
  | none => exact steady_refl st
  | some f =>
    exact steady_of_plain rfl rfl rfl rfl ⟨[_], rfl,
      fun e he => by rw [List.mem_singleton.mp he]; rfl⟩

theorem XLogWalRcvWrite_loop_steady (turns : Nat) (st : RcvState) (buf : List Nat)
    (recptr tli : Nat) : Steady st (XLogWalRcvWrite_loop turns st buf recptr tli).state := by
  induction turns generalizing st buf recptr with
  | zero => exact steady_refl st
  | succ n ih =>
    rw [XLogWalRcvWrite_loop]
    by_cases hb : buf.length = 0
    · rw [if_pos hb]
      exact steady_refl st
    · rw [if_neg hb]
      dsimp only
      have sp := steady_trans (XLogWalRcvWrite_segment_steady st recptr tli)
        (XLogWalRcvWrite_pwrite_steady (XLogWalRcvWrite_segment st recptr tli) buf recptr)
      split_ifs
      · exact sp
      · refine steady_trans ?_ (ih _ _ _)
        obtain ⟨a, b, c, d⟩ := sp
        exact ⟨a, b, c, d⟩

theorem XLogWalRcvWrite_steady (st : RcvState) (buf : List Nat) (recptr tli : Nat) :
    Steady st (XLogWalRcvWrite st buf recptr tli).state := by
  have h := XLogWalRcvWrite_loop_steady buf.length st buf recptr tli
  unfold XLogWalRcvWrite
  cases hl : XLogWalRcvWrite_loop buf.length st buf recptr tli with
  | raised l c s1 =>
    rw [hl] at h
    exact h
  | ok r s1 =>
    rw [hl] at h
    dsimp only
    have q : Steady st
        { s1 with walrcv := { s1.walrcv with writtenUpto := s1.LogstreamResult.Write } } := by
      obtain ⟨a, b, c, d⟩ := h
      exact ⟨a, b, c, d⟩
    split_ifs
    · exact steady_trans q (XLogWalRcvClose_steady _ r _)
    · exact q

theorem XLogWalRcvProcessMsg_steady (st : RcvState) (type : Nat) (buf : List Nat)
    (tli : Nat) : Steady st (XLogWalRcvProcessMsg st type buf tli).state := by
  have h0 : Steady st { st with incoming_message := resetStringInfo } := steady_refl st
  have hm : ∀ (m : StringInfoData) (walEnd : Nat) (sendTime : Int), Steady st
      (ProcessWalSndrMessage { st with incoming_message := m } walEnd sendTime) := fun m w t =>
    steady_of_plain rfl rfl rfl rfl (noFeedback_of_eq rfl)
  unfold XLogWalRcvProcessMsg
  dsimp only
  split_ifs
  · exact h0
  · exact steady_trans (hm _ _ _) (XLogWalRcvWrite_steady _ _ _ _)
  · exact h0
  · exact steady_trans (hm _ _ _) (XLogWalRcvSendReply_steady _ true false)
  · exact hm _ _ _
  · exact h0

theorem WalReceiverMain_received_steady (st : RcvState) (buf : List Nat) (tli : Nat) :
    Steady st (WalReceiverMain_received st buf tli).state := by
  unfold WalReceiverMain_received
  dsimp only
  refine steady_trans ?_ (XLogWalRcvProcessMsg_steady _ _ _ _)
  exact steady_of_plain rfl rfl rfl rfl (noFeedback_of_eq rfl)

theorem WalReceiverMain_timeout_steady (st : RcvState) :
    Steady st (WalReceiverMain_timeout st).state := by
  unfold WalReceiverMain_timeout
  dsimp only
  have k1 : Steady st (GetCurrentTimestamp st).2 :=
    steady_of_plain rfl rfl rfl rfl (noFeedback_of_eq rfl)
  split_ifs
  · exact k1
  · have k2 : Steady (GetCurrentTimestamp st).2
        (WalReceiverMain_ping (GetCurrentTimestamp st).2 (GetCurrentTimestamp st).1).2 := by
      unfold WalReceiverMain_ping
      split_ifs
      · exact steady_of_plain rfl rfl rfl rfl (noFeedback_of_eq rfl)
      · exact steady_refl _
    exact steady_trans (steady_trans (steady_trans k1 k2)
      (XLogWalRcvSendReply_steady _ _ _)) (XLogWalRcvSendHSFeedback_steady _ false)

theorem WalReceiverMain_startStreaming_steady (st : RcvState) :
    Steady st (WalReceiverMain_startStreaming st) := by
  have k : ∀ s : RcvState, Steady s
      (XLogWalRcvSendHSFeedback (XLogWalRcvSendReply s true false) true) := fun s =>
    steady_trans (XLogWalRcvSendReply_steady s true false)
      (XLogWalRcvSendHSFeedback_steady _ true)
  have s0 : Steady st (GetCurrentTimestamp
      { st with LogstreamResult := { Write := st.replayPtr, Flush := st.replayPtr }
                reply_message := initStringInfo
                incoming_message := initStringInfo }).2 :=
    steady_of_plain rfl rfl rfl rfl (noFeedback_of_eq rfl)
  unfold WalReceiverMain_startStreaming
  dsimp only
  exact steady_trans (steady_trans (steady_trans (steady_trans (steady_trans s0
    (WalRcvComputeNextWakeup_steady _ _ _)) (WalRcvComputeNextWakeup_steady _ _ _))
    (WalRcvComputeNextWakeup_steady _ _ _)) (WalRcvComputeNextWakeup_steady _ _ _)) (k _)

theorem WalReceiverMain_batchEnd_steady (st : RcvState) (tli : Nat) :
    Steady st (WalReceiverMain_batchEnd st tli) :=
  steady_trans (XLogWalRcvSendReply_steady st false false) (XLogWalRcvFlush_steady _ false tli)

theorem WalReceiverMain_endOfStream_steady (st : RcvState) (tli : Nat) :
    Steady st (WalReceiverMain_endOfStream st tli) := by
  unfold WalReceiverMain_endOfStream
  cases st.recvFile with
  | none => exact steady_refl st
  | some f =>
    dsimp only
    have h1 := steady_trans (XLogWalRcvFlush_steady st false tli)
      (steady_emit (XLogWalRcvFlush st false tli) (.close f) rfl)
    split_ifs
    · obtain ⟨a, b, c, d⟩ := steady_trans h1 (steady_emit _ (.archiveForceDone _ _) rfl)
      exact ⟨a, b, c, d⟩
    · obtain ⟨a, b, c, d⟩ := steady_trans h1 (steady_emit _ (.archiveNotify _ _) rfl)
      exact ⟨a, b, c, d⟩

/-! ## The claim on disabling feedback -/

/-- An immediate call of `XLogWalRcvSendHSFeedback` while the primary holds
an xmin of this standby and the standby accepts queries sends one frame. -/
theorem XLogWalRcvSendHSFeedback_immediate (s : RcvState)
    (hx : s.primary_has_standby_xmin = true) (ha : s.hotStandbyActive = true) :
    (XLogWalRcvSendHSFeedback s true).trace =
      s.trace ++ [.send (feedbackFrame (s.clock (s.clockReads + 1))
        (XLogWalRcvSendHSFeedback_xmin s).1
        (epochFor s.nextFullXid (XLogWalRcvSendHSFeedback_xmin s).1)
        (XLogWalRcvSendHSFeedback_xmin s).2
        (epochFor s.nextFullXid (XLogWalRcvSendHSFeedback_xmin s).2))] ∧
    (XLogWalRcvSendHSFeedback s true).primary_has_standby_xmin =
      decide ((XLogWalRcvSendHSFeedback_xmin s).1 ≠ 0 ∨ (XLogWalRcvSendHSFeedback_xmin s).2 ≠ 0) ∧
    (XLogWalRcvSendHSFeedback s true).hot_standby_feedback = s.hot_standby_feedback := by
  have c1 : ¬ ((s.wal_receiver_status_interval ≤ 0 ∨ s.hot_standby_feedback = false) ∧
      s.primary_has_standby_xmin = false) := by
    rintro ⟨_, h⟩
    rw [hx] at h
    exact absurd h (by decide)
  unfold XLogWalRcvSendHSFeedback
  rw [if_neg c1]
  dsimp only
  rw [if_neg (fun c => absurd c.1 (by decide))]
  have c3 : ¬ (WalRcvComputeNextWakeup (GetCurrentTimestamp s).2 .WALRCV_WAKEUP_HSFEEDBACK
      (GetCurrentTimestamp s).1).hotStandbyActive = false := by
    intro c
    have : s.hotStandbyActive = false := c
    rw [ha] at this
    exact absurd this (by decide)
  rw [if_neg c3]
  simp only [← feedbackMessage_data, ← XLogWalRcvSendHSFeedback_epoch_eq]
  exact ⟨rfl, rfl, rfl⟩

/-- C22: feedback is disabled by a reload of the configuration after a
feedback frame with a valid xmin has been sent (`primary_has_standby_xmin` is
set), while the standby accepts queries.  The immediate call of
`XLogWalRcvSendHSFeedback` made by the reload sends exactly one frame, with the
invalid id 0 as `xmin` and as `catalogXmin` (and the epoch of the next id, not
decremented), and leaves feedback off with `primary_has_standby_xmin` cleared.
From then on, in every state in which feedback is off and the flag is cleared,
a call of `XLogWalRcvSendHSFeedback`, immediate or not, changes nothing and
sends nothing; and every other operation of the receiver leaves feedback off
and the flag cleared and sends no feedback frame. -/
theorem feedback_stops_after_one (st : RcvState) (status_interval timeout : Int) (tli : Nat)
    (hx : st.primary_has_standby_xmin = true) (ha : st.hotStandbyActive = true) :
    ((WalReceiverMain_reload st status_interval timeout false).trace =
        st.trace ++ [.send (feedbackFrame (st.clock (st.clockReads + 2))
          0 (st.nextFullXid / 2 ^ 32 % 2 ^ 32) 0 (st.nextFullXid / 2 ^ 32 % 2 ^ 32))] ∧
      FeedbackOff (WalReceiverMain_reload st status_interval timeout false)) ∧
    (∀ s : RcvState, FeedbackOff s →
      (∀ immed : Bool, XLogWalRcvSendHSFeedback s immed = s) ∧
      (∀ (type : Nat) (buf : List Nat),
        FeedbackOff (XLogWalRcvProcessMsg s type buf tli).state ∧
          NoFeedback s (XLogWalRcvProcessMsg s type buf tli).state) ∧
      (∀ buf : List Nat,
        FeedbackOff (WalReceiverMain_received s buf tli).state ∧
          NoFeedback s (WalReceiverMain_received s buf tli).state) ∧
      (FeedbackOff (WalReceiverMain_batchEnd s tli) ∧
        NoFeedback s (WalReceiverMain_batchEnd s tli)) ∧
      (FeedbackOff (WalReceiverMain_timeout s).state ∧
        NoFeedback s (WalReceiverMain_timeout s).state) ∧
      (∀ force requestReply : Bool,
        FeedbackOff (XLogWalRcvSendReply s force requestReply) ∧
          NoFeedback s (XLogWalRcvSendReply s force requestReply)) ∧
      (∀ dying : Bool,
        FeedbackOff (XLogWalRcvFlush s dying tli) ∧ NoFeedback s (XLogWalRcvFlush s dying tli)) ∧
      (FeedbackOff (WalReceiverMain_endOfStream s tli) ∧
        NoFeedback s (WalReceiverMain_endOfStream s tli)) ∧
      (FeedbackOff (WalReceiverMain_startStreaming s) ∧
        NoFeedback s (WalReceiverMain_startStreaming s))) := by
  constructor
  · have h := XLogWalRcvSendHSFeedback_immediate
      (WalRcvComputeNextWakeup (WalRcvComputeNextWakeup (WalRcvComputeNextWakeup
        (WalRcvComputeNextWakeup
          (GetCurrentTimestamp
            { st with wal_receiver_status_interval := status_interval
                      wal_receiver_timeout := timeout
                      hot_standby_feedback := false }).2
          .WALRCV_WAKEUP_TERMINATE
          (GetCurrentTimestamp
            { st with wal_receiver_status_interval := status_interval
                      wal_receiver_timeout := timeout
                      hot_standby_feedback := false }).1)
        .WALRCV_WAKEUP_PING
          (GetCurrentTimestamp
            { st with wal_receiver_status_interval := status_interval
                      wal_receiver_timeout := timeout
                      hot_standby_feedback := false }).1)
        .WALRCV_WAKEUP_REPLY
          (GetCurrentTimestamp
            { st with wal_receiver_status_interval := status_interval
                      wal_receiver_timeout := timeout
                      hot_standby_feedback := false }).1)
        .WALRCV_WAKEUP_HSFEEDBACK
          (GetCurrentTimestamp
            { st with wal_receiver_status_interval := status_interval
                      wal_receiver_timeout := timeout
                      hot_standby_feedback := false }).1) hx ha
    obtain ⟨h1, h2, h3⟩ := h
    exact ⟨h1, h3, h2⟩
  · intro s hoff
    refine ⟨fun immed => ?_, fun type buf => (XLogWalRcvProcessMsg_steady s type buf tli).2.2.2 hoff,
      fun buf => (WalReceiverMain_received_steady s buf tli).2.2.2 hoff,
      (WalReceiverMain_batchEnd_steady s tli).2.2.2 hoff,
      (WalReceiverMain_timeout_steady s).2.2.2 hoff,
      fun force rr => (XLogWalRcvSendReply_steady s force rr).2.2.2 hoff,
      fun dying => (XLogWalRcvFlush_steady s dying tli).2.2.2 hoff,
      (WalReceiverMain_endOfStream_steady s tli).2.2.2 hoff,
      (WalReceiverMain_startStreaming_steady s).2.2.2 hoff⟩
    unfold XLogWalRcvSendHSFeedback
    rw [if_pos ⟨Or.inr hoff.1, hoff.2⟩]

theorem feedback_stops_after_one_witness :
    (WalReceiverMain_reload feedbackState 10 60000 false).trace =
      [.send [104, 0, 0, 0, 0, 0, 0, 3, 234, 0, 0, 0, 0, 0, 0, 0, 3, 0, 0, 0, 0, 0, 0, 0, 3]] ∧
    XLogWalRcvSendHSFeedback (WalReceiverMain_reload feedbackState 10 60000 false) true =
      WalReceiverMain_reload feedbackState 10 60000 false := by
  have h := feedback_stops_after_one feedbackState 10 60000 1 (by rfl) (by rfl)
  exact ⟨h.1.1.trans (by rfl), (h.2 _ h.1.2).1 true⟩

/-! ## The claim on the identity of the receiver -/

/-- What is observable of a receiver: while the shared state says that it is
active, the process id in the shared record is its own. -/
theorem observable_identity (pid : Nat) (s : RcvState) (h : Observable pid s) :
    s.walrcv.active → s.walrcv.pid = pid := by
  induction h with
  | started st st1 hs hr =>
    intro _
    rw [(WalReceiverMain_startup_starting st pid hs).1] at hr
    injection hr with hr
    rw [← hr]
    rfl
  | external a b _ hx ih =>
    intro hb
    obtain ⟨hp, ht⟩ := hx
    rw [hp]
    apply ih
    rcases ht with ht | ⟨_, ht⟩ | ⟨ht, _⟩ | ht
    · unfold WalRcvData.active at hb ⊢
      rw [← ht]
      exact hb
    · unfold WalRcvData.active at hb
      rw [ht] at hb
      simp at hb
    · exact Or.inr (Or.inl ht)
    · unfold WalRcvData.active at hb
      rw [ht] at hb
      simp at hb
  | waitEnter a _ ih =>
    intro hb
    unfold WalRcvWaitForStartPosition_enter at hb ⊢
    by_cases c : a.walrcv.walRcvState ≠ .WALRCV_STREAMING
    · rw [if_pos c] at hb ⊢
      by_cases c2 : a.walrcv.walRcvState = .WALRCV_STOPPING
      · rw [if_pos c2] at hb ⊢
        exact ih hb
      · rw [if_neg c2] at hb ⊢
        exact ih hb
    · rw [if_neg c]
      exact ih (Or.inl (not_not.mp c))
  | waitPoll a _ ih =>
    intro hb
    unfold WalRcvWaitForStartPosition_poll at hb ⊢
    by_cases c : a.walrcv.walRcvState = .WALRCV_RESTARTING
    · rw [if_pos c]
      exact ih (Or.inr (Or.inr c))
    · rw [if_neg c] at hb ⊢
      by_cases c2 : a.walrcv.walRcvState = .WALRCV_STOPPING
      · rw [if_pos c2] at hb ⊢
        exact ih hb
      · rw [if_neg c2] at hb ⊢
        exact ih hb
  | died a wrconn tli _ _ =>
    intro hb
    have hs : (WalRcvDie a wrconn tli).walrcv.walRcvState = .WALRCV_STOPPED := by
      cases wrconn <;> rfl
    unfold WalRcvData.active at hb
    rw [hs] at hb
    simp at hb
  | operation a b _ hk ih =>
    intro hb
    rw [hk.2.1]
    apply ih
    unfold WalRcvData.active at hb ⊢
    rw [← hk.1]
    exact hb

/-- C26: the receiver publishes its process id together with the state
`WALRCV_STREAMING`: from the state `WALRCV_STARTING`, the critical section at
the start of `WalReceiverMain` (lines 216-269) ends with the shared state
`WALRCV_STREAMING` and the process id of the receiver, which is not zero, in
the shared record.  Hence in every state that can be observed between the
critical sections of the receiver (after that section, and after any number of
steps of other processes, of the critical sections of
`WalRcvWaitForStartPosition`, of `WalRcvDie` and of the other operations of the
receiver, each of which leaves the shared state and process id alone), a shared
state of `WALRCV_STREAMING`, `WALRCV_WAITING` or `WALRCV_RESTARTING` comes with
the process id of the receiver, not zero. -/
theorem identity_published_with_state (MyProcPid : Nat) (hpid : MyProcPid ≠ 0) :
    (∀ st : RcvState, st.walrcv.walRcvState = .WALRCV_STARTING →
      ∃ st1, WalReceiverMain_claim st MyProcPid = .running st1 ∧
        st1.walrcv.walRcvState = .WALRCV_STREAMING ∧ st1.walrcv.pid = MyProcPid) ∧
    (∀ s : RcvState, Observable MyProcPid s → s.walrcv.active →
      s.walrcv.pid = MyProcPid ∧ s.walrcv.pid ≠ 0) ∧
    (∀ (s : RcvState) (tli : Nat),
      Steady s (WalReceiverMain_writtenUpto s) ∧
      Steady s (WalReceiverMain_startStreaming s) ∧
      (∀ buf : List Nat, Steady s (WalReceiverMain_received s buf tli).state) ∧
      Steady s (WalReceiverMain_batchEnd s tli) ∧
      Steady s (WalReceiverMain_timeout s).state ∧
      Steady s (WalReceiverMain_endOfStream s tli) ∧
      (∀ (type : Nat) (buf : List Nat), Steady s (XLogWalRcvProcessMsg s type buf tli).state) ∧
      (∀ (buf : List Nat) (recptr : Nat), Steady s (XLogWalRcvWrite s buf recptr tli).state) ∧
      (∀ dying : Bool, Steady s (XLogWalRcvFlush s dying tli)) ∧
      (∀ recptr : Nat, Steady s (XLogWalRcvClose s recptr tli)) ∧
      (∀ force requestReply : Bool, Steady s (XLogWalRcvSendReply s force requestReply)) ∧
      (∀ immed : Bool, Steady s (XLogWalRcvSendHSFeedback s immed)) ∧
      (∀ (walEnd : Nat) (sendTime : Int), Steady s (ProcessWalSndrMessage s walEnd sendTime))) := by
  refine ⟨fun st hs => ⟨_, (WalReceiverMain_startup_starting st MyProcPid hs).1, rfl, rfl⟩,
    fun s ho ha => ?_, fun s tli => ?_⟩
  · have := observable_identity MyProcPid s ho ha
    exact ⟨this, by rw [this]; exact hpid⟩
  · exact ⟨steady_of_plain rfl rfl rfl rfl (noFeedback_of_eq rfl),
      WalReceiverMain_startStreaming_steady s,
      fun buf => WalReceiverMain_received_steady s buf tli,
      WalReceiverMain_batchEnd_steady s tli, WalReceiverMain_timeout_steady s,
      WalReceiverMain_endOfStream_steady s tli,
      fun type buf => XLogWalRcvProcessMsg_steady s type buf tli,
      fun buf recptr => XLogWalRcvWrite_steady s buf recptr tli,
      fun dying => XLogWalRcvFlush_steady s dying tli,
      fun recptr => XLogWalRcvClose_steady s recptr tli,
      fun force rr => XLogWalRcvSendReply_steady s force rr,
      fun immed => XLogWalRcvSendHSFeedback_steady s immed,
      fun walEnd sendTime => ProcessWalSndrMessage_steady s walEnd sendTime⟩

theorem identity_published_with_state_witness :
    ∃ st1, WalReceiverMain_claim (launchState .WALRCV_STARTING) 4242 = .running st1 ∧
      st1.walrcv.walRcvState = .WALRCV_STREAMING ∧ st1.walrcv.pid = 4242 :=
  (identity_published_with_state 4242 (by decide)).1 (launchState .WALRCV_STARTING) rfl

/-! ## The write cursor and the bytes transferred -/

theorem transferred_append (a b : List Event) :
    transferred (a ++ b) = transferred a + transferred b := by
  induction a with
  | nil => simp [transferred]
  | cons e es ih =>
    cases e <;> simp [transferred, ih, Nat.add_assoc]

theorem noTransfer_refl (a : RcvState) : NoTransfer a a :=
  ⟨[], (List.append_nil _).symm, rfl⟩

theorem noTransfer_trans {a b c : RcvState} (h1 : NoTransfer a b) (h2 : NoTransfer b c) :
    NoTransfer a c := by
  obtain ⟨e1, t1, q1⟩ := h1
  obtain ⟨e2, t2, q2⟩ := h2
  exact ⟨e1 ++ e2, by rw [t2, t1, List.append_assoc], by rw [transferred_append, q1, q2]⟩

theorem noTransfer_emit (a : RcvState) (e : Event) (h : transferred [e] = 0) :
    NoTransfer a (emit a e) :=
  ⟨[e], rfl, h⟩

theorem noTransfer_of_eq {a b : RcvState} (h : b.trace = a.trace) : NoTransfer a b :=
  ⟨[], by rw [h, List.append_nil], rfl⟩

theorem XLogWalRcvSendReply_noTransfer (st : RcvState) (force requestReply : Bool) :
    NoTransfer st (XLogWalRcvSendReply st force requestReply) := by
  unfold XLogWalRcvSendReply
  dsimp only
  split_ifs
  · exact noTransfer_refl _
  · exact noTransfer_of_eq rfl
  · exact ⟨[.send _], rfl, rfl⟩

theorem XLogWalRcvSendHSFeedback_noTransfer (st : RcvState) (immed : Bool) :
    NoTransfer st (XLogWalRcvSendHSFeedback st immed) := by
  unfold XLogWalRcvSendHSFeedback
  dsimp only
  split_ifs
  · exact noTransfer_refl _
  · exact noTransfer_of_eq rfl
  · exact noTransfer_of_eq rfl
  · exact ⟨[.send _], rfl, rfl⟩

theorem XLogWalRcvFlush_notify_noTransfer (st : RcvState) :
    NoTransfer st (XLogWalRcvFlush_notify st) := by
  unfold XLogWalRcvFlush_notify
  dsimp only
  have q1 : NoTransfer st (PgSrc.emit st .wakeupRecovery) := noTransfer_emit _ .wakeupRecovery rfl
  split_ifs
  · exact noTransfer_trans (noTransfer_trans q1 (noTransfer_emit _ .walSndWakeup rfl))
      (noTransfer_emit _ (.psDisplay _) rfl)
  · exact noTransfer_trans q1 (noTransfer_emit _ .walSndWakeup rfl)
  · exact noTransfer_trans q1 (noTransfer_emit _ (.psDisplay _) rfl)
  · exact q1

theorem XLogWalRcvFlush_noTransfer (st : RcvState) (dying : Bool) (tli : Nat) :
    NoTransfer st (XLogWalRcvFlush st dying tli) := by
  unfold XLogWalRcvFlush
  dsimp only
  have s1 : NoTransfer st (XLogWalRcvFlush_shared
      (setFlush (PgSrc.emit st (.fsync st.recvFile st.recvSegNo tli))) tli) :=
    ⟨[.fsync st.recvFile st.recvSegNo tli],
      (XLogWalRcvFlush_shared_spec st tli (.fsync st.recvFile st.recvSegNo tli)).2.2.2.2, rfl⟩
  have s2 := noTransfer_trans s1 (XLogWalRcvFlush_notify_noTransfer _)
  split_ifs
  · exact noTransfer_trans (noTransfer_trans s2 (XLogWalRcvSendReply_noTransfer _ false false))
      (XLogWalRcvSendHSFeedback_noTransfer _ false)
  · exact s2
  · exact noTransfer_refl _

theorem XLogWalRcvClose_noTransfer (st : RcvState) (recptr tli : Nat) :
    NoTransfer st (XLogWalRcvClose st recptr tli) := by
  have c : NoTransfer (XLogWalRcvFlush st false tli)
      (XLogWalRcvClose_file (XLogWalRcvFlush st false tli)) := by
    unfold XLogWalRcvClose_file
    dsimp only
    cases (XLogWalRcvFlush st false tli).recvFile with
    | none =>
      dsimp only
      split_ifs
      · exact noTransfer_emit _ (.archiveForceDone _ _) rfl
      · exact noTransfer_emit _ (.archiveNotify _ _) rfl
    | some f =>
      dsimp only
      split_ifs
      · exact noTransfer_trans (noTransfer_emit _ (.close f) rfl)
          (noTransfer_emit _ (.archiveForceDone _ _) rfl)
      · exact noTransfer_trans (noTransfer_emit _ (.close f) rfl)
          (noTransfer_emit _ (.archiveNotify _ _) rfl)
  obtain ⟨evs, t, q⟩ := noTransfer_trans (XLogWalRcvFlush_noTransfer st false tli) c
  exact ⟨evs, t, q⟩

theorem XLogWalRcvWrite_segment_noTransfer (st : RcvState) (recptr tli : Nat) :
    NoTransfer st (XLogWalRcvWrite_segment st recptr tli) := by
  unfold XLogWalRcvWrite_segment
  dsimp only
  have init : ∀ s : RcvState, NoTransfer s
      (PgSrc.emit
        { s with
            recvSegNo := XLByteToSeg recptr s.wal_segment_size
            recvFile := some ⟨tli, XLByteToSeg recptr s.wal_segment_size⟩
            recvFileTLI := tli }
        (.fileInit ⟨tli, XLByteToSeg recptr s.wal_segment_size⟩)) := fun s => ⟨[_], rfl, rfl⟩
  by_cases hc : st.recvFile.isSome = true ∧
      XLByteInSeg recptr st.recvSegNo st.wal_segment_size = false
  · rw [if_pos hc]
    split_ifs
    · exact noTransfer_trans (XLogWalRcvClose_noTransfer st recptr tli) (init _)
    · exact XLogWalRcvClose_noTransfer st recptr tli
  · rw [if_neg hc]
    split_ifs
    · exact init _
    · exact noTransfer_refl _

/-- Line 941 adds to the trace what transferred as many bytes as it returns,
none when it returns zero or less. -/
theorem XLogWalRcvWrite_pwrite_transferred (st : RcvState) (buf : List Nat) (recptr : Nat) :
    ∃ evs, (XLogWalRcvWrite_pwrite st buf recptr).2.trace = st.trace ++ evs ∧
      transferred evs = (XLogWalRcvWrite_pwrite st buf recptr).1.toNat := by
  unfold XLogWalRcvWrite_pwrite pg_pwrite
  cases st.recvFile with
  | none => exact ⟨[], (List.append_nil _).symm, rfl⟩
  | some f => exact ⟨[_], rfl, rfl⟩

/-- The write cursor in the write loop, however far it got and however it
ended: the position of the call plus the bytes transferred, or the cursor as
it was when none was. -/
theorem XLogWalRcvWrite_loop_transferred (turns : Nat) (st : RcvState) (buf : List Nat)
    (recptr tli : Nat) (hfit : recptr + buf.length < 2 ^ 64) :
    ∃ evs, (XLogWalRcvWrite_loop turns st buf recptr tli).state.trace = st.trace ++ evs ∧
      transferred evs ≤ buf.length ∧
      (XLogWalRcvWrite_loop turns st buf recptr tli).state.LogstreamResult.Write =
        (if transferred evs = 0 then st.LogstreamResult.Write
         else recptr + transferred evs) := by
  induction turns generalizing st buf recptr with
  | zero => exact ⟨[], (List.append_nil _).symm, Nat.zero_le _, rfl⟩
  | succ n ih =>
    rw [XLogWalRcvWrite_loop]
    by_cases hb : buf.length = 0
    · rw [if_pos hb]
      exact ⟨[], (List.append_nil _).symm, Nat.zero_le _, rfl⟩
    · rw [if_neg hb]
      dsimp only
      obtain ⟨e0, t0, q0⟩ := XLogWalRcvWrite_segment_noTransfer st recptr tli
      have w0 := (XLogWalRcvWrite_segment_step st recptr tli).1
      obtain ⟨ew, tw, qw⟩ :=
        XLogWalRcvWrite_pwrite_transferred (XLogWalRcvWrite_segment st recptr tli) buf recptr
      obtain ⟨hle, hk⟩ :=
        XLogWalRcvWrite_pwrite_spec (XLogWalRcvWrite_segment st recptr tli) buf recptr
      have w1 : (XLogWalRcvWrite_pwrite (XLogWalRcvWrite_segment st recptr tli) buf
          recptr).2.LogstreamResult.Write = st.LogstreamResult.Write := by
        rw [hk.1, w0]
      generalize XLogWalRcvWrite_pwrite (XLogWalRcvWrite_segment st recptr tli) buf recptr = w
        at tw qw hle w1
      by_cases hw : w.1 ≤ 0
      · rw [if_pos hw]
        have z : transferred (e0 ++ ew) = 0 := by
          rw [transferred_append, q0, qw]
          omega
        refine ⟨e0 ++ ew, ?_, by omega, ?_⟩
        · simp only [Outcome.state]
          rw [tw, t0, List.append_assoc]
        · simp only [Outcome.state]
          rw [if_pos z, w1]
      · rw [if_neg hw]
        have hn : 0 < w.1.toNat ∧ w.1.toNat ≤ buf.length := by omega
        have hmod : (recptr + w.1.toNat) % 2 ^ 64 = recptr + w.1.toNat :=
          Nat.mod_eq_of_lt (by omega)
        rw [hmod]
        have hlen : (buf.drop w.1.toNat).length = buf.length - w.1.toNat := List.length_drop _ _
        obtain ⟨e2, t2, b2, q2⟩ := ih (setWrite w.2 (recptr + w.1.toNat)) (buf.drop w.1.toNat)
          (recptr + w.1.toNat) (by omega)
        have tot : transferred (e0 ++ ew ++ e2) = w.1.toNat + transferred e2 := by
          rw [transferred_append, transferred_append, q0, qw]
          omega
        refine ⟨e0 ++ ew ++ e2, ?_, by omega, ?_⟩
        · rw [t2]
          simp only [setWrite]
          rw [tw, t0, List.append_assoc, List.append_assoc, List.append_assoc]
        · have hnz : transferred (e0 ++ ew ++ e2) ≠ 0 := by
            rw [tot]
            omega
          rw [if_neg hnz, q2, tot]
          split_ifs with hz
          · rw [hz]
            rfl
          · omega

/-- The write cursor after `XLogWalRcvWrite`, returned or failed. -/
theorem XLogWalRcvWrite_transferred (st : RcvState) (buf : List Nat) (recptr tli : Nat)
    (hfit : recptr + buf.length < 2 ^ 64) :
    ∃ evs, (XLogWalRcvWrite st buf recptr tli).state.trace = st.trace ++ evs ∧
      transferred evs ≤ buf.length ∧
      (XLogWalRcvWrite st buf recptr tli).state.LogstreamResult.Write =
        (if transferred evs = 0 then st.LogstreamResult.Write
         else recptr + transferred evs) := by
  obtain ⟨evs, t, b, q⟩ := XLogWalRcvWrite_loop_transferred buf.length st buf recptr tli hfit
  unfold XLogWalRcvWrite
  cases hl : XLogWalRcvWrite_loop buf.length st buf recptr tli with
  | raised l c s1 =>
    rw [hl] at t q
    exact ⟨evs, t, b, q⟩
  | ok r s1 =>
    rw [hl] at t q
    simp only [Outcome.state] at t q
    dsimp only
    split_ifs
    · obtain ⟨e2, t2, q2⟩ := XLogWalRcvClose_noTransfer
        { s1 with walrcv := { s1.walrcv with writtenUpto := s1.LogstreamResult.Write } } r tli
      have w := (XLogWalRcvClose_step
        { s1 with walrcv := { s1.walrcv with writtenUpto := s1.LogstreamResult.Write } } r tli).1
      have tot : transferred (evs ++ e2) = transferred evs := by
        rw [transferred_append, q2, Nat.add_zero]
      refine ⟨evs ++ e2, ?_, by rw [tot]; exact b, ?_⟩
      · simp only [Outcome.state]
        rw [t2, ← List.append_assoc, ← t]
      · simp only [Outcome.state]
        rw [w, tot]
        exact q
    · exact ⟨evs, t, b, q⟩

/-- C30: every sub-write of `XLogWalRcvWrite` sets the local write cursor to
the position reached.  In a call for N bytes at position P, with P + N below
2^64, at every point (after any number of turns of the loop, and when the
function ends, returned or failed with its `PANIC`) the calls of `pg_pwrite`
made so far by this call have transferred some number of bytes, at most N, and
the local write cursor equals P plus that number, or its value before the call
when that number is zero; after a call that returns, with N > 0, it equals
P + N. -/
theorem write_cursor_follows_transfer (st : RcvState) (buf : List Nat) (recptr tli : Nat)
    (hfit : recptr + buf.length < 2 ^ 64) :
    (∀ turns : Nat,
      ∃ evs, (XLogWalRcvWrite_loop turns st buf recptr tli).state.trace = st.trace ++ evs ∧
        transferred evs ≤ buf.length ∧
        (XLogWalRcvWrite_loop turns st buf recptr tli).state.LogstreamResult.Write =
          (if transferred evs = 0 then st.LogstreamResult.Write
           else recptr + transferred evs)) ∧
    (∃ evs, (XLogWalRcvWrite st buf recptr tli).state.trace = st.trace ++ evs ∧
      transferred evs ≤ buf.length ∧
      (XLogWalRcvWrite st buf recptr tli).state.LogstreamResult.Write =
        (if transferred evs = 0 then st.LogstreamResult.Write
         else recptr + transferred evs)) ∧
    (∀ st1 : RcvState, XLogWalRcvWrite st buf recptr tli = .ok () st1 → 0 < buf.length →
      st1.LogstreamResult.Write = recptr + buf.length) := by
  refine ⟨fun turns => XLogWalRcvWrite_loop_transferred turns st buf recptr tli hfit,
    XLogWalRcvWrite_transferred st buf recptr tli hfit, fun st1 hok hn => ?_⟩
  rw [(XLogWalRcvWrite_cursors st st1 buf recptr tli hfit hok).1]
  unfold writeEnd
  rw [if_neg (by omega)]

theorem write_cursor_follows_transfer_witness :
    (XLogWalRcvWrite startState [1, 2, 3, 4, 5] 40 1).state.LogstreamResult.Write = 45 ∧
    (XLogWalRcvWrite { startState with pwriteReturns := [3, 0] }
      [1, 2, 3, 4, 5, 6, 7, 8, 9, 10] 40 1).state.LogstreamResult.Write = 43 :=
  ⟨(write_cursor_follows_transfer startState [1, 2, 3, 4, 5] 40 1 (by decide)).2.2 _
    (by rfl) (by decide), by rfl⟩

/-! ## The claim on the invalid position in the entries -/

theorem chained_append {prev : Nat} {es : List TimeLineHistoryEntry}
    (h : Chained prev es) (e : TimeLineHistoryEntry)
    (he : e.begin = (es.getLast?.map (·.end)).getD prev) : Chained prev (es ++ [e]) := by
  induction es generalizing prev with
  | nil => exact ⟨he, trivial⟩
  | cons x xs ih =>
    refine ⟨h.1, ih h.2 ?_⟩
    rw [he]
    cases xs with
    | nil => rfl
    | cons y ys =>
      rw [List.getLast?_cons_cons]
      cases h2 : (y :: ys).getLast? with
      | none => simp at h2
      | some z => rfl

/-- In a chained list an entry begins at `prev` when it is the first, else
where the entry before it ends. -/
theorem chained_begin {prev : Nat} {es : List TimeLineHistoryEntry} (h : Chained prev es)
    (i : Nat) (e : TimeLineHistoryEntry) (he : es[i]? = some e) :
    (i = 0 ∧ e.begin = prev) ∨ ∃ j d, i = j + 1 ∧ es[j]? = some d ∧ e.begin = d.end := by
  induction es generalizing prev i with
  | nil => simp at he
  | cons x xs ih =>
    cases i with
    | zero =>
      simp only [List.getElem?_cons_zero, Option.some.injEq] at he
      exact Or.inl ⟨rfl, by rw [← he]; exact h.1⟩
    | succ k =>
      simp only [List.getElem?_cons_succ] at he
      rcases ih h.2 k he with ⟨hk, hb⟩ | ⟨j, d, hk, hd, hb⟩
      · exact Or.inr ⟨0, x, by rw [hk], List.getElem?_cons_zero, hb⟩
      · exact Or.inr ⟨j + 1, d, by rw [hk], by simpa using hd, hb⟩

/-- The loop of the parser: the entries it adds end at the switchpoints that
the lines state, begin where the one before ends, and `prevend` is the end of
the last. -/
theorem parseLines_entries {ls : List (List Char)} {st st1 : ParseState}
    (h : parseLines ls st = .ok st1)
    (hc : Chained InvalidXLogRecPtr st.entries)
    (hp : st.prevend = (st.entries.getLast?.map (·.end)).getD InvalidXLogRecPtr) :
    Chained InvalidXLogRecPtr st1.entries ∧
    st1.prevend = (st1.entries.getLast?.map (·.end)).getD InvalidXLogRecPtr ∧
    st1.entries.map (·.end) = st.entries.map (·.end) ++ statedSwitchpoints ls := by
  induction ls generalizing st with
  | nil =>
    cases h
    exact ⟨hc, hp, by simp [statedSwitchpoints]⟩
  | cons l rest ih =>
    simp only [parseLines] at h
    cases hpl : parseLine st l with
    | error e => simp [hpl] at h
    | ok st2 =>
      simp only [hpl] at h
      cases hl : isIgnored l with
      | true =>
        rw [parseLine_ignored hl] at hpl
        cases hpl
        obtain ⟨a, b, c⟩ := ih h hc hp
        refine ⟨a, b, ?_⟩
        rw [c]
        simp [statedSwitchpoints, hl]
      | false =>
        obtain ⟨tli, hi, lo, hs, _, _, _, heq⟩ := parseLine_ok_data hl hpl
        subst heq
        obtain ⟨a, b, c⟩ := ih h (chained_append hc _ hp) (by simp)
        refine ⟨a, b, ?_⟩
        rw [c]
        simp [statedSwitchpoints, hl, hs, Scanned.switchpoint?]

/-- C29, as stated, fails.  The history `zeroSwitchHistory` states the
switchpoint `0/0` for timeline 1; the entries returned for the target 3 are
three, and the first, which is not the final one, ends at the invalid position
while the second, which is not the first one, begins at it. -/
theorem zero_switchpoint_is_the_sentinel :
    InvalidXLogRecPtr = 0 ∧
    rewind_parseTimeLineHistory zeroSwitchHistory 3 =
      .ok [{ tli := 1, begin := 0, «end» := 0 }, { tli := 2, begin := 0, «end» := 5 },
           { tli := 3, begin := 5, «end» := 0 }] :=
  ⟨rfl, by rfl⟩

/-- C29, amended: in every entry list returned by
`rewind_parseTimeLineHistory`, the final entry is the one of the target and
ends at the invalid position, the entries before it end at the switchpoints
that the lines of the file state, in order, the first entry begins at the
invalid position and every other entry begins where the one before it ends.
So, when no line states the switchpoint `0/0`, the only entry whose end is the
invalid position is the final one and the only entry whose begin is the invalid
position is the first one. -/
theorem sentinel_at_the_ends (buffer : List Char) (targetTLI : Nat)
    (entries : List TimeLineHistoryEntry)
    (h : rewind_parseTimeLineHistory buffer targetTLI = .ok entries) :
    (∃ init prevend,
      entries = init ++ [{ tli := targetTLI, begin := prevend, «end» := InvalidXLogRecPtr }] ∧
      init.map (·.end) = statedSwitchpoints (splitLines (cstr buffer))) ∧
    Chained InvalidXLogRecPtr entries ∧
    ((∀ sp ∈ statedSwitchpoints (splitLines (cstr buffer)), sp ≠ InvalidXLogRecPtr) →
      ∀ (i : Nat) (e : TimeLineHistoryEntry), entries[i]? = some e →
        (e.end = InvalidXLogRecPtr ↔ i + 1 = entries.length) ∧
        (e.begin = InvalidXLogRecPtr ↔ i = 0)) := by
  unfold rewind_parseTimeLineHistory at h
  cases hp : parseLines (splitLines (cstr buffer))
      { entries := [], lasttli := 0, prevend := InvalidXLogRecPtr } with
  | error e =>
    rw [hp] at h
    exact absurd h (by simp)
  | ok st =>
    rw [hp] at h
    dsimp only at h
    split_ifs at h
    simp only [Except.ok.injEq] at h
    obtain ⟨hc, hpe, hm⟩ := parseLines_entries hp trivial rfl
    simp only [List.map_nil, List.nil_append] at hm
    have hch : Chained InvalidXLogRecPtr entries := by
      rw [← h]
      exact chained_append hc _ hpe
    refine ⟨⟨st.entries, st.prevend, h.symm, hm⟩, hch, fun hnz i e hie => ?_⟩
    have hlen : entries.length = st.entries.length + 1 := by
      rw [← h]
      simp
    have hin : ∀ (j : Nat) (d : TimeLineHistoryEntry), j < st.entries.length →
        entries[j]? = some d → d.end ≠ InvalidXLogRecPtr := by
      intro j d hj hd
      rw [← h, List.getElem?_append_left hj] at hd
      apply hnz
      rw [← hm]
      exact List.mem_map.mpr ⟨d, List.getElem?_mem hd, rfl⟩
    have hi : i < entries.length := by
      by_contra c
      rw [List.getElem?_eq_none (Nat.le_of_not_lt c)] at hie
      exact absurd hie (by simp)
    constructor
    · by_cases c : i < st.entries.length
      · constructor
        · intro he
          exact absurd he (hin i e c hie)
        · intro he
          omega
      · have hi2 : i = st.entries.length := by omega
        constructor
        · intro _
          omega
        · intro _
          rw [← h, hi2, List.getElem?_append_right (le_refl _)] at hie
          simp only [Nat.sub_self, List.getElem?_cons_zero, Option.some.injEq] at hie
          rw [← hie]
    · rcases chained_begin hch i e hie with ⟨h0, hb⟩ | ⟨j, d, hj, hd, hb⟩
      · exact ⟨fun _ => h0, fun _ => hb⟩
      · constructor
        · intro he
          rw [hb] at he
          exact absurd he (hin j d (by omega) hd)
        · intro he
          omega

theorem sentinel_at_the_ends_witness :
    Chained InvalidXLogRecPtr
      [{ tli := 1, begin := 0, «end» := 0x1000000 },
       { tli := 2, begin := 0x1000000, «end» := 0x2000000 },
       { tli := 3, begin := 0x2000000, «end» := 0 }] :=
  (sentinel_at_the_ends "1\t0/1000000\n2\t0/2000000\n".toList 3 _ (by rfl)).2.1

/-! ## The claims on shared memory, pages and the object database -/

/-! ### shmem.c and bufpage.h -/

/-- C31: `mul_size` multiplies two values of `Size` and checks for overflow:
for all `s1`, `s2` it returns the exact product `s1 * s2` when the product
fits in the 64 bits of a `Size` (so 0 when a factor is 0), and it raises the
error for a size that overflows, `ERRCODE_PROGRAM_LIMIT_EXCEEDED`, if and only
if the product does not fit. -/
theorem mul_size_checks_overflow (s1 s2 : Nat) :
    (s1 * s2 < 2 ^ 64 → mul_size s1 s2 = .ok (s1 * s2)) ∧
    (s1 = 0 ∨ s2 = 0 → mul_size s1 s2 = .ok 0) ∧
    (mul_size s1 s2 = .error .ERRCODE_PROGRAM_LIMIT_EXCEEDED ↔ 2 ^ 64 ≤ s1 * s2) := by
  have hfits : s1 * s2 < 2 ^ 64 → mul_size s1 s2 = .ok (s1 * s2) := by
    intro hfit
    unfold mul_size
    by_cases hz : s1 = 0 ∨ s2 = 0
    · rw [if_pos hz]
      rcases hz with h | h <;> simp [h]
    · rw [if_neg hz]
      dsimp only
      rw [Nat.mod_eq_of_lt hfit, Nat.mul_div_cancel _ (by omega : 0 < s2), if_neg (by simp)]
  have hover : 2 ^ 64 ≤ s1 * s2 → mul_size s1 s2 = .error .ERRCODE_PROGRAM_LIMIT_EXCEEDED := by
    intro hov
    unfold mul_size
    have hz : ¬ (s1 = 0 ∨ s2 = 0) := by
      rintro (h | h) <;> simp [h] at hov
    rw [if_neg hz]
    dsimp only
    have hlt : s1 * s2 % 2 ^ 64 < 2 ^ 64 := Nat.mod_lt _ (by norm_num)
    have hne : s1 * s2 % 2 ^ 64 / s2 ≠ s1 := by
      intro he
      have h3 : s1 * s2 % 2 ^ 64 / s2 * s2 ≤ s1 * s2 % 2 ^ 64 := Nat.div_mul_le_self _ _
      rw [he] at h3
      omega
    rw [if_pos hne]
  refine ⟨hfits, ?_, ?_, hover⟩
  · intro hz
    have hp : s1 * s2 = 0 := by
      rcases hz with h | h <;> simp [h]
    have := hfits (by rw [hp]; norm_num)
    rw [hp] at this
    exact this
  · intro he
    by_contra hlt
    rw [hfits (by omega)] at he
    cases he

/-- The macro `TYPEALIGN` when its sum does not pass 2^64: the least multiple
of `ALIGNVAL` that is at least `LEN`. -/
theorem TYPEALIGN_spec (a len : Nat) (ha : 0 < a) (hfit : len + (a - 1) < 2 ^ 64) :
    len ≤ TYPEALIGN a len ∧ TYPEALIGN a len < len + a ∧ TYPEALIGN a len % a = 0 := by
  unfold TYPEALIGN
  rw [Nat.mod_eq_of_lt hfit]
  have hm := Nat.mod_lt (len + (a - 1)) ha
  have hle := Nat.mod_le (len + (a - 1)) a
  refine ⟨by omega, by omega, ?_⟩
  exact Nat.sub_mod_eq_zero_of_mod_eq (Nat.mod_mod _ _).symm


theorem CACHELINEALIGN_spec (size : Nat) (hfit : size + 127 < 2 ^ 64) :
    size ≤ CACHELINEALIGN size ∧ CACHELINEALIGN size < size + 128 ∧
    CACHELINEALIGN size % 128 = 0 :=
  TYPEALIGN_spec 128 size (by norm_num) hfit

theorem MAXALIGN_spec (size : Nat) (hfit : size + 7 < 2 ^ 64) :
    size ≤ MAXALIGN size ∧ MAXALIGN size < size + 8 ∧ MAXALIGN size % 8 = 0 :=
  TYPEALIGN_spec 8 size (by norm_num) hfit

/-- What `ShmemAllocNoError` does when neither the padding nor the sum with
`freeoffset` passes 2^64: `NULL` and the header as it was when the padded
request exceeds the space left, else the old `freeoffset` and `freeoffset`
advanced by the padded size, which is at least the size requested. -/
theorem ShmemAllocNoError_in_range (hdr : PGShmemHeader) (size : Nat)
    (hfree : hdr.freeoffset ≤ hdr.totalsize)
    (hfit : hdr.freeoffset + size + 127 < 2 ^ 64) :
    size ≤ CACHELINEALIGN size ∧
    (hdr.totalsize - hdr.freeoffset < CACHELINEALIGN size →
      ShmemAllocNoError hdr size = .ok none hdr) ∧
    (CACHELINEALIGN size ≤ hdr.totalsize - hdr.freeoffset →
      ShmemAllocNoError hdr size =
        .ok (some hdr.freeoffset)
          { hdr with freeoffset := hdr.freeoffset + CACHELINEALIGN size }) := by
  obtain ⟨a1, a2, _⟩ := CACHELINEALIGN_spec size (by omega)
  have hmod : (hdr.freeoffset + CACHELINEALIGN size) % 2 ^ 64 =
      hdr.freeoffset + CACHELINEALIGN size := Nat.mod_eq_of_lt (by omega)
  refine ⟨a1, fun hbig => ?_, fun hsmall => ?_⟩
  · unfold ShmemAllocNoError ShmemAllocRaw
    dsimp only
    rw [hmod, if_neg (by omega)]
  · unfold ShmemAllocNoError ShmemAllocRaw
    dsimp only
    rw [hmod, if_pos (by omega)]

/-- C32: `ShmemAllocNoError` on a segment of 1024 bytes of which 256 are
allocated, asked for 2^64 - 128 bytes.  The request needs no padding and is
more than the 768 bytes left; the sum `newStart + size` of line 217, taken in
`Size`, wraps to 128, the test of line 218 passes, and the call returns the
address at offset 256 instead of `NULL` and sets `freeoffset` back to 128. -/
theorem alloc_no_error_wraps :
    CACHELINEALIGN (2 ^ 64 - 128) = 2 ^ 64 - 128 ∧
    smallSegment.totalsize - smallSegment.freeoffset < CACHELINEALIGN (2 ^ 64 - 128) ∧
    ShmemAllocNoError smallSegment (2 ^ 64 - 128) =
      .ok (some 256) { totalsize := 1024, freeoffset := 128 } := by
  decide

/-- One allocating call when nothing passes 2^64: `freeoffset` does not
decrease and stays within `totalsize`, and the region returned lies between
the old and the new `freeoffset`. -/
theorem ShmemCall_run_in_range (hdr : PGShmemHeader) (c : ShmemCall)
    (hfree : hdr.freeoffset ≤ hdr.totalsize)
    (hfit : hdr.freeoffset + c.size + 127 < 2 ^ 64) :
    (c.run hdr).2.totalsize = hdr.totalsize ∧
    hdr.freeoffset ≤ (c.run hdr).2.freeoffset ∧
    (c.run hdr).2.freeoffset ≤ hdr.totalsize ∧
    ∀ offset, (c.run hdr).1 = some offset →
      offset = hdr.freeoffset ∧ offset + c.size ≤ (c.run hdr).2.freeoffset := by
  cases c with
  | raw size =>
    simp only [ShmemCall.size] at hfit
    obtain ⟨a1, a2, _⟩ := CACHELINEALIGN_spec size (by omega)
    have hmod : (hdr.freeoffset + CACHELINEALIGN size) % 2 ^ 64 =
        hdr.freeoffset + CACHELINEALIGN size := Nat.mod_eq_of_lt (by omega)
    simp only [ShmemCall.run, ShmemCall.size, ShmemAllocRaw, hmod]
    split_ifs with h
    · refine ⟨rfl, by simp, h, fun offset ho => ?_⟩
      simp only [Option.some.injEq] at ho
      subst ho
      exact ⟨rfl, by simp; exact a1⟩
    · exact ⟨rfl, le_refl _, hfree, fun offset ho => by simp at ho⟩
  | unlocked size =>
    simp only [ShmemCall.size] at hfit
    obtain ⟨a1, a2, _⟩ := MAXALIGN_spec size (by omega)
    have hmod : (hdr.freeoffset + MAXALIGN size) % 2 ^ 64 =
        hdr.freeoffset + MAXALIGN size := Nat.mod_eq_of_lt (by omega)
    simp only [ShmemCall.run, ShmemCall.size, ShmemAllocUnlocked, hmod]
    split_ifs with h
    · exact ⟨rfl, le_refl _, hfree, fun offset ho => by simp at ho⟩
    · refine ⟨rfl, by simp, by simp; omega, fun offset ho => ?_⟩
      simp only [Option.some.injEq] at ho
      subst ho
      exact ⟨rfl, by simp; exact a1⟩

/-- A sequence of calls of which none asks for so much that the size of the
segment plus the padded request passes 2^64: `freeoffset` does not decrease
and stays within `totalsize`,
the regions returned lie between the old and the new `freeoffset`, and no two
of them overlap. -/
theorem allocations_in_range (hdr : PGShmemHeader) (cs : List ShmemCall)
    (hfree : hdr.freeoffset ≤ hdr.totalsize)
    (hsizes : ∀ c ∈ cs, hdr.totalsize + c.size + 127 < 2 ^ 64) :
    hdr.freeoffset ≤ (headerAfter hdr cs).freeoffset ∧
    (headerAfter hdr cs).freeoffset ≤ hdr.totalsize ∧
    (∀ r ∈ allocations hdr cs,
      hdr.freeoffset ≤ r.1 ∧ r.1 + r.2 ≤ (headerAfter hdr cs).freeoffset) ∧
    (allocations hdr cs).Pairwise Apart := by
  induction cs generalizing hdr with
  | nil => exact ⟨le_refl _, hfree, fun r hr => by simp [allocations] at hr, List.Pairwise.nil⟩
  | cons c cs ih =>
    have hc := hsizes c (List.mem_cons_self _ _)
    obtain ⟨t1, f1, f2, hoff⟩ := ShmemCall_run_in_range hdr c hfree (by omega)
    obtain ⟨i1, i2, i3, i4⟩ := ih (c.run hdr).2 (by rw [t1]; exact f2)
      (fun x hx => by rw [t1]; exact hsizes x (List.mem_cons_of_mem _ hx))
    rw [t1] at i2
    refine ⟨by simp only [headerAfter]; omega, by simp only [headerAfter]; exact i2, ?_, ?_⟩
    · intro r hr
      simp only [headerAfter]
      simp only [allocations] at hr
      cases ho : (c.run hdr).1 with
      | none =>
        rw [ho] at hr
        have := i3 r hr
        omega
      | some offset =>
        rw [ho] at hr
        obtain ⟨o1, o2⟩ := hoff offset ho
        rcases List.mem_cons.mp hr with h | h
        · subst h
          simp only
          omega
        · have := i3 r h
          omega
    · simp only [allocations]
      cases ho : (c.run hdr).1 with
      | none => exact i4
      | some offset =>
        obtain ⟨o1, o2⟩ := hoff offset ho
        refine List.Pairwise.cons (fun r hr => ?_) i4
        have := i3 r hr
        left
        simp only
        omega

/-- C38: two calls of `ShmemAllocRaw` on a segment of 1024 bytes of which 256
are allocated, the first for 2^64 - 128 bytes, the second for 256.  After the
first `freeoffset` has gone down from 256 to 128; both calls succeed, the
region of the first, from offset 256, ends past the 1024 bytes of the segment,
and the region of the second, from offset 128, overlaps it. -/
theorem freeoffset_wraps_and_regions_overlap :
    smallSegment.freeoffset ≤ smallSegment.totalsize ∧
    (headerAfter smallSegment [.raw (2 ^ 64 - 128)]).freeoffset = 128 ∧
    allocations smallSegment [.raw (2 ^ 64 - 128), .raw 256] =
      [(256, 2 ^ 64 - 128), (128, 256)] ∧
    ¬ Apart (256, 2 ^ 64 - 128) (128, 256) ∧
    smallSegment.totalsize < 256 + (2 ^ 64 - 128) := by
  refine ⟨by decide, by decide, by decide, ?_, by decide⟩
  unfold Apart
  decide

/-- C39, as amended: for every page header (`pd_lower` is a `uint16`),
`PageIsEmpty(page)` holds exactly when `PageGetMaxOffsetNumber(page)` is 0 and
`pd_lower` does not lie strictly between `SizeOfPageHeaderData` and
`SizeOfPageHeaderData + sizeof(ItemIdData)`, that is, the area of the line
pointers is not a part of one item id. -/
theorem page_empty_iff_no_items (page : PageHeaderData) (hlower : page.pd_lower < 2 ^ 16) :
    PageIsEmpty page = true ↔
      PageGetMaxOffsetNumber page = 0 ∧
        ¬ (SizeOfPageHeaderData < page.pd_lower ∧
            page.pd_lower < SizeOfPageHeaderData + sizeofItemIdData) := by
  unfold PageIsEmpty PageGetMaxOffsetNumber SizeOfPageHeaderData sizeofItemIdData
  constructor
  · intro h
    have h1 : page.pd_lower ≤ 24 := by simpa using h
    rw [if_pos h1]
    exact ⟨rfl, by omega⟩
  · rintro ⟨h1, h2⟩
    by_contra hne
    have h3 : ¬ page.pd_lower ≤ 24 := by simpa using hne
    rw [if_neg h3] at h1
    have hq : (page.pd_lower - 24) / 4 < 2 ^ 16 := by omega
    rw [Nat.mod_eq_of_lt hq] at h1
    omega

theorem page_empty_iff_no_items_witness :
    twoItemPage.pd_lower < 2 ^ 16 ∧
    (PageIsEmpty twoItemPage = true ↔
      PageGetMaxOffsetNumber twoItemPage = 0 ∧
        ¬ (SizeOfPageHeaderData < twoItemPage.pd_lower ∧
            twoItemPage.pd_lower < SizeOfPageHeaderData + sizeofItemIdData)) :=
  ⟨by decide, page_empty_iff_no_items twoItemPage (by decide)⟩

/-- The counterexample to C39: a page header whose `pd_lower` is 25, one byte
past the header: `PageGetMaxOffsetNumber` is 0 and `PageIsEmpty` is false. -/
theorem partial_item_is_not_empty :
    PageGetMaxOffsetNumber oddPage = 0 ∧ PageIsEmpty oddPage = false := by
  decide

/-! ### init-db.c -/

/-- The operator `!` yields 0 or 1. -/
theorem logicalNot_nonneg (v : Int) : ¬ logicalNot v < 0 := by
  unfold logicalNot
  split_ifs <;> omega

/-- Whatever the loop of lines 44-52 finds, it does not end with `return;`. -/
theorem main_loop_not_shared (count i : Nat) (fs : FsState) (dir : List Char) :
    (InitDb.main_loop count i fs dir).1 ≠ .returned none := by
  induction count generalizing i fs with
  | zero => simp [InitDb.main_loop]
  | succ n ih =>
    rw [InitDb.main_loop]
    split_ifs
    · simp
    · exact ih _ _

/-- The program never takes the `return` of line 26. -/
theorem main_not_shared (fs : FsState) : (InitDb.main fs).1 ≠ .returned none := by
  have hp : ∀ g : FsState, (InitDb.main_private g).1 ≠ .returned none := by
    intro g
    unfold InitDb.main_private
    dsimp only
    split_ifs
    · simp
    · exact main_loop_not_shared _ _ _ _
  unfold InitDb.main
  dsimp only
  split_ifs
  · simp
  · split
    · rw [if_neg (fun h => logicalNot_nonneg _ h.1)]
      exact hp _
    · exact hp _

/-- The call `mkdir` where nothing but directories exists and nothing is
refused: it fails only with `EEXIST`, and the directory exists after it. -/
theorem mkdir_spec (fs : FsState) (path : List Char) (hf : fs.files = [])
    (hr : fs.refused = []) :
    ((mkdir fs path).1 < 0 → (mkdir fs path).2.1 = some .EEXIST) ∧
    Grown fs (mkdir fs path).2.2 [] ∧ path ∈ (mkdir fs path).2.2.dirs ∧
    (∀ p ∈ (mkdir fs path).2.2.dirs, p ∈ fs.dirs ∨ p = path) ∧
    (path ∉ fs.dirs → (mkdir fs path).1 = 0) := by
  unfold mkdir Grown
  rw [hf, hr]
  by_cases h : path ∈ fs.dirs
  · simp [h, hf, hr]
    exact fun p hp => Or.inl hp
  · simp [h, hf, hr]
    exact fun p hp => Or.inl hp

/-- The loop of lines 44-52 where nothing but directories exists and nothing
is refused: it returns 0, writes nothing, and the directories after it are
those before it and the `count` directories from the `i`-th on. -/
theorem main_loop_spec (count i : Nat) (fs : FsState) (dir : List Char) (hf : fs.files = [])
    (hr : fs.refused = []) :
    (InitDb.main_loop count i fs dir).1 = .returned (some 0) ∧
    Grown fs (InitDb.main_loop count i fs dir).2 [] ∧
    (∀ j, i ≤ j → j < i + count → dir ++ sprintf j ∈ (InitDb.main_loop count i fs dir).2.dirs) ∧
    (∀ p ∈ (InitDb.main_loop count i fs dir).2.dirs,
      p ∈ fs.dirs ∨ ∃ j, i ≤ j ∧ j < i + count ∧ p = dir ++ sprintf j) := by
  induction count generalizing i fs with
  | zero =>
    refine ⟨rfl, ⟨hf, hr, rfl, fun p hp => hp, (List.append_nil _).symm⟩, fun j h1 h2 => ?_,
      fun p hp => Or.inl hp⟩
    omega
  | succ n ih =>
    obtain ⟨m1, ⟨g1, g2, g3, g4, g5⟩, m3, m4, _⟩ := mkdir_spec fs (dir ++ sprintf i) hf hr
    rw [InitDb.main_loop, if_neg (fun h => h.2 (m1 h.1))]
    obtain ⟨r1, ⟨k1, k2, k3, k4, k5⟩, r3, r4⟩ := ih (i + 1) (mkdir fs (dir ++ sprintf i)).2.2 g1 g2
    refine ⟨r1, ⟨k1, k2, k3.trans g3, fun p hp => k4 p (g4 p hp), ?_⟩, fun j h1 h2 => ?_,
      fun p hp => ?_⟩
    · rw [k5, g5, List.append_nil]
    · by_cases hj : j = i
      · subst hj
        exact k4 _ m3
      · exact r3 j (by omega) (by omega)
    · rcases r4 p hp with h | ⟨j, j1, j2, j3⟩
      · rcases m4 p h with h2 | h2
        · exact Or.inl h2
        · exact Or.inr ⟨i, le_refl _, by omega, h2⟩
      · exact Or.inr ⟨j, by omega, by omega, j3⟩


/-- The program in a working directory without `.dircache`, where nothing but
directories exists and `mkdir` is refused nowhere, with `SHA1_FILE_DIRECTORY`
set: whether the variable names an existing directory or not, the program
writes that the directory is bad and that it defaults to the private area,
makes `.dircache/objects` and the 256 directories `00` to `ff` in it, and
nothing else but `.dircache`, and returns 0. -/
theorem main_with_directory_set (fs : FsState) (sha1_dir : List Char)
    (henv : fs.sha1_file_directory = some sha1_dir) (hf : fs.files = [])
    (hr : fs.refused = []) (hnew : ".dircache".toList ∉ fs.dirs) :
    (InitDb.main fs).1 = .returned (some 0) ∧
    Grown fs (InitDb.main fs).2
      ["DB_ENVIRONMENT set to bad directory ".toList ++ sha1_dir ++ ": ".toList,
       "defaulting to private storage area\n".toList] ∧
    ".dircache/objects".toList ∈ (InitDb.main fs).2.dirs ∧
    (∀ j, j < 256 → ".dircache/objects".toList ++ sprintf j ∈ (InitDb.main fs).2.dirs) ∧
    (∀ p ∈ (InitDb.main fs).2.dirs,
      p ∈ fs.dirs ∨ p = ".dircache".toList ∨ p = ".dircache/objects".toList ∨
        ∃ j, j < 256 ∧ p = ".dircache/objects".toList ++ sprintf j) := by
  obtain ⟨_, ⟨a1, a2, a3, a4, a5⟩, _, a7, a8⟩ := mkdir_spec fs ".dircache".toList hf hr
  have a9 := a8 hnew
  unfold InitDb.main
  dsimp only
  rw [if_neg (by omega), a3, henv]
  dsimp only
  rw [if_neg (fun h => logicalNot_nonneg _ h.1)]
  generalize (mkdir fs ".dircache".toList).2.2 = fs1 at a1 a2 a3 a4 a5 a7
  unfold InitDb.main_private
  dsimp only
  generalize hfs2 : fprintf (fprintf fs1 ("DB_ENVIRONMENT set to bad directory ".toList ++
    sha1_dir ++ ": ".toList)) "defaulting to private storage area\n".toList = fs2
  have b1 : fs2.files = [] := by rw [← hfs2]; exact a1
  have b2 : fs2.refused = [] := by rw [← hfs2]; exact a2
  have b3 : fs2.dirs = fs1.dirs := by rw [← hfs2]; rfl
  have b4 : fs2.stderr = fs.stderr ++
      ["DB_ENVIRONMENT set to bad directory ".toList ++ sha1_dir ++ ": ".toList,
       "defaulting to private storage area\n".toList] := by
    rw [← hfs2]
    simp [fprintf, a5]
  have b5 : fs2.sha1_file_directory = fs.sha1_file_directory := by rw [← hfs2]; exact a3
  obtain ⟨c1, ⟨d1, d2, d3, d4, d5⟩, c3, c4, _⟩ := mkdir_spec fs2 ".dircache/objects".toList b1 b2
  rw [if_neg (fun h => h.2 (c1 h.1))]
  obtain ⟨r1, ⟨k1, k2, k3, k4, k5⟩, r3, r4⟩ := main_loop_spec 256 0
    (mkdir fs2 ".dircache/objects".toList).2.2 ".dircache/objects".toList d1 d2
  refine ⟨r1, ⟨k1, k2, ?_, fun p hp => ?_, ?_⟩, k4 _ c3, fun j hj => r3 j (Nat.zero_le _)
    (by omega), fun p hp => ?_⟩
  · rw [k3, d3, b5]
  · exact k4 p (d4 p (by rw [b3]; exact a4 p hp))
  · simp only [k5, d5, b4, List.append_nil]
  · rcases r4 p hp with h | ⟨j, _, j2, j3⟩
    · rcases c4 p h with h2 | h2
      · rw [b3] at h2
        rcases a7 p h2 with h3 | h3
        · exact Or.inl h3
        · exact Or.inr (Or.inl h3)
      · exact Or.inr (Or.inr (Or.inl h2))
    · exact Or.inr (Or.inr (Or.inr ⟨j, by omega, j3⟩))

/-- C40: `init-db` in a working directory without `.dircache`, with
`SHA1_FILE_DIRECTORY` set to the existing directory `/srv/objects`: `stat`
returns 0 and the mode is that of a directory, yet the test of line 25 fails,
`!stat(...)` being 0 or 1 and never below 0: the program writes that the
directory is bad, defaults to the private area, makes `.dircache/objects` and
the 256 directories `00` to `ff` in it, and returns 0. -/
theorem shared_database_is_ignored :
    stat sharedSetup "/srv/objects".toList = 0 ∧
    S_ISDIR sharedSetup "/srv/objects".toList = true ∧
    (InitDb.main sharedSetup).1 = .returned (some 0) ∧
    (InitDb.main sharedSetup).2.stderr =
      ["DB_ENVIRONMENT set to bad directory /srv/objects: ".toList,
       "defaulting to private storage area\n".toList] ∧
    ".dircache/objects".toList ∈ (InitDb.main sharedSetup).2.dirs ∧
    (∀ j, j < 256 →
      ".dircache/objects".toList ++ sprintf j ∈ (InitDb.main sharedSetup).2.dirs) := by
  obtain ⟨m1, ⟨_, _, _, _, m2⟩, m3, m4, _⟩ :=
    main_with_directory_set sharedSetup "/srv/objects".toList rfl rfl rfl (by decide)
  exact ⟨by decide, by decide, m1, m2, m3, m4⟩

/-! ## The claim on the places of the writes -/

theorem writesAt_append (segsz tli : Nat) (a b : List Event) (p : Nat) :
    WritesAt segsz tli p (a ++ b) ↔
      WritesAt segsz tli p a ∧ WritesAt segsz tli (p + transferred a) b := by
  induction a generalizing p with
  | nil => simp [WritesAt, transferred]
  | cons e es ih =>
    cases e <;> simp [WritesAt, transferred, ih, Nat.add_assoc, and_assoc]

/-- Calls that hold no failed write and transferred nothing hold no write. -/
theorem writesAt_of_quiet (segsz tli p : Nat) (evs : List Event)
    (hq : ∀ e ∈ evs, e.failedWrite = false) (ht : transferred evs = 0) :
    WritesAt segsz tli p evs := by
  induction evs with
  | nil => trivial
  | cons e es ih =>
    have hes : ∀ x ∈ es, x.failedWrite = false := fun x hx => hq x (List.mem_cons_of_mem _ hx)
    have he := hq e (List.mem_cons_self _ _)
    cases e with
    | pwrite file offset bytes ret =>
      simp only [Event.failedWrite, decide_eq_false_iff_not] at he
      simp only [transferred] at ht
      omega
    | _ =>
      simp only [transferred] at ht
      simp only [WritesAt]
      exact ih hes ht

/-- A step that holds no failed write and transfers nothing adds no write. -/
theorem writesAt_of_steps {a b : RcvState} (hq : QuietlyExtends a b) (ht : NoTransfer a b)
    (segsz tli p : Nat) :
    ∃ evs, b.trace = a.trace ++ evs ∧ transferred evs = 0 ∧ WritesAt segsz tli p evs := by
  obtain ⟨e1, t1, q1⟩ := hq
  obtain ⟨e2, t2, q2⟩ := ht
  have he : e1 = e2 := List.append_cancel_left (t1.symm.trans t2)
  subst he
  exact ⟨e1, t1, q2, writesAt_of_quiet segsz tli p e1 q1 q2⟩

/-- One turn of the loop of `XLogWalRcvWrite` up to its call of `pg_pwrite`
(lines 918-941): the one write is made on the segment of `recptr`, at the
offset of `recptr`, with at least one byte and none past the end of the
segment. -/
theorem XLogWalRcvWrite_turn_writesAt (st : RcvState) (buf : List Nat) (recptr tli : Nat)
    (hs : 0 < st.wal_segment_size) (hfile : OpenFileOf st tli) (hb : buf.length ≠ 0) :
    ∃ evs,
      (XLogWalRcvWrite_pwrite (XLogWalRcvWrite_segment st recptr tli) buf recptr).2.trace =
        st.trace ++ evs ∧
      WritesAt st.wal_segment_size tli recptr evs ∧
      transferred evs =
        (XLogWalRcvWrite_pwrite (XLogWalRcvWrite_segment st recptr tli) buf recptr).1.toNat ∧
      (XLogWalRcvWrite_pwrite (XLogWalRcvWrite_segment st recptr tli) buf recptr).1 ≤
        buf.length ∧
      (XLogWalRcvWrite_pwrite (XLogWalRcvWrite_segment st recptr tli) buf
        recptr).2.wal_segment_size = st.wal_segment_size ∧
      OpenFileOf
        (XLogWalRcvWrite_pwrite (XLogWalRcvWrite_segment st recptr tli) buf recptr).2 tli := by
  obtain ⟨_, _, g3, g4, _, g6⟩ := XLogWalRcvWrite_segment_spec st recptr tli
  obtain ⟨hf, hseg⟩ := g6 hfile
  obtain ⟨e0, t0, z0, w0⟩ := writesAt_of_steps g4
    (XLogWalRcvWrite_segment_noTransfer st recptr tli) st.wal_segment_size tli recptr
  have hs2 : 0 < (XLogWalRcvWrite_segment st recptr tli).wal_segment_size := by
    rw [g3]; exact hs
  obtain ⟨b1, b2, b3⟩ := XLogWalRcvWrite_segbytes_bounds
    (XLogWalRcvWrite_segment st recptr tli) buf.length recptr hs2 (Nat.pos_of_ne_zero hb)
  rw [g3] at b3
  generalize XLogWalRcvWrite_segment st recptr tli = S at g3 hf hseg t0 b1 b2 b3
  have hle := pwriteReturn_le S (XLogWalRcvWrite_segbytes S buf.length recptr)
  rw [XLogWalRcvWrite_pwrite_open S buf recptr _ hf]
  refine ⟨e0 ++ [.pwrite ⟨tli, recptr / st.wal_segment_size⟩
    (XLogSegmentOffset recptr S.wal_segment_size)
    (buf.take (XLogWalRcvWrite_segbytes S buf.length recptr))
    (pwriteReturn S (XLogWalRcvWrite_segbytes S buf.length recptr))], ?_, ?_, ?_, ?_, g3, ?_⟩
  · show S.trace ++ [_] = _
    rw [t0, List.append_assoc]
  · rw [writesAt_append, z0]
    refine ⟨w0, ?_⟩
    simp only [WritesAt, XLogSegmentOffset, g3, List.length_take, Nat.add_zero,
      Nat.min_eq_left b2, and_true, true_and]
    exact ⟨b1, b3⟩
  · rw [transferred_append, z0]
    simp [transferred]
  · show pwriteReturn S (XLogWalRcvWrite_segbytes S buf.length recptr) ≤ _
    omega
  · right
    show S.recvFile = some ⟨tli, S.recvSegNo⟩
    rw [hf, hseg]

/-- The writes of the loop of `XLogWalRcvWrite`, however far it got and
however it ended. -/
theorem XLogWalRcvWrite_loop_writesAt (turns : Nat) (st : RcvState) (buf : List Nat)
    (recptr tli : Nat) (hs : 0 < st.wal_segment_size) (hfile : OpenFileOf st tli)
    (hfit : recptr + buf.length < 2 ^ 64) :
    ∃ evs, (XLogWalRcvWrite_loop turns st buf recptr tli).state.trace = st.trace ++ evs ∧
      WritesAt st.wal_segment_size tli recptr evs ∧
      (XLogWalRcvWrite_loop turns st buf recptr tli).state.wal_segment_size =
        st.wal_segment_size := by
  induction turns generalizing st buf recptr with
  | zero => exact ⟨[], (List.append_nil _).symm, trivial, rfl⟩
  | succ n ih =>
    rw [XLogWalRcvWrite_loop]
    by_cases hb : buf.length = 0
    · rw [if_pos hb]
      exact ⟨[], (List.append_nil _).symm, trivial, rfl⟩
    · rw [if_neg hb]
      dsimp only
      obtain ⟨e1, t1, w1, z1, hle, s1, f1⟩ :=
        XLogWalRcvWrite_turn_writesAt st buf recptr tli hs hfile hb
      generalize XLogWalRcvWrite_pwrite (XLogWalRcvWrite_segment st recptr tli) buf recptr = w
        at t1 z1 hle s1 f1
      by_cases hw : w.1 ≤ 0
      · rw [if_pos hw]
        exact ⟨e1, t1, w1, s1⟩
      · rw [if_neg hw]
        have hn : 0 < w.1.toNat ∧ w.1.toNat ≤ buf.length := by omega
        have hmod : (recptr + w.1.toNat) % 2 ^ 64 = recptr + w.1.toNat :=
          Nat.mod_eq_of_lt (by omega)
        rw [hmod]
        have hlen : (buf.drop w.1.toNat).length = buf.length - w.1.toNat := List.length_drop _ _
        obtain ⟨e2, t2, w2, s2⟩ := ih (setWrite w.2 (recptr + w.1.toNat)) (buf.drop w.1.toNat)
          (recptr + w.1.toNat) (by show 0 < w.2.wal_segment_size; rw [s1]; exact hs)
          (by
            rcases f1 with h | h
            · exact Or.inl h
            · exact Or.inr h)
          (by omega)
        refine ⟨e1 ++ e2, ?_, ?_, ?_⟩
        · rw [t2]
          simp only [setWrite]
          rw [t1, List.append_assoc]
        · rw [writesAt_append, z1]
          refine ⟨w1, ?_⟩
          have hsz : (setWrite w.2 (recptr + w.1.toNat)).wal_segment_size =
              st.wal_segment_size := s1
          rw [hsz] at w2
          exact w2
        · rw [s2]
          exact s1

/-- The writes of `XLogWalRcvWrite`, returned or failed. -/
theorem XLogWalRcvWrite_writesAt (st : RcvState) (buf : List Nat) (recptr tli : Nat)
    (hs : 0 < st.wal_segment_size) (hfile : OpenFileOf st tli)
    (hfit : recptr + buf.length < 2 ^ 64) :
    ∃ evs, (XLogWalRcvWrite st buf recptr tli).state.trace = st.trace ++ evs ∧
      WritesAt st.wal_segment_size tli recptr evs := by
  obtain ⟨evs, t, w, _⟩ := XLogWalRcvWrite_loop_writesAt buf.length st buf recptr tli hs hfile hfit
  unfold XLogWalRcvWrite
  cases hl : XLogWalRcvWrite_loop buf.length st buf recptr tli with
  | raised l c s1 =>
    rw [hl] at t
    exact ⟨evs, t, w⟩
  | ok r s1 =>
    rw [hl] at t
    simp only [Outcome.state] at t
    dsimp only
    split_ifs
    · obtain ⟨_, _, _, _, q⟩ := XLogWalRcvClose_untouched
        { s1 with walrcv := { s1.walrcv with writtenUpto := s1.LogstreamResult.Write } } r tli
      obtain ⟨e2, t2, _, w2⟩ := writesAt_of_steps q
        (XLogWalRcvClose_noTransfer
          { s1 with walrcv := { s1.walrcv with writtenUpto := s1.LogstreamResult.Write } } r tli)
        st.wal_segment_size tli (recptr + transferred evs)
      refine ⟨evs ++ e2, ?_, ?_⟩
      · simp only [Outcome.state]
        rw [t2, ← List.append_assoc, ← t]
      · rw [writesAt_append]
        exact ⟨w, w2⟩
    · exact ⟨evs, t, w⟩

/-- C33: writes are applied at the exact computed byte offset and never cross
a segment boundary.  In a call of `XLogWalRcvWrite` for the bytes `buf` at
position `recptr` on timeline `tli`, made with a positive segment size, with
the end of the bytes below 2^64 and with no segment file open or the open file
that of segment `recvSegNo` on the timeline: whether the call returns or fails,
every call of `pg_pwrite` that it makes is for the stream position p reached,
`recptr` plus the bytes that the calls before it transferred; it is made on
the segment file numbered p div segmentSize of the timeline, at the offset
p mod segmentSize, with at least one byte, and offset + length is at most
segmentSize. -/
theorem writes_stay_in_segment (st : RcvState) (buf : List Nat) (recptr tli : Nat)
    (hs : 0 < st.wal_segment_size) (hfile : OpenFileOf st tli)
    (hfit : recptr + buf.length < 2 ^ 64) :
    ∃ evs, (XLogWalRcvWrite st buf recptr tli).state.trace = st.trace ++ evs ∧
      ∀ (before after : List Event) (file : SegFile) (offset : Nat) (bytes : List Nat)
        (ret : Int),
        evs = before ++ .pwrite file offset bytes ret :: after →
          file = ⟨tli, (recptr + transferred before) / st.wal_segment_size⟩ ∧
          offset = (recptr + transferred before) % st.wal_segment_size ∧
          1 ≤ bytes.length ∧ offset + bytes.length ≤ st.wal_segment_size := by
  obtain ⟨evs, t, w⟩ := XLogWalRcvWrite_writesAt st buf recptr tli hs hfile hfit
  refine ⟨evs, t, fun before after file offset bytes ret he => ?_⟩
  rw [he, writesAt_append] at w
  obtain ⟨_, a1, a2, a3, a4, _⟩ := w
  exact ⟨a1, a2, a3, a4⟩

theorem writes_stay_in_segment_witness :
    (XLogWalRcvWrite startState [1, 2, 3, 4, 5, 6, 7, 8, 9, 10] 40 1).state.trace =
      [.fileInit ⟨1, 2⟩, .pwrite ⟨1, 2⟩ 8 [1, 2, 3, 4, 5, 6, 7, 8] 8,
       .fsync (some ⟨1, 2⟩) 2 1, .wakeupRecovery,
       .send (statusReply 48 48 40 1001 false), .close ⟨1, 2⟩,
       .archiveForceDone 1 2, .fileInit ⟨1, 3⟩, .pwrite ⟨1, 3⟩ 0 [9, 10] 2] ∧
    ∃ evs, (XLogWalRcvWrite startState [1, 2, 3, 4, 5, 6, 7, 8, 9, 10] 40 1).state.trace =
        startState.trace ++ evs ∧
      ∀ (before after : List Event) (file : SegFile) (offset : Nat) (bytes : List Nat)
        (ret : Int),
        evs = before ++ .pwrite file offset bytes ret :: after →
          file = ⟨1, (40 + transferred before) / startState.wal_segment_size⟩ ∧
          offset = (40 + transferred before) % startState.wal_segment_size ∧
          1 ≤ bytes.length ∧ offset + bytes.length ≤ startState.wal_segment_size :=
  ⟨by rfl, writes_stay_in_segment startState [1, 2, 3, 4, 5, 6, 7, 8, 9, 10] 40 1 (by decide)
    (Or.inl rfl) (by decide)⟩

/-! ## The claim on `WalRcvWaitForStartPosition` -/

theorem observedAt_cons (w0 : WalRcvData) (t : WaitTurn) (rest : List WaitTurn) (k : Nat) :
    observedAt w0 (t :: rest) (k + 1) = observedAt (t.others w0) rest k := by
  simp [observedAt]

theorem observedAt_zero (w0 : WalRcvData) (t : WaitTurn) (rest : List WaitTurn) :
    observedAt w0 (t :: rest) 0 = t.others w0 := by
  simp [observedAt]

/-- One turn of the loop of `WalRcvWaitForStartPosition` in which no shutdown
is requested, by the state that it finds. -/
theorem WalRcvWaitForStartPosition_turn_spec (st : RcvState) (t : WaitTurn)
    (hq : t.shutdownRequested = false) :
    WalRcvWaitForStartPosition_turn st t =
      (if (t.others st.walrcv).walRcvState = .WALRCV_RESTARTING then
        .restart (t.others st.walrcv).receiveStart (t.others st.walrcv).receiveStartTLI
          { st with walrcv := { t.others st.walrcv with walRcvState := .WALRCV_STREAMING } }
       else if (t.others st.walrcv).walRcvState = .WALRCV_STOPPING then
        .exited 1 { st with walrcv := t.others st.walrcv }
       else .waiting { st with walrcv := t.others st.walrcv }) := by
  unfold WalRcvWaitForStartPosition_turn WalRcvWaitForStartPosition_poll
  rw [hq]
  rfl

/-- The loop returns only from a turn that finds `WALRCV_RESTARTING`, the
first such, with what the record holds then. -/
theorem WalRcvWaitForStartPosition_loop_restart (st st2 : RcvState) (turns : List WaitTurn)
    (sp tl : Nat) (h : WalRcvWaitForStartPosition_loop st turns = .restart sp tl st2) :
    ∃ k, k < turns.length ∧
      (observedAt st.walrcv turns k).walRcvState = .WALRCV_RESTARTING ∧
      sp = (observedAt st.walrcv turns k).receiveStart ∧
      tl = (observedAt st.walrcv turns k).receiveStartTLI ∧
      st2 = { st with walrcv := { observedAt st.walrcv turns k with
                                    walRcvState := .WALRCV_STREAMING } } ∧
      ∀ j, j < k → (observedAt st.walrcv turns j).walRcvState ≠ .WALRCV_RESTARTING := by
  induction turns generalizing st with
  | nil => simp [WalRcvWaitForStartPosition_loop] at h
  | cons t rest ih =>
    rw [WalRcvWaitForStartPosition_loop] at h
    by_cases hq : t.shutdownRequested = true
    · simp [WalRcvWaitForStartPosition_turn, hq] at h
    · have hq2 : t.shutdownRequested = false := by simpa using hq
      rw [WalRcvWaitForStartPosition_turn_spec st t hq2] at h
      by_cases h1 : (t.others st.walrcv).walRcvState = .WALRCV_RESTARTING
      · rw [if_pos h1] at h
        simp only [WaitOutcome.restart.injEq] at h
        obtain ⟨e1, e2, e3⟩ := h
        refine ⟨0, by simp, ?_, ?_, ?_, ?_, fun j hj => absurd hj (Nat.not_lt_zero _)⟩
        · rw [observedAt_zero]; exact h1
        · rw [observedAt_zero]; exact e1.symm
        · rw [observedAt_zero]; exact e2.symm
        · rw [observedAt_zero]; exact e3.symm
      · rw [if_neg h1] at h
        by_cases h2 : (t.others st.walrcv).walRcvState = .WALRCV_STOPPING
        · rw [if_pos h2] at h
          simp at h
        · rw [if_neg h2] at h
          obtain ⟨k, k1, k2, k3, k4, k5, k6⟩ := ih { st with walrcv := t.others st.walrcv } h
          refine ⟨k + 1, by simp; omega, ?_, ?_, ?_, ?_, fun j hj => ?_⟩
          · rw [observedAt_cons]; exact k2
          · rw [observedAt_cons]; exact k3
          · rw [observedAt_cons]; exact k4
          · rw [observedAt_cons]; exact k5
          · cases j with
            | zero => rw [observedAt_zero]; exact h1
            | succ i => rw [observedAt_cons]; exact k6 i (by omega)

/-- The loop returns at the first turn that finds `WALRCV_RESTARTING`, when no
turn up to it comes with a request to shut down and none before it finds
`WALRCV_STOPPING`. -/
theorem WalRcvWaitForStartPosition_loop_returns (st : RcvState) (turns : List WaitTurn)
    (k : Nat) (hk : k < turns.length)
    (hr : (observedAt st.walrcv turns k).walRcvState = .WALRCV_RESTARTING)
    (hbefore : ∀ j, j < k →
      (observedAt st.walrcv turns j).walRcvState ≠ .WALRCV_RESTARTING ∧
      (observedAt st.walrcv turns j).walRcvState ≠ .WALRCV_STOPPING)
    (hquiet : ∀ j, j ≤ k → ∀ t, turns[j]? = some t → t.shutdownRequested = false) :
    WalRcvWaitForStartPosition_loop st turns =
      .restart (observedAt st.walrcv turns k).receiveStart
        (observedAt st.walrcv turns k).receiveStartTLI
        { st with walrcv := { observedAt st.walrcv turns k with
                                walRcvState := .WALRCV_STREAMING } } := by
  induction turns generalizing st k with
  | nil => simp at hk
  | cons t rest ih =>
    have hq : t.shutdownRequested = false := hquiet 0 (Nat.zero_le _) t (by simp)
    rw [WalRcvWaitForStartPosition_loop, WalRcvWaitForStartPosition_turn_spec st t hq]
    cases k with
    | zero =>
      rw [observedAt_zero] at hr ⊢
      rw [if_pos hr]
    | succ i =>
      obtain ⟨n1, n2⟩ := hbefore 0 (by omega)
      rw [observedAt_zero] at n1 n2
      rw [if_neg n1, if_neg n2]
      dsimp only
      rw [observedAt_cons] at hr ⊢
      exact ih { st with walrcv := t.others st.walrcv } i (by simpa using hk) hr
        (fun j hj => by
          have := hbefore (j + 1) (by omega)
          rw [observedAt_cons] at this
          exact this)
        (fun j hj t2 ht2 => hquiet (j + 1) (by omega) t2 (by simpa using ht2))

/-- The first critical section of `WalRcvWaitForStartPosition` in the state
`WALRCV_STREAMING`. -/
theorem WalRcvWaitForStartPosition_enter_streaming (st : RcvState)
    (h : st.walrcv.walRcvState = .WALRCV_STREAMING) :
    WalRcvWaitForStartPosition_enter st =
      .running
        (emit (emit { st with walrcv := { st.walrcv with
                                            walRcvState := .WALRCV_WAITING
                                            receiveStart := InvalidXLogRecPtr
                                            receiveStartTLI := 0 } } .psIdle) .wakeupRecovery) := by
  unfold WalRcvWaitForStartPosition_enter
  rw [if_neg (by simp [h])]

/-- C34: `WalRcvWaitForStartPosition` changes the shared state only along
STREAMING -> WAITING and RESTARTING -> STREAMING.  Called in the state
STREAMING, its first critical section sets WAITING and clears `receiveStart`
(the invalid position) and `receiveStartTimeline` (0), and no other field.
Called in any other state it changes nothing at all and ends the process: with
`proc_exit(0)` in the state STOPPING, with the error of level FATAL otherwise.
It returns only from a turn of its loop that finds RESTARTING, the first such
turn: it returns the `receiveStart` and `receiveStartTLI` that the shared
record holds at that turn and leaves the record as it found it at that turn,
with the state STREAMING.  And it does return at the first turn that finds
RESTARTING, when no turn up to it comes with a request to shut down and none
before it finds STOPPING. -/
theorem wait_for_start_position (st : RcvState) (turns : List WaitTurn) :
    (st.walrcv.walRcvState = .WALRCV_STREAMING →
      ∃ st1, WalRcvWaitForStartPosition_enter st = .running st1 ∧
        st1.walrcv = (waitingRecord st.walrcv)) ∧
    (st.walrcv.walRcvState ≠ .WALRCV_STREAMING →
      WalRcvWaitForStartPosition st turns =
        (if st.walrcv.walRcvState = .WALRCV_STOPPING then .exited 0 st
         else .raised .FATAL .ERRCODE_INTERNAL_ERROR st)) ∧
    (∀ (sp tl : Nat) (st2 : RcvState),
      WalRcvWaitForStartPosition st turns = .restart sp tl st2 →
        st.walrcv.walRcvState = .WALRCV_STREAMING ∧
        ∃ k, k < turns.length ∧
          (observedAt (waitingRecord st.walrcv) turns k).walRcvState =
            .WALRCV_RESTARTING ∧
          sp = (observedAt (waitingRecord st.walrcv) turns k).receiveStart ∧
          tl = (observedAt (waitingRecord st.walrcv) turns k).receiveStartTLI ∧
          st2.walrcv =
            { observedAt (waitingRecord st.walrcv) turns k with
                walRcvState := .WALRCV_STREAMING } ∧
          ∀ j, j < k →
            (observedAt (waitingRecord st.walrcv) turns j).walRcvState ≠
              .WALRCV_RESTARTING) ∧
    (st.walrcv.walRcvState = .WALRCV_STREAMING →
      ∀ k, k < turns.length →
        (observedAt (waitingRecord st.walrcv) turns k).walRcvState =
          .WALRCV_RESTARTING →
        (∀ j, j < k →
          (observedAt (waitingRecord st.walrcv) turns j).walRcvState ≠
            .WALRCV_RESTARTING ∧
          (observedAt (waitingRecord st.walrcv) turns j).walRcvState ≠
            .WALRCV_STOPPING) →
        (∀ j, j ≤ k → ∀ t, turns[j]? = some t → t.shutdownRequested = false) →
        ∃ st2,
          WalRcvWaitForStartPosition st turns =
            .restart
              (observedAt (waitingRecord st.walrcv) turns k).receiveStart
              (observedAt (waitingRecord st.walrcv) turns k).receiveStartTLI
              st2 ∧
          st2.walrcv.walRcvState = .WALRCV_STREAMING) := by
  refine ⟨fun hs => ?_, fun hn => ?_, fun sp tl st2 hret => ?_, fun hs k hk hr hb hq => ?_⟩
  · rw [WalRcvWaitForStartPosition_enter_streaming st hs]
    exact ⟨_, rfl, rfl⟩
  · unfold WalRcvWaitForStartPosition WalRcvWaitForStartPosition_enter
    rw [if_pos hn]
    split_ifs <;> rfl
  · by_cases hs : st.walrcv.walRcvState = .WALRCV_STREAMING
    · refine ⟨hs, ?_⟩
      unfold WalRcvWaitForStartPosition at hret
      rw [WalRcvWaitForStartPosition_enter_streaming st hs] at hret
      dsimp only at hret
      cases hl : WalRcvWaitForStartPosition_loop
          (emit (emit { st with walrcv := { st.walrcv with
                                              walRcvState := .WALRCV_WAITING
                                              receiveStart := InvalidXLogRecPtr
                                              receiveStartTLI := 0 } } .psIdle) .wakeupRecovery)
          turns with
      | restart sp1 tl1 s1 =>
        rw [hl] at hret
        simp only [WaitOutcome.restart.injEq] at hret
        obtain ⟨e1, e2, e3⟩ := hret
        obtain ⟨k, k1, k2, k3, k4, k5, k6⟩ :=
          WalRcvWaitForStartPosition_loop_restart _ _ _ _ _ hl
        refine ⟨k, k1, k2, e1 ▸ k3, e2 ▸ k4, ?_, k6⟩
        rw [← e3, k5]
        split_ifs <;> rfl
      | exited c s1 => rw [hl] at hret; simp at hret
      | raised l c s1 => rw [hl] at hret; simp at hret
      | waiting s1 => rw [hl] at hret; simp at hret
    · unfold WalRcvWaitForStartPosition WalRcvWaitForStartPosition_enter at hret
      rw [if_pos hs] at hret
      split_ifs at hret
  · have hl := WalRcvWaitForStartPosition_loop_returns
      (emit (emit { st with walrcv := { st.walrcv with
                                          walRcvState := .WALRCV_WAITING
                                          receiveStart := InvalidXLogRecPtr
                                          receiveStartTLI := 0 } } .psIdle) .wakeupRecovery)
      turns k hk hr hb hq
    unfold WalRcvWaitForStartPosition
    rw [WalRcvWaitForStartPosition_enter_streaming st hs]
    dsimp only
    rw [hl]
    refine ⟨_, rfl, ?_⟩
    split_ifs <;> rfl

theorem wait_for_start_position_witness :
    WalRcvWaitForStartPosition startState restartTurns =
      .restart 4096 2
        { startState with
            walrcv := { startState.walrcv with
                          walRcvState := .WALRCV_STREAMING
                          receiveStart := 4096
                          receiveStartTLI := 2 }
            trace := [.psIdle, .wakeupRecovery] } ∧
    ∃ st2, WalRcvWaitForStartPosition startState restartTurns = .restart 4096 2 st2 ∧
      st2.walrcv.walRcvState = .WALRCV_STREAMING :=
  ⟨by rfl, (wait_for_start_position startState restartTurns).2.2.2 rfl 1 (by decide) (by rfl)
    (fun j hj => by
      have h0 : j = 0 := by omega
      subst h0
      exact ⟨by decide, by decide⟩)
    (fun j hj t ht => by
      have hj2 : j = 0 ∨ j = 1 := by omega
      rcases hj2 with h | h <;> subst h <;> simp [restartTurns] at ht <;> rw [← ht])⟩

/-! ## The claim on barriers and open segment files -/

theorem openBarriers_refl (a : RcvState) : OpenBarriers a a :=
  ⟨[], (List.append_nil _).symm, fun _ h => absurd h (List.not_mem_nil _)⟩

theorem openBarriers_trans {a b c : RcvState} (h1 : OpenBarriers a b) (h2 : OpenBarriers b c) :
    OpenBarriers a c := by
  obtain ⟨e1, t1, q1⟩ := h1
  obtain ⟨e2, t2, q2⟩ := h2
  refine ⟨e1 ++ e2, ?_, fun e he => ?_⟩
  · rw [t2, t1, List.append_assoc]
  · exact (List.mem_append.mp he).elim (q1 e) (q2 e)

theorem blindFsync_of_not_fsync {e : Event} (h : e.isFsync = false) : e.blindFsync = false := by
  cases e <;> simp_all [Event.isFsync, Event.blindFsync]

theorem openBarriers_of_none {a b : RcvState} (h : NoBarrier a b) : OpenBarriers a b := by
  obtain ⟨evs, t, q⟩ := h
  exact ⟨evs, t, fun e he => blindFsync_of_not_fsync (q e he)⟩

theorem openBarriers_emit (a : RcvState) (e : Event) (h : e.isFsync = false) :
    OpenBarriers a (emit a e) :=
  openBarriers_of_none (noBarrier_emit a e h)

/-- The function `XLogWalRcvFlush` leaves the open file alone and the flush
cursor not behind the write cursor; from a state in which the cursors are
covered, its barrier is issued on an open file. -/
theorem XLogWalRcvFlush_safe (st : RcvState) (dying : Bool) (tli : Nat) :
    (XLogWalRcvFlush st dying tli).recvFile = st.recvFile ∧
    (XLogWalRcvFlush st dying tli).LogstreamResult.Write ≤
      (XLogWalRcvFlush st dying tli).LogstreamResult.Flush ∧
    (Covered st → OpenBarriers st (XLogWalRcvFlush st dying tli)) := by
  have hu := (XLogWalRcvFlush_untouched st dying tli).1.2.2.2.1
  by_cases h : st.LogstreamResult.Flush < st.LogstreamResult.Write
  · obtain ⟨⟨_, b2, _, _, evs, t, q⟩, w, _⟩ := XLogWalRcvFlush_barrier st dying tli h
    refine ⟨hu, by rw [w, b2], fun hc => ⟨_, t, fun e he => ?_⟩⟩
    rcases List.mem_cons.mp he with h1 | h1
    · subst h1
      cases hf : st.recvFile with
      | none => exact absurd (hc hf) (by omega)
      | some f => rfl
    · exact blindFsync_of_not_fsync (q e h1)
  · rw [XLogWalRcvFlush_idle st dying tli h]
    exact ⟨rfl, by omega, fun _ => openBarriers_refl st⟩

theorem XLogWalRcvClose_safe (st : RcvState) (recptr tli : Nat) :
    Covered (XLogWalRcvClose st recptr tli) ∧
    (Covered st → OpenBarriers st (XLogWalRcvClose st recptr tli)) := by
  obtain ⟨_, f2, f3⟩ := XLogWalRcvFlush_safe st false tli
  obtain ⟨k1, _, _, _, k5⟩ := XLogWalRcvClose_file_cursors (XLogWalRcvFlush st false tli)
  refine ⟨fun _ => ?_, fun hc => ?_⟩
  · show (XLogWalRcvClose_file (XLogWalRcvFlush st false tli)).LogstreamResult.Write ≤
      (XLogWalRcvClose_file (XLogWalRcvFlush st false tli)).LogstreamResult.Flush
    rw [k1]
    exact f2
  · obtain ⟨evs, t, q⟩ := openBarriers_trans (f3 hc) (openBarriers_of_none k5)
    exact ⟨evs, t, q⟩

theorem XLogWalRcvWrite_segment_safe (st : RcvState) (recptr tli : Nat) :
    (XLogWalRcvWrite_segment st recptr tli).recvFile ≠ none ∧
    (Covered st → OpenBarriers st (XLogWalRcvWrite_segment st recptr tli)) := by
  refine ⟨(XLogWalRcvWrite_segment_spec st recptr tli).2.2.2.2.1, fun hc => ?_⟩
  unfold XLogWalRcvWrite_segment
  dsimp only
  by_cases hcond : st.recvFile.isSome = true ∧
      XLByteInSeg recptr st.recvSegNo st.wal_segment_size = false
  · rw [if_pos hcond, if_pos (XLogWalRcvClose_untouched st recptr tli).2.2.2.1]
    exact openBarriers_trans ((XLogWalRcvClose_safe st recptr tli).2 hc)
      ⟨[_], rfl, by simp [Event.blindFsync]⟩
  · rw [if_neg hcond]
    split_ifs
    · exact ⟨[_], rfl, by simp [Event.blindFsync]⟩
    · exact openBarriers_refl st

theorem XLogWalRcvWrite_pwrite_safe (st : RcvState) (buf : List Nat) (recptr : Nat) :
    (XLogWalRcvWrite_pwrite st buf recptr).2.recvFile = st.recvFile ∧
    OpenBarriers st (XLogWalRcvWrite_pwrite st buf recptr).2 := by
  cases hf : st.recvFile with
  | none =>
    have e : XLogWalRcvWrite_pwrite st buf recptr = (-1, st) := by
      simp only [XLogWalRcvWrite_pwrite, pg_pwrite, hf]
    rw [e]
    exact ⟨hf, openBarriers_refl st⟩
  | some f =>
    rw [XLogWalRcvWrite_pwrite_open st buf recptr f hf]
    exact ⟨hf, ⟨[_], rfl, by simp [Event.blindFsync]⟩⟩

theorem XLogWalRcvWrite_loop_safe (turns : Nat) (st : RcvState) (buf : List Nat)
    (recptr tli : Nat) (hc : Covered st) :
    Covered (XLogWalRcvWrite_loop turns st buf recptr tli).state ∧
    OpenBarriers st (XLogWalRcvWrite_loop turns st buf recptr tli).state := by
  induction turns generalizing st buf recptr with
  | zero => exact ⟨hc, openBarriers_refl st⟩
  | succ n ih =>
    rw [XLogWalRcvWrite_loop]
    by_cases hb : buf.length = 0
    · rw [if_pos hb]
      exact ⟨hc, openBarriers_refl st⟩
    · rw [if_neg hb]
      dsimp only
      obtain ⟨s1, s2⟩ := XLogWalRcvWrite_segment_safe st recptr tli
      obtain ⟨p1, p2⟩ := XLogWalRcvWrite_pwrite_safe (XLogWalRcvWrite_segment st recptr tli)
        buf recptr
      have hopen := openBarriers_trans (s2 hc) p2
      have hfile : (XLogWalRcvWrite_pwrite (XLogWalRcvWrite_segment st recptr tli) buf
          recptr).2.recvFile ≠ none := by rw [p1]; exact s1
      generalize XLogWalRcvWrite_pwrite (XLogWalRcvWrite_segment st recptr tli) buf recptr = w
        at hopen hfile
      split_ifs
      · exact ⟨fun hn => absurd hn hfile, hopen⟩
      · obtain ⟨i1, i2⟩ := ih (setWrite w.2 ((recptr + w.1.toNat) % 2 ^ 64))
          (buf.drop w.1.toNat) ((recptr + w.1.toNat) % 2 ^ 64) (fun hn => absurd hn hfile)
        exact ⟨i1, openBarriers_trans hopen i2⟩

theorem XLogWalRcvWrite_safe (st : RcvState) (buf : List Nat) (recptr tli : Nat)
    (hc : Covered st) :
    Covered (XLogWalRcvWrite st buf recptr tli).state ∧
    OpenBarriers st (XLogWalRcvWrite st buf recptr tli).state := by
  obtain ⟨l1, l2⟩ := XLogWalRcvWrite_loop_safe buf.length st buf recptr tli hc
  unfold XLogWalRcvWrite
  cases hl : XLogWalRcvWrite_loop buf.length st buf recptr tli with
  | raised l c s1 =>
    rw [hl] at l1 l2
    exact ⟨l1, l2⟩
  | ok r s1 =>
    rw [hl] at l1 l2
    simp only [Outcome.state] at l1 l2
    dsimp only
    have hc2 : Covered
        { s1 with walrcv := { s1.walrcv with writtenUpto := s1.LogstreamResult.Write } } := l1
    split_ifs
    · obtain ⟨c1, c2⟩ := XLogWalRcvClose_safe
        { s1 with walrcv := { s1.walrcv with writtenUpto := s1.LogstreamResult.Write } } r tli
      exact ⟨c1, openBarriers_trans l2 (c2 hc2)⟩
    · exact ⟨hc2, l2⟩

theorem WalReceiverMain_endOfStream_safe (st : RcvState) (tli : Nat) (hc : Covered st) :
    Covered (WalReceiverMain_endOfStream st tli) ∧
    OpenBarriers st (WalReceiverMain_endOfStream st tli) := by
  obtain ⟨_, f2, f3⟩ := XLogWalRcvFlush_safe st false tli
  unfold WalReceiverMain_endOfStream
  cases hf : st.recvFile with
  | none =>
    dsimp only
    exact ⟨fun _ => hc hf, openBarriers_refl st⟩
  | some f =>
    dsimp only
    have o1 := openBarriers_trans (f3 hc)
      (openBarriers_emit (XLogWalRcvFlush st false tli) (.close f) rfl)
    split_ifs
    · exact ⟨fun _ => f2, openBarriers_trans o1 (openBarriers_emit _ (.archiveForceDone _ _) rfl)⟩
    · exact ⟨fun _ => f2, openBarriers_trans o1 (openBarriers_emit _ (.archiveNotify _ _) rfl)⟩

theorem WalRcvDie_safe (st : RcvState) (wrconn : Bool) (tli : Nat) (hc : Covered st) :
    Covered (WalRcvDie st wrconn tli) ∧ OpenBarriers st (WalRcvDie st wrconn tli) := by
  obtain ⟨_, f2, f3⟩ := XLogWalRcvFlush_safe st true tli
  unfold WalRcvDie
  dsimp only
  have o1 : OpenBarriers st
      (emit { XLogWalRcvFlush st true tli with
                walrcv := { (XLogWalRcvFlush st true tli).walrcv with
                              walRcvState := .WALRCV_STOPPED
                              pid := 0
                              ready_to_display := false
                              latch := false } } .stoppedBroadcast) := by
    obtain ⟨evs, t, q⟩ := f3 hc
    exact ⟨evs ++ [.stoppedBroadcast], by simp [emit, t], fun e he => by
      rcases List.mem_append.mp he with h | h
      · exact q e h
      · rw [List.mem_singleton.mp h]; rfl⟩
  split_ifs
  · exact ⟨fun _ => f2, openBarriers_trans
      (openBarriers_trans o1 (openBarriers_emit _ .disconnect rfl))
      (openBarriers_emit _ .wakeupRecovery rfl)⟩
  · exact ⟨fun _ => f2, openBarriers_trans o1 (openBarriers_emit _ .wakeupRecovery rfl)⟩

theorem WalReceiverMain_startStreaming_safe (st : RcvState) :
    Covered (WalReceiverMain_startStreaming st) ∧
    OpenBarriers st (WalReceiverMain_startStreaming st) := by
  have hl := (WalReceiverMain_startStreaming_cursors st).1
  refine ⟨fun _ => by rw [hl], ?_⟩
  have k : ∀ s : RcvState, NoBarrier s
      (XLogWalRcvSendHSFeedback (XLogWalRcvSendReply s true false) true) := fun s =>
    (cursorsKept_trans (XLogWalRcvSendReply_cursors s true false)
      (XLogWalRcvSendHSFeedback_cursors _ true)).2.2.2.2
  unfold WalReceiverMain_startStreaming
  dsimp only
  obtain ⟨evs, t, q⟩ := k
    (WalRcvComputeNextWakeup
      (WalRcvComputeNextWakeup
        (WalRcvComputeNextWakeup
          (WalRcvComputeNextWakeup
            (GetCurrentTimestamp
              { st with LogstreamResult := { Write := st.replayPtr, Flush := st.replayPtr }
                        reply_message := initStringInfo
                        incoming_message := initStringInfo }).2
            .WALRCV_WAKEUP_TERMINATE
            (GetCurrentTimestamp
              { st with LogstreamResult := { Write := st.replayPtr, Flush := st.replayPtr }
                        reply_message := initStringInfo
                        incoming_message := initStringInfo }).1)
          .WALRCV_WAKEUP_PING
          (GetCurrentTimestamp
            { st with LogstreamResult := { Write := st.replayPtr, Flush := st.replayPtr }
                      reply_message := initStringInfo
                      incoming_message := initStringInfo }).1)
        .WALRCV_WAKEUP_REPLY
        (GetCurrentTimestamp
          { st with LogstreamResult := { Write := st.replayPtr, Flush := st.replayPtr }
                    reply_message := initStringInfo
                    incoming_message := initStringInfo }).1)
      .WALRCV_WAKEUP_HSFEEDBACK
      (GetCurrentTimestamp
        { st with LogstreamResult := { Write := st.replayPtr, Flush := st.replayPtr }
                  reply_message := initStringInfo
                  incoming_message := initStringInfo }).1)
  exact ⟨evs, t, fun e he => blindFsync_of_not_fsync (q e he)⟩

/-- The states reached keep the cursors covered, and the barriers issued on
the way were on an open file. -/
theorem streamed_safe (s0 st : RcvState) (h : Streamed s0 st) :
    Covered st ∧ OpenBarriers s0 st := by
  induction h with
  | start => exact WalReceiverMain_startStreaming_safe s0
  | write st buf recptr tli _ ih =>
    obtain ⟨c, o⟩ := XLogWalRcvWrite_safe st buf recptr tli ih.1
    exact ⟨c, openBarriers_trans ih.2 o⟩
  | flush st dying tli _ ih =>
    obtain ⟨f1, f2, f3⟩ := XLogWalRcvFlush_safe st dying tli
    exact ⟨fun _ => f2, openBarriers_trans ih.2 (f3 ih.1)⟩
  | close st recptr tli _ ih =>
    obtain ⟨c, o⟩ := XLogWalRcvClose_safe st recptr tli
    exact ⟨c, openBarriers_trans ih.2 (o ih.1)⟩
  | endOfStream st tli _ ih =>
    obtain ⟨c, o⟩ := WalReceiverMain_endOfStream_safe st tli ih.1
    exact ⟨c, openBarriers_trans ih.2 o⟩
  | die st wrconn tli _ ih =>
    obtain ⟨c, o⟩ := WalRcvDie_safe st wrconn tli ih.1
    exact ⟨c, openBarriers_trans ih.2 o⟩
  | again st _ ih =>
    obtain ⟨c, o⟩ := WalReceiverMain_startStreaming_safe st
    exact ⟨c, openBarriers_trans ih.2 o⟩

/-- C35: the durability barrier is never issued without an open segment.  In
every state reached from a state `s0` through the start of a streaming
attempt and then through `XLogWalRcvWrite` (returned or failed),
`XLogWalRcvFlush`, `XLogWalRcvClose`, the close at the end of the stream,
`WalRcvDie` and the start of a further attempt: if no segment file is open,
the local flush cursor is not behind the local write cursor; so the test of
`XLogWalRcvFlush` passes only with a segment file open; no call of
`issue_xlog_fsync` made on the way from `s0` was on the descriptor `-1`, and
none that a further call of `XLogWalRcvFlush` makes is. -/
theorem barrier_needs_open_segment (s0 st : RcvState) (h : Streamed s0 st) :
    (st.recvFile = none → ¬ st.LogstreamResult.Flush < st.LogstreamResult.Write) ∧
    (st.LogstreamResult.Flush < st.LogstreamResult.Write → st.recvFile.isSome = true) ∧
    (∃ evs, st.trace = s0.trace ++ evs ∧ ∀ e ∈ evs, e.blindFsync = false) ∧
    (∀ (dying : Bool) (tli : Nat),
      ∃ evs, (XLogWalRcvFlush st dying tli).trace = st.trace ++ evs ∧
        ∀ e ∈ evs, e.blindFsync = false) := by
  obtain ⟨c, o⟩ := streamed_safe s0 st h
  refine ⟨fun hn => Nat.not_lt.mpr (c hn), fun hlt => ?_, o, fun dying tli =>
    (XLogWalRcvFlush_safe st dying tli).2.2 c⟩
  cases hf : st.recvFile with
  | none => exact absurd (c hf) (by omega)
  | some f => rfl

theorem barrier_needs_open_segment_witness :
    (XLogWalRcvWrite (WalReceiverMain_startStreaming startState) [1, 2, 3, 4, 5] 40 1).state.recvFile
      = some ⟨1, 2⟩ ∧
    (XLogWalRcvFlush
      (XLogWalRcvWrite (WalReceiverMain_startStreaming startState) [1, 2, 3, 4, 5] 40 1).state
      false 1).trace.filter Event.isFsync = [.fsync (some ⟨1, 2⟩) 2 1] ∧
    ∃ evs,
      (XLogWalRcvFlush
        (XLogWalRcvWrite (WalReceiverMain_startStreaming startState) [1, 2, 3, 4, 5] 40 1).state
        false 1).trace = startState.trace ++ evs ∧
      ∀ e ∈ evs, e.blindFsync = false :=
  ⟨by rfl, by rfl,
    (barrier_needs_open_segment startState _
      (.flush _ false 1 (.write _ [1, 2, 3, 4, 5] 40 1 .start))).2.2.1⟩

/-! ## The claim on the history files fetched -/

theorem fetched_append (a b : List HistoryEvent) : fetched (a ++ b) = fetched a ++ fetched b := by
  induction a with
  | nil => rfl
  | cons e es ih => cases e <;> simp [fetched, ih]

/-- The body of the loop when the primary hands over a file of the expected
name: it returns; it asks for the file exactly when the timeline is not 1 and
its file does not exist, and then the file exists. -/
theorem WalRcvFetchTimeLineHistoryFiles_body_spec (st : HistoryState) (tli : Nat)
    (hname : (st.primary tli).1 = TLHistoryFileName tli) :
    ∃ st1, WalRcvFetchTimeLineHistoryFiles_body st tli = .ok st1 ∧
      st1.primary = st.primary ∧
      (∀ t, t ≠ tli → (t ∈ st1.existing ↔ t ∈ st.existing)) ∧
      ∃ evs, st1.trace = st.trace ++ evs ∧
        fetched evs = (if tli ≠ 1 ∧ tli ∉ st.existing then [tli] else []) := by
  unfold WalRcvFetchTimeLineHistoryFiles_body
  by_cases hc : tli ≠ 1 ∧ existsTimeLineHistory st tli = false
  · have hc2 : tli ≠ 1 ∧ tli ∉ st.existing := by
      simpa [existsTimeLineHistory] using hc
    rw [if_pos hc, if_pos hc2]
    dsimp only
    rw [if_neg (by simp [hname])]
    split_ifs
    · refine ⟨_, rfl, rfl, fun t ht => ?_,
        [.readtimelinehistoryfile tli, .writeTimeLineHistoryFile tli (st.primary tli).2,
          .archiveForceDone (st.primary tli).1], ?_, rfl⟩
      · simp [writeTimeLineHistoryFile, ht]
      · simp [writeTimeLineHistoryFile]
    · refine ⟨_, rfl, rfl, fun t ht => ?_,
        [.readtimelinehistoryfile tli, .writeTimeLineHistoryFile tli (st.primary tli).2,
          .archiveNotify (st.primary tli).1], ?_, rfl⟩
      · simp [writeTimeLineHistoryFile, ht]
      · simp [writeTimeLineHistoryFile]
  · have hc2 : ¬ (tli ≠ 1 ∧ tli ∉ st.existing) := by
      simpa [existsTimeLineHistory] using hc
    rw [if_neg hc, if_neg hc2]
    exact ⟨st, rfl, rfl, fun _ _ => Iff.rfl, [], (List.append_nil _).symm, rfl⟩

/-- With `last` at the largest `TimeLineID` the condition of the loop never
fails: whatever number of turns it is given, the run is still in the loop. -/
theorem WalRcvFetchTimeLineHistoryFiles_loop_unfinished (turns : Nat) (st : HistoryState)
    (tli : Nat) (htli : tli < 2 ^ 32)
    (hname : ∀ t, (st.primary t).1 = TLHistoryFileName t) :
    ∃ st1, WalRcvFetchTimeLineHistoryFiles_loop turns st tli (2 ^ 32 - 1) = .unfinished st1 := by
  induction turns generalizing st tli with
  | zero => exact ⟨st, rfl⟩
  | succ n ih =>
    obtain ⟨st1, b1, b2, _⟩ := WalRcvFetchTimeLineHistoryFiles_body_spec st tli (hname tli)
    rw [WalRcvFetchTimeLineHistoryFiles_loop, if_pos (by omega), b1]
    exact ih st1 ((tli + 1) % 2 ^ 32) (Nat.mod_lt _ (by norm_num))
      (fun t => by rw [b2]; exact hname t)

/-- With `last` below the largest `TimeLineID` the loop ends, after one test
of its condition for each timeline from `tli` to `last` and one more; it has
asked for the history files of the timelines that are missing, each once, in
increasing order. -/
theorem WalRcvFetchTimeLineHistoryFiles_loop_ends (n : Nat) (st : HistoryState)
    (tli last : Nat) (hn : tli + n = last + 1) (hlast : last < 2 ^ 32 - 1)
    (hname : ∀ t, (st.primary t).1 = TLHistoryFileName t) :
    ∃ st1 evs, WalRcvFetchTimeLineHistoryFiles_loop (n + 1) st tli last = .ok st1 ∧
      st1.trace = st.trace ++ evs ∧
      fetched evs =
        (List.range' tli n).filter (fun t => decide (t ≠ 1 ∧ t ∉ st.existing)) := by
  induction n generalizing st tli with
  | zero =>
    rw [WalRcvFetchTimeLineHistoryFiles_loop, if_neg (by omega)]
    exact ⟨st, [], rfl, (List.append_nil _).symm, rfl⟩
  | succ m ih =>
    obtain ⟨st1, b1, b2, b3, e1, t1, f1⟩ :=
      WalRcvFetchTimeLineHistoryFiles_body_spec st tli (hname tli)
    rw [WalRcvFetchTimeLineHistoryFiles_loop, if_pos (by omega), b1]
    dsimp only
    rw [Nat.mod_eq_of_lt (by omega : tli + 1 < 2 ^ 32)]
    obtain ⟨st2, e2, r2, t2, f2⟩ := ih st1 (tli + 1) (by omega)
      (fun t => by rw [b2]; exact hname t)
    refine ⟨st2, e1 ++ e2, r2, by rw [t2, t1, List.append_assoc], ?_⟩
    rw [fetched_append, f1, f2, List.range'_succ, List.filter_cons]
    have hsame : (List.range' (tli + 1) m).filter (fun t => decide (t ≠ 1 ∧ t ∉ st1.existing)) =
        (List.range' (tli + 1) m).filter (fun t => decide (t ≠ 1 ∧ t ∉ st.existing)) := by
      apply List.filter_congr
      intro t ht
      have : t ≠ tli := by
        have := (List.mem_range'_1.mp ht).1
        omega
      simp only [b3 t this]
    rw [hsame]
    by_cases hc : tli ≠ 1 ∧ tli ∉ st.existing
    · rw [if_pos hc, if_pos (by simpa using hc)]
      rfl
    · rw [if_neg hc, if_neg (by simpa using hc)]
      rfl

/-- The function `WalRcvFetchTimeLineHistoryFiles` for `first <= last + 1` and
`last` below the largest `TimeLineID`, when every file handed over has the
expected name: it returns, and it has asked for exactly the missing history
files, in increasing order. -/
theorem WalRcvFetchTimeLineHistoryFiles_ends (st : HistoryState) (first last : Nat)
    (hfirst : first ≤ last + 1) (hlast : last < 2 ^ 32 - 1)
    (hname : ∀ t, (st.primary t).1 = TLHistoryFileName t) :
    ∃ st1 evs, WalRcvFetchTimeLineHistoryFiles (last + 2 - first) st first last = .ok st1 ∧
      st1.trace = st.trace ++ evs ∧ fetched evs = missingTimelines st.existing first last := by
  have h := WalRcvFetchTimeLineHistoryFiles_loop_ends (last + 1 - first) st first last
    (by omega) hlast hname
  have e : last + 1 - first + 1 = last + 2 - first := by omega
  rw [e] at h
  exact h

/-- C36: `WalRcvFetchTimeLineHistoryFiles` with `last` at 2^32 - 1, the
largest `TimeLineID`, on a standby whose primary hands over every file under
the expected name: whatever `first` is and however many turns the loop is
given, the function has not returned, since `tli <= last` holds for every
`uint32` and `tli++` wraps from 2^32 - 1 to 0.  From `first` = 2^32 - 2 the
first six turns ask for the history files of the timelines 2^32 - 2, 2^32 - 1,
0 and 3 (1 is skipped, the file of 2 exists). -/
theorem fetch_history_never_ends (turns first : Nat) :
    (∃ st1, WalRcvFetchTimeLineHistoryFiles turns historyState (first % 2 ^ 32)
      4294967295 = .unfinished st1) ∧
    fetched
      (WalRcvFetchTimeLineHistoryFiles 6 historyState 4294967294 4294967295).state.trace =
      [4294967294, 4294967295, 0, 3] := by
  refine ⟨?_, by rfl⟩
  exact WalRcvFetchTimeLineHistoryFiles_loop_unfinished turns historyState (first % 2 ^ 32)
    (Nat.mod_lt _ (by norm_num)) (fun _ => rfl)

/-! ## The claim on the ping -/

theorem pingKept_refl (a : RcvState) : PingKept a a :=
  ⟨rfl, rfl, [], (List.append_nil _).symm, fun _ h => absurd h (List.not_mem_nil _)⟩

theorem pingKept_trans {a b c : RcvState} (h1 : PingKept a b) (h2 : PingKept b c) :
    PingKept a c := by
  obtain ⟨c1, w1, e1, t1, q1⟩ := h1
  obtain ⟨c2, w2, e2, t2, q2⟩ := h2
  refine ⟨by rw [c2, c1], by rw [w2, w1], e1 ++ e2, ?_, fun e he => ?_⟩
  · rw [t2, t1, List.append_assoc]
  · exact (List.mem_append.mp he).elim (q1 e) (q2 e)

/-- A status reply built without a request for a reply is no ping. -/
theorem replyMessage_not_ping (w f a : Nat) (t : Int) :
    (Event.send (replyMessage w f a t false).data).isPing = false := by
  rw [replyMessage_data]
  simp [Event.isPing, statusReply_last]

/-- A feedback message is no ping. -/
theorem feedbackMessage_not_ping (t : Int) (x xe c ce : Nat) :
    (Event.send (feedbackMessage t x xe c ce).data).isPing = false := by
  rw [feedbackMessage_data]
  simp [Event.isPing, feedbackFrame]

/-- The function `XLogWalRcvSendReply` leaves the clock and the time of the
ping alone, whatever its arguments. -/
theorem XLogWalRcvSendReply_ping_time (st : RcvState) (force requestReply : Bool) :
    (XLogWalRcvSendReply st force requestReply).clock = st.clock ∧
    (XLogWalRcvSendReply st force requestReply).wakeup .WALRCV_WAKEUP_PING =
      st.wakeup .WALRCV_WAKEUP_PING := by
  unfold XLogWalRcvSendReply
  dsimp only
  split_ifs
  · exact ⟨rfl, rfl⟩
  · exact ⟨rfl, rfl⟩
  · exact ⟨rfl, rfl⟩

theorem XLogWalRcvSendReply_pingKept (st : RcvState) (force : Bool) :
    PingKept st (XLogWalRcvSendReply st force false) := by
  obtain ⟨c, w⟩ := XLogWalRcvSendReply_ping_time st force false
  refine ⟨c, w, ?_⟩
  unfold XLogWalRcvSendReply
  dsimp only
  split_ifs
  · exact ⟨[], (List.append_nil _).symm, fun _ h => absurd h (List.not_mem_nil _)⟩
  · exact ⟨[], (List.append_nil _).symm, fun _ h => absurd h (List.not_mem_nil _)⟩
  · exact ⟨[.send (replyMessage _ _ _ _ false).data], rfl, fun e he => by
      rw [List.mem_singleton.mp he]
      exact replyMessage_not_ping _ _ _ _⟩

theorem XLogWalRcvSendHSFeedback_pingKept (st : RcvState) (immed : Bool) :
    PingKept st (XLogWalRcvSendHSFeedback st immed) := by
  unfold XLogWalRcvSendHSFeedback
  dsimp only
  split_ifs
  · exact pingKept_refl st
  · exact ⟨rfl, rfl, [], (List.append_nil _).symm, fun _ h => absurd h (List.not_mem_nil _)⟩
  · exact ⟨rfl, rfl, [], (List.append_nil _).symm, fun _ h => absurd h (List.not_mem_nil _)⟩
  · exact ⟨rfl, rfl, [.send (feedbackMessage _ _ _ _ _).data], rfl, fun e he => by
      rw [List.mem_singleton.mp he]
      exact feedbackMessage_not_ping _ _ _ _ _⟩

theorem WalReceiverMain_nap_pingKept (st : RcvState) : PingKept st (WalReceiverMain_nap st).2 :=
  ⟨rfl, rfl, [], (List.append_nil _).symm, fun _ h => absurd h (List.not_mem_nil _)⟩

theorem WalReceiverMain_latch_pingKept (st : RcvState) :
    PingKept st (WalReceiverMain_latch st) := by
  unfold WalReceiverMain_latch
  split_ifs
  · obtain ⟨c, w, evs, t, q⟩ := XLogWalRcvSendReply_pingKept
      { st with walrcv := { st.walrcv with force_reply := false } } true
    exact ⟨c, w, evs, t, q⟩
  · exact pingKept_refl st

/-- A wake-up on time-out while the ping is set to "never" and the clock
reads a time before "never": no ping is sent, whether the wake-up returns or
raises the error of the timeout. -/
theorem WalReceiverMain_timeout_pingKept (st : RcvState)
    (hoff : st.wakeup .WALRCV_WAKEUP_PING = TIMESTAMP_INFINITY)
    (hclock : st.clock st.clockReads < TIMESTAMP_INFINITY) :
    PingKept st (WalReceiverMain_timeout st).state := by
  unfold WalReceiverMain_timeout
  dsimp only
  split_ifs
  · exact ⟨rfl, rfl, [], (List.append_nil _).symm, fun _ h => absurd h (List.not_mem_nil _)⟩
  · have hp : WalReceiverMain_ping (GetCurrentTimestamp st).2 (GetCurrentTimestamp st).1 =
        (false, (GetCurrentTimestamp st).2) := by
      unfold WalReceiverMain_ping
      rw [if_neg]
      show ¬ st.clock st.clockReads ≥ st.wakeup .WALRCV_WAKEUP_PING
      rw [hoff]
      omega
    rw [hp]
    simp only [Outcome.state]
    have k0 : PingKept st (GetCurrentTimestamp st).2 :=
      ⟨rfl, rfl, [], (List.append_nil _).symm, fun _ h => absurd h (List.not_mem_nil _)⟩
    exact pingKept_trans k0 (pingKept_trans (XLogWalRcvSendReply_pingKept _ false)
      (XLogWalRcvSendHSFeedback_pingKept _ false))

theorem isPing_of_not_send {e : Event} (h : e.isSend = false) : e.isPing = false := by
  cases e <;> simp_all [Event.isSend, Event.isPing]

theorem pingKept_emit (a : RcvState) (e : Event) (h : e.isSend = false) :
    PingKept a (emit a e) :=
  ⟨rfl, rfl, [e], rfl, fun x hx => by rw [List.mem_singleton.mp hx]; exact isPing_of_not_send h⟩

/-- A step that changes neither the clock, nor the wake-up table, nor the
trace. -/
theorem pingKept_of_eq {a b : RcvState} (h1 : b.clock = a.clock) (h2 : b.wakeup = a.wakeup)
    (h3 : b.trace = a.trace) : PingKept a b :=
  ⟨h1, by rw [h2], [], by rw [h3, List.append_nil], fun _ h => absurd h (List.not_mem_nil _)⟩

theorem XLogWalRcvFlush_shared_pingKept (st : RcvState) (tli : Nat) :
    PingKept st (XLogWalRcvFlush_shared st tli) := by
  unfold XLogWalRcvFlush_shared
  split_ifs
  · exact pingKept_of_eq rfl rfl rfl
  · exact pingKept_refl st

theorem XLogWalRcvFlush_notify_pingKept (st : RcvState) :
    PingKept st (XLogWalRcvFlush_notify st) := by
  unfold XLogWalRcvFlush_notify
  dsimp only
  have q1 : PingKept st (emit st .wakeupRecovery) := pingKept_emit _ .wakeupRecovery rfl
  split_ifs
  · exact pingKept_trans (pingKept_trans q1 (pingKept_emit _ .walSndWakeup rfl))
      (pingKept_emit _ (.psDisplay _) rfl)
  · exact pingKept_trans q1 (pingKept_emit _ .walSndWakeup rfl)
  · exact pingKept_trans q1 (pingKept_emit _ (.psDisplay _) rfl)
  · exact q1

theorem XLogWalRcvFlush_pingKept (st : RcvState) (dying : Bool) (tli : Nat) :
    PingKept st (XLogWalRcvFlush st dying tli) := by
  unfold XLogWalRcvFlush
  dsimp only
  have k1 : PingKept st (setFlush (emit st (.fsync st.recvFile st.recvSegNo tli))) :=
    ⟨rfl, rfl, [.fsync st.recvFile st.recvSegNo tli], rfl, fun x hx => by
      rw [List.mem_singleton.mp hx]; rfl⟩
  have k2 := pingKept_trans k1
    (pingKept_trans (XLogWalRcvFlush_shared_pingKept _ tli) (XLogWalRcvFlush_notify_pingKept _))
  split_ifs
  · exact pingKept_trans k2 (pingKept_trans (XLogWalRcvSendReply_pingKept _ false)
      (XLogWalRcvSendHSFeedback_pingKept _ false))
  · exact k2
  · exact pingKept_refl st

theorem WalReceiverMain_batchEnd_pingKept (st : RcvState) (tli : Nat) :
    PingKept st (WalReceiverMain_batchEnd st tli) :=
  pingKept_trans (XLogWalRcvSendReply_pingKept st false) (XLogWalRcvFlush_pingKept _ false tli)

theorem WalReceiverMain_endOfStream_pingKept (st : RcvState) (tli : Nat) :
    PingKept st (WalReceiverMain_endOfStream st tli) := by
  unfold WalReceiverMain_endOfStream
  cases st.recvFile with
  | none => exact pingKept_of_eq rfl rfl rfl
  | some f =>
    dsimp only
    have k1 := pingKept_trans (XLogWalRcvFlush_pingKept st false tli)
      (pingKept_emit _ (.close f) rfl)
    split_ifs
    · obtain ⟨c, w, evs, t, q⟩ := pingKept_trans k1 (pingKept_emit _ (.archiveForceDone _ _) rfl)
      exact ⟨c, w, evs, t, q⟩
    · obtain ⟨c, w, evs, t, q⟩ := pingKept_trans k1 (pingKept_emit _ (.archiveNotify _ _) rfl)
      exact ⟨c, w, evs, t, q⟩

theorem WalRcvDie_pingKept (st : RcvState) (wrconn : Bool) (tli : Nat) :
    PingKept st (WalRcvDie st wrconn tli) := by
  unfold WalRcvDie
  dsimp only
  have k1 : PingKept st
      (emit { XLogWalRcvFlush st true tli with
                walrcv := { (XLogWalRcvFlush st true tli).walrcv with
                              walRcvState := .WALRCV_STOPPED
                              pid := 0
                              ready_to_display := false
                              latch := false } } .stoppedBroadcast) :=
    pingKept_trans (XLogWalRcvFlush_pingKept st true tli)
      (pingKept_trans (pingKept_of_eq rfl rfl rfl) (pingKept_emit _ .stoppedBroadcast rfl))
  split_ifs
  · exact pingKept_trans (pingKept_trans k1 (pingKept_emit _ .disconnect rfl))
      (pingKept_emit _ .wakeupRecovery rfl)
  · exact pingKept_trans k1 (pingKept_emit _ .wakeupRecovery rfl)

theorem WalRcvWaitForStartPosition_loop_pingKept (st : RcvState) (turns : List WaitTurn) :
    PingKept st (WalRcvWaitForStartPosition_loop st turns).state := by
  induction turns generalizing st with
  | nil => exact pingKept_refl st
  | cons t rest ih =>
    rw [WalRcvWaitForStartPosition_loop]
    unfold WalRcvWaitForStartPosition_turn WalRcvWaitForStartPosition_poll
    split_ifs
    · exact pingKept_refl st
    · exact pingKept_of_eq rfl rfl rfl
    · exact pingKept_of_eq rfl rfl rfl
    · exact pingKept_trans (pingKept_of_eq rfl rfl rfl)
        (ih { st with walrcv := t.others st.walrcv })

theorem WalRcvWaitForStartPosition_pingKept (st : RcvState) (turns : List WaitTurn) :
    PingKept st (WalRcvWaitForStartPosition st turns).state := by
  unfold WalRcvWaitForStartPosition WalRcvWaitForStartPosition_enter
  split_ifs
  · exact pingKept_refl st
  · exact pingKept_refl st
  · dsimp only
    have k0 : PingKept st
        (emit (emit { st with walrcv := { st.walrcv with
                                            walRcvState := .WALRCV_WAITING
                                            receiveStart := InvalidXLogRecPtr
                                            receiveStartTLI := 0 } } .psIdle) .wakeupRecovery) :=
      pingKept_trans (pingKept_of_eq rfl rfl rfl)
        (pingKept_trans (pingKept_emit _ .psIdle rfl) (pingKept_emit _ .wakeupRecovery rfl))
    have k1 := pingKept_trans k0 (WalRcvWaitForStartPosition_loop_pingKept
      (emit (emit { st with walrcv := { st.walrcv with
                                          walRcvState := .WALRCV_WAITING
                                          receiveStart := InvalidXLogRecPtr
                                          receiveStartTLI := 0 } } .psIdle) .wakeupRecovery) turns)
    generalize WalRcvWaitForStartPosition_loop
      (emit (emit { st with walrcv := { st.walrcv with
                                          walRcvState := .WALRCV_WAITING
                                          receiveStart := InvalidXLogRecPtr
                                          receiveStartTLI := 0 } } .psIdle) .wakeupRecovery) turns
      = out at k1
    cases out with
    | restart sp tl s2 =>
      dsimp only
      split_ifs
      · exact pingKept_trans k1 (pingKept_emit _ (.psRestarting sp) rfl)
      · exact k1
    | exited c s2 => exact k1
    | raised l c s2 => exact k1
    | waiting s2 => exact k1

/-- A stretch of silence from a state in which the ping is set to "never",
with a clock that never reads "never": the ping stays at "never" and no ping
is sent. -/
theorem silence_pingKept (a b : RcvState) (h : Silence a b)
    (hoff : a.wakeup .WALRCV_WAKEUP_PING = TIMESTAMP_INFINITY)
    (hclock : ∀ k, a.clock k < TIMESTAMP_INFINITY) : PingKept a b := by
  induction h with
  | none => exact pingKept_refl a
  | step b c _ hs ih =>
    have hb : b.wakeup .WALRCV_WAKEUP_PING = TIMESTAMP_INFINITY := by rw [ih.2.1]; exact hoff
    have hcb : b.clock b.clockReads < TIMESTAMP_INFINITY := by rw [ih.1]; exact hclock _
    rcases hs with h1 | h1 | h1 | ⟨w, h1⟩ | ⟨tli, h1⟩ | ⟨tli, h1⟩ | ⟨turns, h1⟩ |
      ⟨wrconn, tli, h1⟩
    · rw [h1]; exact pingKept_trans ih (WalReceiverMain_nap_pingKept b)
    · rw [h1]; exact pingKept_trans ih (WalReceiverMain_latch_pingKept b)
    · rw [h1]; exact pingKept_trans ih (WalReceiverMain_timeout_pingKept b hb hcb)
    · rw [h1]
      exact pingKept_trans ih (pingKept_of_eq rfl rfl rfl)
    · rw [h1]; exact pingKept_trans ih (WalReceiverMain_batchEnd_pingKept b tli)
    · rw [h1]; exact pingKept_trans ih (WalReceiverMain_endOfStream_pingKept b tli)
    · rw [h1]; exact pingKept_trans ih (WalRcvWaitForStartPosition_pingKept b turns)
    · rw [h1]; exact pingKept_trans ih (WalRcvDie_pingKept b wrconn tli)

/-- A wake-up on time-out at which the time of the ping has come and that of
the timeout has not: the first call added sends a ping, and the ping is set to
"never". -/
theorem WalReceiverMain_timeout_pings (st : RcvState)
    (hping : st.wakeup .WALRCV_WAKEUP_PING ≤ st.clock st.clockReads)
    (hterm : st.clock st.clockReads < st.wakeup .WALRCV_WAKEUP_TERMINATE) :
    ∃ msg evs, WalReceiverMain_timeout st = .ok () (WalReceiverMain_timeout st).state ∧
      (WalReceiverMain_timeout st).state.trace = st.trace ++ .send msg :: evs ∧
      (Event.send msg).isPing = true ∧ (∀ e ∈ evs, e.isPing = false) ∧
      (WalReceiverMain_timeout st).state.wakeup .WALRCV_WAKEUP_PING = TIMESTAMP_INFINITY ∧
      (WalReceiverMain_timeout st).state.clock = st.clock := by
  have hp : WalReceiverMain_ping (GetCurrentTimestamp st).2 (GetCurrentTimestamp st).1 =
      (true, { (GetCurrentTimestamp st).2 with wakeup := fun r =>
                 if r = .WALRCV_WAKEUP_PING then TIMESTAMP_INFINITY
                 else (GetCurrentTimestamp st).2.wakeup r }) := by
    unfold WalReceiverMain_ping
    rw [if_pos]
    exact hping
  have hto : WalReceiverMain_timeout st =
      .ok () (XLogWalRcvSendHSFeedback
        (XLogWalRcvSendReply
          { (GetCurrentTimestamp st).2 with wakeup := fun r =>
              if r = .WALRCV_WAKEUP_PING then TIMESTAMP_INFINITY
              else (GetCurrentTimestamp st).2.wakeup r } true true) false) := by
    unfold WalReceiverMain_timeout
    dsimp only
    rw [if_neg (show ¬ (GetCurrentTimestamp st).1 ≥
      (GetCurrentTimestamp st).2.wakeup .WALRCV_WAKEUP_TERMINATE from not_le.mpr hterm), hp]
  generalize hS : ({ (GetCurrentTimestamp st).2 with wakeup := fun r =>
                 if r = .WALRCV_WAKEUP_PING then TIMESTAMP_INFINITY
                 else (GetCurrentTimestamp st).2.wakeup r } : RcvState) = S at hto
  have s1 : S.trace = st.trace := by rw [← hS]; rfl
  have s2 : S.clock = st.clock := by rw [← hS]; rfl
  have s3 : S.wakeup .WALRCV_WAKEUP_PING = TIMESTAMP_INFINITY := by rw [← hS]; simp
  obtain ⟨r1, _⟩ := XLogWalRcvSendReply_sends S true true (Or.inl rfl)
  obtain ⟨r2, r3⟩ := XLogWalRcvSendReply_ping_time S true true
  obtain ⟨f1, f2, evs, f3, f4⟩ := XLogWalRcvSendHSFeedback_pingKept (XLogWalRcvSendReply S true true)
    false
  have tr : (XLogWalRcvSendHSFeedback (XLogWalRcvSendReply S true true) false).trace =
      st.trace ++ .send (statusReply S.LogstreamResult.Write S.LogstreamResult.Flush S.replayPtr
        (S.clock (S.clockReads + 1)) true) :: evs := by
    rw [f3, r1, s1, List.append_assoc]
    rfl
  have pg : (Event.send (statusReply S.LogstreamResult.Write S.LogstreamResult.Flush S.replayPtr
      (S.clock (S.clockReads + 1)) true)).isPing = true := by
    have hl := statusReply_last S.LogstreamResult.Write S.LogstreamResult.Flush S.replayPtr
      (S.clock (S.clockReads + 1)) true
    simp only [Event.isPing, hl, decide_eq_true_eq]
    exact ⟨by simp [statusReply], by simp⟩
  rw [hto]
  exact ⟨_, evs, rfl, tr, pg, f4, f2.trans (r3.trans s3), f1.trans (r2.trans s2)⟩

/-- C37, as stated, fails.  In `lateState` nothing has arrived since time 0
and the time of the ping has come: the wake-up on time-out sends the status
reply with the `replyRequested` flag set and leaves the PING entry at "never".
Then the primary ends the stream: the receiver answers and flushes (lines
513-521), closes (lines 633-654) and waits in `WalRcvWaitForStartPosition`,
which returns when the startup process asks for streaming from position 4096 on
timeline 2.  The start of the new attempt (lines 427-439) computes every
wake-up time anew, the PING entry as 61000000; after a nap the clock reads
62000000 and the wake-up on time-out sends a second status reply with the flag
set.  No frame from the primary was processed in between and the configuration
was not read anew. -/
theorem second_ping_after_restart :
    WalReceiverMain_timeout lateState = .ok () (WalReceiverMain_timeout lateState).state ∧
    (WalReceiverMain_timeout lateState).state.trace =
      [.send (statusReply 40 40 40 31000000 true)] ∧
    (WalReceiverMain_timeout lateState).state.wakeup .WALRCV_WAKEUP_PING = TIMESTAMP_INFINITY ∧
    WalRcvWaitForStartPosition
        (WalReceiverMain_endOfStream
          (WalReceiverMain_batchEnd (WalReceiverMain_timeout lateState).state 1) 1)
        restartTurns =
      .restart 4096 2
        (WalRcvWaitForStartPosition
          (WalReceiverMain_endOfStream
            (WalReceiverMain_batchEnd (WalReceiverMain_timeout lateState).state 1) 1)
          restartTurns).state ∧
    (WalReceiverMain_startStreaming
      (WalRcvWaitForStartPosition
        (WalReceiverMain_endOfStream
          (WalReceiverMain_batchEnd (WalReceiverMain_timeout lateState).state 1) 1)
        restartTurns).state).wakeup .WALRCV_WAKEUP_PING = 61000000 ∧
    WalReceiverMain_timeout
        (WalReceiverMain_nap
          (WalReceiverMain_startStreaming
            (WalRcvWaitForStartPosition
              (WalReceiverMain_endOfStream
                (WalReceiverMain_batchEnd (WalReceiverMain_timeout lateState).state 1) 1)
              restartTurns).state)).2 =
      .ok ()
        (WalReceiverMain_timeout
          (WalReceiverMain_nap
            (WalReceiverMain_startStreaming
              (WalRcvWaitForStartPosition
                (WalReceiverMain_endOfStream
                  (WalReceiverMain_batchEnd (WalReceiverMain_timeout lateState).state 1) 1)
                restartTurns).state)).2).state ∧
    (WalReceiverMain_timeout
      (WalReceiverMain_nap
        (WalReceiverMain_startStreaming
          (WalRcvWaitForStartPosition
            (WalReceiverMain_endOfStream
              (WalReceiverMain_batchEnd (WalReceiverMain_timeout lateState).state 1) 1)
            restartTurns).state)).2).state.trace =
      [.send (statusReply 40 40 40 31000000 true),
       .psIdle,
       .wakeupRecovery,
       .send (statusReply 40 40 40 31000000 false),
       .send (statusReply 40 40 40 62000000 true)] ∧
    (Event.send (statusReply 40 40 40 31000000 true)).isPing = true ∧
    (Event.send (statusReply 40 40 40 62000000 true)).isPing = true :=
  ⟨by rfl, by rfl, by rfl, by rfl, by rfl, by rfl, by rfl, by rfl, by rfl⟩

/-- C37, amended: at most one ping is sent per silence period of a streaming
attempt.  With a clock that never reads the time "never"
(`TIMESTAMP_INFINITY`): when a wake-up on time-out finds that the time of the
ping has come, and not that of the timeout, it sends the status reply with the
`replyRequested` flag set and leaves the PING entry of the wake-up table at
"never"; through every stretch of silence after it, that is, steps in which no
frame from the primary is processed, the configuration is not read anew and no
streaming attempt is started (in the streaming loop the nap is computed, the
latch is found set, the time of a nap is over, the other processes write to the
shared record; or the stream ends, the segment is closed, the receiver waits
for a start position or dies), the PING entry stays at "never" and no status
reply with the flag set is sent. -/
theorem one_ping_per_silence (st st2 : RcvState)
    (hclock : ∀ k, st.clock k < TIMESTAMP_INFINITY)
    (hping : st.wakeup .WALRCV_WAKEUP_PING ≤ st.clock st.clockReads)
    (hterm : st.clock st.clockReads < st.wakeup .WALRCV_WAKEUP_TERMINATE)
    (hsilence : Silence (WalReceiverMain_timeout st).state st2) :
    (∃ msg evs, WalReceiverMain_timeout st = .ok () (WalReceiverMain_timeout st).state ∧
      (WalReceiverMain_timeout st).state.trace = st.trace ++ .send msg :: evs ∧
      (Event.send msg).isPing = true ∧ ∀ e ∈ evs, e.isPing = false) ∧
    (WalReceiverMain_timeout st).state.wakeup .WALRCV_WAKEUP_PING = TIMESTAMP_INFINITY ∧
    st2.wakeup .WALRCV_WAKEUP_PING = TIMESTAMP_INFINITY ∧
    ∃ evs, st2.trace = (WalReceiverMain_timeout st).state.trace ++ evs ∧
      ∀ e ∈ evs, e.isPing = false := by
  obtain ⟨msg, evs, p1, p2, p3, p4, p5, p6⟩ := WalReceiverMain_timeout_pings st hping hterm
  obtain ⟨_, k2, k3⟩ := silence_pingKept _ _ hsilence p5 (fun k => by rw [p6]; exact hclock k)
  exact ⟨⟨msg, evs, p1, p2, p3, p4⟩, p5, k2.trans p5, k3⟩

theorem one_ping_per_silence_witness :
    (WalReceiverMain_timeout
      (WalReceiverMain_latch
        { (WalReceiverMain_nap (WalReceiverMain_timeout pingState).state).2 with
            walrcv := { pingState.walrcv with force_reply := true } })).state.trace =
      [.send (statusReply 40 40 40 31000002 true), .send (statusReply 40 40 40 31000005 false)] ∧
    ∃ evs,
      (WalReceiverMain_timeout
        (WalReceiverMain_latch
          { (WalReceiverMain_nap (WalReceiverMain_timeout pingState).state).2 with
              walrcv := { pingState.walrcv with force_reply := true } })).state.trace =
        (WalReceiverMain_timeout pingState).state.trace ++ evs ∧
      ∀ e ∈ evs, e.isPing = false :=
  ⟨by rfl,
    (one_ping_per_silence pingState _ (fun k => by
        show (31000000 + ((k % 1000 : Nat) : Int)) < 2 ^ 63 - 1
        omega) (by decide) (by decide)
      (.step _ _ _
        (.step _ _ _
          (.step _ _ _ (.step _ _ _ (.none _) (Or.inl rfl))
            (Or.inr (Or.inr (Or.inr (Or.inl
              ⟨{ pingState.walrcv with force_reply := true }, rfl⟩)))))
          (Or.inr (Or.inl rfl)))
        (Or.inr (Or.inr (Or.inl rfl))))).2.2.2⟩

end PgSrc
